import Mathlib

/-!
# The Broadway display server (`gdk/broadway/gdkbroadway-server.c`)

A shallow embedding of the server half of the Broadway remote-display
protocol: the input message parser with its time normalisation, the
WebSocket frame codec, the pointer grab arbiter and the window registry.

Conventions of the embedding.

* Bytes, `guint32` and `guint64` values are natural numbers; `gint32`, `int`,
  `long` and `gint64` values are integers.  A value that the code computes
  and stores into a fixed-width field goes through one of the conversions
  `to_guint32`, `to_gint32`, `to_guint64`, `to_gint64` (two's complement,
  LP64); the arguments of a call are taken to be values of their C types.
* A C string or buffer is a `List Nat`; a pointer into it is an index.  A read
  past the end of the modelled memory yields the byte `0`.
* The server object is passed explicitly.  The functions of the source that
  receive `BroadwayInput *input` are only ever called with `server->input`,
  so the embedding passes the server and takes the channel from it.
* `BroadwayWindow` structs live in `GdkBroadwayServer.windows`, indexed by
  their address; the hash table and the toplevel list hold addresses, as the
  source holds pointers.
-/

namespace Broadway

/-! ## Fixed-width integers -/

/-- Conversion to `guint32`: reduction modulo `2^32`. -/
def to_guint32 (x : Int) : Nat := (x % 4294967296).toNat

/-- Conversion to `gint32` (`int`): two's complement wrap into `[-2^31, 2^31)`. -/
def to_gint32 (x : Int) : Int := (x + 2147483648) % 4294967296 - 2147483648

/-- Conversion to `guint64`: reduction modulo `2^64`. -/
def to_guint64 (x : Int) : Nat := (x % 18446744073709551616).toNat

/-- Conversion to `gint64` (`long`): two's complement wrap into `[-2^63, 2^63)`. -/
def to_gint64 (x : Int) : Int :=
  (x + 9223372036854775808) % 18446744073709551616 - 9223372036854775808

/-- Largest value of a `long`. -/
def LONG_MAX : Int := 9223372036854775807

/-- Smallest value of a `long`. -/
def LONG_MIN : Int := -9223372036854775808

/-! ## `strtol` -/

/-- The C-locale `isspace`: space, and the control characters 9 to 13. -/
def c_isspace (c : Nat) : Bool := c == 32 || (9 ≤ c && c ≤ 13)

/-- The C-locale `isdigit`. -/
def c_isdigit (c : Nat) : Bool := 48 ≤ c && c ≤ 57

/-- Value of a run of decimal digits, most significant first. -/
def digits_value (ds : List Nat) : Nat :=
  ds.foldl (fun acc d => acc * 10 + (d - 48)) 0

/-- Function `strtol (p, &p, 10)` of the C library on the memory `mem` at index
`p`: leading white space, an optional sign, then decimal digits.  Returns the
value, clamped to the range of `long`, and the index after the last digit; when
there is no digit the value is `0` and the index is `p` itself. -/
def strtol (mem : List Nat) (p : Nat) : Int × Nat :=
  let s := mem.drop p
  let sp := (s.takeWhile c_isspace).length
  let s1 := s.drop sp
  let sign : Nat := if s1.head? = some 45 ∨ s1.head? = some 43 then 1 else 0
  let ds := (s1.drop sign).takeWhile c_isdigit
  if ds = [] then (0, p)
  else
    let v : Int := if s1.head? = some 45 then -(digits_value ds : Int) else (digits_value ds : Int)
    (max LONG_MIN (min LONG_MAX v), p + sp + sign + ds.length)

/-! ## Input messages (`broadway.h`) -/

/-- Modelled from the spec: the event type tags of `BroadwayEventType`
(`broadway.h` is not among the sources), one for each event kind of section 6
of the specification: the ASCII codes of `e l m b B s k K g u w W d`. -/
def BROADWAY_EVENT_ENTER : Nat := 101
def BROADWAY_EVENT_LEAVE : Nat := 108
def BROADWAY_EVENT_POINTER_MOVE : Nat := 109
def BROADWAY_EVENT_BUTTON_PRESS : Nat := 98
def BROADWAY_EVENT_BUTTON_RELEASE : Nat := 66
def BROADWAY_EVENT_SCROLL : Nat := 115
def BROADWAY_EVENT_KEY_PRESS : Nat := 107
def BROADWAY_EVENT_KEY_RELEASE : Nat := 75
def BROADWAY_EVENT_GRAB_NOTIFY : Nat := 103
def BROADWAY_EVENT_UNGRAB_NOTIFY : Nat := 117
def BROADWAY_EVENT_CONFIGURE_NOTIFY : Nat := 119
def BROADWAY_EVENT_DELETE_NOTIFY : Nat := 87
def BROADWAY_EVENT_SCREEN_SIZE_CHANGED : Nat := 100

/-- Modelled from the spec: the pointer fields of `BroadwayInputPointerMsg`
(`broadway.h` is not among the sources), in wire order; window ids and modifier
state are `guint32`, coordinates are `int`. -/
structure BroadwayInputPointerMsg where
  mouse_window_id : Nat
  event_window_id : Nat
  root_x : Int
  root_y : Int
  win_x : Int
  win_y : Int
  state : Nat
deriving DecidableEq

/-- Modelled from the spec: the members of the union `BroadwayInputMsg` after
the common base (`broadway.h` is not among the sources), with the fields that
section 4.3 of the specification lists for each event kind.  The union is not
initialised by the parser, so a message with an unknown tag carries no payload
(`unparsed`). -/
inductive BroadwayInputPayload where
  | crossing (pointer : BroadwayInputPointerMsg) (mode : Nat)
  | pointer (pointer : BroadwayInputPointerMsg)
  | button (pointer : BroadwayInputPointerMsg) (button : Nat)
  | scroll (pointer : BroadwayInputPointerMsg) (dir : Int)
  | key (mouse_window_id : Nat) (key : Int) (state : Nat)
  | grab_reply (res : Int)
  | configure_notify (id x y width height : Int)
  | delete_notify (id : Int)
  | screen_resize_notify (width height : Int)
  | unparsed
deriving DecidableEq

/-- Modelled from the spec: one parsed input message, the base of
`BroadwayInputBaseMsg` (`type`, `guint32 serial`, `guint64 time`) and the
payload selected by the type tag. -/
structure BroadwayInputMsg where
  type : Nat
  serial : Nat
  time : Nat
  payload : BroadwayInputPayload
deriving DecidableEq

/-! ## Surfaces, windows and the output channel -/

/-- An image surface of cairo: `width * height` pixels of 32 bits, row by row
(the stride of the two formats used, RGB24 and ARGB32, is four bytes per
pixel). -/
structure Surface where
  width : Nat
  height : Nat
  data : List Nat
deriving DecidableEq

/-- The struct `BroadwayWindow`. -/
structure BroadwayWindow where
  id : Int
  x : Int
  y : Int
  width : Int
  height : Int
  is_temp : Bool
  last_synced : Bool
  visible : Bool
  transient_for : Int
  last_surface : Option Surface
deriving DecidableEq

/-- The struct `BroadwayRect`. -/
structure BroadwayRect where
  x : Int
  y : Int
  width : Int
  height : Int
deriving DecidableEq

/-- Modelled from the spec: the commands of the output channel collaborator
(`broadway.c` is not among the sources), one constructor per operation of the
interface listed in section 6 of the specification. -/
inductive BroadwayOp where
  | new_surface (id x y w h : Int) (is_temp : Bool)
  | destroy_surface (id : Int)
  | show_surface (id : Int)
  | hide_surface (id : Int)
  | set_transient_for (id parent : Int)
  | move_resize_surface (id : Int) (has_pos : Bool) (x y : Int) (has_size : Bool) (w h : Int)
  | put_rgb (id x y w h : Int) (data : List Nat)
  | put_rgba (id x y w h : Int) (data : List Nat)
  | surface_flush (id : Int)
  | copy_rectangles (id : Int) (rects : List BroadwayRect) (dx dy : Int)
  | grab_pointer (id : Int) (owner_events : Bool)
  | ungrab_pointer
  | pong
deriving DecidableEq

/-- Modelled from the spec: the output channel (`BroadwayOutput` of
`broadway.c`, not among the sources).  It carries the serial counter, the
negotiated protocol variant, the commands written so far (oldest first) and
the outcomes of the flushes still to come (`true` for success; a flush after
the list is used up succeeds). -/
structure BroadwayOutput where
  serial : Nat
  proto_v7_plus : Bool
  binary : Bool
  sent : List BroadwayOp
  flush_outcomes : List Bool
deriving DecidableEq

/-- Modelled from the spec: `broadway_output_new` starts the channel at the
given serial with nothing written. -/
def broadway_output_new (serial : Nat) (proto_v7_plus binary : Bool)
    (flush_outcomes : List Bool) : BroadwayOutput :=
  { serial := serial, proto_v7_plus := proto_v7_plus, binary := binary,
    sent := [], flush_outcomes := flush_outcomes }

/-- Modelled from the spec: `broadway_output_get_next_serial`. -/
def broadway_output_get_next_serial (output : BroadwayOutput) : Nat := output.serial

/-- Modelled from the spec: writing one command on the output channel appends
it to the stream and uses up one serial number (a `guint32`). -/
def broadway_output_write (output : BroadwayOutput) (op : BroadwayOp) : BroadwayOutput :=
  { output with sent := output.sent ++ [op], serial := (output.serial + 1) % 4294967296 }

/-- Modelled from the spec: `broadway_output_ungrab_pointer` writes the ungrab
command and returns the serial it was written with. -/
def broadway_output_ungrab_pointer (output : BroadwayOutput) : Nat × BroadwayOutput :=
  (output.serial, broadway_output_write output BroadwayOp.ungrab_pointer)

/-- Modelled from the spec: `broadway_output_flush` reports whether the write
succeeded; the outcome is taken from the front of `flush_outcomes`. -/
def broadway_output_flush (output : BroadwayOutput) : Bool × BroadwayOutput :=
  match output.flush_outcomes with
  | [] => (true, output)
  | ok :: rest => (ok, { output with flush_outcomes := rest })

/-! ## The input channel and the server object -/

/-- The struct `BroadwayInput` (the socket and its event source are left out). -/
structure BroadwayInput where
  buffer : List Nat
  seen_time : Bool
  time_base : Int
  proto_v7_plus : Bool
  binary : Bool
deriving DecidableEq

/-- The struct `_GdkBroadwayServer` (the listening port and service are left
out).  Field `windows` is the store of the `BroadwayWindow` structs allocated
with `g_new0`, indexed by address, `none` once freed; `id_ht` maps a key to the
address of its window and `toplevels` lists addresses.  Field `delivered`
records the messages handed to `_gdk_broadway_events_got_input`, oldest
first. -/
structure GdkBroadwayServer where
  output : Option BroadwayOutput
  id_counter : Nat
  saved_serial : Nat
  last_seen_time : Nat
  input : Option BroadwayInput
  input_messages : List BroadwayInputMsg
  process_input_idle : Nat
  windows : List (Option BroadwayWindow)
  id_ht : List (Int × Nat)
  toplevels : List Nat
  mouse_in_toplevel_id : Int
  last_x : Int
  last_y : Int
  last_state : Nat
  real_mouse_in_toplevel_id : Int
  pointer_grab_window_id : Int
  pointer_grab_time : Nat
  pointer_grab_owner_events : Bool
  future_root_x : Int
  future_root_y : Int
  future_state : Nat
  future_mouse_in_toplevel : Int
  delivered : List BroadwayInputMsg
deriving DecidableEq

/-- Function `g_new0 (BroadwayWindow, 1)`: a zero-filled window struct. -/
def BroadwayWindow.zero : BroadwayWindow :=
  { id := 0, x := 0, y := 0, width := 0, height := 0, is_temp := false,
    last_synced := false, visible := false, transient_for := 0, last_surface := none }

/-- Function `gdk_broadway_server_init` on the zero-filled object: no grab,
saved serial and time 1, and the root window (id 0, 1024 x 768, visible)
entered in the id table. -/
def gdk_broadway_server_init : GdkBroadwayServer :=
  { output := none, id_counter := 1, saved_serial := 1, last_seen_time := 1,
    input := none, input_messages := [], process_input_idle := 0,
    windows := [some { BroadwayWindow.zero with id := 0, width := 1024, height := 768,
                                                visible := true }],
    id_ht := [(0, 0)], toplevels := [],
    mouse_in_toplevel_id := 0, last_x := 0, last_y := 0, last_state := 0,
    real_mouse_in_toplevel_id := 0,
    pointer_grab_window_id := -1, pointer_grab_time := 0,
    pointer_grab_owner_events := false,
    future_root_x := 0, future_root_y := 0, future_state := 0,
    future_mouse_in_toplevel := 0, delivered := [] }

/-! ## The input message parser -/

/-- Function `parse_pointer_data`: seven decimal fields, each followed by one
skipped byte except the last. -/
def parse_pointer_data (mem : List Nat) (p : Nat) : BroadwayInputPointerMsg × Nat :=
  let r1 := strtol mem p
  let r2 := strtol mem (r1.2 + 1)
  let r3 := strtol mem (r2.2 + 1)
  let r4 := strtol mem (r3.2 + 1)
  let r5 := strtol mem (r4.2 + 1)
  let r6 := strtol mem (r5.2 + 1)
  let r7 := strtol mem (r6.2 + 1)
  ({ mouse_window_id := to_guint32 r1.1, event_window_id := to_guint32 r2.1,
     root_x := to_gint32 r3.1, root_y := to_gint32 r4.1,
     win_x := to_gint32 r5.1, win_y := to_gint32 r6.1,
     state := to_guint32 r7.1 }, r7.2)

/-- Function `update_future_pointer_info`. -/
def update_future_pointer_info (server : GdkBroadwayServer)
    (data : BroadwayInputPointerMsg) : GdkBroadwayServer :=
  { server with
    future_root_x := data.root_x,
    future_root_y := data.root_y,
    future_state := data.state,
    future_mouse_in_toplevel := to_gint32 data.mouse_window_id }

/-- The raw timestamp of a message: the second decimal field, read by
`strtol` after the type byte, the serial and one skipped byte. -/
def raw_time (mem : List Nat) : Int := (strtol mem ((strtol mem 1).2 + 1)).1

/-- The time normalisation of `parse_input_message` (source lines 291 to 302):
from the raw timestamp, the server's `last_seen_time` and the channel's
`seen_time` and `time_base`, the normalised `gint64` time and the channel's new
`seen_time` and `time_base`. -/
def normalize_time (time_ : Int) (last_seen_time : Nat) (seen_time : Bool)
    (time_base : Int) : Int × Bool × Int :=
  if time_ = 0 then (to_gint64 last_seen_time, seen_time, time_base)
  else
    let time_base1 :=
      if !seen_time then to_gint64 (to_guint64 time_ - (to_guint64 (last_seen_time + 5000) : Int))
      else time_base
    (to_gint64 (time_ - time_base1), true, time_base1)

/-- The payload switch of `parse_input_message` (source lines 308 to 376): the
payload for the type tag, read from index `p`, and the server after the update
of the future pointer state. -/
def parse_payload (server : GdkBroadwayServer) (type : Nat) (mem : List Nat) (p : Nat) :
    BroadwayInputPayload × GdkBroadwayServer :=
  if type = BROADWAY_EVENT_ENTER ∨ type = BROADWAY_EVENT_LEAVE then
    let d := parse_pointer_data mem p
    (BroadwayInputPayload.crossing d.1 (to_guint32 (strtol mem (d.2 + 1)).1),
      update_future_pointer_info server d.1)
  else if type = BROADWAY_EVENT_POINTER_MOVE then
    let d := parse_pointer_data mem p
    (BroadwayInputPayload.pointer d.1, update_future_pointer_info server d.1)
  else if type = BROADWAY_EVENT_BUTTON_PRESS ∨ type = BROADWAY_EVENT_BUTTON_RELEASE then
    let d := parse_pointer_data mem p
    (BroadwayInputPayload.button d.1 (to_guint32 (strtol mem (d.2 + 1)).1),
      update_future_pointer_info server d.1)
  else if type = BROADWAY_EVENT_SCROLL then
    let d := parse_pointer_data mem p
    (BroadwayInputPayload.scroll d.1 (to_gint32 (strtol mem (d.2 + 1)).1),
      update_future_pointer_info server d.1)
  else if type = BROADWAY_EVENT_KEY_PRESS ∨ type = BROADWAY_EVENT_KEY_RELEASE then
    let r1 := strtol mem p
    let r2 := strtol mem (r1.2 + 1)
    let r3 := strtol mem (r2.2 + 1)
    (BroadwayInputPayload.key (to_guint32 r1.1) (to_gint32 r2.1) (to_guint32 r3.1), server)
  else if type = BROADWAY_EVENT_GRAB_NOTIFY ∨ type = BROADWAY_EVENT_UNGRAB_NOTIFY then
    (BroadwayInputPayload.grab_reply (to_gint32 (strtol mem p).1), server)
  else if type = BROADWAY_EVENT_CONFIGURE_NOTIFY then
    let r1 := strtol mem p
    let r2 := strtol mem (r1.2 + 1)
    let r3 := strtol mem (r2.2 + 1)
    let r4 := strtol mem (r3.2 + 1)
    let r5 := strtol mem (r4.2 + 1)
    (BroadwayInputPayload.configure_notify (to_gint32 r1.1) (to_gint32 r2.1) (to_gint32 r3.1)
      (to_gint32 r4.1) (to_gint32 r5.1), server)
  else if type = BROADWAY_EVENT_DELETE_NOTIFY then
    (BroadwayInputPayload.delete_notify (to_gint32 (strtol mem p).1), server)
  else if type = BROADWAY_EVENT_SCREEN_SIZE_CHANGED then
    let r1 := strtol mem p
    let r2 := strtol mem (r1.2 + 1)
    (BroadwayInputPayload.screen_resize_notify (to_gint32 r1.1) (to_gint32 r2.1), server)
  else
    (BroadwayInputPayload.unparsed, server)

/-- Function `parse_input_message` on the message stored at `mem`: type byte,
serial, timestamp, time normalisation against the channel `server->input`,
payload, and the append to the pending queue.  Without an input channel the
function cannot be called and the model returns the server as it is. -/
def parse_input_message (server : GdkBroadwayServer) (mem : List Nat) : GdkBroadwayServer :=
  match server.input with
  | none => server
  | some input =>
    let type := mem.getD 0 0
    let rs := strtol mem 1
    let rt := strtol mem (rs.2 + 1)
    let nt := normalize_time rt.1 server.last_seen_time input.seen_time input.time_base
    let server1 : GdkBroadwayServer :=
      { server with
        input := some { input with seen_time := nt.2.1, time_base := nt.2.2 },
        last_seen_time := to_guint64 nt.1 }
    let pl := parse_payload server1 type mem (rt.2 + 1)
    { pl.2 with
      input_messages := pl.2.input_messages ++
        [{ type := type, serial := to_guint32 rs.1, time := to_guint64 nt.1, payload := pl.1 }] }

/-! ## The frame codec -/

/-- Modelled from the spec: the opcodes of `BroadwayWSOpCode` (`broadway.h` is
not among the sources), with the values of the WebSocket protocol. -/
def BROADWAY_WS_CONTINUATION : Nat := 0
def BROADWAY_WS_TEXT : Nat := 1
def BROADWAY_WS_BINARY : Nat := 2
def BROADWAY_WS_CNX_CLOSE : Nat := 8
def BROADWAY_WS_CNX_PING : Nat := 9
def BROADWAY_WS_CNX_PONG : Nat := 10

/-- Modelled from the spec: `broadway_output_pong` replies with a pong frame,
which is a control frame of the transport and uses no serial. -/
def broadway_output_pong (output : BroadwayOutput) : BroadwayOutput :=
  { output with sent := output.sent ++ [BroadwayOp.pong] }

/-- Function `g_strndup (data, n)`: the bytes of `data` up to the first NUL, at
most `n` of them (the copy is NUL-terminated, which the reads past the end of
the list account for). -/
def g_strndup (data : List Nat) (n : Nat) : List Nat := (data.take n).takeWhile (fun c => c != 0)

/-- The unmasking loop `data[i] ^= mask[i%4]` of `parse_input`, from index `i`
on over the bytes `data`. -/
def unmask_from (mask : List Nat) : Nat → List Nat → List Nat
  | _, [] => []
  | i, b :: bs => (b ^^^ mask.getD (i % 4) 0) :: unmask_from mask (i + 1) bs

/-- The whole unmasking loop of `parse_input`, for `i` from `0`. -/
def unmask (mask : List Nat) (data : List Nat) : List Nat := unmask_from mask 0 data

/-- Big-endian value of a run of bytes (`GUINT16_FROM_BE`, `GUINT64_FROM_BE`). -/
def from_be (bs : List Nat) : Nat := bs.foldl (fun acc b => acc * 256 + b) 0

/-- The length decoding of `parse_input` (source lines 439 to 456) on a buffer
of more than two bytes: `none` when the function returns to wait for more
input, else the payload length and the offset of what follows the length
field.  The test `payload_len > 125` comes first, as in the source, so the
branch for `payload_len > 126` is never taken. -/
def parse_frame_length (buf : List Nat) : Option (Nat × Nat) :=
  let payload_len := buf.getD 1 0 &&& 0x7f
  if payload_len > 125 then
    if buf.length < 4 then none
    else some (from_be ((buf.drop 2).take 2), 4)
  else if payload_len > 126 then
    if buf.length < 10 then none
    else some (from_be ((buf.drop 2).take 8), 10)
  else some (payload_len, 2)

/-- The opcode switch of `parse_input` (source lines 477 to 506) on the
unmasked payload.  A ping with no output channel attached is outside the model
(the source passes the null pointer on) and leaves the server as it is. -/
def handle_frame (server : GdkBroadwayServer) (fin : Bool) (code : Nat)
    (data : List Nat) (payload_len : Nat) : GdkBroadwayServer :=
  if code = BROADWAY_WS_CNX_CLOSE then server
  else if code = BROADWAY_WS_TEXT then
    if !fin then server
    else parse_input_message server (g_strndup data payload_len)
  else if code = BROADWAY_WS_CNX_PING then
    { server with output := server.output.map broadway_output_pong }
  else server

/-- The server with the content of `input->buffer` replaced (the writes into
the buffer in place). -/
def set_buffer (server : GdkBroadwayServer) (buf : List Nat) : GdkBroadwayServer :=
  { server with input := server.input.map (fun i => { i with buffer := buf }) }

/-- Function `g_byte_array_remove_range (input->buffer, 0, n)`. -/
def remove_range (server : GdkBroadwayServer) (n : Nat) : GdkBroadwayServer :=
  { server with input := server.input.map (fun i => { i with buffer := i.buffer.drop n }) }

/-- The local variables of one turn of the loop of `parse_input` once the frame
at the front of the buffer is known to be complete: the MASK flag, the four
mask bytes (none without a mask), the offset `data - buf` of the payload and
the payload length. -/
structure FrameLayout where
  is_mask : Bool
  mask : List Nat
  data : Nat
  payload_len : Nat
deriving DecidableEq

/-- The header decoding of `parse_input` (source lines 437 to 468): `none` at
each of the four `return` statements that wait for more input. -/
def frame_layout (buf : List Nat) : Option FrameLayout :=
  let len := buf.length
  let is_mask := (buf.getD 1 0 &&& 0x80) != 0
  match parse_frame_length buf with
  | none => none
  | some (payload_len, off) =>
    if is_mask && decide (off + 4 > len) then none
    else
      let mask := if is_mask then (buf.drop off).take 4 else []
      let data := if is_mask then off + 4 else off
      if data + payload_len > len then none
      else some { is_mask := is_mask, mask := mask, data := data, payload_len := payload_len }

/-- The buffer after the unmasking loop (source lines 470 to 475) has xor-ed the
payload in place. -/
def unmask_in_place (buf : List Nat) (l : FrameLayout) : List Nat :=
  if l.is_mask then
    buf.take l.data ++ unmask l.mask ((buf.drop l.data).take l.payload_len) ++
      buf.drop (l.data + l.payload_len)
  else buf

/-- One turn of the loop `while (input->buffer->len > 2)` of `parse_input`:
`none` when the loop is left (two bytes or fewer, or a frame that is not
complete yet), else the server after the frame at the front of the buffer has
been unmasked in place, handled and removed. -/
def parse_frame (server : GdkBroadwayServer) : Option GdkBroadwayServer :=
  match server.input with
  | none => none
  | some input =>
    let buf := input.buffer
    if ¬ (buf.length > 2) then none
    else
      match frame_layout buf with
      | none => none
      | some l =>
        let fin := (buf.getD 0 0 &&& 0x80) != 0
        let code := buf.getD 0 0 &&& 0x0f
        let buf1 := unmask_in_place buf l
        let server2 := handle_frame (set_buffer server buf1) fin code (buf1.drop l.data) l.payload_len
        some (remove_range server2 (l.data + l.payload_len))

/-- The loop `while (input->buffer->len > 2)` of `parse_input`, at most `fuel`
turns. -/
def parse_input_v7 : Nat → GdkBroadwayServer → GdkBroadwayServer
  | 0, server => server
  | fuel + 1, server =>
    match parse_frame server with
    | none => server
    | some server1 => parse_input_v7 fuel server1

/-- Function `memchr (buf, c, len)` on the bytes from `buf` on: the offset of
the first `c`. -/
def memchr (bytes : List Nat) (c : Nat) : Option Nat :=
  let k := (bytes.takeWhile (fun b => b != c)).length
  if k < bytes.length then some k else none

/-- The loop of the old style protocol in `parse_input` (source lines 526 to
543), at most `fuel` turns: `buf` is the content of the input buffer and `off`
the offset of the pointer `buf` of the source in it.  Each message ends at the
first `0xff`, which is overwritten with NUL before the message is parsed in
place.  A next message that does not start with NUL tears the channel down;
otherwise the bytes of the parsed messages are removed at the end. -/
def parse_input_legacy : Nat → GdkBroadwayServer → List Nat → Nat → GdkBroadwayServer
  | 0, server, buf, off =>
    { server with input := server.input.map (fun i => { i with buffer := buf.drop off }) }
  | fuel + 1, server, buf, off =>
    match memchr (buf.drop off) 0xff with
    | none =>
      { server with input := server.input.map (fun i => { i with buffer := buf.drop off }) }
    | some k =>
      let buf1 := buf.set (off + k) 0
      let server1 := parse_input_message server (buf1.drop (off + 1))
      let off1 := off + k + 1
      if off1 < buf.length ∧ buf1.getD off1 0 ≠ 0 then { server1 with input := none }
      else parse_input_legacy fuel server1 buf1 off1

/-- Function `parse_input` on the channel `server->input`.  Every turn of
either loop takes at least one byte off the buffer, so the buffer length is
fuel enough. -/
def parse_input (server : GdkBroadwayServer) : GdkBroadwayServer :=
  match server.input with
  | none => server
  | some input =>
    if input.buffer.length = 0 then server
    else if input.proto_v7_plus then parse_input_v7 input.buffer.length server
    else if input.buffer.getD 0 0 ≠ 0 then { server with input := none }
    else parse_input_legacy input.buffer.length server input.buffer 0

/-- Outcome of the non-blocking read in
`_gdk_broadway_server_read_all_input_nonblocking`: no data yet, the bytes read,
or end of stream or error. -/
inductive ReadResult where
  | would_block
  | data (bytes : List Nat)
  | closed
deriving DecidableEq

/-- Function `_gdk_broadway_server_read_all_input_nonblocking`, given the
outcome of the read: without an input channel or without data yet it returns
at once; a closed or failed stream (or a read of no bytes) tears the input
channel down; otherwise the bytes are appended to the buffer of the channel and
`parse_input` runs.  The source reads at most 1024 bytes at a time; the model
takes a chunk of any length. -/
def _gdk_broadway_server_read_all_input_nonblocking (server : GdkBroadwayServer)
    (res : ReadResult) : GdkBroadwayServer :=
  match server.input with
  | none => server
  | some input =>
    match res with
    | ReadResult.would_block => server
    | ReadResult.closed => { server with input := none }
    | ReadResult.data [] => { server with input := none }
    | ReadResult.data (b :: bs) =>
      parse_input { server with input := some { input with buffer := input.buffer ++ b :: bs } }

/-! ## Flushing and the pointer grab -/

/-- Function `_gdk_broadway_server_get_next_serial`. -/
def _gdk_broadway_server_get_next_serial (server : GdkBroadwayServer) : Nat :=
  match server.output with
  | some output => broadway_output_get_next_serial output
  | none => server.saved_serial

/-- Function `_gdk_broadway_server_flush`: when the flush of the output channel
fails, its next serial is saved and the channel is freed. -/
def _gdk_broadway_server_flush (server : GdkBroadwayServer) : GdkBroadwayServer :=
  match server.output with
  | none => server
  | some output =>
    let r := broadway_output_flush output
    if r.1 then { server with output := some r.2 }
    else { server with saved_serial := broadway_output_get_next_serial r.2, output := none }

/-- Modelled from the spec: the two values of `GdkGrabStatus` (declared in the
GDK headers, not among the sources) that the server returns. -/
inductive GdkGrabStatus where
  | GDK_GRAB_SUCCESS
  | GDK_GRAB_ALREADY_GRABBED
deriving DecidableEq

/-- Modelled from the spec: `broadway_output_grab_pointer` writes the grab
command. -/
def broadway_output_grab_pointer (output : BroadwayOutput) (id : Int) (owner_events : Bool) :
    BroadwayOutput :=
  broadway_output_write output (BroadwayOp.grab_pointer id owner_events)

/-- Function `_gdk_broadway_server_grab_pointer`; `time_` is a `guint32`. -/
def _gdk_broadway_server_grab_pointer (server : GdkBroadwayServer) (id : Int)
    (owner_events : Bool) (event_mask : Nat) (time_ : Nat) :
    GdkGrabStatus × GdkBroadwayServer :=
  if server.pointer_grab_window_id ≠ -1 ∧ time_ ≠ 0 ∧ server.pointer_grab_time > time_ then
    (GdkGrabStatus.GDK_GRAB_ALREADY_GRABBED, server)
  else
    let time1 := if time_ = 0 then to_guint32 server.last_seen_time else time_
    let server1 : GdkBroadwayServer :=
      { server with
        pointer_grab_window_id := id,
        pointer_grab_owner_events := owner_events,
        pointer_grab_time := time1 }
    let server2 :=
      match server1.output with
      | some output =>
        _gdk_broadway_server_flush
          { server1 with output := some (broadway_output_grab_pointer output id owner_events) }
      | none => server1
    (GdkGrabStatus.GDK_GRAB_SUCCESS, server2)

/-- Function `_gdk_broadway_server_ungrab_pointer`; `time_` is a `guint32`. -/
def _gdk_broadway_server_ungrab_pointer (server : GdkBroadwayServer) (time_ : Nat) :
    Nat × GdkBroadwayServer :=
  if server.pointer_grab_window_id ≠ -1 ∧ time_ ≠ 0 ∧ server.pointer_grab_time > time_ then
    (0, server)
  else
    match server.output with
    | some output =>
      let r := broadway_output_ungrab_pointer output
      let server1 := _gdk_broadway_server_flush { server with output := some r.2 }
      (r.1, { server1 with pointer_grab_window_id := -1 })
    | none => (server.saved_serial, { server with pointer_grab_window_id := -1 })

/-! ## The window registry -/

/-- Function `g_hash_table_lookup` on the id table: the address stored under
the key. -/
def g_hash_table_lookup (ht : List (Int × Nat)) (key : Int) : Option Nat := ht.lookup key

/-- Function `g_hash_table_insert`: a value already stored under the key is
replaced. -/
def g_hash_table_insert (ht : List (Int × Nat)) (key : Int) (value : Nat) : List (Int × Nat) :=
  (key, value) :: ht.filter (fun e => e.1 != key)

/-- Function `g_hash_table_remove`. -/
def g_hash_table_remove (ht : List (Int × Nat)) (key : Int) : List (Int × Nat) :=
  ht.filter (fun e => e.1 != key)

/-- The window struct a lookup in the id table leads to, with its address:
`none` when the key is not in the table (or the address holds no struct, which
does not happen in a state the server can reach). -/
def lookup_window (server : GdkBroadwayServer) (id : Int) : Option (Nat × BroadwayWindow) :=
  match g_hash_table_lookup server.id_ht id with
  | none => none
  | some a =>
    match server.windows.getD a none with
    | none => none
    | some w => some (a, w)

/-- A write through a window pointer: the struct at address `a` becomes `w`. -/
def store_window (server : GdkBroadwayServer) (a : Nat) (w : BroadwayWindow) :
    GdkBroadwayServer :=
  { server with windows := server.windows.set a (some w) }

/-- A command written on the output channel, if one is attached. -/
def output_write (server : GdkBroadwayServer) (op : BroadwayOp) : GdkBroadwayServer :=
  { server with output := server.output.map (fun o => broadway_output_write o op) }

/-- Function `cairo_image_surface_create (CAIRO_FORMAT_RGB24, width, height)`: a
cleared surface; a size that is not positive gives a surface without pixels. -/
def cairo_image_surface_create (width height : Int) : Surface :=
  { width := width.toNat, height := height.toNat,
    data := List.replicate (width.toNat * height.toNat) 0 }

/-- The pixel of a surface at column `x` of row `y`. -/
def Surface.pixel (s : Surface) (x y : Nat) : Nat := s.data.getD (y * s.width + x) 0

/-- The cairo sequence `cairo_set_operator (cr, CAIRO_OPERATOR_SOURCE);
cairo_set_source_surface (cr, src, 0, 0); cairo_paint (cr)` on the target
`dst`: every pixel of the target is replaced by the pixel of the source at
the same position, and cleared outside the source. -/
def cairo_paint_source (dst src : Surface) : Surface :=
  { dst with
    data := (List.range (dst.width * dst.height)).map (fun i =>
      if i % dst.width < src.width ∧ i / dst.width < src.height then
        src.pixel (i % dst.width) (i / dst.width)
      else 0) }

/-- One turn of the inner loop of `diff_surfaces` at pixel `i` of the new
surface (row `i / w`, column `i % w`): the pixel of the old surface at the same
row and column is overwritten with 0 if the colours agree and with the new
colour made opaque if not. -/
def diff_pixel (surface : Surface) (old_data : List Nat) (old_width : Nat) (i : Nat) :
    List Nat :=
  let line := surface.data.getD i 0
  let oi := (i / surface.width) * old_width + i % surface.width
  let old_line := old_data.getD oi 0
  if line &&& 0xffffff = old_line &&& 0xffffff then old_data.set oi 0
  else old_data.set oi (line ||| 0xff000000)

/-- Function `diff_surfaces (surface, old_surface)`: the old surface after the
two loops over the rows and columns of the new one. -/
def diff_surfaces (surface old_surface : Surface) : Surface :=
  { old_surface with
    data := (List.range (surface.width * surface.height)).foldl
      (fun d i => diff_pixel surface d old_surface.width i) old_surface.data }

/-- Function `_gdk_broadway_server_new_window`: returns the id and the server. -/
def _gdk_broadway_server_new_window (server : GdkBroadwayServer) (x y width height : Int)
    (is_temp : Bool) : Nat × GdkBroadwayServer :=
  let window : BroadwayWindow :=
    { BroadwayWindow.zero with
      id := to_gint32 server.id_counter, x := x, y := y, width := width, height := height,
      is_temp := is_temp }
  let a := server.windows.length
  let server1 : GdkBroadwayServer :=
    { server with
      id_counter := (server.id_counter + 1) % 4294967296,
      windows := server.windows ++ [some window],
      id_ht := g_hash_table_insert server.id_ht window.id a,
      toplevels := a :: server.toplevels }
  (to_guint32 window.id,
    output_write server1
      (BroadwayOp.new_surface window.id window.x window.y window.width window.height
        window.is_temp))

/-- Function `_gdk_broadway_server_destroy_window`. -/
def _gdk_broadway_server_destroy_window (server : GdkBroadwayServer) (id : Int) :
    GdkBroadwayServer :=
  let server1 :=
    if server.mouse_in_toplevel_id = id then { server with mouse_in_toplevel_id := 0 }
    else server
  let server2 :=
    if server1.pointer_grab_window_id = id then { server1 with pointer_grab_window_id := -1 }
    else server1
  let server3 := output_write server2 (BroadwayOp.destroy_surface id)
  match g_hash_table_lookup server3.id_ht id with
  | none => server3
  | some a =>
    { server3 with
      toplevels := server3.toplevels.erase a,
      id_ht := g_hash_table_remove server3.id_ht id,
      windows := server3.windows.set a none }

/-- Function `_gdk_broadway_server_window_show`: returns `sent` and the server. -/
def _gdk_broadway_server_window_show (server : GdkBroadwayServer) (id : Int) :
    Bool × GdkBroadwayServer :=
  match lookup_window server id with
  | none => (false, server)
  | some (a, window) =>
    let server1 := store_window server a { window with visible := true }
    (server1.output.isSome, output_write server1 (BroadwayOp.show_surface window.id))

/-- Function `_gdk_broadway_server_window_hide`: returns `sent` and the server. -/
def _gdk_broadway_server_window_hide (server : GdkBroadwayServer) (id : Int) :
    Bool × GdkBroadwayServer :=
  match lookup_window server id with
  | none => (false, server)
  | some (a, window) =>
    let server1 := store_window server a { window with visible := false }
    let server2 :=
      if server1.mouse_in_toplevel_id = id then { server1 with mouse_in_toplevel_id := 0 }
      else server1
    (server2.output.isSome, output_write server2 (BroadwayOp.hide_surface window.id))

/-- Function `_gdk_broadway_server_window_set_transient_for`. -/
def _gdk_broadway_server_window_set_transient_for (server : GdkBroadwayServer)
    (id parent : Int) : GdkBroadwayServer :=
  match lookup_window server id with
  | none => server
  | some (a, window) =>
    let server1 := store_window server a { window with transient_for := parent }
    match server1.output with
    | none => server1
    | some _ =>
      _gdk_broadway_server_flush
        (output_write server1 (BroadwayOp.set_transient_for window.id parent))

/-- Function `_gdk_broadway_server_window_update`; a null `surface` is `none`. -/
def _gdk_broadway_server_window_update (server : GdkBroadwayServer) (id : Int)
    (surface : Option Surface) : GdkBroadwayServer :=
  match surface with
  | none => server
  | some surface =>
    match lookup_window server id with
    | none => server
    | some (a, window) =>
      let last_surface :=
        match window.last_surface with
        | none => cairo_image_surface_create window.width window.height
        | some s => s
      match server.output with
      | none =>
        store_window server a
          { window with last_surface := some (cairo_paint_source last_surface surface) }
      | some _ =>
        if window.last_synced then
          let diff := diff_surfaces surface last_surface
          let server1 := output_write server
            (BroadwayOp.put_rgba window.id 0 0 diff.width diff.height diff.data)
          let server2 := output_write server1 (BroadwayOp.surface_flush window.id)
          store_window server2 a
            { window with last_surface := some (cairo_paint_source diff surface) }
        else
          let server1 := output_write server
            (BroadwayOp.put_rgb window.id 0 0 surface.width surface.height surface.data)
          let server2 := output_write server1 (BroadwayOp.surface_flush window.id)
          store_window server2 a
            { window with
              last_synced := true,
              last_surface := some (cairo_paint_source last_surface surface) }

/-- Function `_gdk_broadway_server_window_move_resize`: returns `sent` and the
server. -/
def _gdk_broadway_server_window_move_resize (server : GdkBroadwayServer) (id : Int)
    (x y width height : Int) : Bool × GdkBroadwayServer :=
  match lookup_window server id with
  | none => (false, server)
  | some (a, window) =>
    let with_move := decide (x ≠ window.x ∨ y ≠ window.y)
    let with_resize := decide (width ≠ window.width ∨ height ≠ window.height)
    let last_surface :=
      match window.last_surface with
      | none => none
      | some old =>
        if with_resize then
          some (cairo_paint_source (cairo_image_surface_create width height) old)
        else some old
    let server1 := store_window server a
      { window with x := x, y := y, width := width, height := height,
                    last_surface := last_surface }
    (server1.output.isSome,
      output_write server1
        (BroadwayOp.move_resize_surface window.id with_move x y with_resize width height))

/-- Modelled from the spec: a `cairo_region_t` is given by its rectangles; the
point `(x, y)` lies in the region when one of them holds it. -/
def cairo_region_contains (area : List BroadwayRect) (x y : Int) : Bool :=
  area.any (fun r => decide (r.x ≤ x ∧ x < r.x + r.width ∧ r.y ≤ y ∧ y < r.y + r.height))

/-- Function `copy_region (surface, area, dx, dy)`: with the region as clip, the
surface is painted onto itself shifted by `(dx, dy)`, operator SOURCE.  Every
pixel in the region takes the value the surface had `(dx, dy)` before it, and
is cleared when that position is outside the surface. -/
def copy_region (surface : Surface) (area : List BroadwayRect) (dx dy : Int) : Surface :=
  { surface with
    data := (List.range (surface.width * surface.height)).map (fun i =>
      let x : Int := (i % surface.width : Nat)
      let y : Int := (i / surface.width : Nat)
      if cairo_region_contains area x y then
        if 0 ≤ x - dx ∧ x - dx < surface.width ∧ 0 ≤ y - dy ∧ y - dy < surface.height then
          surface.pixel (x - dx).toNat (y - dy).toNat
        else 0
      else surface.data.getD i 0) }

/-- Function `_gdk_broadway_server_window_translate`: returns `sent` and the
server. -/
def _gdk_broadway_server_window_translate (server : GdkBroadwayServer) (id : Int)
    (area : List BroadwayRect) (dx dy : Int) : Bool × GdkBroadwayServer :=
  match lookup_window server id with
  | none => (false, server)
  | some (a, window) =>
    if window.last_synced = true ∧ server.output.isSome = true then
      let server1 := store_window server a
        { window with
          last_surface := window.last_surface.map (fun s => copy_region s area dx dy) }
      (true, output_write server1 (BroadwayOp.copy_rectangles window.id area dx dy))
    else (false, server)

/-- A call of one of the public operations of the registry. -/
inductive RegistryOp where
  | new_window (x y width height : Int) (is_temp : Bool)
  | destroy_window (id : Int)
  | window_show (id : Int)
  | window_hide (id : Int)
  | window_move_resize (id x y width height : Int)
  | window_set_transient_for (id parent : Int)
  | window_update (id : Int) (surface : Option Surface)
deriving DecidableEq

/-- The server after a call of a registry operation. -/
def RegistryOp.apply (server : GdkBroadwayServer) : RegistryOp → GdkBroadwayServer
  | RegistryOp.new_window x y width height is_temp =>
    (_gdk_broadway_server_new_window server x y width height is_temp).2
  | RegistryOp.destroy_window id => _gdk_broadway_server_destroy_window server id
  | RegistryOp.window_show id => (_gdk_broadway_server_window_show server id).2
  | RegistryOp.window_hide id => (_gdk_broadway_server_window_hide server id).2
  | RegistryOp.window_move_resize id x y width height =>
    (_gdk_broadway_server_window_move_resize server id x y width height).2
  | RegistryOp.window_set_transient_for id parent =>
    _gdk_broadway_server_window_set_transient_for server id parent
  | RegistryOp.window_update id surface => _gdk_broadway_server_window_update server id surface

/-- The server after a sequence of calls of registry operations. -/
def run_registry_ops (server : GdkBroadwayServer) (ops : List RegistryOp) : GdkBroadwayServer :=
  ops.foldl RegistryOp.apply server

/-- Number of `new_window` calls in a sequence of registry operations. -/
def count_new_window (ops : List RegistryOp) : Nat :=
  (ops.filter (fun op => match op with
    | RegistryOp.new_window _ _ _ _ _ => true
    | _ => false)).length

/-! ## Dispatch of input messages and the pointer query -/

/-- The pointer fields of a message, for the payloads that carry them. -/
def BroadwayInputPayload.pointer_data : BroadwayInputPayload → Option BroadwayInputPointerMsg
  | BroadwayInputPayload.crossing p _ => some p
  | BroadwayInputPayload.pointer p => some p
  | BroadwayInputPayload.button p _ => some p
  | BroadwayInputPayload.scroll p _ => some p
  | _ => none

/-- The assignments shared by the pointer cases of `update_event_state`:
`last_x`, `last_y`, `last_state` and `real_mouse_in_toplevel_id` from the
message. -/
def update_last_pointer (server : GdkBroadwayServer) (p : BroadwayInputPointerMsg) :
    GdkBroadwayServer :=
  { server with
    last_x := p.root_x,
    last_y := p.root_y,
    last_state := p.state,
    real_mouse_in_toplevel_id := to_gint32 p.mouse_window_id }

/-- Function `update_event_state`.  The switch is on the type tag; the fields
are read from the payload that `parse_input_message` stored for that tag (a
message whose payload does not carry the fields of its tag does not come out of
the parser and leaves the state as it is). -/
def update_event_state (server : GdkBroadwayServer) (message : BroadwayInputMsg) :
    GdkBroadwayServer :=
  if message.type = BROADWAY_EVENT_ENTER then
    match message.payload.pointer_data with
    | some p =>
      { update_last_pointer server p with mouse_in_toplevel_id := to_gint32 p.event_window_id }
    | none => server
  else if message.type = BROADWAY_EVENT_LEAVE then
    match message.payload.pointer_data with
    | some p => { update_last_pointer server p with mouse_in_toplevel_id := 0 }
    | none => server
  else if message.type = BROADWAY_EVENT_POINTER_MOVE ∨
      message.type = BROADWAY_EVENT_BUTTON_PRESS ∨
      message.type = BROADWAY_EVENT_BUTTON_RELEASE ∨
      message.type = BROADWAY_EVENT_SCROLL then
    match message.payload.pointer_data with
    | some p => update_last_pointer server p
    | none => server
  else if message.type = BROADWAY_EVENT_KEY_PRESS ∨
      message.type = BROADWAY_EVENT_KEY_RELEASE then
    match message.payload with
    | BroadwayInputPayload.key _ _ state => { server with last_state := state }
    | _ => server
  else server

/-- Function `process_input_messages`: the pending queue is emptied from the
head; each message updates the event state and is then handed to
`_gdk_broadway_events_got_input` (recorded in `delivered`). -/
def process_input_messages (server : GdkBroadwayServer) : GdkBroadwayServer :=
  server.input_messages.foldl
    (fun s message =>
      let s1 := update_event_state { s with input_messages := s.input_messages.tail } message
      { s1 with delivered := s1.delivered ++ [message] })
    server

/-- Function `queue_process_input_at_idle`: an idle source is added unless one
is pending; its id is some nonzero number, 1 in the model. -/
def queue_process_input_at_idle (server : GdkBroadwayServer) : GdkBroadwayServer :=
  if server.process_input_idle = 0 then { server with process_input_idle := 1 } else server

/-- Function `_gdk_broadway_server_consume_all_input`, given the outcome of the
non-blocking read. -/
def _gdk_broadway_server_consume_all_input (server : GdkBroadwayServer) (res : ReadResult) :
    GdkBroadwayServer :=
  queue_process_input_at_idle (_gdk_broadway_server_read_all_input_nonblocking server res)

/-- The values that `_gdk_broadway_server_query_mouse` stores through its four
pointers. -/
structure MouseQuery where
  toplevel : Int
  root_x : Int
  root_y : Int
  mask : Nat
deriving DecidableEq

/-- Function `_gdk_broadway_server_query_mouse`, given the outcome of the read
it makes when a client is connected: with an output channel the future pointer
state after consuming the input, else the last dispatched state. -/
def _gdk_broadway_server_query_mouse (server : GdkBroadwayServer) (res : ReadResult) :
    MouseQuery × GdkBroadwayServer :=
  match server.output with
  | some _ =>
    let server1 := _gdk_broadway_server_consume_all_input server res
    ({ toplevel := server1.future_mouse_in_toplevel, root_x := server1.future_root_x,
       root_y := server1.future_root_y, mask := server1.future_state }, server1)
  | none =>
    ({ toplevel := server.mouse_in_toplevel_id, root_x := server.last_x,
       root_y := server.last_y, mask := server.last_state }, server)

/-! ## Resynchronisation and the attachment of an output channel -/

/-- One turn of the first loop of `_gdk_broadway_server_resync_windows` (source
lines 1653 to 1668) for the toplevel at address `a`: the root is skipped, any
other window is marked not synced and its surface is created. -/
def resync_create_step (server : GdkBroadwayServer) (a : Nat) : GdkBroadwayServer :=
  match server.windows.getD a none with
  | none => server
  | some window =>
    if window.id = 0 then server
    else
      output_write (store_window server a { window with last_synced := false })
        (BroadwayOp.new_surface window.id window.x window.y window.width window.height
          window.is_temp)

/-- One turn of the second loop of `_gdk_broadway_server_resync_windows` (source
lines 1671 to 1694) for the toplevel at address `a`: transient-for unless it is
-1, and for a visible window the show command and, if a surface is cached, the
synced mark and the whole surface as `put_rgb`. -/
def resync_state_step (server : GdkBroadwayServer) (a : Nat) : GdkBroadwayServer :=
  match server.windows.getD a none with
  | none => server
  | some window =>
    if window.id = 0 then server
    else
      let server1 :=
        if window.transient_for ≠ -1 then
          output_write server (BroadwayOp.set_transient_for window.id window.transient_for)
        else server
      if window.visible then
        let server2 := output_write server1 (BroadwayOp.show_surface window.id)
        match window.last_surface with
        | none => server2
        | some surface =>
          output_write (store_window server2 a { window with last_synced := true })
            (BroadwayOp.put_rgb window.id 0 0 surface.width surface.height surface.data)
      else server1

/-- The two loops of `_gdk_broadway_server_resync_windows` over the toplevel
list, before the final flush. -/
def resync_passes (server : GdkBroadwayServer) : GdkBroadwayServer :=
  server.toplevels.foldl resync_state_step (server.toplevels.foldl resync_create_step server)

/-- Function `_gdk_broadway_server_resync_windows`: nothing without an output
channel, else the two loops and a flush. -/
def _gdk_broadway_server_resync_windows (server : GdkBroadwayServer) : GdkBroadwayServer :=
  match server.output with
  | none => server
  | some _ => _gdk_broadway_server_flush (resync_passes server)

/-- The first part of `start_output` (source lines 995 to 1003): the next serial
of a channel that is still attached is saved and the channel freed, and the new
channel is created from the saved serial.  The outcomes of the flushes of the
new connection are a parameter. -/
def attach_output (server : GdkBroadwayServer) (proto_v7_plus binary : Bool)
    (flush_outcomes : List Bool) : GdkBroadwayServer :=
  let server1 :=
    match server.output with
    | some output => { server with saved_serial := broadway_output_get_next_serial output }
    | none => server
  { server1 with
    output := some (broadway_output_new server1.saved_serial proto_v7_plus binary flush_outcomes) }

/-- Function `start_output`: the new channel is attached, the windows are
resynchronised and an active pointer grab is sent again.  (When the flush of
the resynchronisation has failed there is no channel left for the grab; the
source passes the null pointer on, the model writes nothing.) -/
def start_output (server : GdkBroadwayServer) (proto_v7_plus binary : Bool)
    (flush_outcomes : List Bool) : GdkBroadwayServer :=
  let server1 :=
    _gdk_broadway_server_resync_windows (attach_output server proto_v7_plus binary flush_outcomes)
  if server1.pointer_grab_window_id ≠ -1 then
    output_write server1
      (BroadwayOp.grab_pointer server1.pointer_grab_window_id server1.pointer_grab_owner_events)
  else server1

/-! ## The HTTP request handler -/

/-- The bytes of a string literal of the source. -/
def cstr (s : String) : List Nat := s.toList.map Char.toNat

/-- Function `g_str_has_prefix`. -/
def g_str_has_prefix (str pre : List Nat) : Bool := pre.isPrefixOf str

/-- Function `parse_line (line, key)`: the value of the header `key` in `line`
(the pointer behind the key, the colon and one optional space), or `none` for
the null pointer. -/
def parse_line (line key : List Nat) : Option (List Nat) :=
  if ¬ g_str_has_prefix line key then none
  else
    let p := line.drop key.length
    if p.head? ≠ some 58 then none
    else
      let p1 := p.drop 1
      some (if p1.head? = some 32 then p1.drop 1 else p1)

/-- Function `g_strsplit (string, "\n", 0)` on a string that holds at least one
byte: the pieces between the newlines. -/
def split_newline : List Nat → List (List Nat)
  | [] => [[]]
  | c :: cs =>
    if c = 10 then [] :: split_newline cs
    else
      match split_newline cs with
      | [] => [[c]]
      | l :: ls => (c :: l) :: ls

/-- Function `g_strsplit (string, "\n", 0)`; the empty string gives the empty
vector. -/
def g_strsplit (string : List Nat) : List (List Nat) :=
  if string = [] then [] else split_newline string

/-- Modelled from the spec: `rotate left` on 32 bits, of SHA-1 (the digest
primitives are GLib's, not among the sources). -/
def rotl32 (x n : Nat) : Nat := ((x <<< n) ||| (x >>> (32 - n))) % 4294967296

/-- Modelled from the spec: the big-endian 32-bit word at the head of a byte
list. -/
def be32 (bs : List Nat) : Nat :=
  bs.getD 0 0 * 16777216 + bs.getD 1 0 * 65536 + bs.getD 2 0 * 256 + bs.getD 3 0

/-- Modelled from the spec: the four bytes of a 32-bit word, big-endian. -/
def to_be32 (w : Nat) : List Nat :=
  [w / 16777216 % 256, w / 65536 % 256, w / 256 % 256, w % 256]

/-- Modelled from the spec: the padding of SHA-1: the byte 0x80, zeros up to 56
modulo 64, and the bit length in 64 bits. -/
def sha1_pad (msg : List Nat) : List Nat :=
  msg ++ 128 :: List.replicate ((119 - msg.length % 64) % 64) 0 ++
    (to_be32 (msg.length * 8 / 4294967296) ++ to_be32 (msg.length * 8 % 4294967296))

/-- Modelled from the spec: the 80 words of the message schedule of SHA-1 for
one block. -/
def sha1_schedule (block : List Nat) : List Nat :=
  (List.range 64).foldl
    (fun w _ =>
      let n := w.length
      w ++ [rotl32 (w.getD (n - 3) 0 ^^^ w.getD (n - 8) 0 ^^^ w.getD (n - 14) 0 ^^^
        w.getD (n - 16) 0) 1])
    ((List.range 16).map (fun i => be32 (block.drop (4 * i))))

/-- Modelled from the spec: the five working variables of SHA-1. -/
structure Sha1State where
  a : Nat
  b : Nat
  c : Nat
  d : Nat
  e : Nat
deriving DecidableEq

/-- Modelled from the spec: round `t` of SHA-1 with the schedule word `w`. -/
def sha1_round (s : Sha1State) (t w : Nat) : Sha1State :=
  let f :=
    if t < 20 then (s.b &&& s.c) ||| ((s.b ^^^ 4294967295) &&& s.d)
    else if t < 40 then s.b ^^^ s.c ^^^ s.d
    else if t < 60 then (s.b &&& s.c) ||| (s.b &&& s.d) ||| (s.c &&& s.d)
    else s.b ^^^ s.c ^^^ s.d
  let k :=
    if t < 20 then 0x5A827999 else if t < 40 then 0x6ED9EBA1
    else if t < 60 then 0x8F1BBCDC else 0xCA62C1D6
  { a := (rotl32 s.a 5 + f + s.e + k + w) % 4294967296, b := s.a, c := rotl32 s.b 30,
    d := s.c, e := s.d }

/-- Modelled from the spec: the compression of one 64-byte block in SHA-1. -/
def sha1_block (s : Sha1State) (block : List Nat) : Sha1State :=
  let w := sha1_schedule block
  let r := (List.range 80).foldl (fun st t => sha1_round st t (w.getD t 0)) s
  { a := (s.a + r.a) % 4294967296, b := (s.b + r.b) % 4294967296,
    c := (s.c + r.c) % 4294967296, d := (s.d + r.d) % 4294967296,
    e := (s.e + r.e) % 4294967296 }

/-- Modelled from the spec: the SHA-1 digest (20 bytes) of a byte string. -/
def sha1 (msg : List Nat) : List Nat :=
  let p := sha1_pad msg
  let s := (List.range (p.length / 64)).foldl
    (fun st i => sha1_block st ((p.drop (64 * i)).take 64))
    { a := 0x67452301, b := 0xEFCDAB89, c := 0x98BADCFE, d := 0x10325476, e := 0xC3D2E1F0 }
  to_be32 s.a ++ to_be32 s.b ++ to_be32 s.c ++ to_be32 s.d ++ to_be32 s.e

/-- Modelled from the spec: the character of the base64 alphabet for a value
below 64. -/
def base64_char (v : Nat) : Nat :=
  if v < 26 then 65 + v else if v < 52 then 97 + (v - 26) else if v < 62 then 48 + (v - 52)
  else if v = 62 then 43 else 47

/-- Modelled from the spec: base64 with padding (`g_base64_encode`). -/
def g_base64_encode : List Nat → List Nat
  | [] => []
  | [a] => [base64_char (a / 4), base64_char (a % 4 * 16), 61, 61]
  | [a, b] =>
    [base64_char (a / 4), base64_char (a % 4 * 16 + b / 16), base64_char (b % 16 * 4), 61]
  | a :: b :: c :: rest =>
    base64_char (a / 4) :: base64_char (a % 4 * 16 + b / 16) ::
      base64_char (b % 16 * 4 + c / 64) :: base64_char (c % 64) :: g_base64_encode rest

/-- Modelled from the spec: a `GChecksum` for SHA-1 holds the bytes fed to it so
far. -/
structure GChecksum where
  data : List Nat
deriving DecidableEq

/-- Modelled from the spec: `g_checksum_new (G_CHECKSUM_SHA1)`. -/
def g_checksum_new : GChecksum := { data := [] }

/-- Modelled from the spec: `g_checksum_update (checksum, data, -1)`: the length
-1 stands for a NUL-terminated string. -/
def g_checksum_update (checksum : GChecksum) (data : List Nat) : GChecksum :=
  { data := checksum.data ++ data.takeWhile (fun c => c != 0) }

/-- Modelled from the spec: `g_checksum_get_digest`. -/
def g_checksum_get_digest (checksum : GChecksum) : List Nat := sha1 checksum.data

/-- The macro `SEC_WEB_SOCKET_KEY_MAGIC`. -/
def SEC_WEB_SOCKET_KEY_MAGIC : List Nat := cstr "258EAFA5-E914-47DA-95CA-C5AB0DC85B11"

/-- Function `generate_handshake_response_wsietf_v7`. -/
def generate_handshake_response_wsietf_v7 (key : List Nat) : List Nat :=
  let checksum := g_checksum_update (g_checksum_update g_checksum_new key)
    SEC_WEB_SOCKET_KEY_MAGIC
  g_base64_encode (g_checksum_get_digest checksum)

/-- The struct `HttpRequest` as the handlers use it: the accumulated request
text, and what the connection yields to the reads of `start_input`: the outcome
of reading the 8 bytes of the legacy nonce (`none` for a read error), the
content of the read-ahead buffer when it is peeked, and the outcomes of the
flushes of the output channel made on the connection. -/
structure HttpRequest where
  request : List Nat
  nonce : Option (List Nat)
  buffered : List Nat
  flush_outcomes : List Bool
deriving DecidableEq

/-- The static payloads `client_html` and `broadway_js` (`clienthtml.h` and
`broadwayjs.h` are generated files, not among the sources). -/
inductive StaticAsset where
  | client_html
  | broadway_js
deriving DecidableEq

/-- What a handler writes on the connection: the error page of `send_error`,
the file of `send_data`, or one of the two handshake responses of `start_input`
(101 with the accept token, origin and host; or the legacy 101 with origin and
host followed by the MD5 digest of the 16 challenge bytes, which are recorded
here in place of the digest). -/
inductive HttpResponse where
  | error (error_code : Nat) (reason : List Nat)
  | data (mimetype : List Nat) (asset : StaticAsset)
  | switching_protocols (accept origin host : List Nat)
  | legacy_handshake (origin host challenge : List Nat)
deriving DecidableEq

/-- A fault that ends the process in place of a result. -/
inductive Fault where
  | division_by_zero
deriving DecidableEq

deriving instance DecidableEq for Except

/-- The inner loop of `start_input` over the value of a `Sec-WebSocket-Key1` or
`Sec-WebSocket-Key2` header: digits are appended to the `guint64` key, spaces
are counted in the `int` `num_space`, every other byte is skipped. -/
def scan_key_value (key : Nat) (value : List Nat) : Nat × Int :=
  value.foldl
    (fun r c =>
      if c_isdigit c then ((r.1 * 10 + (c - 48)) % 18446744073709551616, r.2)
      else if c = 32 then (r.1, to_gint32 (r.2 + 1))
      else r)
    (key, 0)

/-- The local variables of `start_input` that the loop over the header lines
sets. -/
structure HandshakeScan where
  num_key1 : Int
  num_key2 : Int
  key1 : Nat
  key2 : Nat
  key_v7 : Option (List Nat)
  origin : Option (List Nat)
  host : Option (List Nat)
deriving DecidableEq

/-- The initial values of the local variables of `start_input`. -/
def HandshakeScan.init : HandshakeScan :=
  { num_key1 := 0, num_key2 := 0, key1 := 0, key2 := 0, key_v7 := none, origin := none,
    host := none }

/-- One turn of the loop of `start_input` over the header lines (source lines
815 to 864).  The division `key1 /= num_space` is made in `guint64` and is a
fault when `num_space` is 0. -/
def scan_line (st : HandshakeScan) (line : List Nat) : Except Fault HandshakeScan :=
  match parse_line line (cstr "Sec-WebSocket-Key1") with
  | some p =>
    let r := scan_key_value st.key1 p
    if r.2 = 0 then Except.error Fault.division_by_zero
    else
      Except.ok { st with key1 := r.1 / to_guint64 r.2, num_key1 := to_gint32 (st.num_key1 + 1) }
  | none =>
    match parse_line line (cstr "Sec-WebSocket-Key2") with
    | some p =>
      let r := scan_key_value st.key2 p
      if r.2 = 0 then Except.error Fault.division_by_zero
      else
        Except.ok
          { st with key2 := r.1 / to_guint64 r.2, num_key2 := to_gint32 (st.num_key2 + 1) }
    | none =>
      match parse_line line (cstr "Sec-WebSocket-Key") with
      | some p => Except.ok { st with key_v7 := some p }
      | none =>
        match parse_line line (cstr "Origin") with
        | some p => Except.ok { st with origin := some p }
        | none =>
          match parse_line line (cstr "Host") with
          | some p => Except.ok { st with host := some p }
          | none =>
            match parse_line line (cstr "Sec-WebSocket-Origin") with
            | some p => Except.ok { st with origin := some p }
            | none => Except.ok st

/-- The loop of `start_input` over the header lines. -/
def scan_lines (st : HandshakeScan) : List (List Nat) → Except Fault HandshakeScan
  | [] => Except.ok st
  | line :: lines =>
    match scan_line st line with
    | Except.error e => Except.error e
    | Except.ok st1 => scan_lines st1 lines

/-- The first 8 bytes of the challenge of the legacy handshake: the low 32 bits
of the two keys, big-endian. -/
def challenge_keys (key1 key2 : Nat) : List Nat :=
  [(key1 >>> 24) &&& 0xff, (key1 >>> 16) &&& 0xff, (key1 >>> 8) &&& 0xff, key1 &&& 0xff,
   (key2 >>> 24) &&& 0xff, (key2 >>> 16) &&& 0xff, (key2 >>> 8) &&& 0xff, key2 &&& 0xff]

/-- The end of `start_input` after a successful handshake (source lines 946 to
977): the old input channel is freed, the new one gets the bytes already read
ahead, the output channel is started, and the bytes in the buffer are parsed and
dispatched. -/
def install_channels (server : GdkBroadwayServer) (request : HttpRequest)
    (proto_v7_plus binary : Bool) : GdkBroadwayServer :=
  let server1 : GdkBroadwayServer :=
    { server with
      input := some { buffer := request.buffered, seen_time := false, time_base := 0,
                      proto_v7_plus := proto_v7_plus, binary := binary } }
  let server2 := start_output server1 proto_v7_plus binary request.flush_outcomes
  process_input_messages (parse_input server2)

/-- Function `start_input`: the response written and the server afterwards, or
the fault of the division. -/
def start_input (server : GdkBroadwayServer) (request : HttpRequest) (binary : Bool) :
    Except Fault (HttpResponse × GdkBroadwayServer) :=
  match scan_lines HandshakeScan.init (g_strsplit request.request) with
  | Except.error e => Except.error e
  | Except.ok st =>
    match st.origin, st.host with
    | some origin, some host =>
      match st.key_v7 with
      | some key =>
        Except.ok
          (HttpResponse.switching_protocols (generate_handshake_response_wsietf_v7 key) origin
            host,
            install_channels server request true binary)
      | none =>
        if st.num_key1 ≠ 1 ∨ st.num_key2 ≠ 1 then
          Except.ok (HttpResponse.error 400 (cstr "Bad websocket request"), server)
        else
          match request.nonce with
          | none => Except.ok (HttpResponse.error 400 (cstr "Bad websocket request"), server)
          | some nonce =>
            Except.ok
              (HttpResponse.legacy_handshake origin host
                (challenge_keys st.key1 st.key2 ++ nonce.take 8),
                install_channels server request false binary)
    | _, _ => Except.ok (HttpResponse.error 400 (cstr "Bad websocket request"), server)

/-- Function `got_request`: the response written and the server afterwards. -/
def got_request (server : GdkBroadwayServer) (request : HttpRequest) :
    Except Fault (HttpResponse × GdkBroadwayServer) :=
  if ¬ g_str_has_prefix request.request (cstr "GET ") then
    Except.ok (HttpResponse.error 501 (cstr "Only GET implemented"), server)
  else
    let start := (request.request.drop 4).dropWhile (fun c => c = 32)
    let escaped := start.takeWhile (fun c => c ≠ 0 ∧ c ≠ 32 ∧ c ≠ 10)
    let path := escaped.takeWhile (fun c => c ≠ 63)
    if path = cstr "/client.html" ∨ path = cstr "/" then
      Except.ok (HttpResponse.data (cstr "text/html") StaticAsset.client_html, server)
    else if path = cstr "/broadway.js" then
      Except.ok (HttpResponse.data (cstr "text/javascript") StaticAsset.broadway_js, server)
    else if path = cstr "/socket" then start_input server request false
    else if path = cstr "/socket-bin" then start_input server request true
    else Except.ok (HttpResponse.error 404 (cstr "File not found"), server)

/-- What a call of `got_http_request_line` ends in: the request is freed after
a failed read, handed to `got_request`, answered by `send_error`, or extended
by the line, with the next read started. -/
inductive LineAction where
  | free (request : HttpRequest)
  | got_request (request : HttpRequest)
  | send_error (request : HttpRequest) (error_code : Nat) (reason : List Nat)
  | read_line (request : HttpRequest)
deriving DecidableEq

/-- Function `got_http_request_line`; `line` is what
`g_data_input_stream_read_line_finish` returns, `none` for the null pointer. -/
def got_http_request_line (request : HttpRequest) (line : Option (List Nat)) : LineAction :=
  match line with
  | none => LineAction.free request
  | some line =>
    if (line.takeWhile (fun c => c != 0)).length = 0 then LineAction.got_request request
    else if request.request.length > 1024 * 5 then
      LineAction.send_error request 400 (cstr "Request too long")
    else
      LineAction.read_line
        { request with
          request := request.request ++ (line.takeWhile (fun c => c != 0) ++ [10]) }

/-- The chain of reads that `handle_incoming_connection` starts: every finished
read calls `got_http_request_line`, which starts the next read or ends the
chain.  When the reads given are used up the request waits for the next. -/
def read_request_lines (request : HttpRequest) : List (Option (List Nat)) → LineAction
  | [] => LineAction.read_line request
  | line :: lines =>
    match got_http_request_line request line with
    | LineAction.read_line request1 => read_request_lines request1 lines
    | action => action

/-! ## The wire format of a frame, as the specification describes it -/

/-- The three ways a frame gives its payload length (specification, section
4.2): in the 7-bit base length itself, or with base length 126 in the next 2
bytes, or with base length 127 in the next 8 bytes. -/
inductive LengthForm where
  | short
  | ext16
  | ext64
deriving DecidableEq

/-- A frame as the specification describes it: the FIN bit, the three reserved
bits and the opcode of byte 0, the mask (if the MASK bit is set), the form of
the length and the payload in clear. -/
structure WSFrame where
  fin : Bool
  rsv : Nat
  opcode : Nat
  mask : Option (List Nat)
  form : LengthForm
  payload : List Nat
deriving DecidableEq

/-- The bytes of a number, big-endian, on `n` bytes. -/
def to_be : Nat → Nat → List Nat
  | 0, _ => []
  | n + 1, v => to_be n (v / 256) ++ [v % 256]

/-- The frame is well formed: fields within their bit widths, a mask of four
bytes, payload bytes below 256, and a payload length that fits the form. -/
def WSFrame.wf (fr : WSFrame) : Prop :=
  fr.rsv < 8 ∧ fr.opcode < 16 ∧
  (∀ m, fr.mask = some m → m.length = 4 ∧ ∀ b ∈ m, b < 256) ∧
  (∀ b ∈ fr.payload, b < 256) ∧
  (match fr.form with
   | LengthForm.short => fr.payload.length ≤ 125
   | LengthForm.ext16 => fr.payload.length < 65536
   | LengthForm.ext64 => fr.payload.length < 18446744073709551616)

/-- The two header bytes of a frame: FIN, reserved bits and opcode; MASK bit
and base length. -/
def WSFrame.header (fr : WSFrame) : List Nat :=
  [(if fr.fin then 128 else 0) + 16 * fr.rsv + fr.opcode,
   (if fr.mask.isSome then 128 else 0) +
     (match fr.form with
      | LengthForm.short => fr.payload.length
      | LengthForm.ext16 => 126
      | LengthForm.ext64 => 127)]

/-- The extended length field of a frame. -/
def WSFrame.ext_length (fr : WSFrame) : List Nat :=
  match fr.form with
  | LengthForm.short => []
  | LengthForm.ext16 => to_be 2 fr.payload.length
  | LengthForm.ext64 => to_be 8 fr.payload.length

/-- The bytes of a frame on the wire: header, extended length, the four mask
bytes if masked, and the payload, xor-ed with `mask[i mod 4]` if masked. -/
def WSFrame.encode (fr : WSFrame) : List Nat :=
  fr.header ++ fr.ext_length ++
    (match fr.mask with
     | none => fr.payload
     | some m => m ++ unmask m fr.payload)

/-! ## Auxiliary definitions for the statements -/

/-- The payload of the frame at the front of the buffer, in clear. -/
def frame_payload (buf : List Nat) (l : FrameLayout) : List Nat :=
  if l.is_mask then unmask l.mask ((buf.drop l.data).take l.payload_len)
  else (buf.drop l.data).take l.payload_len

/-- The effect of one complete frame on the server, the buffer apart: a text
frame with FIN is parsed as one message, a ping is answered, every other frame
is dropped. -/
def frame_effect (server : GdkBroadwayServer) (fr : WSFrame) : GdkBroadwayServer :=
  if fr.opcode = BROADWAY_WS_TEXT ∧ fr.fin = true then
    parse_input_message server (g_strndup fr.payload fr.payload.length)
  else if fr.opcode = BROADWAY_WS_CNX_PING then
    { server with output := server.output.map broadway_output_pong }
  else server

/-- Length of the buffer of the input channel (0 without a channel). -/
def buffer_length (server : GdkBroadwayServer) : Nat :=
  match server.input with
  | none => 0
  | some i => i.buffer.length

/-- The server after `g_byte_array_append (input->buffer, bytes, n)`. -/
def append_buffer (server : GdkBroadwayServer) (bytes : List Nat) : GdkBroadwayServer :=
  { server with input := server.input.map (fun i => { i with buffer := i.buffer ++ bytes }) }

/-- The reads of a byte stream that arrives in the given chunks: one call of
`_gdk_broadway_server_read_all_input_nonblocking` for each chunk, in order. -/
def feed_chunks (server : GdkBroadwayServer) (chunks : List (List Nat)) : GdkBroadwayServer :=
  chunks.foldl (fun s c => _gdk_broadway_server_read_all_input_nonblocking s (ReadResult.data c))
    server

/-- The registry part of the server: window structs, id table, toplevel list and
id counter. -/
def registry (server : GdkBroadwayServer) :
    List (Option BroadwayWindow) × List (Int × Nat) × List Nat × Nat :=
  (server.windows, server.id_ht, server.toplevels, server.id_counter)

/-- Consistency of the id table: every entry leads to a window struct whose id
is the key, and there is an entry for the key 0. -/
def RootPresent (server : GdkBroadwayServer) : Prop :=
  (∀ k a, (k, a) ∈ server.id_ht →
    ∃ w, server.windows.getD a none = some w ∧ w.id = k) ∧
  ∃ a, g_hash_table_lookup server.id_ht 0 = some a

/-- The entry for the key 0 is the struct allocated at initialisation (address
0), which is not in the toplevel list, and the id counter is positive. -/
def RootOriginal (server : GdkBroadwayServer) : Prop :=
  g_hash_table_lookup server.id_ht 0 = some 0 ∧ 0 ∉ server.toplevels ∧
  1 ≤ server.windows.length ∧ 1 ≤ server.id_counter

/-- The step from `server` to `server1` leaves the registry as it is, or writes
a struct with the same id through the pointer that a lookup returned. -/
def StoresWindow (server server1 : GdkBroadwayServer) : Prop :=
  registry server1 = registry server ∨
  ∃ id a w w1, lookup_window server id = some (a, w) ∧ w1.id = w.id ∧
    registry server1 =
      (server.windows.set a (some w1), server.id_ht, server.toplevels, server.id_counter)

/-- The type tags that the switch of `parse_input_message` knows. -/
def known_event_tags : List Nat :=
  [BROADWAY_EVENT_ENTER, BROADWAY_EVENT_LEAVE, BROADWAY_EVENT_POINTER_MOVE,
   BROADWAY_EVENT_BUTTON_PRESS, BROADWAY_EVENT_BUTTON_RELEASE, BROADWAY_EVENT_SCROLL,
   BROADWAY_EVENT_KEY_PRESS, BROADWAY_EVENT_KEY_RELEASE, BROADWAY_EVENT_GRAB_NOTIFY,
   BROADWAY_EVENT_UNGRAB_NOTIFY, BROADWAY_EVENT_CONFIGURE_NOTIFY, BROADWAY_EVENT_DELETE_NOTIFY,
   BROADWAY_EVENT_SCREEN_SIZE_CHANGED]

/-- A surface whose pixel data has the length its size asks for. -/
def Surface.wf (s : Surface) : Prop := s.data.length = s.width * s.height

instance (s : Surface) : Decidable s.wf := by unfold Surface.wf; infer_instance

/-- The output pixel of the diff as the specification words it: transparent
when the low 24 bits agree, else the new pixel with its top 8 bits forced to
0xff. -/
def spec_diff_pixel (new_pixel old_pixel : Nat) : Nat :=
  if new_pixel % 16777216 = old_pixel % 16777216 then 0
  else 4278190080 + new_pixel % 16777216

/-- Membership of the pixel at column `x`, row `y` in the rectangle with corner
`(rx, ry)` and size `rw` by `rh`. -/
def in_rect (rx ry rw rh x y : Nat) : Prop := rx ≤ x ∧ x < rx + rw ∧ ry ≤ y ∧ y < ry + rh

/-- The cached buffer `_gdk_broadway_server_window_update` works on: the
window's `last_surface`, or a cleared surface of the window's size when there
is none yet. -/
def cached_buffer (window : BroadwayWindow) : Surface :=
  match window.last_surface with
  | none => cairo_image_surface_create window.width window.height
  | some s => s

/-- The output channel after a list of commands was written on it. -/
def write_all (o : BroadwayOutput) (ops : List BroadwayOp) : BroadwayOutput :=
  ops.foldl broadway_output_write o

/-- The commands that the first loop of the resynchronisation writes for the
window struct `w`. -/
def resync_create_cmds (w : BroadwayWindow) : List BroadwayOp :=
  if w.id = 0 then []
  else [BroadwayOp.new_surface w.id w.x w.y w.width w.height w.is_temp]

/-- The commands that the second loop of the resynchronisation writes for the
window struct `w`. -/
def resync_state_cmds (w : BroadwayWindow) : List BroadwayOp :=
  if w.id = 0 then []
  else
    (if w.transient_for ≠ -1 then [BroadwayOp.set_transient_for w.id w.transient_for] else []) ++
    (if w.visible then
      BroadwayOp.show_surface w.id ::
        (match w.last_surface with
         | none => []
         | some surface =>
           [BroadwayOp.put_rgb w.id 0 0 surface.width surface.height surface.data])
     else [])

/-- The window struct `w` after the first loop of the resynchronisation. -/
def resync_unsync (w : BroadwayWindow) : BroadwayWindow :=
  if w.id = 0 then w else { w with last_synced := false }

/-- The window struct `w` after the second loop of the resynchronisation. -/
def resync_sync (w : BroadwayWindow) : BroadwayWindow :=
  if w.id = 0 then w
  else if w.visible then
    match w.last_surface with
    | none => w
    | some _ => { w with last_synced := true }
  else w

/-- The commands `g` gives for the structs at the addresses `tl`, in order. -/
def cmds_of (g : BroadwayWindow → List BroadwayOp) (windows : List (Option BroadwayWindow))
    (tl : List Nat) : List BroadwayOp :=
  tl.flatMap (fun a =>
    match windows.getD a none with
    | some w => g w
    | none => [])

/-- The struct at address `a` replaced by its image under `f`. -/
def update_at (f : BroadwayWindow → BroadwayWindow) (windows : List (Option BroadwayWindow))
    (a : Nat) : List (Option BroadwayWindow) :=
  match windows.getD a none with
  | some w => windows.set a (some (f w))
  | none => windows

/-- The server without its output channel and its window structs: the part that
the resynchronisation does not touch. -/
def resync_frame (server : GdkBroadwayServer) : GdkBroadwayServer :=
  { server with output := none, windows := [] }

/-- A loop body that, for the struct at an address, writes the commands `g` and
replaces the struct by its image under `f`, and changes nothing else. -/
def IsPass (f : BroadwayWindow → BroadwayWindow) (g : BroadwayWindow → List BroadwayOp)
    (step : GdkBroadwayServer → Nat → GdkBroadwayServer) : Prop :=
  ∀ server a,
    resync_frame (step server a) = resync_frame server ∧
    (step server a).output = server.output.map (fun o => write_all o (cmds_of g server.windows [a])) ∧
    (step server a).windows = update_at f server.windows a

/-- The window a command is about (none for the commands that name no
window). -/
def BroadwayOp.subject : BroadwayOp → Option Int
  | BroadwayOp.new_surface id _ _ _ _ _ => some id
  | BroadwayOp.destroy_surface id => some id
  | BroadwayOp.show_surface id => some id
  | BroadwayOp.hide_surface id => some id
  | BroadwayOp.set_transient_for id _ => some id
  | BroadwayOp.move_resize_surface id _ _ _ _ _ _ => some id
  | BroadwayOp.put_rgb id _ _ _ _ _ => some id
  | BroadwayOp.put_rgba id _ _ _ _ _ => some id
  | BroadwayOp.surface_flush id => some id
  | BroadwayOp.copy_rectangles id _ _ _ => some id
  | BroadwayOp.grab_pointer id _ => some id
  | BroadwayOp.ungrab_pointer => none
  | BroadwayOp.pong => none

/-- The create-surface commands. -/
def BroadwayOp.is_new_surface : BroadwayOp → Bool
  | BroadwayOp.new_surface _ _ _ _ _ _ => true
  | _ => false

/-- Consistency of the registry parts (window structs, id table, toplevel list,
id counter): the toplevel list has no address twice; every toplevel address
holds a struct with a positive id that the id table leads back to; every entry
of the id table leads to a struct with the key as id, is on the toplevel list
unless the key is 0, and has a key below the id counter. -/
def ConsistentParts (r : List (Option BroadwayWindow) × List (Int × Nat) × List Nat × Nat) :
    Prop :=
  r.2.2.1.Nodup ∧
  (∀ a ∈ r.2.2.1, ∃ w, r.1.getD a none = some w ∧ 1 ≤ w.id ∧
    g_hash_table_lookup r.2.1 w.id = some a) ∧
  (∀ k a, g_hash_table_lookup r.2.1 k = some a →
    (∃ w, r.1.getD a none = some w ∧ w.id = k) ∧ (k ≠ 0 → a ∈ r.2.2.1) ∧
    k < (r.2.2.2 : Int)) ∧
  1 ≤ r.2.2.2

/-- Consistency of the registry of a server. -/
def RegistryConsistent (server : GdkBroadwayServer) : Prop := ConsistentParts (registry server)

/-- The put-rgb commands. -/
def BroadwayOp.is_put_rgb : BroadwayOp → Bool
  | BroadwayOp.put_rgb _ _ _ _ _ _ => true
  | _ => false

/-- The serial state of the server: the output channel and the saved serial. -/
def serial_state (server : GdkBroadwayServer) : Option BroadwayOutput × Nat :=
  (server.output, server.saved_serial)

/-- A call of one of the operations of the server other than the attachment of
an output channel. -/
inductive ServerCall where
  | registry (op : RegistryOp)
  | grab_pointer (id : Int) (owner_events : Bool) (event_mask time_ : Nat)
  | ungrab_pointer (time_ : Nat)
  | flush
  | read_input (res : ReadResult)
  | process_input
  | query_mouse (res : ReadResult)

/-- The server after a call. -/
def ServerCall.apply (server : GdkBroadwayServer) : ServerCall → GdkBroadwayServer
  | ServerCall.registry op => op.apply server
  | ServerCall.grab_pointer id owner_events event_mask time_ =>
    (_gdk_broadway_server_grab_pointer server id owner_events event_mask time_).2
  | ServerCall.ungrab_pointer time_ => (_gdk_broadway_server_ungrab_pointer server time_).2
  | ServerCall.flush => _gdk_broadway_server_flush server
  | ServerCall.read_input res => _gdk_broadway_server_read_all_input_nonblocking server res
  | ServerCall.process_input => process_input_messages server
  | ServerCall.query_mouse res => (_gdk_broadway_server_query_mouse server res).2

/-- The server after a sequence of calls. -/
def run_calls (server : GdkBroadwayServer) (calls : List ServerCall) : GdkBroadwayServer :=
  calls.foldl ServerCall.apply server

/-- A decimal numeral of the wire format: an optional minus sign and a run of
ASCII digits. -/
structure Numeral where
  neg : Bool
  digits : List Nat
deriving DecidableEq

/-- A numeral has at least one digit, and only digits. -/
def Numeral.wf (n : Numeral) : Prop := n.digits ≠ [] ∧ ∀ d ∈ n.digits, 48 ≤ d ∧ d ≤ 57

instance (n : Numeral) : Decidable n.wf := by unfold Numeral.wf; infer_instance

/-- The bytes of a numeral. -/
def Numeral.bytes (n : Numeral) : List Nat := (if n.neg then [45] else []) ++ n.digits

/-- The number that a run of ASCII digits writes in base ten. -/
def decimal_value (ds : List Nat) : Nat := Nat.ofDigits 10 (ds.reverse.map (fun d => d - 48))

/-- The decimal value of a numeral. -/
def Numeral.value (n : Numeral) : Int :=
  if n.neg then -(decimal_value n.digits : Int) else (decimal_value n.digits : Int)

/-- The fields joined with commas. -/
def comma_separated : List (List Nat) → List Nat
  | [] => []
  | [x] => x
  | x :: y :: rest => x ++ 44 :: comma_separated (y :: rest)

/-- A message of the wire format as the specification describes it: the type
tag, then the comma-separated decimal fields (serial, timestamp, payload). -/
def spec_message (tag : Nat) (fields : List Numeral) : List Nat :=
  tag :: comma_separated (fields.map Numeral.bytes)

/-- The pointer fields in the order the specification gives: mouse-window-id,
event-window-id, root-x, root-y, window-x, window-y, state. -/
def spec_pointer (vals : List Int) : BroadwayInputPointerMsg :=
  { mouse_window_id := to_guint32 (vals.getD 0 0), event_window_id := to_guint32 (vals.getD 1 0),
    root_x := to_gint32 (vals.getD 2 0), root_y := to_gint32 (vals.getD 3 0),
    win_x := to_gint32 (vals.getD 4 0), win_y := to_gint32 (vals.getD 5 0),
    state := to_guint32 (vals.getD 6 0) }

/-- The number of payload fields the specification gives for a type tag. -/
def spec_field_count (tag : Nat) : Nat :=
  if tag = BROADWAY_EVENT_ENTER ∨ tag = BROADWAY_EVENT_LEAVE then 8
  else if tag = BROADWAY_EVENT_POINTER_MOVE then 7
  else if tag = BROADWAY_EVENT_BUTTON_PRESS ∨ tag = BROADWAY_EVENT_BUTTON_RELEASE then 8
  else if tag = BROADWAY_EVENT_SCROLL then 8
  else if tag = BROADWAY_EVENT_KEY_PRESS ∨ tag = BROADWAY_EVENT_KEY_RELEASE then 3
  else if tag = BROADWAY_EVENT_GRAB_NOTIFY ∨ tag = BROADWAY_EVENT_UNGRAB_NOTIFY then 1
  else if tag = BROADWAY_EVENT_CONFIGURE_NOTIFY then 5
  else if tag = BROADWAY_EVENT_DELETE_NOTIFY then 1
  else if tag = BROADWAY_EVENT_SCREEN_SIZE_CHANGED then 2
  else 0

/-- The payload the specification gives for a type tag and the values of the
payload fields in wire order: the pointer fields followed by the crossing mode
(enter, leave), the button (button press and release) or the direction
(scroll); mouse-window-id, key, state for key events; the result code for grab
and ungrab notify; id, x, y, width, height for configure notify; id for delete
notify; width, height for screen resize.  Each value is stored in a field of 32
bits, unsigned for window ids, state, mode and button, signed for the rest. -/
def spec_payload (tag : Nat) (vals : List Int) : BroadwayInputPayload :=
  if tag = BROADWAY_EVENT_ENTER ∨ tag = BROADWAY_EVENT_LEAVE then
    BroadwayInputPayload.crossing (spec_pointer vals) (to_guint32 (vals.getD 7 0))
  else if tag = BROADWAY_EVENT_POINTER_MOVE then BroadwayInputPayload.pointer (spec_pointer vals)
  else if tag = BROADWAY_EVENT_BUTTON_PRESS ∨ tag = BROADWAY_EVENT_BUTTON_RELEASE then
    BroadwayInputPayload.button (spec_pointer vals) (to_guint32 (vals.getD 7 0))
  else if tag = BROADWAY_EVENT_SCROLL then
    BroadwayInputPayload.scroll (spec_pointer vals) (to_gint32 (vals.getD 7 0))
  else if tag = BROADWAY_EVENT_KEY_PRESS ∨ tag = BROADWAY_EVENT_KEY_RELEASE then
    BroadwayInputPayload.key (to_guint32 (vals.getD 0 0)) (to_gint32 (vals.getD 1 0))
      (to_guint32 (vals.getD 2 0))
  else if tag = BROADWAY_EVENT_GRAB_NOTIFY ∨ tag = BROADWAY_EVENT_UNGRAB_NOTIFY then
    BroadwayInputPayload.grab_reply (to_gint32 (vals.getD 0 0))
  else if tag = BROADWAY_EVENT_CONFIGURE_NOTIFY then
    BroadwayInputPayload.configure_notify (to_gint32 (vals.getD 0 0)) (to_gint32 (vals.getD 1 0))
      (to_gint32 (vals.getD 2 0)) (to_gint32 (vals.getD 3 0)) (to_gint32 (vals.getD 4 0))
  else if tag = BROADWAY_EVENT_DELETE_NOTIFY then
    BroadwayInputPayload.delete_notify (to_gint32 (vals.getD 0 0))
  else if tag = BROADWAY_EVENT_SCREEN_SIZE_CHANGED then
    BroadwayInputPayload.screen_resize_notify (to_gint32 (vals.getD 0 0))
      (to_gint32 (vals.getD 1 0))
  else BroadwayInputPayload.unparsed

/-- The values that `n` successive calls of `strtol` read from index `p` on,
each call starting one byte after the end of the one before. -/
def read_fields (mem : List Nat) : Nat → Nat → List Int
  | _, 0 => []
  | p, n + 1 => (strtol mem p).1 :: read_fields mem ((strtol mem p).2 + 1) n

/-- The type tags of the messages that carry pointer data: enter, leave,
motion, button press and release, scroll. -/
def pointer_event_tags : List Nat :=
  [BROADWAY_EVENT_ENTER, BROADWAY_EVENT_LEAVE, BROADWAY_EVENT_POINTER_MOVE,
   BROADWAY_EVENT_BUTTON_PRESS, BROADWAY_EVENT_BUTTON_RELEASE, BROADWAY_EVENT_SCROLL]

/-- The pointer state that `update_event_state` maintains: `last_x`, `last_y`,
`last_state`, `mouse_in_toplevel_id` and `real_mouse_in_toplevel_id`. -/
def last_pointer_state (server : GdkBroadwayServer) : Int × Int × Nat × Int × Int :=
  (server.last_x, server.last_y, server.last_state, server.mouse_in_toplevel_id,
    server.real_mouse_in_toplevel_id)

/-- The future pointer state: `future_root_x`, `future_root_y`, `future_state`
and `future_mouse_in_toplevel`. -/
def future_pointer_state (server : GdkBroadwayServer) : Int × Int × Nat × Int :=
  (server.future_root_x, server.future_root_y, server.future_state,
    server.future_mouse_in_toplevel)

/-- One turn of the loop of `process_input_messages` for the message at the head
of the queue: the message is unlinked, the event state is updated, and the
message is handed to the consumer. -/
def dispatch_message (server : GdkBroadwayServer) (message : BroadwayInputMsg) :
    GdkBroadwayServer :=
  let s1 := update_event_state { server with input_messages := server.input_messages.tail }
    message
  { s1 with delivered := s1.delivered ++ [message] }

/-- The pending queue and the log of the messages handed to the consumer. -/
def queue_state (server : GdkBroadwayServer) : List BroadwayInputMsg × List BroadwayInputMsg :=
  (server.input_messages, server.delivered)

/-- A legacy input stream as the specification frames it: complete messages,
each a 0x00 lead byte, a body and a terminating 0xFF byte, followed by a
tail. -/
def legacy_stream (bodies : List (List Nat)) (tail : List Nat) : List Nat :=
  match bodies with
  | [] => tail
  | b :: bs => 0 :: b ++ 255 :: legacy_stream bs tail

/-- The bodies contain no 0xFF byte, and the tail is empty or an incomplete
message: a 0x00 lead byte and no 0xFF byte yet. -/
def legacy_wf (bodies : List (List Nat)) (tail : List Nat) : Prop :=
  (∀ b ∈ bodies, 255 ∉ b) ∧ 255 ∉ tail ∧ (tail = [] ∨ tail.head? = some 0)

/-- The calls of `parse_input_message` for the bodies in order.  Each call gets
the pointer to its body in the buffer: the body, the NUL byte written over its
terminator, and behind it the rest of the buffer. -/
def parse_legacy_bodies (server : GdkBroadwayServer) :
    List (List Nat) → List Nat → GdkBroadwayServer
  | [], _ => server
  | b :: bs, tail =>
    parse_legacy_bodies (parse_input_message server (b ++ 0 :: legacy_stream bs tail)) bs tail

/-- The unsigned integer obtained by concatenating the decimal digits of a
header value in order, as the specification derives a legacy key. -/
def spec_key_digits (value : List Nat) : Nat := decimal_value (value.filter c_isdigit)

/-- The number of space characters in a header value. -/
def spec_key_spaces (value : List Nat) : Nat := value.count 32

/-- The header `key` occurs among the lines of a request. -/
def spec_has_header (lines : List (List Nat)) (key : List Nat) : Bool :=
  lines.any (fun line => (parse_line line key).isSome)

/-- The number of lines of a request that are the header `key`. -/
def spec_header_count (lines : List (List Nat)) (key : List Nat) : Nat :=
  lines.countP (fun line => (parse_line line key).isSome)

/-- Every `Sec-WebSocket-Key1` and `Sec-WebSocket-Key2` header among the lines
of a request has at least one space in its value. -/
def spec_keys_spaced (lines : List (List Nat)) : Bool :=
  lines.all (fun line =>
    (parse_line line (cstr "Sec-WebSocket-Key1")).all (fun v => decide (1 ≤ spec_key_spaces v)) &&
    (parse_line line (cstr "Sec-WebSocket-Key2")).all (fun v => decide (1 ≤ spec_key_spaces v)))

/-- The path of a request text that begins with `GET `, in the words of the
specification: of what follows `GET ` and the spaces after it, the first token
delimited by a space or a newline, with everything from its first `?`
removed. -/
def spec_request_path (text : List Nat) : List Nat :=
  let after := (text.drop 4).dropWhile (fun c => c == 32)
  let token := (after.splitOnP (fun c => c == 32 || c == 10)).headD []
  (token.splitOnP (fun c => c == 63)).headD []

/-- The request text made of a list of lines: each line, as a C string, with a
newline after it. -/
def spec_request_text : List (List Nat) → List Nat
  | [] => []
  | l :: ls => (l.takeWhile (fun c => c != 0) ++ [10]) ++ spec_request_text ls

/-- The line is empty as a C string (`strlen (line) == 0`). -/
def spec_empty_line (line : List Nat) : Bool := (line.takeWhile (fun c => c != 0)).length == 0

/-- The dispatched pointer position: `last_x`, `last_y` and
`real_mouse_in_toplevel_id`. -/
def last_position (server : GdkBroadwayServer) : Int × Int × Int :=
  (server.last_x, server.last_y, server.real_mouse_in_toplevel_id)

/-- The future pointer position: `future_root_x`, `future_root_y` and
`future_mouse_in_toplevel`. -/
def future_position (server : GdkBroadwayServer) : Int × Int × Int :=
  (server.future_root_x, server.future_root_y, server.future_mouse_in_toplevel)

/-- The dispatched pointer position after a message is dispatched: that of a
pointer-bearing message, and the position before for any other message. -/
def position_after (t : Int × Int × Int) (message : BroadwayInputMsg) : Int × Int × Int :=
  if message.type ∈ pointer_event_tags then
    match message.payload.pointer_data with
    | some p => (p.root_x, p.root_y, to_gint32 p.mouse_window_id)
    | none => t
  else t

/-- A step of the input path: `parse_input_message (input, message)` for an
input channel and a message, or `process_input_messages`. -/
inductive InputStep where
  | parse (input : BroadwayInput) (mem : List Nat)
  | process
deriving DecidableEq

/-- The server after one step of the input path. -/
def InputStep.apply (server : GdkBroadwayServer) : InputStep → GdkBroadwayServer
  | InputStep.parse input mem => parse_input_message { server with input := some input } mem
  | InputStep.process => process_input_messages server

/-- The server after a sequence of steps of the input path. -/
def run_input_steps (server : GdkBroadwayServer) (steps : List InputStep) : GdkBroadwayServer :=
  steps.foldl InputStep.apply server

/-- An event of the input path that bears on the time: a new input channel
replaces the current one (`start_input`, source lines 946 to 963, where
`g_new0` leaves `seen_time` FALSE and `time_base` 0), or a message is parsed on
the current channel. -/
inductive TimeEvent where
  | connect (buffer : List Nat) (proto_v7_plus binary : Bool)
  | message (mem : List Nat)
deriving DecidableEq

/-- The server after an event of the input path. -/
def TimeEvent.apply (server : GdkBroadwayServer) : TimeEvent → GdkBroadwayServer
  | TimeEvent.connect buffer proto_v7_plus binary =>
    { server with
      input := some { buffer := buffer, seen_time := false, time_base := 0,
                      proto_v7_plus := proto_v7_plus, binary := binary } }
  | TimeEvent.message mem => parse_input_message server mem

/-- The server after a sequence of events of the input path. -/
def run_time_events (server : GdkBroadwayServer) (events : List TimeEvent) :
    GdkBroadwayServer :=
  events.foldl TimeEvent.apply server

/-- The values of `last_seen_time` after each event of a sequence, in order. -/
def time_tail (server : GdkBroadwayServer) : List TimeEvent → List Nat
  | [] => []
  | ev :: evs =>
    (TimeEvent.apply server ev).last_seen_time :: time_tail (TimeEvent.apply server ev) evs

/-- The values of `last_seen_time` before the first event and after each event
of a sequence. -/
def time_trace (server : GdkBroadwayServer) (events : List TimeEvent) : List Nat :=
  server.last_seen_time :: time_tail server events

/-- The normalised time in unbounded integers: the state is the time and the
last nonzero raw timestamp of the current channel (`none` when the channel has
sent none yet).  A new channel forgets the raw timestamp; a raw timestamp 0
changes nothing; the first nonzero raw timestamp of a channel adds 5000; a
later one adds its distance from the one before. -/
def spec_time_step (st : Int × Option Int) : TimeEvent → Int × Option Int
  | TimeEvent.connect _ _ _ => (st.1, none)
  | TimeEvent.message mem =>
    if raw_time mem = 0 then st
    else
      match st.2 with
      | none => (st.1 + 5000, some (raw_time mem))
      | some rp => (st.1 + (raw_time mem - rp), some (raw_time mem))

/-- The normalised time in unbounded integers after a sequence of events. -/
def spec_time_run (st : Int × Option Int) (events : List TimeEvent) : Int × Option Int :=
  events.foldl spec_time_step st

/-- The raw timestamp of the event, if nonzero, is not before the last nonzero
raw timestamp of the same channel. -/
def spec_step_ordered (st : Int × Option Int) : TimeEvent → Bool
  | TimeEvent.connect _ _ _ => true
  | TimeEvent.message mem =>
    match st.2 with
    | none => true
    | some rp => decide (raw_time mem = 0 ∨ rp ≤ raw_time mem)

/-- On every channel of the sequence the nonzero raw timestamps arrive in
non-decreasing order. -/
def spec_time_ordered (st : Int × Option Int) : List TimeEvent → Bool
  | [] => true
  | ev :: evs => spec_step_ordered st ev && spec_time_ordered (spec_time_step st ev) evs

/-- The time state of the server agrees with the state of the normalised time
in unbounded integers: the same time; a channel is attached; it has seen a
nonzero raw timestamp exactly when the state holds one, and then its
`time_base` maps that raw timestamp to the time. -/
def TimeRel (server : GdkBroadwayServer) (st : Int × Option Int) : Prop :=
  (server.last_seen_time : Int) = st.1 ∧
  ∃ input, server.input = some input ∧
    (st.2 = none → input.seen_time = false) ∧
    (∀ rp, st.2 = some rp → input.seen_time = true ∧
      (to_guint64 (rp - input.time_base) : Int) = st.1)

/-- Compositing a diff pixel over the old pixel, as the client applies a diff:
the old pixel is kept where the diff pixel is 0 (transparent), the diff pixel
is taken elsewhere. -/
def spec_overlay (diff_pixel old_pixel : Nat) : Nat :=
  if diff_pixel = 0 then old_pixel else diff_pixel

/-! ## Concrete inputs -/

/-- A fresh v7+ input channel with an empty buffer. -/
def ex_input : BroadwayInput :=
  { buffer := [], seen_time := false, time_base := 0, proto_v7_plus := true, binary := false }

/-- The server after initialisation with the fresh channel `ex_input` attached. -/
def ex_server : GdkBroadwayServer := { gdk_broadway_server_init with input := some ex_input }

/-- The message `m0,10000`. -/
def ex_msg_10000 : List Nat := [109, 48, 44, 49, 48, 48, 48, 48]

/-- The message `m1,10250`. -/
def ex_msg_10250 : List Nat := [109, 49, 44, 49, 48, 50, 53, 48]

/-- A masked text frame with FIN carrying the message `m0,7,`. -/
def ex_frame : WSFrame :=
  { fin := true, rsv := 0, opcode := 1, mask := some [1, 2, 3, 4], form := LengthForm.short,
    payload := [109, 48, 44, 55, 44] }

/-- The server `ex_server` with the given bytes in the buffer of its input
channel. -/
def ex_server_with (buf : List Nat) : GdkBroadwayServer :=
  { gdk_broadway_server_init with input := some { ex_input with buffer := buf } }

/-- An unmasked close frame without payload: two bytes on the wire. -/
def ex_frame_close : WSFrame :=
  { fin := true, rsv := 0, opcode := 8, mask := none, form := LengthForm.short, payload := [] }

/-- An unmasked text frame with FIN whose one-byte payload `m` has its length
in the 8-byte form (base length 127). -/
def ex_frame_ext64 : WSFrame :=
  { fin := true, rsv := 0, opcode := 1, mask := none, form := LengthForm.ext64,
    payload := [109] }

/-- A masked text frame with FIN whose one-byte payload `m` has its length in
the 8-byte form (base length 127). -/
def ex_frame_ext64_masked : WSFrame :=
  { fin := true, rsv := 0, opcode := 1, mask := some [1, 2, 3, 4], form := LengthForm.ext64,
    payload := [109] }

/-- A sequence of registry operations on three windows, without a destroy of
id 0. -/
def ex_registry_ops : List RegistryOp :=
  [RegistryOp.new_window 0 0 2 2 false, RegistryOp.window_show 1,
   RegistryOp.window_update 1 (some { width := 2, height := 2, data := [1, 2, 3, 4] }),
   RegistryOp.new_window 5 5 1 1 true, RegistryOp.window_set_transient_for 2 1,
   RegistryOp.window_move_resize 1 3 3 4 4, RegistryOp.window_hide 0,
   RegistryOp.destroy_window 1, RegistryOp.destroy_window 7]

/-- The initial server holding a pointer grab of window 1 taken at time 10. -/
def ex_server_grabbed : GdkBroadwayServer :=
  (_gdk_broadway_server_grab_pointer gdk_broadway_server_init 1 false 0 10).2

/-- The message `?7,10000` with the unknown tag `?`. -/
def ex_msg_unknown : List Nat := [63, 55, 44, 49, 48, 48, 48, 48]

/-- The message `m0,0,1,1,5,5,5,5,0`: a pointer motion over window 1. -/
def ex_msg_motion : List Nat :=
  [109, 48, 44, 48, 44, 49, 44, 49, 44, 53, 44, 53, 44, 53, 44, 53, 44, 48]

/-- The initial server with a fresh input channel and an output channel
attached, after window 1 was created and a pointer motion over it was parsed
and dispatched. -/
def ex_server_pointed : GdkBroadwayServer :=
  process_input_messages
    (parse_input_message
      (_gdk_broadway_server_new_window
        { gdk_broadway_server_init with
          input := some ex_input, output := some (broadway_output_new 1 true false []) }
        0 0 10 10 false).2
      ex_msg_motion)

/-- The server `ex_server_pointed` after window 1 was destroyed. -/
def ex_server_destroyed : GdkBroadwayServer :=
  _gdk_broadway_server_destroy_window ex_server_pointed 1

/-- Two 2x2 surfaces that differ in the colour of the last pixel only (the
first pixel differs in its top byte). -/
def ex_surface_new : Surface := { width := 2, height := 2, data := [0x01aabbcc, 5, 6, 0x00123456] }

def ex_surface_old : Surface := { width := 2, height := 2, data := [0xffaabbcc, 5, 6, 0x00123457] }

/-- The initial server after a window of 1 by 1 pixel was created, without an
output channel. -/
def ex_server_small : GdkBroadwayServer :=
  (_gdk_broadway_server_new_window gdk_broadway_server_init 0 0 1 1 false).2

/-- A surface of 2 by 2 pixels. -/
def ex_surface_2x2 : Surface := { width := 2, height := 2, data := [1, 2, 3, 4] }

/-- The server `ex_server_small` after its window got the pixel 7 and was
shown, and after an output channel was attached (the resynchronisation has not
run yet). -/
def ex_server_attached : GdkBroadwayServer :=
  attach_output
    (_gdk_broadway_server_window_show
      (_gdk_broadway_server_window_update ex_server_small 1
        (some { width := 1, height := 1, data := [7] })) 1).2
    true false []

/-- Calls made without an output channel: three windows are created, the first
is moved and shown, the second is shown and hidden again, the third is shown
and destroyed. -/
def ex_replay_ops : List RegistryOp :=
  [RegistryOp.new_window 0 0 10 10 false, RegistryOp.new_window 5 5 20 20 true,
   RegistryOp.new_window 1 1 1 1 false, RegistryOp.window_move_resize 1 3 4 30 40,
   RegistryOp.window_show 1, RegistryOp.window_show 2, RegistryOp.window_hide 2,
   RegistryOp.window_show 3, RegistryOp.destroy_window 3]

/-- The server `ex_server_small` after its window, still hidden, got the pixel
7, and after an output channel was attached. -/
def ex_server_hidden_cached : GdkBroadwayServer :=
  attach_output
    (_gdk_broadway_server_window_update ex_server_small 1
      (some { width := 1, height := 1, data := [7] }))
    true false []

/-- The initial server with an output channel whose next serial is 42 and whose
next flush fails. -/
def ex_server_serial : GdkBroadwayServer :=
  { gdk_broadway_server_init with output := some (broadway_output_new 42 true false [false]) }

/-- The fields of the message `k7,10000,3,-65,4`: a key press with serial 7,
raw time 10000, mouse window 3, key -65 and state 4. -/
def ex_key_fields : List Numeral :=
  [⟨false, [55]⟩, ⟨false, [49, 48, 48, 48, 48]⟩, ⟨false, [51]⟩, ⟨true, [54, 53]⟩,
   ⟨false, [52]⟩]

/-- The initial server with a fresh input channel and an output channel whose
next flush fails, after the motion `m0,0,1,1,5,5,5,5,0` was parsed (and not yet
dispatched) and a flush was made. -/
def ex_server_unflushed : GdkBroadwayServer :=
  _gdk_broadway_server_flush
    (parse_input_message
      { gdk_broadway_server_init with
        input := some ex_input, output := some (broadway_output_new 1 true false [false]) }
      ex_msg_motion)

/-- The initial server with a fresh input channel and an output channel. -/
def ex_server_attached_input : GdkBroadwayServer :=
  { gdk_broadway_server_init with
    input := some ex_input, output := some (broadway_output_new 1 true false []) }

/-- A legacy (not v7+) input channel with an empty buffer. -/
def ex_input_legacy : BroadwayInput :=
  { buffer := [], seen_time := false, time_base := 0, proto_v7_plus := false, binary := false }

/-- The server after initialisation with the legacy channel attached. -/
def ex_server_legacy : GdkBroadwayServer :=
  { gdk_broadway_server_init with input := some ex_input_legacy }

/-- The handshake key of the example in the source. -/
def ex_key_v7 : List Nat := cstr "x3JJHMbDL1EzLkh9GBhXDw=="

/-- The header line `Sec-WebSocket-Key1: 4 @1  46546xW%0l 1 5` of the example
in the draft of the old protocol: digits 4146546015, 5 spaces. -/
def ex_key1_line : List Nat := cstr "Sec-WebSocket-Key1: 4 @1  46546xW%0l 1 5"

/-- An upgrade request with origin, host and a v7+ key, and a
`Sec-WebSocket-Key1` header whose value has no space. -/
def ex_request_no_space : HttpRequest :=
  { request := cstr ("GET /socket HTTP/1.1\nHost: localhost:8080\nOrigin: http://localhost\n" ++
      "Sec-WebSocket-Key: x3JJHMbDL1EzLkh9GBhXDw==\nSec-WebSocket-Key1: 12345\n"),
    nonce := none, buffered := [], flush_outcomes := [] }

/-- An upgrade request without a `Host` header, whose `Sec-WebSocket-Key1`
header has no space in its value. -/
def ex_request_no_host : HttpRequest :=
  { request := cstr "GET /socket HTTP/1.1\nSec-WebSocket-Key1: 1\n",
    nonce := none, buffered := [], flush_outcomes := [] }

/-- A request for the text-mode socket with a query string. -/
def ex_request_socket : HttpRequest :=
  { request := cstr "GET  /socket?x=1 HTTP/1.1\nHost: h\nOrigin: o\nSec-WebSocket-Key: k\n",
    nonce := none, buffered := [], flush_outcomes := [] }

/-- A fresh request, as `handle_incoming_connection` makes it: no text yet. -/
def ex_request_fresh : HttpRequest :=
  { request := [], nonce := none, buffered := [], flush_outcomes := [] }

/-- An unmasked ping frame without payload: two bytes on the wire. -/
def ex_frame_ping : WSFrame :=
  { fin := true, rsv := 0, opcode := 9, mask := none, form := LengthForm.short, payload := [] }

/-- The initial server with an output channel and a v7+ input channel whose
buffer holds the two bytes of `ex_frame_ping`. -/
def ex_server_ping : GdkBroadwayServer :=
  { gdk_broadway_server_init with
    input := some { ex_input with buffer := [137, 0] },
    output := some (broadway_output_new 1 true false []) }

/-- The initial server after one call of `_gdk_broadway_server_new_window`
(window 1 at 0, 0 of size 10 by 10), with no other call made. -/
def ex_server_fresh_window : GdkBroadwayServer :=
  (_gdk_broadway_server_new_window gdk_broadway_server_init 0 0 10 10 false).2

/-! ## Lemmas on the message parser -/

theorem to_guint64_lt (x : Int) : to_guint64 x < 18446744073709551616 := by
  unfold to_guint64; omega

theorem to_guint64_of_lt (n : Nat) (h : n < 18446744073709551616) :
    to_guint64 (to_gint64 (n : Int)) = n := by
  unfold to_guint64 to_gint64; omega

theorem parse_payload_state (server : GdkBroadwayServer) (type : Nat) (mem : List Nat) (p : Nat) :
    (parse_payload server type mem p).2 = server ∨
    ∃ d, (parse_payload server type mem p).2 = update_future_pointer_info server d := by
  unfold parse_payload
  by_cases h1 : type = BROADWAY_EVENT_ENTER ∨ type = BROADWAY_EVENT_LEAVE
  · rw [if_pos h1]; exact Or.inr ⟨_, rfl⟩
  rw [if_neg h1]
  by_cases h2 : type = BROADWAY_EVENT_POINTER_MOVE
  · rw [if_pos h2]; exact Or.inr ⟨_, rfl⟩
  rw [if_neg h2]
  by_cases h3 : type = BROADWAY_EVENT_BUTTON_PRESS ∨ type = BROADWAY_EVENT_BUTTON_RELEASE
  · rw [if_pos h3]; exact Or.inr ⟨_, rfl⟩
  rw [if_neg h3]
  by_cases h4 : type = BROADWAY_EVENT_SCROLL
  · rw [if_pos h4]; exact Or.inr ⟨_, rfl⟩
  rw [if_neg h4]
  by_cases h5 : type = BROADWAY_EVENT_KEY_PRESS ∨ type = BROADWAY_EVENT_KEY_RELEASE
  · rw [if_pos h5]; exact Or.inl rfl
  rw [if_neg h5]
  by_cases h6 : type = BROADWAY_EVENT_GRAB_NOTIFY ∨ type = BROADWAY_EVENT_UNGRAB_NOTIFY
  · rw [if_pos h6]; exact Or.inl rfl
  rw [if_neg h6]
  by_cases h7 : type = BROADWAY_EVENT_CONFIGURE_NOTIFY
  · rw [if_pos h7]; exact Or.inl rfl
  rw [if_neg h7]
  by_cases h8 : type = BROADWAY_EVENT_DELETE_NOTIFY
  · rw [if_pos h8]; exact Or.inl rfl
  rw [if_neg h8]
  by_cases h9 : type = BROADWAY_EVENT_SCREEN_SIZE_CHANGED
  · rw [if_pos h9]; exact Or.inl rfl
  rw [if_neg h9]
  exact Or.inl rfl

theorem parse_payload_input (server : GdkBroadwayServer) (type : Nat) (mem : List Nat) (p : Nat) :
    (parse_payload server type mem p).2.input = server.input := by
  rcases parse_payload_state server type mem p with h | ⟨d, h⟩ <;>
    simp [h, update_future_pointer_info]

theorem parse_payload_last_seen_time (server : GdkBroadwayServer) (type : Nat) (mem : List Nat)
    (p : Nat) : (parse_payload server type mem p).2.last_seen_time = server.last_seen_time := by
  rcases parse_payload_state server type mem p with h | ⟨d, h⟩ <;>
    simp [h, update_future_pointer_info]

theorem parse_payload_input_messages (server : GdkBroadwayServer) (type : Nat) (mem : List Nat)
    (p : Nat) : (parse_payload server type mem p).2.input_messages = server.input_messages := by
  rcases parse_payload_state server type mem p with h | ⟨d, h⟩ <;>
    simp [h, update_future_pointer_info]

/-- The three effects of `parse_input_message` on the time state. -/
theorem parse_input_message_time (server : GdkBroadwayServer) (input : BroadwayInput)
    (mem : List Nat) (hin : server.input = some input) :
    let nt := normalize_time (raw_time mem) server.last_seen_time input.seen_time input.time_base
    (parse_input_message server mem).input =
        some { input with seen_time := nt.2.1, time_base := nt.2.2 } ∧
    (parse_input_message server mem).last_seen_time = to_guint64 nt.1 ∧
    ∃ msg, (parse_input_message server mem).input_messages = server.input_messages ++ [msg] ∧
      msg.time = to_guint64 nt.1 := by
  simp only [parse_input_message, hin, raw_time, parse_payload_input,
    parse_payload_last_seen_time, parse_payload_input_messages]
  exact ⟨trivial, trivial, _, rfl, rfl⟩

theorem parse_input_message_keeps_base (server : GdkBroadwayServer) (input : BroadwayInput)
    (mem : List Nat) (hin : server.input = some input) (hseen : input.seen_time = true) :
    (parse_input_message server mem).input = some input ∧
    (parse_input_message server mem).last_seen_time < 18446744073709551616 := by
  obtain ⟨h, hl, -⟩ := parse_input_message_time server input mem hin
  refine ⟨?_, ?_⟩
  · rw [h]
    cases input
    simp only [normalize_time] at hseen ⊢
    split_ifs <;> simp_all
  · rw [hl]; exact to_guint64_lt _

theorem foldl_parse_input_message_keeps_base (ms : List (List Nat)) (server : GdkBroadwayServer)
    (input : BroadwayInput) (hin : server.input = some input) (hseen : input.seen_time = true)
    (hlt : server.last_seen_time < 18446744073709551616) :
    (ms.foldl parse_input_message server).input = some input ∧
    (ms.foldl parse_input_message server).last_seen_time < 18446744073709551616 := by
  induction ms generalizing server with
  | nil => exact ⟨hin, hlt⟩
  | cons m ms ih =>
    have h := parse_input_message_keeps_base server input m hin hseen
    exact ih (parse_input_message server m) h.1 h.2

/-- C1: time normalisation in `parse_input_message`.  Every parsed message
appends one record whose time is the new `last_seen_time`; a raw timestamp 0
leaves `last_seen_time` as it is; on a channel that has not seen a time, with
`last_seen_time = T0`, the first nonzero raw timestamp `R1` gives `T0 + 5000`,
and after any further messages `ms` of the same channel a nonzero raw timestamp
`R2` gives `T0 + 5000 + (R2 - R1)` (the offset is not recomputed) and a raw
timestamp 0 gives the time before it.  The times are `guint64` values, so the
sums are taken modulo `2^64`. -/
theorem time_normalization (server : GdkBroadwayServer) (input : BroadwayInput)
    (m1 : List Nat) (ms : List (List Nat)) (m2 : List Nat)
    (hin : server.input = some input)
    (hT0 : server.last_seen_time < 18446744073709551616) :
    let T0 : Int := server.last_seen_time
    let s1 := parse_input_message server m1
    let s2 := ms.foldl parse_input_message s1
    let s3 := parse_input_message s2 m2
    (∃ msg, s1.input_messages = server.input_messages ++ [msg] ∧ msg.time = s1.last_seen_time) ∧
    (raw_time m1 = 0 → s1.last_seen_time = server.last_seen_time) ∧
    (input.seen_time = false → raw_time m1 ≠ 0 →
      (s1.last_seen_time : Int) = (T0 + 5000) % 18446744073709551616 ∧
      (∃ msg, s3.input_messages = s2.input_messages ++ [msg] ∧ msg.time = s3.last_seen_time) ∧
      (raw_time m2 ≠ 0 →
        (s3.last_seen_time : Int) =
          (T0 + 5000 + (raw_time m2 - raw_time m1)) % 18446744073709551616) ∧
      (raw_time m2 = 0 → s3.last_seen_time = s2.last_seen_time)) := by
  intro T0 s1 s2 s3
  obtain ⟨hi1, hl1, msg1, hq1, ht1⟩ := parse_input_message_time server input m1 hin
  refine ⟨⟨msg1, hq1, ?_⟩, ?_, ?_⟩
  · rw [ht1]; exact hl1.symm
  · intro h0
    show (parse_input_message server m1).last_seen_time = _
    rw [hl1, h0]
    simp only [normalize_time, if_true]
    exact to_guint64_of_lt _ hT0
  · intro hseen h1
    let tb : Int := to_gint64 ((to_guint64 (raw_time m1) : Int) -
          (to_guint64 ((server.last_seen_time : Int) + 5000) : Int))
    let input1 : BroadwayInput := { input with seen_time := true, time_base := tb }
    have hbase : s1.input = some input1 := by
      show (parse_input_message server m1).input = _
      rw [hi1]
      simp [normalize_time, h1, hseen, input1, tb]
    have hs1lt : s1.last_seen_time < 18446744073709551616 := by
      show (parse_input_message server m1).last_seen_time < _
      rw [hl1]; exact to_guint64_lt _
    have h2 := foldl_parse_input_message_keeps_base ms s1 input1 hbase rfl hs1lt
    obtain ⟨-, hl3, msg3, hq3, ht3⟩ := parse_input_message_time s2 input1 m2 h2.1
    refine ⟨?_, ⟨msg3, hq3, ?_⟩, ?_, ?_⟩
    · show ((parse_input_message server m1).last_seen_time : Int) = _
      rw [hl1]
      simp only [normalize_time, h1, hseen, if_false, Bool.not_false, if_true, T0]
      unfold to_guint64 to_gint64; omega
    · rw [ht3]; exact hl3.symm
    · intro h2
      show ((parse_input_message s2 m2).last_seen_time : Int) = _
      rw [hl3]
      simp only [normalize_time, h2, if_false, input1, tb, T0, Bool.not_true, Bool.false_eq_true]
      unfold to_guint64 to_gint64; omega
    · intro h0
      show (parse_input_message s2 m2).last_seen_time = _
      rw [hl3, h0]
      simp only [normalize_time, if_true]
      exact to_guint64_of_lt _ h2.2

/-- Witness of `time_normalization`: the fresh channel on the initial server
(`T0 = 1`), with raw timestamps 10000 and 10250, ends at time 5251. -/
theorem time_normalization_witness :
    ex_server.input = some ex_input ∧ ex_server.last_seen_time < 18446744073709551616 ∧
    ex_input.seen_time = false ∧ raw_time ex_msg_10000 ≠ 0 ∧ raw_time ex_msg_10250 ≠ 0 ∧
    ((parse_input_message (parse_input_message ex_server ex_msg_10000)
        ex_msg_10250).last_seen_time : Int) = 1 + 5000 + (10250 - 10000) := by
  refine ⟨rfl, by decide, rfl, by decide, by decide, ?_⟩
  have h := ((time_normalization ex_server ex_input ex_msg_10000 [] ex_msg_10250 rfl
    (by decide)).2.2 rfl (by decide)).2.2.1 (by decide)
  rw [show parse_input_message (parse_input_message ex_server ex_msg_10000) ex_msg_10250 =
    parse_input_message (List.foldl parse_input_message
      (parse_input_message ex_server ex_msg_10000) []) ex_msg_10250 from rfl, h]
  decide

/-! ## The frame codec: masking -/

theorem unmask_from_length (mask : List Nat) (i : Nat) (data : List Nat) :
    (unmask_from mask i data).length = data.length := by
  induction data generalizing i with
  | nil => rfl
  | cons b bs ih => simp [unmask_from, ih]

theorem unmask_from_getD (mask : List Nat) (i : Nat) (data : List Nat) (k : Nat)
    (hk : k < data.length) :
    (unmask_from mask i data).getD k 0 = data.getD k 0 ^^^ mask.getD ((i + k) % 4) 0 := by
  induction data generalizing i k with
  | nil => simp at hk
  | cons b bs ih =>
    cases k with
    | zero => simp [unmask_from]
    | succ k =>
      simp only [unmask_from, List.getD_cons_succ]
      rw [ih (i + 1) k (by simpa using hk)]
      congr 3
      omega

theorem unmask_from_involutive (mask : List Nat) (i : Nat) (data : List Nat) :
    unmask_from mask i (unmask_from mask i data) = data := by
  induction data generalizing i with
  | nil => rfl
  | cons b bs ih => simp [unmask_from, ih, Nat.xor_cancel_right]

theorem unmask_length (mask data : List Nat) : (unmask mask data).length = data.length :=
  unmask_from_length mask 0 data

theorem unmask_unmask (mask data : List Nat) : unmask mask (unmask mask data) = data :=
  unmask_from_involutive mask 0 data

/-- C6: masking round trip.  The unmasking loop `data[i] ^= mask[i%4]` of
`parse_input` keeps the length, xors the byte at every index `i` with
`mask[i mod 4]`, and applied twice with the same mask gives back the payload,
for a payload of any length. -/
theorem masking_round_trip (mask payload : List Nat) :
    (unmask mask payload).length = payload.length ∧
    (∀ i, i < payload.length →
      (unmask mask payload).getD i 0 = payload.getD i 0 ^^^ mask.getD (i % 4) 0) ∧
    unmask mask (unmask mask payload) = payload := by
  refine ⟨unmask_length mask payload, ?_, unmask_unmask mask payload⟩
  intro i hi
  have h := unmask_from_getD mask 0 payload i hi
  rwa [Nat.zero_add] at h

/-! ## Lemmas on the frame codec -/

theorem byte0_bits (fin : Bool) (rsv opcode : Nat) (hr : rsv < 8) (ho : opcode < 16) :
    ((((if fin then 128 else 0) + 16 * rsv + opcode) &&& 0x80) != 0) = fin ∧
    ((if fin then 128 else 0) + 16 * rsv + opcode) &&& 0x0f = opcode := by
  have h : ∀ r < 8, ∀ o < 16, ∀ f : Bool,
      ((((if f then 128 else 0) + 16 * r + o) &&& 0x80) != 0) = f ∧
      ((if f then 128 else 0) + 16 * r + o) &&& 0x0f = o := by decide
  exact h rsv hr opcode ho fin

theorem byte1_bits (m : Bool) (base : Nat) (hb : base < 128) :
    ((((if m then 128 else 0) + base) &&& 0x80) != 0) = m ∧
    ((if m then 128 else 0) + base) &&& 0x7f = base := by
  have h : ∀ b < 128, ∀ f : Bool,
      ((((if f then 128 else 0) + b) &&& 0x80) != 0) = f ∧
      ((if f then 128 else 0) + b) &&& 0x7f = b := by decide
  exact h base hb m

theorem parse_payload_uniform (type : Nat) (mem : List Nat) (p : Nat) :
    ∃ (pl : BroadwayInputPayload) (upd : Option BroadwayInputPointerMsg),
      ∀ server, parse_payload server type mem p =
        (pl, match upd with
             | none => server
             | some d => update_future_pointer_info server d) := by
  unfold parse_payload
  by_cases h1 : type = BROADWAY_EVENT_ENTER ∨ type = BROADWAY_EVENT_LEAVE
  · simp only [if_pos h1]; exact ⟨_, some _, fun _ => rfl⟩
  simp only [if_neg h1]
  by_cases h2 : type = BROADWAY_EVENT_POINTER_MOVE
  · simp only [if_pos h2]; exact ⟨_, some _, fun _ => rfl⟩
  simp only [if_neg h2]
  by_cases h3 : type = BROADWAY_EVENT_BUTTON_PRESS ∨ type = BROADWAY_EVENT_BUTTON_RELEASE
  · simp only [if_pos h3]; exact ⟨_, some _, fun _ => rfl⟩
  simp only [if_neg h3]
  by_cases h4 : type = BROADWAY_EVENT_SCROLL
  · simp only [if_pos h4]; exact ⟨_, some _, fun _ => rfl⟩
  simp only [if_neg h4]
  by_cases h5 : type = BROADWAY_EVENT_KEY_PRESS ∨ type = BROADWAY_EVENT_KEY_RELEASE
  · simp only [if_pos h5]; exact ⟨_, none, fun _ => rfl⟩
  simp only [if_neg h5]
  by_cases h6 : type = BROADWAY_EVENT_GRAB_NOTIFY ∨ type = BROADWAY_EVENT_UNGRAB_NOTIFY
  · simp only [if_pos h6]; exact ⟨_, none, fun _ => rfl⟩
  simp only [if_neg h6]
  by_cases h7 : type = BROADWAY_EVENT_CONFIGURE_NOTIFY
  · simp only [if_pos h7]; exact ⟨_, none, fun _ => rfl⟩
  simp only [if_neg h7]
  by_cases h8 : type = BROADWAY_EVENT_DELETE_NOTIFY
  · simp only [if_pos h8]; exact ⟨_, none, fun _ => rfl⟩
  simp only [if_neg h8]
  by_cases h9 : type = BROADWAY_EVENT_SCREEN_SIZE_CHANGED
  · simp only [if_pos h9]; exact ⟨_, none, fun _ => rfl⟩
  simp only [if_neg h9]
  exact ⟨_, none, fun _ => rfl⟩

theorem set_buffer_set_buffer (server : GdkBroadwayServer) (b1 b2 : List Nat) :
    set_buffer (set_buffer server b1) b2 = set_buffer server b2 := by
  cases h : server.input <;> simp [set_buffer, h]

theorem remove_range_set_buffer (server : GdkBroadwayServer) (b : List Nat) (n : Nat) :
    remove_range (set_buffer server b) n = set_buffer server (b.drop n) := by
  cases h : server.input <;> simp [set_buffer, remove_range, h]

theorem parse_input_message_set_buffer (server : GdkBroadwayServer) (b mem : List Nat) :
    parse_input_message (set_buffer server b) mem =
      set_buffer (parse_input_message server mem) b := by
  cases hin : server.input with
  | none => simp [parse_input_message, set_buffer, hin]
  | some input =>
    obtain ⟨pl, upd, h⟩ := parse_payload_uniform (mem.getD 0 0) mem
      ((strtol mem ((strtol mem 1).2 + 1)).2 + 1)
    simp only [parse_input_message, set_buffer, hin, Option.map_some', h]
    cases upd <;> simp [update_future_pointer_info]

theorem handle_frame_set_buffer (server : GdkBroadwayServer) (b : List Nat) (fin : Bool)
    (code : Nat) (data : List Nat) (n : Nat) :
    handle_frame (set_buffer server b) fin code data n =
      set_buffer (handle_frame server fin code data n) b := by
  unfold handle_frame
  split_ifs
  · rfl
  · rfl
  · exact parse_input_message_set_buffer _ _ _
  · rfl
  · rfl
theorem g_strndup_take (data : List Nat) (n : Nat) :
    g_strndup (data.take n) n = g_strndup data n := by
  simp [g_strndup, List.take_take]

theorem handle_frame_take (server : GdkBroadwayServer) (fin : Bool) (code : Nat)
    (data : List Nat) (n : Nat) :
    handle_frame server fin code (data.take n) n = handle_frame server fin code data n := by
  unfold handle_frame
  rw [g_strndup_take]

theorem frame_layout_bound (buf : List Nat) (l : FrameLayout) (h : frame_layout buf = some l) :
    l.data + l.payload_len ≤ buf.length ∧ 2 ≤ l.data := by
  unfold frame_layout at h
  cases hpl : parse_frame_length buf with
  | none => simp [hpl] at h
  | some r =>
    obtain ⟨payload_len, off⟩ := r
    have hoff : 2 ≤ off := by
      simp only [parse_frame_length] at hpl
      split_ifs at hpl <;> simp only [Option.some.injEq, Prod.mk.injEq] at hpl <;> omega
    simp only [hpl] at h
    split_ifs at h <;> simp only [Option.some.injEq] at h <;> subst h <;> simp <;> omega

theorem drop_add_eq (buf : List Nat) (a b : Nat) :
    buf.drop (a + b) = (buf.drop a).drop b := by
  rw [List.drop_drop]

theorem unmask_in_place_drop (buf : List Nat) (l : FrameLayout)
    (h : l.data + l.payload_len ≤ buf.length) :
    (unmask_in_place buf l).drop l.data = frame_payload buf l ++ buf.drop (l.data + l.payload_len) ∧
    (unmask_in_place buf l).drop (l.data + l.payload_len) = buf.drop (l.data + l.payload_len) := by
  unfold unmask_in_place frame_payload
  by_cases hm : l.is_mask = true
  · have h1 : (List.take l.data buf).length = l.data := by simp; omega
    have h2 : (unmask l.mask (List.take l.payload_len (List.drop l.data buf))).length =
        l.payload_len := by
      rw [unmask_length _ _]; simp; omega
    simp only [hm, if_true]
    constructor
    · rw [List.append_assoc, List.drop_left' h1]
    · rw [List.drop_left' (by rw [List.length_append, h1, h2])]
  · simp only [hm, if_false, Bool.false_eq_true]
    refine ⟨?_, trivial⟩
    rw [drop_add_eq, List.take_append_drop]
theorem frame_payload_length (buf : List Nat) (l : FrameLayout)
    (h : l.data + l.payload_len ≤ buf.length) : (frame_payload buf l).length = l.payload_len := by
  unfold frame_payload
  split_ifs
  · rw [unmask_length _ _]; simp; omega
  · simp; omega

theorem parse_frame_eq (server : GdkBroadwayServer) (input : BroadwayInput) (l : FrameLayout)
    (hin : server.input = some input) (hlen : 2 < input.buffer.length)
    (hl : frame_layout input.buffer = some l) :
    parse_frame server = some (set_buffer
      (handle_frame server ((input.buffer.getD 0 0 &&& 0x80) != 0) (input.buffer.getD 0 0 &&& 0x0f)
        (frame_payload input.buffer l) l.payload_len)
      (input.buffer.drop (l.data + l.payload_len))) := by
  have hb := (frame_layout_bound _ _ hl).1
  have hd := unmask_in_place_drop _ _ hb
  have hpl := frame_payload_length _ _ hb
  unfold parse_frame
  simp only [hin, hl, hlen, not_true_eq_false, if_false]
  rw [handle_frame_set_buffer, remove_range_set_buffer, hd.1, hd.2,
    ← handle_frame_take _ _ _ (frame_payload input.buffer l ++ _), List.take_left' hpl]

theorem parse_frame_eq_none (server : GdkBroadwayServer) (input : BroadwayInput)
    (hin : server.input = some input)
    (h : input.buffer.length ≤ 2 ∨ frame_layout input.buffer = none) :
    parse_frame server = none := by
  unfold parse_frame
  simp only [hin]
  rcases h with h | h
  · rw [if_pos (by omega)]
  · split_ifs
    · rw [h]
    · rfl
theorem take_drop_append (b c : List Nat) (j k : Nat) (h : j + k ≤ b.length) :
    ((b ++ c).drop j).take k = (b.drop j).take k := by
  rw [List.drop_append_of_le_length (by omega), List.take_append_of_le_length (by simp; omega)]

theorem parse_frame_length_append (b c : List Nat) (r : Nat × Nat)
    (h : parse_frame_length b = some r) (h2 : 2 ≤ b.length) :
    parse_frame_length (b ++ c) = some r := by
  simp only [parse_frame_length] at h ⊢
  rw [List.getD_append _ _ _ _ (by omega)]
  split_ifs at h with h1 h3 h4 h5
  · rw [if_pos h1, if_neg (by simp; omega), take_drop_append _ _ _ _ (by omega)]
    exact h
  · rw [if_neg h1, if_pos h4, if_neg (by simp; omega), take_drop_append _ _ _ _ (by omega)]
    exact h
  · rw [if_neg h1, if_neg h4]
    exact h

theorem frame_layout_append (b c : List Nat) (l : FrameLayout) (h : frame_layout b = some l) :
    frame_layout (b ++ c) = some l ∧ frame_payload (b ++ c) l = frame_payload b l ∧
    (b ++ c).getD 0 0 = b.getD 0 0 ∧
    (b ++ c).drop (l.data + l.payload_len) = b.drop (l.data + l.payload_len) ++ c := by
  obtain ⟨hb, hd⟩ := frame_layout_bound b l h
  refine ⟨?_, ?_, List.getD_append _ _ _ _ (by omega), List.drop_append_of_le_length hb⟩
  · unfold frame_layout at h ⊢
    cases hpl : parse_frame_length b with
    | none => simp [hpl] at h
    | some r =>
      obtain ⟨payload_len, off⟩ := r
      rw [parse_frame_length_append b c _ hpl (by omega), List.getD_append _ _ _ _ (by omega)]
      simp only [hpl] at h ⊢
      by_cases hm : (b.getD 1 0 &&& 128 != 0) = true
      · simp only [hm, Bool.true_and, decide_eq_true_eq, if_true] at h ⊢
        by_cases h1 : off + 4 > b.length
        · simp [h1] at h
        rw [if_neg h1] at h
        by_cases h2 : off + 4 + payload_len > b.length
        · simp [h2] at h
        rw [if_neg h2] at h
        rw [if_neg (by simp; omega), if_neg (by simp; omega),
          take_drop_append _ _ _ _ (by omega)]
        exact h
      · simp only [hm, Bool.false_and, if_false, Bool.false_eq_true] at h ⊢
        by_cases h2 : off + payload_len > b.length
        · simp [h2] at h
        rw [if_neg h2] at h
        rw [if_neg (by simp; omega)]
        exact h
  · unfold frame_payload
    rw [take_drop_append _ _ _ _ hb]
theorem append_buffer_eq (server : GdkBroadwayServer) (input : BroadwayInput) (c : List Nat)
    (hin : server.input = some input) :
    append_buffer server c = set_buffer server (input.buffer ++ c) := by
  simp [append_buffer, set_buffer, hin]

theorem append_buffer_set_buffer (server : GdkBroadwayServer) (b c : List Nat) :
    append_buffer (set_buffer server b) c = set_buffer server (b ++ c) := by
  cases h : server.input <;> simp [append_buffer, set_buffer, h]

theorem buffer_length_set_buffer (server : GdkBroadwayServer) (input : BroadwayInput)
    (b : List Nat) (hin : server.input = some input) :
    buffer_length (set_buffer server b) = b.length := by
  simp [buffer_length, set_buffer, hin]

theorem parse_input_message_input (server : GdkBroadwayServer) (input : BroadwayInput)
    (mem : List Nat) (hin : server.input = some input) :
    ∃ i, (parse_input_message server mem).input = some i ∧ i.buffer = input.buffer ∧
      i.proto_v7_plus = input.proto_v7_plus ∧ i.binary = input.binary :=
  ⟨_, (parse_input_message_time server input mem hin).1, rfl, rfl, rfl⟩

theorem handle_frame_input (server : GdkBroadwayServer) (input : BroadwayInput) (fin : Bool)
    (code : Nat) (data : List Nat) (n : Nat) (hin : server.input = some input) :
    ∃ i, (handle_frame server fin code data n).input = some i ∧ i.buffer = input.buffer ∧
      i.proto_v7_plus = input.proto_v7_plus ∧ i.binary = input.binary := by
  unfold handle_frame
  split_ifs
  · exact ⟨input, hin, rfl, rfl, rfl⟩
  · exact ⟨input, hin, rfl, rfl, rfl⟩
  · exact parse_input_message_input server input _ hin
  · exact ⟨input, hin, rfl, rfl, rfl⟩
  · exact ⟨input, hin, rfl, rfl, rfl⟩

theorem parse_frame_some (server server1 : GdkBroadwayServer) (h : parse_frame server = some server1) :
    ∃ input l, server.input = some input ∧ 2 < input.buffer.length ∧
      frame_layout input.buffer = some l := by
  cases hin : server.input with
  | none => simp [parse_frame, hin] at h
  | some input =>
    by_cases hlen : 2 < input.buffer.length
    · cases hl : frame_layout input.buffer with
      | none => rw [parse_frame_eq_none server input hin (Or.inr hl)] at h; cases h
      | some l => exact ⟨input, l, rfl, hlen, hl⟩
    · rw [parse_frame_eq_none server input hin (Or.inl (by omega))] at h; cases h

theorem parse_frame_progress (server server1 : GdkBroadwayServer)
    (h : parse_frame server = some server1) :
    buffer_length server1 + 2 ≤ buffer_length server ∧
    ∀ input, server.input = some input → ∃ i, server1.input = some i ∧
      i.proto_v7_plus = input.proto_v7_plus ∧ i.binary = input.binary := by
  obtain ⟨input, l, hin, hlen, hl⟩ := parse_frame_some server server1 h
  rw [parse_frame_eq server input l hin hlen hl] at h
  obtain ⟨hb, hd⟩ := frame_layout_bound _ _ hl
  obtain ⟨i, hi, -, hv, hbin⟩ := handle_frame_input server input
    ((input.buffer.getD 0 0 &&& 0x80) != 0) (input.buffer.getD 0 0 &&& 0x0f)
    (frame_payload input.buffer l) l.payload_len hin
  simp only [Option.some.injEq] at h
  subst h
  constructor
  · rw [buffer_length_set_buffer _ i _ hi]
    simp only [buffer_length, hin, List.length_drop]
    omega
  · intro input' hin'
    rw [hin] at hin'
    cases hin'
    exact ⟨{ i with buffer := List.drop (l.data + l.payload_len) input.buffer },
      by simp only [set_buffer, hi, Option.map_some'], hv, hbin⟩

theorem parse_frame_append (server server1 : GdkBroadwayServer) (c : List Nat)
    (h : parse_frame server = some server1) :
    parse_frame (append_buffer server c) = some (append_buffer server1 c) := by
  obtain ⟨input, l, hin, hlen, hl⟩ := parse_frame_some server server1 h
  rw [parse_frame_eq server input l hin hlen hl] at h
  simp only [Option.some.injEq] at h
  subst h
  obtain ⟨h1, h2, h3, h4⟩ := frame_layout_append input.buffer c l hl
  have hin2 : (append_buffer server c).input = some { input with buffer := input.buffer ++ c } := by
    simp [append_buffer, hin]
  rw [parse_frame_eq (append_buffer server c) _ l hin2 (by simp; omega) h1]
  simp only [h2, h3, h4]
  rw [append_buffer_eq server input c hin, handle_frame_set_buffer, set_buffer_set_buffer,
    append_buffer_set_buffer]

theorem parse_frame_none_of_short (server : GdkBroadwayServer) (h : buffer_length server ≤ 2) :
    parse_frame server = none := by
  cases hin : server.input with
  | none => simp [parse_frame, hin]
  | some input =>
    exact parse_frame_eq_none server input hin (Or.inl (by simpa [buffer_length, hin] using h))

theorem parse_input_v7_fuel (n m : Nat) (server : GdkBroadwayServer)
    (hn : buffer_length server ≤ n) (hm : buffer_length server ≤ m) :
    parse_input_v7 n server = parse_input_v7 m server := by
  induction n generalizing m server with
  | zero =>
    have h := parse_frame_none_of_short server (by omega)
    cases m with
    | zero => rfl
    | succ m => simp [parse_input_v7, h]
  | succ n ih =>
    cases hpf : parse_frame server with
    | none =>
      cases m with
      | zero => simp [parse_input_v7, hpf]
      | succ m => simp [parse_input_v7, hpf]
    | some server1 =>
      have hp := (parse_frame_progress server server1 hpf).1
      cases m with
      | zero =>
        rw [parse_frame_none_of_short server (by omega)] at hpf
        cases hpf
      | succ m =>
        simp only [parse_input_v7, hpf]
        exact ih m server1 (by omega) (by omega)

theorem parse_input_v7_of_none (n : Nat) (server : GdkBroadwayServer)
    (h : parse_frame server = none) : parse_input_v7 n server = server := by
  cases n <;> simp [parse_input_v7, h]

theorem parse_input_eq_v7 (server : GdkBroadwayServer) (input : BroadwayInput) (n : Nat)
    (hin : server.input = some input) (hv : input.proto_v7_plus = true)
    (hn : buffer_length server ≤ n) :
    parse_input server = parse_input_v7 n server := by
  unfold parse_input
  simp only [hin, hv, if_true]
  split_ifs with h0
  · rw [parse_input_v7_of_none]
    exact parse_frame_none_of_short server (by simp [buffer_length, hin, h0])
  · exact parse_input_v7_fuel _ _ _ (by simp [buffer_length, hin]) hn

theorem parse_input_v7_length (n : Nat) (server : GdkBroadwayServer) :
    buffer_length (parse_input_v7 n server) ≤ buffer_length server ∧
    ∀ input, server.input = some input → ∃ i, (parse_input_v7 n server).input = some i ∧
      i.proto_v7_plus = input.proto_v7_plus ∧ i.binary = input.binary := by
  induction n generalizing server with
  | zero => exact ⟨le_refl _, fun input h => ⟨input, h, rfl, rfl⟩⟩
  | succ n ih =>
    cases hpf : parse_frame server with
    | none =>
      simp only [parse_input_v7, hpf]
      exact ⟨le_refl _, fun input h => ⟨input, h, rfl, rfl⟩⟩
    | some server1 =>
      simp only [parse_input_v7, hpf]
      obtain ⟨hp1, hp2⟩ := parse_frame_progress server server1 hpf
      obtain ⟨ih1, ih2⟩ := ih server1
      refine ⟨by omega, fun input h => ?_⟩
      obtain ⟨i1, hi1, hv1, hb1⟩ := hp2 input h
      obtain ⟨i2, hi2, hv2, hb2⟩ := ih2 i1 hi1
      exact ⟨i2, hi2, hv2.trans hv1, hb2.trans hb1⟩

theorem buffer_length_append_buffer (server : GdkBroadwayServer) (c : List Nat) :
    buffer_length (append_buffer server c) ≤ buffer_length server + c.length := by
  cases h : server.input <;> simp [buffer_length, append_buffer, h]

theorem parse_input_v7_append (n : Nat) (server : GdkBroadwayServer) (c : List Nat) (N : Nat)
    (hn : buffer_length server ≤ n) (hN : buffer_length server + c.length ≤ N) :
    parse_input_v7 N (append_buffer (parse_input_v7 n server) c) =
      parse_input_v7 N (append_buffer server c) := by
  induction n generalizing server N with
  | zero => rfl
  | succ n ih =>
    cases hpf : parse_frame server with
    | none => simp only [parse_input_v7, hpf]
    | some server1 =>
      have hp := (parse_frame_progress server server1 hpf).1
      have hl := (parse_input_v7_length n server1).1
      have ha := buffer_length_append_buffer (parse_input_v7 n server1) c
      have ha1 := buffer_length_append_buffer server1 c
      simp only [parse_input_v7, hpf]
      cases N with
      | zero => omega
      | succ N =>
        have hR : parse_input_v7 (N + 1) (append_buffer server c) =
            parse_input_v7 N (append_buffer server1 c) := by
          simp only [parse_input_v7, parse_frame_append server server1 c hpf]
        rw [hR, ← ih server1 N (by omega) (by omega)]
        exact parse_input_v7_fuel _ _ _ (by omega) (by omega)

/-- Parsing, appending more bytes and parsing again is the same as appending
the bytes first and parsing once: `parse_input` on a v7+ channel consumes the
byte stream frame by frame, whatever the reads it arrives in. -/
theorem parse_input_append (server : GdkBroadwayServer) (input : BroadwayInput) (c : List Nat)
    (hin : server.input = some input) (hv : input.proto_v7_plus = true) :
    parse_input (append_buffer (parse_input server) c) = parse_input (append_buffer server c) := by
  have h1 := parse_input_eq_v7 server input (buffer_length server) hin hv (le_refl _)
  obtain ⟨hl, hi⟩ := parse_input_v7_length (buffer_length server) server
  obtain ⟨i, hi1, hv1, -⟩ := hi input hin
  have ha := buffer_length_append_buffer (parse_input_v7 (buffer_length server) server) c
  have ha1 := buffer_length_append_buffer server c
  rw [h1,
    parse_input_eq_v7 (append_buffer (parse_input_v7 (buffer_length server) server) c)
      { i with buffer := i.buffer ++ c } (buffer_length server + c.length)
      (by simp [append_buffer, hi1]) (by simp [hv1, hv]) (by omega),
    parse_input_eq_v7 (append_buffer server c) { input with buffer := input.buffer ++ c }
      (buffer_length server + c.length) (by simp [append_buffer, hin]) hv (by omega)]
  exact parse_input_v7_append _ _ _ _ (le_refl _) (le_refl _)

theorem from_be_to_be_2 (n : Nat) (h : n < 65536) : from_be (to_be 2 n) = n := by
  simp only [to_be, from_be, List.nil_append, List.cons_append, List.foldl_cons, List.foldl_nil]
  omega

theorem parse_frame_length_short (b0 b1 : Nat) (tail : List Nat) (h : b1 &&& 0x7f ≤ 125) :
    parse_frame_length (b0 :: b1 :: tail) = some (b1 &&& 0x7f, 2) := by
  simp only [parse_frame_length, List.getD_cons_zero, List.getD_cons_succ]
  rw [if_neg (by omega), if_neg (by omega)]

theorem parse_frame_length_ext16 (b0 b1 : Nat) (n : Nat) (tail : List Nat)
    (h : b1 &&& 0x7f = 126) (hn : n < 65536) :
    parse_frame_length (b0 :: b1 :: (to_be 2 n ++ tail)) = some (n, 4) := by
  simp only [parse_frame_length, List.getD_cons_zero, List.getD_cons_succ, h]
  rw [if_pos (by omega), if_neg (by simp [to_be])]
  have : List.take 2 (List.drop 2 (b0 :: b1 :: (to_be 2 n ++ tail))) = to_be 2 n := by
    simp [to_be]
  rw [this, from_be_to_be_2 n hn]

theorem frame_layout_unmasked (hdr payload rest : List Nat)
    (hpl : parse_frame_length (hdr ++ payload ++ rest) = some (payload.length, hdr.length))
    (hm : (((hdr ++ payload ++ rest).getD 1 0 &&& 0x80) != 0) = false) :
    frame_layout (hdr ++ payload ++ rest) = some ⟨false, [], hdr.length, payload.length⟩ := by
  simp only [frame_layout, hpl, hm, Bool.false_and, Bool.false_eq_true, if_false]
  rw [if_neg (by simp)]

theorem frame_layout_masked (hdr m wire rest : List Nat) (hm4 : m.length = 4)
    (hpl : parse_frame_length (hdr ++ m ++ wire ++ rest) = some (wire.length, hdr.length))
    (hm : (((hdr ++ m ++ wire ++ rest).getD 1 0 &&& 0x80) != 0) = true) :
    frame_layout (hdr ++ m ++ wire ++ rest) = some ⟨true, m, hdr.length + 4, wire.length⟩ := by
  simp only [frame_layout, hpl, hm, Bool.true_and, if_true, decide_eq_true_eq]
  rw [if_neg (by simp; omega), if_neg (by simp; omega)]
  have : List.take 4 (List.drop hdr.length (hdr ++ m ++ wire ++ rest)) = m := by
    rw [List.append_assoc, List.append_assoc, List.drop_left, List.take_left' hm4]
  rw [this]
theorem frame_parts_unmasked (hdr payload rest : List Nat)
    (hpl : parse_frame_length (hdr ++ payload ++ rest) = some (payload.length, hdr.length))
    (hm : (((hdr ++ payload ++ rest).getD 1 0 &&& 0x80) != 0) = false) :
    ∃ l, frame_layout (hdr ++ payload ++ rest) = some l ∧
      l.data + l.payload_len = (hdr ++ payload).length ∧ l.payload_len = payload.length ∧
      frame_payload (hdr ++ payload ++ rest) l = payload := by
  refine ⟨_, frame_layout_unmasked hdr payload rest hpl hm, by simp, rfl, ?_⟩
  simp only [frame_payload, Bool.false_eq_true, if_false]
  rw [List.append_assoc, List.drop_left, List.take_left]

theorem frame_parts_masked (hdr m payload rest : List Nat) (hm4 : m.length = 4)
    (hpl : parse_frame_length (hdr ++ m ++ unmask m payload ++ rest) =
      some (payload.length, hdr.length))
    (hm : (((hdr ++ m ++ unmask m payload ++ rest).getD 1 0 &&& 0x80) != 0) = true) :
    ∃ l, frame_layout (hdr ++ m ++ unmask m payload ++ rest) = some l ∧
      l.data + l.payload_len = (hdr ++ m ++ unmask m payload).length ∧
      l.payload_len = payload.length ∧
      frame_payload (hdr ++ m ++ unmask m payload ++ rest) l = payload := by
  have hlen := unmask_length m payload
  rw [← hlen] at hpl
  refine ⟨_, frame_layout_masked hdr m (unmask m payload) rest hm4 hpl hm, ?_, hlen, ?_⟩
  · simp [hm4]; omega
  · simp only [frame_payload, if_true]
    have : List.drop (hdr.length + 4) (hdr ++ m ++ unmask m payload ++ rest) =
        unmask m payload ++ rest := by
      rw [List.append_assoc, List.drop_left' (by simp [hm4])]
    rw [this, List.take_left, unmask_unmask m payload]

theorem frame_layout_encode (fr : WSFrame) (rest : List Nat) (hwf : fr.wf)
    (hform : fr.form ≠ LengthForm.ext64) :
    ∃ l, frame_layout (fr.encode ++ rest) = some l ∧
      l.data + l.payload_len = fr.encode.length ∧ l.payload_len = fr.payload.length ∧
      frame_payload (fr.encode ++ rest) l = fr.payload := by
  obtain ⟨fin, rsv, opcode, mask, form, payload⟩ := fr
  obtain ⟨hr, ho, hm, hp, hf⟩ := hwf
  simp only at hr ho hm hp hf hform
  cases form with
  | ext64 => exact absurd rfl hform
  | short =>
    simp only at hf
    cases mask with
    | none =>
      have h1 := byte1_bits false payload.length (by omega)
      simp only [Bool.false_eq_true, if_false, Nat.zero_add] at h1
      simp only [WSFrame.encode, WSFrame.header, WSFrame.ext_length, Option.isSome_none,
        Bool.false_eq_true, if_false, Nat.zero_add, List.append_nil]
      apply frame_parts_unmasked
      · have := parse_frame_length_short ((if fin = true then 128 else 0) + 16 * rsv + opcode)
          payload.length (payload ++ rest) (by rw [h1.2]; exact hf)
        rw [h1.2] at this
        simpa using this
      · simpa using h1.1
    | some m =>
      obtain ⟨hm4, -⟩ := hm m rfl
      have h1 := byte1_bits true payload.length (by omega)
      simp only [if_true] at h1
      simp only [WSFrame.encode, WSFrame.header, WSFrame.ext_length, Option.isSome_some,
        if_true, List.append_nil, ← List.append_assoc]
      apply frame_parts_masked _ _ _ _ hm4
      · have := parse_frame_length_short ((if fin = true then 128 else 0) + 16 * rsv + opcode)
          (128 + payload.length) (m ++ unmask m payload ++ rest) (by rw [h1.2]; exact hf)
        rw [h1.2] at this
        simpa using this
      · simp [h1.1]
  | ext16 =>
    simp only at hf
    cases mask with
    | none =>
      have h1 := byte1_bits false 126 (by omega)
      simp only [Bool.false_eq_true, if_false, Nat.zero_add] at h1
      simp only [WSFrame.encode, WSFrame.header, WSFrame.ext_length, Option.isSome_none,
        Bool.false_eq_true, if_false, Nat.zero_add]
      apply frame_parts_unmasked
      · have := parse_frame_length_ext16 ((if fin = true then 128 else 0) + 16 * rsv + opcode)
          126 payload.length (payload ++ rest) h1.2 hf
        simpa [to_be] using this
      · simpa using h1.1
    | some m =>
      obtain ⟨hm4, -⟩ := hm m rfl
      have h1 := byte1_bits true 126 (by omega)
      simp only [if_true] at h1
      simp only [WSFrame.encode, WSFrame.header, WSFrame.ext_length, Option.isSome_some,
        if_true, ← List.append_assoc]
      apply frame_parts_masked _ _ _ _ hm4
      · have := parse_frame_length_ext16 ((if fin = true then 128 else 0) + 16 * rsv + opcode)
          (128 + 126) payload.length (m ++ unmask m payload ++ rest) h1.2 hf
        simpa [to_be] using this
      · simp

theorem encode_byte0 (fr : WSFrame) (rest : List Nat) (hwf : fr.wf) :
    (((fr.encode ++ rest).getD 0 0 &&& 0x80) != 0) = fr.fin ∧
    (fr.encode ++ rest).getD 0 0 &&& 0x0f = fr.opcode := by
  have h0 := byte0_bits fr.fin fr.rsv fr.opcode hwf.1 hwf.2.1
  simpa [WSFrame.encode, WSFrame.header] using h0

theorem encode_length_ge (fr : WSFrame) : 2 ≤ fr.encode.length := by
  simp [WSFrame.encode, WSFrame.header]
theorem handle_frame_eq_frame_effect (server : GdkBroadwayServer) (fr : WSFrame) :
    handle_frame server fr.fin fr.opcode fr.payload fr.payload.length = frame_effect server fr := by
  unfold handle_frame frame_effect
  simp only [BROADWAY_WS_CNX_CLOSE, BROADWAY_WS_TEXT, BROADWAY_WS_CNX_PING]
  cases hf : fr.fin <;> split_ifs <;> first | rfl | omega | simp_all

theorem parse_frame_complete (server : GdkBroadwayServer) (input : BroadwayInput) (fr : WSFrame)
    (rest : List Nat) (hin : server.input = some input) (hwf : fr.wf)
    (hform : fr.form ≠ LengthForm.ext64) (hbuf : input.buffer = fr.encode ++ rest)
    (hlen : 2 < input.buffer.length) :
    parse_frame server = some (set_buffer (frame_effect server fr) rest) := by
  obtain ⟨l, hl, hd, hp, hpay⟩ := frame_layout_encode fr rest hwf hform
  obtain ⟨hb0, hb1⟩ := encode_byte0 fr rest hwf
  rw [← hbuf] at hl hpay hb0 hb1
  rw [parse_frame_eq server input l hin hlen hl, hb0, hb1, hpay, hd, hp, hbuf, List.drop_left,
    handle_frame_eq_frame_effect]

theorem frame_layout_prefix_none (fr : WSFrame) (b : List Nat) (hwf : fr.wf)
    (hform : fr.form ≠ LengthForm.ext64) (hpre : b <+: fr.encode) (hne : b ≠ fr.encode) :
    frame_layout b = none := by
  obtain ⟨c, hc⟩ := hpre
  cases hl : frame_layout b with
  | none => rfl
  | some l =>
    exfalso
    have hb := (frame_layout_bound b l hl).1
    have h1 := (frame_layout_append b c l hl).1
    obtain ⟨l', hl', hd', -⟩ := frame_layout_encode fr [] hwf hform
    rw [List.append_nil, ← hc, h1] at hl'
    cases hl'
    have hlen : (b ++ c).length = fr.encode.length := by rw [hc]
    have hcne : c ≠ [] := by
      intro h0
      rw [h0, List.append_nil] at hc
      exact hne hc
    have : 0 < c.length := List.length_pos.mpr hcne
    rw [List.length_append] at hlen
    omega
theorem parse_input_of_frame_none (server : GdkBroadwayServer) (input : BroadwayInput)
    (hin : server.input = some input) (hv : input.proto_v7_plus = true)
    (h : parse_frame server = none) : parse_input server = server := by
  rw [parse_input_eq_v7 server input _ hin hv (le_refl _), parse_input_v7_of_none _ _ h]

/-- C5: partial frames are not consumed.  When the buffer of a v7+ channel is a
proper prefix of the bytes of a frame (base length at most 126), `parse_input`
returns the server as it was: the buffer bytes (nothing is unmasked), the
pending queue, the time and the pointer state are all unchanged. -/
theorem partial_frame_not_consumed (server : GdkBroadwayServer) (input : BroadwayInput)
    (fr : WSFrame) (hin : server.input = some input) (hv : input.proto_v7_plus = true)
    (hwf : fr.wf) (hform : fr.form ≠ LengthForm.ext64)
    (hpre : input.buffer <+: fr.encode) (hne : input.buffer ≠ fr.encode) :
    parse_input server = server :=
  parse_input_of_frame_none server input hin hv
    (parse_frame_eq_none server input hin
      (Or.inr (frame_layout_prefix_none fr input.buffer hwf hform hpre hne)))

theorem ex_frame_wf : ex_frame.wf := by
  simp [WSFrame.wf, ex_frame]

/-- Witness of `partial_frame_not_consumed`: the first eight of the eleven
bytes of `ex_frame`. -/
theorem partial_frame_not_consumed_witness :
    (ex_server_with (ex_frame.encode.take 8)).input =
      some { ex_input with buffer := ex_frame.encode.take 8 } ∧
    ex_input.proto_v7_plus = true ∧ ex_frame.wf ∧ ex_frame.form ≠ LengthForm.ext64 ∧
    ex_frame.encode.take 8 <+: ex_frame.encode ∧ ex_frame.encode.take 8 ≠ ex_frame.encode ∧
    parse_input (ex_server_with (ex_frame.encode.take 8)) =
      ex_server_with (ex_frame.encode.take 8) :=
  ⟨rfl, rfl, ex_frame_wf, by decide, List.take_prefix _ _, by decide,
    partial_frame_not_consumed _ _ ex_frame rfl rfl ex_frame_wf (by decide)
      (List.take_prefix _ _) (by decide)⟩

theorem read_data_eq (server : GdkBroadwayServer) (input : BroadwayInput) (c : List Nat)
    (hin : server.input = some input) (hc : c ≠ []) :
    _gdk_broadway_server_read_all_input_nonblocking server (ReadResult.data c) =
      parse_input (append_buffer server c) := by
  cases c with
  | nil => exact absurd rfl hc
  | cons b bs => simp [_gdk_broadway_server_read_all_input_nonblocking, hin, append_buffer]

theorem parse_input_keeps_v7 (server : GdkBroadwayServer) (input : BroadwayInput)
    (hin : server.input = some input) (hv : input.proto_v7_plus = true) :
    ∃ i, (parse_input server).input = some i ∧ i.proto_v7_plus = true := by
  rw [parse_input_eq_v7 server input _ hin hv (le_refl _)]
  obtain ⟨i, hi, hv1, -⟩ := (parse_input_v7_length (buffer_length server) server).2 input hin
  exact ⟨i, hi, hv1.trans hv⟩

theorem append_buffer_append (server : GdkBroadwayServer) (c d : List Nat) :
    append_buffer (append_buffer server c) d = append_buffer server (c ++ d) := by
  cases h : server.input <;> simp [append_buffer, h]

/-- Split invariance of the v7+ codec for any byte stream: reading the stream
in non-empty chunks, with `parse_input` after each read, leaves the server in
the state that one read of the whole stream leaves it in. -/
theorem feed_chunks_eq (chunks : List (List Nat)) (server : GdkBroadwayServer)
    (input : BroadwayInput) (hin : server.input = some input)
    (hv : input.proto_v7_plus = true) (hne : chunks ≠ []) (hc : ∀ c ∈ chunks, c ≠ []) :
    feed_chunks server chunks = parse_input (append_buffer server chunks.flatten) := by
  induction chunks generalizing server input with
  | nil => exact absurd rfl hne
  | cons c cs ih =>
    have hcne : c ≠ [] := hc c (List.mem_cons_self _ _)
    have hstep : feed_chunks server (c :: cs) =
        feed_chunks (parse_input (append_buffer server c)) cs := by
      simp only [feed_chunks, List.foldl_cons, read_data_eq server input c hin hcne]
    rw [hstep]
    have hin1 : (append_buffer server c).input = some { input with buffer := input.buffer ++ c } := by
      simp [append_buffer, hin]
    by_cases hcs : cs = []
    · subst hcs
      simp [feed_chunks]
    · obtain ⟨i, hi, hvi⟩ := parse_input_keeps_v7 (append_buffer server c) _ hin1 hv
      rw [ih _ i hi hvi hcs (fun d hd => hc d (List.mem_cons_of_mem _ hd)),
        parse_input_append _ _ _ hin1 hv, append_buffer_append]
      simp
theorem frame_effect_input (server : GdkBroadwayServer) (input : BroadwayInput) (fr : WSFrame)
    (hin : server.input = some input) :
    ∃ i, (frame_effect server fr).input = some i ∧ i.proto_v7_plus = input.proto_v7_plus := by
  rw [← handle_frame_eq_frame_effect]
  obtain ⟨i, hi, -, hv, -⟩ := handle_frame_input server input fr.fin fr.opcode fr.payload
    fr.payload.length hin
  exact ⟨i, hi, hv⟩

theorem frame_effect_set_buffer (server : GdkBroadwayServer) (b : List Nat) (fr : WSFrame) :
    frame_effect (set_buffer server b) fr = set_buffer (frame_effect server fr) b := by
  rw [← handle_frame_eq_frame_effect, ← handle_frame_eq_frame_effect, handle_frame_set_buffer]

/-- A complete frame (base length at most 126) at the front of a v7+ buffer of
more than two bytes is handled and exactly its bytes are removed; `parse_input`
then goes on with what follows the frame. -/
theorem parse_input_complete_frame (server : GdkBroadwayServer) (input : BroadwayInput)
    (fr : WSFrame) (rest : List Nat) (hin : server.input = some input)
    (hv : input.proto_v7_plus = true) (hwf : fr.wf) (hform : fr.form ≠ LengthForm.ext64)
    (hbuf : input.buffer = fr.encode ++ rest) (hlen : 2 < input.buffer.length) :
    parse_frame server = some (set_buffer (frame_effect server fr) rest) ∧
    parse_input server = parse_input (set_buffer (frame_effect server fr) rest) := by
  have hpf := parse_frame_complete server input fr rest hin hwf hform hbuf hlen
  refine ⟨hpf, ?_⟩
  obtain ⟨i, hi, hvi⟩ := frame_effect_input server input fr hin
  have hi2 : (set_buffer (frame_effect server fr) rest).input = some { i with buffer := rest } := by
    simp [set_buffer, hi]
  have hp := (parse_frame_progress _ _ hpf).1
  rw [parse_input_eq_v7 server input (buffer_length server + 1) hin hv (by omega),
    parse_input_eq_v7 _ _ (buffer_length server) hi2 (hvi.trans hv) (by omega)]
  simp only [parse_input_v7, hpf]

theorem parse_input_empty (server : GdkBroadwayServer) :
    parse_input (set_buffer server []) = set_buffer server [] := by
  cases h : server.input <;> simp [parse_input, set_buffer, h]

/-- Split invariance for frames with base length at most 126: a complete masked
text frame with FIN, read into an empty buffer in any non-empty chunks, queues
exactly the one message parsed from its payload and leaves the buffer empty,
as one read of the whole frame does. -/
theorem split_invariance_upto_ext16 (server : GdkBroadwayServer) (input : BroadwayInput)
    (fr : WSFrame) (chunks : List (List Nat)) (hin : server.input = some input)
    (hv : input.proto_v7_plus = true) (hempty : input.buffer = []) (hwf : fr.wf)
    (hform : fr.form ≠ LengthForm.ext64) (hmask : fr.mask.isSome = true)
    (htext : fr.opcode = BROADWAY_WS_TEXT) (hfin : fr.fin = true)
    (hc : ∀ c ∈ chunks, c ≠ []) (hjoin : chunks.flatten = fr.encode) :
    feed_chunks server chunks =
      set_buffer (parse_input_message server (g_strndup fr.payload fr.payload.length)) [] ∧
    feed_chunks server [fr.encode] = feed_chunks server chunks := by
  have hlen : 2 < fr.encode.length := by
    obtain ⟨m, hm⟩ := Option.isSome_iff_exists.mp hmask
    have := (hwf.2.2.1 m hm).1
    simp [WSFrame.encode, WSFrame.header, hm]
    omega
  have hene : fr.encode ≠ [] := by
    intro h; rw [h] at hlen; simp at hlen
  have hchunks : chunks ≠ [] := by
    intro h; rw [h] at hjoin; exact hene hjoin.symm
  have key : parse_input (append_buffer server fr.encode) =
      set_buffer (parse_input_message server (g_strndup fr.payload fr.payload.length)) [] := by
    have hin1 : (append_buffer server fr.encode).input =
        some { input with buffer := fr.encode ++ [] } := by
      simp [append_buffer, hin, hempty]
    rw [(parse_input_complete_frame _ _ fr [] hin1 hv hwf hform rfl (by simpa using hlen)).2,
      parse_input_empty, append_buffer_eq server input _ hin, frame_effect_set_buffer,
      set_buffer_set_buffer]
    simp [frame_effect, htext, hfin]
  rw [feed_chunks_eq chunks server input hin hv hchunks hc, hjoin, key]
  refine ⟨rfl, ?_⟩
  rw [feed_chunks_eq [fr.encode] server input hin hv (by simp) (by simpa using hene)]
  simpa using key

theorem ex_frame_close_wf : ex_frame_close.wf := by
  simp [WSFrame.wf, ex_frame_close]

theorem ex_frame_ext64_wf : ex_frame_ext64.wf := by
  simp [WSFrame.wf, ex_frame_ext64]

theorem ex_frame_ext64_masked_wf : ex_frame_ext64_masked.wf := by
  simp [WSFrame.wf, ex_frame_ext64_masked]

/-- The length decoding of `parse_input` for base length 127: the test
`payload_len > 125` comes first, so the length is read from the next 2 bytes
and the 8-byte branch is never taken. -/
theorem parse_frame_length_127 (buf : List Nat) (h : buf.getD 1 0 &&& 0x7f = 127)
    (hlen : 4 ≤ buf.length) :
    parse_frame_length buf = some (from_be ((buf.drop 2).take 2), 4) := by
  simp only [parse_frame_length, h]
  rw [if_pos (by omega), if_neg (by omega)]

/-- C2 (code_bug): split invariance fails for a frame in the 8-byte length form.
The masked text frame `ex_frame_ext64_masked` (FIN, payload `m`) read into an
empty buffer, in one read or in two, queues one message, but it is the parse of
an empty payload (tag 0) and not of `m`, and four bytes stay in the buffer. -/
theorem split_invariance_ext64 :
    ex_frame_ext64_masked.wf ∧
    ex_frame_ext64_masked.encode = [129, 255, 0, 0, 0, 0, 0, 0, 0, 1, 1, 2, 3, 4, 108] ∧
    (feed_chunks ex_server [ex_frame_ext64_masked.encode]).input_messages =
      [{ type := 0, serial := 0, time := 1, payload := BroadwayInputPayload.unparsed }] ∧
    (feed_chunks ex_server [ex_frame_ext64_masked.encode]).input =
      some { ex_input with buffer := [2, 3, 4, 108] } ∧
    feed_chunks ex_server [ex_frame_ext64_masked.encode.take 7,
        ex_frame_ext64_masked.encode.drop 7] =
      feed_chunks ex_server [ex_frame_ext64_masked.encode] ∧
    feed_chunks ex_server [ex_frame_ext64_masked.encode] ≠
      set_buffer (parse_input_message ex_server
        (g_strndup ex_frame_ext64_masked.payload ex_frame_ext64_masked.payload.length)) [] := by
  refine ⟨ex_frame_ext64_masked_wf, by decide, by decide, by decide, by decide, by decide⟩

/-- C3 (code_bug): a buffer that holds exactly a complete two-byte frame.  The
unmasked close frame `ex_frame_close` is complete with its two bytes, but the
loop of `parse_input` runs only while the buffer has more than two bytes, so
the frame is not removed. -/
theorem two_byte_frame_not_removed :
    ex_frame_close.wf ∧ ex_frame_close.form ≠ LengthForm.ext64 ∧
    ex_frame_close.encode = [136, 0] ∧
    parse_input (ex_server_with ex_frame_close.encode) = ex_server_with [136, 0] ∧
    parse_input (ex_server_with ex_frame_close.encode) ≠
      set_buffer (frame_effect (ex_server_with ex_frame_close.encode) ex_frame_close) [] := by
  refine ⟨ex_frame_close_wf, by decide, by decide, by decide, by decide⟩

/-- C4 (code_bug): the 8-byte length is not decoded.  For the unmasked text
frame `ex_frame_ext64`, whose 8 length bytes say 1 and whose payload `m` starts
at offset 10, `parse_input` takes the length 0 from the first 2 of these bytes
and the payload at offset 4, and queues the parse of an empty message. -/
theorem ext64_length_not_decoded :
    ex_frame_ext64.wf ∧
    ex_frame_ext64.encode = [129, 127, 0, 0, 0, 0, 0, 0, 0, 1, 109] ∧
    frame_layout ex_frame_ext64.encode =
      some { is_mask := false, mask := [], data := 4, payload_len := 0 } ∧
    (parse_input (ex_server_with ex_frame_ext64.encode)).input_messages =
      [{ type := 0, serial := 0, time := 1, payload := BroadwayInputPayload.unparsed }] ∧
    (parse_input_message ex_server ex_frame_ext64.payload).input_messages =
      [{ type := 109, serial := 0, time := 1,
         payload := BroadwayInputPayload.pointer
           { mouse_window_id := 0, event_window_id := 0, root_x := 0, root_y := 0,
             win_x := 0, win_y := 0, state := 0 } }] := by
  refine ⟨ex_frame_ext64_wf, by decide, by decide, by decide, by decide⟩

/-! ## The pointer grab -/

theorem flush_grab_fields (server : GdkBroadwayServer) :
    (_gdk_broadway_server_flush server).pointer_grab_window_id = server.pointer_grab_window_id ∧
    (_gdk_broadway_server_flush server).pointer_grab_time = server.pointer_grab_time ∧
    (_gdk_broadway_server_flush server).pointer_grab_owner_events =
      server.pointer_grab_owner_events := by
  unfold _gdk_broadway_server_flush
  cases server.output with
  | none => exact ⟨rfl, rfl, rfl⟩
  | some o => simp only []; split_ifs <;> exact ⟨rfl, rfl, rfl⟩

theorem grab_pointer_rejected (server : GdkBroadwayServer) (id : Int) (owner_events : Bool)
    (event_mask t : Nat)
    (h : server.pointer_grab_window_id ≠ -1 ∧ t ≠ 0 ∧ t < server.pointer_grab_time) :
    _gdk_broadway_server_grab_pointer server id owner_events event_mask t =
      (GdkGrabStatus.GDK_GRAB_ALREADY_GRABBED, server) := by
  unfold _gdk_broadway_server_grab_pointer
  rw [if_pos h]

theorem grab_pointer_accepted (server : GdkBroadwayServer) (id : Int) (owner_events : Bool)
    (event_mask t : Nat)
    (h : ¬ (server.pointer_grab_window_id ≠ -1 ∧ t ≠ 0 ∧ t < server.pointer_grab_time)) :
    (_gdk_broadway_server_grab_pointer server id owner_events event_mask t).1 =
      GdkGrabStatus.GDK_GRAB_SUCCESS ∧
    (_gdk_broadway_server_grab_pointer server id owner_events event_mask t).2.pointer_grab_window_id
      = id ∧
    (_gdk_broadway_server_grab_pointer server id owner_events event_mask
      t).2.pointer_grab_owner_events = owner_events ∧
    (_gdk_broadway_server_grab_pointer server id owner_events event_mask t).2.pointer_grab_time =
      (if t = 0 then server.last_seen_time % 4294967296 else t) := by
  have htime : to_guint32 (server.last_seen_time : Int) = server.last_seen_time % 4294967296 := by
    unfold to_guint32; omega
  unfold _gdk_broadway_server_grab_pointer
  rw [if_neg h]
  cases ho : server.output with
  | none => simp [htime]
  | some o => simp [htime, flush_grab_fields]

/-- C7: grab arbitration in `_gdk_broadway_server_grab_pointer`.  The request is
rejected, returning `GDK_GRAB_ALREADY_GRABBED` with the server (grab state and
output channel included) unchanged, exactly when a grab is held, `t` is nonzero
and `t` is less than the grab time.  Otherwise it returns `GDK_GRAB_SUCCESS`
and the grab state is: holder `id`, the given owner-events flag, and grab time
`t`, or for `t = 0` the server's `last_seen_time` as a `guint32` (which is
`last_seen_time` itself below `2^32`). -/
theorem grab_pointer_arbitration (server : GdkBroadwayServer) (id : Int) (owner_events : Bool)
    (event_mask t : Nat) :
    let r := _gdk_broadway_server_grab_pointer server id owner_events event_mask t
    let held_later := server.pointer_grab_window_id ≠ -1 ∧ t ≠ 0 ∧ t < server.pointer_grab_time
    (r.1 = GdkGrabStatus.GDK_GRAB_ALREADY_GRABBED ↔ held_later) ∧
    (held_later → r = (GdkGrabStatus.GDK_GRAB_ALREADY_GRABBED, server)) ∧
    (¬ held_later →
      r.1 = GdkGrabStatus.GDK_GRAB_SUCCESS ∧
      r.2.pointer_grab_window_id = id ∧
      r.2.pointer_grab_owner_events = owner_events ∧
      r.2.pointer_grab_time = (if t = 0 then server.last_seen_time % 4294967296 else t) ∧
      (t = 0 → server.last_seen_time < 4294967296 →
        r.2.pointer_grab_time = server.last_seen_time)) := by
  intro r held_later
  by_cases h : server.pointer_grab_window_id ≠ -1 ∧ t ≠ 0 ∧ t < server.pointer_grab_time
  · have hr := grab_pointer_rejected server id owner_events event_mask t h
    exact ⟨⟨fun _ => h, fun _ => by show (_gdk_broadway_server_grab_pointer _ _ _ _ _).1 = _; rw [hr]⟩,
      fun _ => hr, fun hn => absurd h hn⟩
  · have hs := grab_pointer_accepted server id owner_events event_mask t h
    refine ⟨⟨fun ha => ?_, fun hh => absurd hh h⟩, fun hh => absurd hh h, fun _ => ⟨hs.1, hs.2.1,
      hs.2.2.1, hs.2.2.2, fun h0 hlt => ?_⟩⟩
    · have := hs.1.symm.trans ha
      cases this
    · show (_gdk_broadway_server_grab_pointer _ _ _ _ _).2.pointer_grab_time = _
      rw [hs.2.2.2, if_pos h0, Nat.mod_eq_of_lt hlt]

/-- C8 (counterexample): a later grab request succeeds.  While window 1 holds
the grab taken at time 10, the request of window 2 at time 20 returns
`GDK_GRAB_SUCCESS` and window 2 becomes the holder. -/
theorem later_grab_succeeds :
    ex_server_grabbed.pointer_grab_window_id = 1 ∧ ex_server_grabbed.pointer_grab_time = 10 ∧
    (_gdk_broadway_server_grab_pointer ex_server_grabbed 2 false 0 20).1 =
      GdkGrabStatus.GDK_GRAB_SUCCESS ∧
    (_gdk_broadway_server_grab_pointer ex_server_grabbed 2 false 0 20).2.pointer_grab_window_id
      = 2 := by
  decide

/-- C8 (amended): while a pointer grab acquired at time `T1` is held, a
grab request with a nonzero time `T2 < T1` fails: it returns
`GDK_GRAB_ALREADY_GRABBED` and changes nothing; a request with `T2 >= T1`
succeeds and its window becomes the holder. -/
theorem earlier_grab_rejected (server : GdkBroadwayServer) (id : Int) (owner_events : Bool)
    (event_mask T2 : Nat) (hheld : server.pointer_grab_window_id ≠ -1) (hT2 : T2 ≠ 0) :
    (T2 < server.pointer_grab_time →
      _gdk_broadway_server_grab_pointer server id owner_events event_mask T2 =
        (GdkGrabStatus.GDK_GRAB_ALREADY_GRABBED, server)) ∧
    (server.pointer_grab_time ≤ T2 →
      (_gdk_broadway_server_grab_pointer server id owner_events event_mask T2).1 =
        GdkGrabStatus.GDK_GRAB_SUCCESS ∧
      (_gdk_broadway_server_grab_pointer server id owner_events event_mask
        T2).2.pointer_grab_window_id = id) := by
  constructor
  · intro hlt
    exact grab_pointer_rejected server id owner_events event_mask T2 ⟨hheld, hT2, hlt⟩
  · intro hle
    have h := grab_pointer_accepted server id owner_events event_mask T2
      (fun hc => absurd hc.2.2 (by omega))
    exact ⟨h.1, h.2.1⟩

/-- Witness of `earlier_grab_rejected`: while window 1 holds the grab taken at
time 10, the request of window 2 at time 5 is rejected. -/
theorem earlier_grab_rejected_witness :
    ex_server_grabbed.pointer_grab_window_id ≠ -1 ∧
    (5 : Nat) ≠ 0 ∧ 5 < ex_server_grabbed.pointer_grab_time ∧
    _gdk_broadway_server_grab_pointer ex_server_grabbed 2 false 0 5 =
      (GdkGrabStatus.GDK_GRAB_ALREADY_GRABBED, ex_server_grabbed) :=
  ⟨by decide, by decide, by decide,
    (earlier_grab_rejected ex_server_grabbed 2 false 0 5 (by decide) (by decide)).1 (by decide)⟩

/-- C9: `_gdk_broadway_server_ungrab_pointer` applies the time check of the
grab.  It is refused, returning 0 with the server unchanged, when a grab is
held and `t` is nonzero and less than the grab time; a held grab is still held
after the call exactly in that case.  Otherwise the holder becomes none (-1)
and the return value is the current serial (the value of
`_gdk_broadway_server_get_next_serial` before the call), which without an
output channel is the saved serial. -/
theorem ungrab_pointer_check (server : GdkBroadwayServer) (t : Nat) :
    let r := _gdk_broadway_server_ungrab_pointer server t
    let held_later := server.pointer_grab_window_id ≠ -1 ∧ t ≠ 0 ∧ t < server.pointer_grab_time
    (held_later → r = (0, server)) ∧
    (r.2.pointer_grab_window_id ≠ -1 ↔ held_later) ∧
    (¬ held_later →
      r.2.pointer_grab_window_id = -1 ∧
      r.1 = _gdk_broadway_server_get_next_serial server ∧
      (server.output = none → r.1 = server.saved_serial)) := by
  intro r held_later
  by_cases h : server.pointer_grab_window_id ≠ -1 ∧ t ≠ 0 ∧ t < server.pointer_grab_time
  · have hr : r = (0, server) := by
      show _gdk_broadway_server_ungrab_pointer server t = _
      unfold _gdk_broadway_server_ungrab_pointer
      rw [if_pos h]
    refine ⟨fun _ => hr, ⟨fun _ => h, fun _ => ?_⟩, fun hn => absurd h hn⟩
    rw [hr]
    exact h.1
  · have hs : r.2.pointer_grab_window_id = -1 ∧
        r.1 = _gdk_broadway_server_get_next_serial server ∧
        (server.output = none → r.1 = server.saved_serial) := by
      show (_gdk_broadway_server_ungrab_pointer server t).2.pointer_grab_window_id = -1 ∧
        (_gdk_broadway_server_ungrab_pointer server t).1 = _ ∧
        (_ → (_gdk_broadway_server_ungrab_pointer server t).1 = _)
      unfold _gdk_broadway_server_ungrab_pointer _gdk_broadway_server_get_next_serial
      rw [if_neg h]
      cases ho : server.output with
      | none => simp
      | some o => simp [broadway_output_ungrab_pointer, broadway_output_get_next_serial]
    refine ⟨fun hh => absurd hh h, ⟨fun hne => absurd hs.1 hne, fun hh => absurd hh h⟩,
      fun _ => hs⟩

/-! ## The window registry: the root window -/

theorem registry_flush (server : GdkBroadwayServer) :
    registry (_gdk_broadway_server_flush server) = registry server := by
  unfold _gdk_broadway_server_flush
  cases server.output with
  | none => rfl
  | some o => simp only []; split_ifs <;> rfl

theorem registry_output_write (server : GdkBroadwayServer) (op : BroadwayOp) :
    registry (output_write server op) = registry server := rfl

theorem lookup_mem (ht : List (Int × Nat)) (k : Int) (a : Nat)
    (h : g_hash_table_lookup ht k = some a) : (k, a) ∈ ht := by
  unfold g_hash_table_lookup at h
  induction ht with
  | nil => simp at h
  | cons e ht ih =>
    obtain ⟨k', a'⟩ := e
    by_cases hk : k = k'
    · subst hk
      simp [List.lookup] at h
      subst h
      exact List.mem_cons_self _ _
    · have : (k == k') = false := by simpa using hk
      simp only [List.lookup, this] at h
      exact List.mem_cons_of_mem _ (ih h)

theorem lookup_filter_ne (ht : List (Int × Nat)) (k k' : Int) (h : k' ≠ k) :
    g_hash_table_lookup (ht.filter (fun e => e.1 != k)) k' = g_hash_table_lookup ht k' := by
  unfold g_hash_table_lookup
  induction ht with
  | nil => rfl
  | cons e ht ih =>
    obtain ⟨k1, a1⟩ := e
    by_cases h1 : k1 = k
    · subst h1
      have : (k' == k1) = false := by simpa using h
      simp [List.filter, List.lookup, this, ih]
    · have hne : (k1 != k) = true := by simpa using h1
      simp only [List.filter, hne, List.lookup]
      rw [ih]

theorem lookup_insert (ht : List (Int × Nat)) (k k' : Int) (v : Nat) :
    g_hash_table_lookup (g_hash_table_insert ht k v) k' =
      if k' = k then some v else g_hash_table_lookup ht k' := by
  by_cases h : k' = k
  · subst h
    simp [g_hash_table_lookup, g_hash_table_insert, List.lookup]
  · have hb : (k' == k) = false := by simpa using h
    rw [if_neg h, ← lookup_filter_ne ht k k' h]
    simp [g_hash_table_lookup, g_hash_table_insert, List.lookup, hb]

theorem lookup_remove_ne (ht : List (Int × Nat)) (k k' : Int) (h : k' ≠ k) :
    g_hash_table_lookup (g_hash_table_remove ht k) k' = g_hash_table_lookup ht k' :=
  lookup_filter_ne ht k k' h
theorem stores_window_show (server : GdkBroadwayServer) (id : Int) :
    StoresWindow server (_gdk_broadway_server_window_show server id).2 := by
  unfold _gdk_broadway_server_window_show
  cases h : lookup_window server id with
  | none => exact Or.inl rfl
  | some r => (refine Or.inr ⟨id, r.1, r.2, _, h, ?_, rfl⟩; rfl)

theorem stores_window_hide (server : GdkBroadwayServer) (id : Int) :
    StoresWindow server (_gdk_broadway_server_window_hide server id).2 := by
  unfold _gdk_broadway_server_window_hide
  cases h : lookup_window server id with
  | none => exact Or.inl rfl
  | some r =>
    refine Or.inr ⟨id, r.1, r.2, { r.2 with visible := false }, h, rfl, ?_⟩
    simp only [registry_output_write]
    split_ifs <;> rfl

theorem stores_window_move_resize (server : GdkBroadwayServer) (id x y width height : Int) :
    StoresWindow server (_gdk_broadway_server_window_move_resize server id x y width height).2 := by
  unfold _gdk_broadway_server_window_move_resize
  cases h : lookup_window server id with
  | none => exact Or.inl rfl
  | some r => (refine Or.inr ⟨id, r.1, r.2, _, h, ?_, rfl⟩; rfl)

theorem stores_window_set_transient_for (server : GdkBroadwayServer) (id parent : Int) :
    StoresWindow server (_gdk_broadway_server_window_set_transient_for server id parent) := by
  unfold _gdk_broadway_server_window_set_transient_for
  cases h : lookup_window server id with
  | none => exact Or.inl rfl
  | some r =>
    refine Or.inr ⟨id, r.1, r.2, { r.2 with transient_for := parent }, h, rfl, ?_⟩
    simp only []
    split
    · rfl
    · rw [registry_flush]; rfl

theorem stores_window_update (server : GdkBroadwayServer) (id : Int) (surface : Option Surface) :
    StoresWindow server (_gdk_broadway_server_window_update server id surface) := by
  unfold _gdk_broadway_server_window_update
  cases surface with
  | none => exact Or.inl rfl
  | some surface =>
    cases h : lookup_window server id with
    | none => exact Or.inl rfl
    | some r =>
      simp only []
      split
      · (refine Or.inr ⟨id, r.1, r.2, _, h, ?_, rfl⟩; rfl)
      · split_ifs
        · (refine Or.inr ⟨id, r.1, r.2, _, h, ?_, rfl⟩; rfl)
        · (refine Or.inr ⟨id, r.1, r.2, _, h, ?_, rfl⟩; rfl)
theorem getD_set_eq (l : List (Option BroadwayWindow)) (a : Nat) (v : Option BroadwayWindow)
    (h : a < l.length) : (l.set a v).getD a none = v := by
  simp [List.getD_eq_getElem?_getD, List.getElem?_set, h]

theorem getD_set_ne (l : List (Option BroadwayWindow)) (a b : Nat) (v : Option BroadwayWindow)
    (h : a ≠ b) : (l.set a v).getD b none = l.getD b none := by
  simp [List.getD_eq_getElem?_getD, List.getElem?_set, h]

theorem getD_some_lt (l : List (Option BroadwayWindow)) (a : Nat) (w : BroadwayWindow)
    (h : l.getD a none = some w) : a < l.length := by
  by_contra hn
  rw [List.getD_eq_default _ _ (by omega)] at h
  cases h

theorem lookup_window_some (server : GdkBroadwayServer) (id : Int) (a : Nat) (w : BroadwayWindow)
    (h : lookup_window server id = some (a, w)) :
    g_hash_table_lookup server.id_ht id = some a ∧ server.windows.getD a none = some w := by
  unfold lookup_window at h
  cases h1 : g_hash_table_lookup server.id_ht id with
  | none => rw [h1] at h; cases h
  | some a1 =>
    rw [h1] at h
    cases h2 : server.windows.getD a1 none with
    | none => simp only [] at h; rw [h2] at h; cases h
    | some w1 =>
      simp only [] at h
      rw [h2] at h
      simp only [Option.some.injEq, Prod.mk.injEq] at h
      obtain ⟨rfl, rfl⟩ := h
      exact ⟨rfl, h2⟩

theorem root_present_of_registry (server server1 : GdkBroadwayServer)
    (h : registry server1 = registry server) (hi : RootPresent server) : RootPresent server1 := by
  simp only [registry, Prod.mk.injEq] at h
  obtain ⟨hw, hh, -, -⟩ := h
  unfold RootPresent
  rw [hw, hh]
  exact hi

theorem root_original_of_registry (server server1 : GdkBroadwayServer)
    (h : registry server1 = registry server) (hi : RootOriginal server) :
    RootOriginal server1 := by
  simp only [registry, Prod.mk.injEq] at h
  obtain ⟨hw, hh, ht, hc⟩ := h
  unfold RootOriginal
  rw [hw, hh, ht, hc]
  exact hi

theorem root_present_of_stores (server server1 : GdkBroadwayServer)
    (h : StoresWindow server server1) (hi : RootPresent server) : RootPresent server1 := by
  rcases h with h | ⟨id, a, w, w1, hl, hid, h⟩
  · exact root_present_of_registry _ _ h hi
  · obtain ⟨hla, hlw⟩ := lookup_window_some server id a w hl
    simp only [registry, Prod.mk.injEq] at h
    obtain ⟨hw, hh, -, -⟩ := h
    unfold RootPresent
    rw [hw, hh]
    refine ⟨fun k a2 hmem => ?_, hi.2⟩
    obtain ⟨w0, hw0, hk⟩ := hi.1 k a2 hmem
    by_cases ha : a = a2
    · subst ha
      rw [hlw] at hw0
      cases hw0
      exact ⟨w1, getD_set_eq _ _ _ (getD_some_lt _ _ _ hlw), hid.trans hk⟩
    · exact ⟨w0, by rw [getD_set_ne _ _ _ _ ha]; exact hw0, hk⟩

theorem root_original_of_stores (server server1 : GdkBroadwayServer)
    (h : StoresWindow server server1) (hi : RootOriginal server) : RootOriginal server1 := by
  rcases h with h | ⟨id, a, w, w1, -, -, h⟩
  · exact root_original_of_registry _ _ h hi
  · simp only [registry, Prod.mk.injEq] at h
    obtain ⟨hw, hh, ht, hc⟩ := h
    unfold RootOriginal
    rw [hw, hh, ht, hc, List.length_set]
    exact hi

theorem registry_new_window (server : GdkBroadwayServer) (x y width height : Int)
    (is_temp : Bool) :
    ∃ w : BroadwayWindow, w.id = to_gint32 server.id_counter ∧
      registry (_gdk_broadway_server_new_window server x y width height is_temp).2 =
        (server.windows ++ [some w],
          g_hash_table_insert server.id_ht (to_gint32 server.id_counter) server.windows.length,
          server.windows.length :: server.toplevels,
          (server.id_counter + 1) % 4294967296) := by
  refine ⟨{ BroadwayWindow.zero with
      id := to_gint32 server.id_counter, x := x, y := y, width := width, height := height,
      is_temp := is_temp }, rfl, ?_⟩
  simp only [_gdk_broadway_server_new_window, registry, output_write]

theorem registry_destroy_window (server : GdkBroadwayServer) (id : Int) :
    registry (_gdk_broadway_server_destroy_window server id) =
      match g_hash_table_lookup server.id_ht id with
      | none => registry server
      | some a =>
        (server.windows.set a none, g_hash_table_remove server.id_ht id,
          server.toplevels.erase a, server.id_counter) := by
  unfold _gdk_broadway_server_destroy_window
  by_cases h1 : server.mouse_in_toplevel_id = id <;>
  by_cases h2 : server.pointer_grab_window_id = id <;>
  simp only [h1, h2, if_true, if_false, output_write] <;>
  cases g_hash_table_lookup server.id_ht id <;> rfl

theorem root_present_of_parts (server : GdkBroadwayServer) (windows : List (Option BroadwayWindow))
    (ht : List (Int × Nat)) (tl : List Nat) (c : Nat)
    (h : registry server = (windows, ht, tl, c))
    (h1 : ∀ k a, (k, a) ∈ ht → ∃ w, windows.getD a none = some w ∧ w.id = k)
    (h2 : ∃ a, g_hash_table_lookup ht 0 = some a) : RootPresent server := by
  simp only [registry, Prod.mk.injEq] at h
  obtain ⟨hw, hh, -, -⟩ := h
  unfold RootPresent
  rw [hw, hh]
  exact ⟨h1, h2⟩

theorem root_present_new_window (server : GdkBroadwayServer) (x y width height : Int)
    (is_temp : Bool) (hi : RootPresent server) :
    RootPresent (_gdk_broadway_server_new_window server x y width height is_temp).2 := by
  obtain ⟨w, hwid, hr⟩ := registry_new_window server x y width height is_temp
  refine root_present_of_parts _ _ _ _ _ hr ?_ ?_
  · intro k a hmem
    unfold g_hash_table_insert at hmem
    rcases List.mem_cons.mp hmem with heq | hmem
    · simp only [Prod.mk.injEq] at heq
      obtain ⟨hk, ha⟩ := heq
      rw [hk, ha]
      exact ⟨w, by simp [List.getD_eq_getElem?_getD], hwid⟩
    · obtain ⟨w0, hw0, hk⟩ := hi.1 k a (List.mem_filter.mp hmem).1
      refine ⟨w0, ?_, hk⟩
      rw [List.getD_append _ _ _ _ (getD_some_lt _ _ _ hw0)]
      exact hw0
  · rw [lookup_insert]
    split_ifs
    · exact ⟨_, rfl⟩
    · exact hi.2

theorem root_present_destroy_window (server : GdkBroadwayServer) (id : Int) (hid : id ≠ 0)
    (hi : RootPresent server) : RootPresent (_gdk_broadway_server_destroy_window server id) := by
  have hr := registry_destroy_window server id
  cases hl : g_hash_table_lookup server.id_ht id with
  | none =>
    rw [hl] at hr
    exact root_present_of_registry _ _ hr hi
  | some a =>
    rw [hl] at hr
    refine root_present_of_parts _ _ _ _ _ hr ?_ ?_
    · intro k a2 hmem
      unfold g_hash_table_remove at hmem
      obtain ⟨hmem1, hmem2⟩ := List.mem_filter.mp hmem
      simp only [bne_iff_ne, ne_eq] at hmem2
      obtain ⟨w, hw, hk⟩ := hi.1 k a2 hmem1
      obtain ⟨w', hw', hk'⟩ := hi.1 id a (lookup_mem _ _ _ hl)
      have hne : a ≠ a2 := by
        intro h
        subst h
        rw [hw] at hw'
        cases hw'
        exact hmem2 (hk.symm.trans hk')
      exact ⟨w, by rw [getD_set_ne _ _ _ _ hne]; exact hw, hk⟩
    · rw [lookup_remove_ne _ _ _ (Ne.symm hid)]
      exact hi.2
theorem to_gint32_ne_zero (c : Nat) (h1 : 1 ≤ c) (h2 : c < 4294967296) :
    to_gint32 (c : Int) ≠ 0 := by
  unfold to_gint32; omega

theorem root_original_new_window (server : GdkBroadwayServer) (x y width height : Int)
    (is_temp : Bool) (hi : RootOriginal server) (hc : server.id_counter + 1 ≤ 4294967295) :
    RootOriginal (_gdk_broadway_server_new_window server x y width height is_temp).2 := by
  obtain ⟨w, -, hr⟩ := registry_new_window server x y width height is_temp
  obtain ⟨h0, ht, hl, hc1⟩ := hi
  simp only [registry, Prod.mk.injEq] at hr
  obtain ⟨hw, hh, htl, hcnt⟩ := hr
  unfold RootOriginal
  rw [hw, hh, htl, hcnt, lookup_insert,
    if_neg (Ne.symm (to_gint32_ne_zero _ hc1 (by omega)))]
  refine ⟨h0, ?_, by simp, by omega⟩
  intro hmem
  rcases List.mem_cons.mp hmem with h | h
  · omega
  · exact ht h

theorem root_original_destroy_window (server : GdkBroadwayServer) (id : Int) (hid : id ≠ 0)
    (hi : RootOriginal server) : RootOriginal (_gdk_broadway_server_destroy_window server id) := by
  have hr := registry_destroy_window server id
  cases hl : g_hash_table_lookup server.id_ht id with
  | none =>
    rw [hl] at hr
    exact root_original_of_registry _ _ hr hi
  | some a =>
    rw [hl] at hr
    obtain ⟨h0, ht, hlen, hc1⟩ := hi
    simp only [registry, Prod.mk.injEq] at hr
    obtain ⟨hw, hh, htl, hcnt⟩ := hr
    unfold RootOriginal
    rw [hw, hh, htl, hcnt, lookup_remove_ne _ _ _ (Ne.symm hid), List.length_set]
    exact ⟨h0, fun hmem => ht (List.mem_of_mem_erase hmem), hlen, hc1⟩

theorem stores_window_apply (server : GdkBroadwayServer) (op : RegistryOp)
    (h1 : ∀ x y width height is_temp, op ≠ RegistryOp.new_window x y width height is_temp)
    (h2 : ∀ id, op ≠ RegistryOp.destroy_window id) :
    StoresWindow server (op.apply server) := by
  cases op with
  | new_window x y width height is_temp => exact absurd rfl (h1 x y width height is_temp)
  | destroy_window id => exact absurd rfl (h2 id)
  | window_show id => exact stores_window_show server id
  | window_hide id => exact stores_window_hide server id
  | window_move_resize id x y width height => exact stores_window_move_resize server id x y width height
  | window_set_transient_for id parent => exact stores_window_set_transient_for server id parent
  | window_update id surface => exact stores_window_update server id surface

theorem root_present_apply (server : GdkBroadwayServer) (op : RegistryOp)
    (hop : op ≠ RegistryOp.destroy_window 0) (hi : RootPresent server) :
    RootPresent (op.apply server) := by
  cases op with
  | new_window x y width height is_temp => exact root_present_new_window server _ _ _ _ _ hi
  | destroy_window id =>
    exact root_present_destroy_window server id (fun h => hop (by rw [h])) hi
  | window_show id => exact root_present_of_stores _ _ (stores_window_show server id) hi
  | window_hide id => exact root_present_of_stores _ _ (stores_window_hide server id) hi
  | window_move_resize id x y width height =>
    exact root_present_of_stores _ _ (stores_window_move_resize server id x y width height) hi
  | window_set_transient_for id parent =>
    exact root_present_of_stores _ _ (stores_window_set_transient_for server id parent) hi
  | window_update id surface =>
    exact root_present_of_stores _ _ (stores_window_update server id surface) hi

theorem root_present_run (ops : List RegistryOp) (server : GdkBroadwayServer)
    (hops : ∀ op ∈ ops, op ≠ RegistryOp.destroy_window 0) (hi : RootPresent server) :
    RootPresent (run_registry_ops server ops) := by
  induction ops generalizing server with
  | nil => exact hi
  | cons op ops ih =>
    exact ih (op.apply server) (fun o ho => hops o (List.mem_cons_of_mem _ ho))
      (root_present_apply server op (hops op (List.mem_cons_self _ _)) hi)

theorem root_original_step_stores (server server1 : GdkBroadwayServer)
    (h : StoresWindow server server1) (hi : RootOriginal server) :
    RootOriginal server1 ∧ server1.id_counter = server.id_counter := by
  refine ⟨root_original_of_stores _ _ h hi, ?_⟩
  rcases h with h | ⟨id, a, w, w1, -, -, h⟩ <;>
    simp only [registry, Prod.mk.injEq] at h <;> exact h.2.2.2

theorem root_original_run (ops : List RegistryOp) (server : GdkBroadwayServer)
    (hops : ∀ op ∈ ops, op ≠ RegistryOp.destroy_window 0) (hi : RootOriginal server)
    (hc : server.id_counter + count_new_window ops ≤ 4294967295) :
    RootOriginal (run_registry_ops server ops) := by
  induction ops generalizing server with
  | nil => exact hi
  | cons op ops ih =>
    have hops' : ∀ o ∈ ops, o ≠ RegistryOp.destroy_window 0 :=
      fun o ho => hops o (List.mem_cons_of_mem _ ho)
    have hop := hops op (List.mem_cons_self _ _)
    cases op with
    | new_window x y width height is_temp =>
      have hcount : count_new_window (RegistryOp.new_window x y width height is_temp :: ops) =
          count_new_window ops + 1 := by simp [count_new_window]
      rw [hcount] at hc
      have hi' := root_original_new_window server x y width height is_temp hi (by omega)
      refine ih _ hops' hi' ?_
      obtain ⟨w, -, hr⟩ := registry_new_window server x y width height is_temp
      simp only [registry, Prod.mk.injEq] at hr
      show (_gdk_broadway_server_new_window server x y width height is_temp).2.id_counter + _ ≤ _
      rw [hr.2.2.2]
      omega
    | destroy_window id =>
      have hcount : count_new_window (RegistryOp.destroy_window id :: ops) =
          count_new_window ops := by simp [count_new_window]
      rw [hcount] at hc
      have hid : id ≠ 0 := fun h => hop (by rw [h])
      refine ih _ hops' (root_original_destroy_window server id hid hi) ?_
      have hr := registry_destroy_window server id
      have : (_gdk_broadway_server_destroy_window server id).id_counter = server.id_counter := by
        cases hl : g_hash_table_lookup server.id_ht id <;> rw [hl] at hr <;>
          simp only [registry, Prod.mk.injEq] at hr <;> exact hr.2.2.2
      show (_gdk_broadway_server_destroy_window server id).id_counter + _ ≤ _
      rw [this]
      exact hc
    | window_show id =>
      have hs := root_original_step_stores _ _ (stores_window_show server id) hi
      exact ih _ hops' hs.1 (by
        show (RegistryOp.apply server (RegistryOp.window_show id)).id_counter + _ ≤ _
        have hcount : count_new_window (RegistryOp.window_show id :: ops) =
            count_new_window ops := by simp [count_new_window]
        rw [hcount] at hc
        simp only [RegistryOp.apply]
        rw [hs.2]
        exact hc)
    | window_hide id =>
      have hs := root_original_step_stores _ _ (stores_window_hide server id) hi
      exact ih _ hops' hs.1 (by
        show (RegistryOp.apply server (RegistryOp.window_hide id)).id_counter + _ ≤ _
        have hcount : count_new_window (RegistryOp.window_hide id :: ops) =
            count_new_window ops := by simp [count_new_window]
        rw [hcount] at hc
        simp only [RegistryOp.apply]
        rw [hs.2]
        exact hc)
    | window_move_resize id x y width height =>
      have hs := root_original_step_stores _ _ (stores_window_move_resize server id x y width height) hi
      exact ih _ hops' hs.1 (by
        show (RegistryOp.apply server (RegistryOp.window_move_resize id x y width height)).id_counter + _ ≤ _
        have hcount : count_new_window (RegistryOp.window_move_resize id x y width height :: ops) =
            count_new_window ops := by simp [count_new_window]
        rw [hcount] at hc
        simp only [RegistryOp.apply]
        rw [hs.2]
        exact hc)
    | window_set_transient_for id parent =>
      have hs := root_original_step_stores _ _ (stores_window_set_transient_for server id parent) hi
      exact ih _ hops' hs.1 (by
        show (RegistryOp.apply server (RegistryOp.window_set_transient_for id parent)).id_counter + _ ≤ _
        have hcount : count_new_window (RegistryOp.window_set_transient_for id parent :: ops) =
            count_new_window ops := by simp [count_new_window]
        rw [hcount] at hc
        simp only [RegistryOp.apply]
        rw [hs.2]
        exact hc)
    | window_update id surface =>
      have hs := root_original_step_stores _ _ (stores_window_update server id surface) hi
      exact ih _ hops' hs.1 (by
        show (RegistryOp.apply server (RegistryOp.window_update id surface)).id_counter + _ ≤ _
        have hcount : count_new_window (RegistryOp.window_update id surface :: ops) =
            count_new_window ops := by simp [count_new_window]
        rw [hcount] at hc
        simp only [RegistryOp.apply]
        rw [hs.2]
        exact hc)

theorem root_present_lookup (server : GdkBroadwayServer) (hi : RootPresent server) :
    ∃ a w, lookup_window server 0 = some (a, w) ∧ w.id = 0 := by
  obtain ⟨a, ha⟩ := hi.2
  obtain ⟨w, hw, hk⟩ := hi.1 0 a (lookup_mem _ _ _ ha)
  refine ⟨a, w, ?_, hk⟩
  unfold lookup_window
  rw [ha]
  simp only []
  rw [hw]

theorem root_present_init (o : Option BroadwayOutput) :
    RootPresent { gdk_broadway_server_init with output := o } := by
  refine ⟨fun k a hmem => ?_, ⟨0, rfl⟩⟩
  simp only [gdk_broadway_server_init, List.mem_singleton, Prod.mk.injEq] at hmem
  obtain ⟨rfl, rfl⟩ := hmem
  exact ⟨_, rfl, rfl⟩

theorem root_original_init (o : Option BroadwayOutput) :
    RootOriginal { gdk_broadway_server_init with output := o } := by
  refine ⟨rfl, ?_, ?_, ?_⟩ <;> simp [gdk_broadway_server_init]

/-- C10 (counterexample): `_gdk_broadway_server_destroy_window` has no guard for
the root.  On the initial server a destroy of id 0 removes the entry for id 0
from the id table. -/
theorem root_destroyed :
    g_hash_table_lookup
      (run_registry_ops gdk_broadway_server_init [RegistryOp.destroy_window 0]).id_ht 0 = none ∧
    lookup_window
      (run_registry_ops gdk_broadway_server_init [RegistryOp.destroy_window 0]) 0 = none := by
  decide

/-- C10 (amended): root invariant of the registry.  In every state reached from
initialisation (with or without an output channel) by a sequence of the public
registry operations that does not call `destroy_window` with id 0, the id
table has an entry for id 0 and the window it leads to has id 0; and as long as
fewer than `2^32 - 1` windows have been created, so that the `guint32` id
counter has not wrapped, this is the struct allocated by
`gdk_broadway_server_init` (address 0), which is not in the toplevel list. -/
theorem root_window_invariant (o : Option BroadwayOutput) (ops : List RegistryOp)
    (hops : ∀ op ∈ ops, op ≠ RegistryOp.destroy_window 0) :
    let server := run_registry_ops { gdk_broadway_server_init with output := o } ops
    (∃ a w, lookup_window server 0 = some (a, w) ∧ w.id = 0) ∧
    (count_new_window ops ≤ 4294967294 →
      (∃ w, lookup_window server 0 = some (0, w) ∧ w.id = 0) ∧ 0 ∉ server.toplevels) := by
  intro server
  have hp : RootPresent server := root_present_run ops _ hops (root_present_init o)
  refine ⟨root_present_lookup server hp, fun hc => ?_⟩
  have ho : RootOriginal server :=
    root_original_run ops _ hops (root_original_init o) (by
      show 1 + count_new_window ops ≤ 4294967295
      omega)
  obtain ⟨a, w, hl, hw⟩ := root_present_lookup server hp
  have ha := (lookup_window_some server 0 a w hl).1
  rw [ho.1] at ha
  cases ha
  exact ⟨⟨w, hl, hw⟩, ho.2.1⟩

/-- Witness of `root_window_invariant`: after the operations of
`ex_registry_ops` on the initial server the root is still registered. -/
theorem root_window_invariant_witness :
    (∀ op ∈ ex_registry_ops, op ≠ RegistryOp.destroy_window 0) ∧
    ∃ a w, lookup_window (run_registry_ops gdk_broadway_server_init ex_registry_ops) 0 =
      some (a, w) ∧ w.id = 0 :=
  ⟨by decide, (root_window_invariant none ex_registry_ops (by decide)).1⟩

/-! ## Unknown type tags -/

theorem parse_payload_unknown (server : GdkBroadwayServer) (type : Nat) (mem : List Nat)
    (p : Nat) (h : type ∉ known_event_tags) :
    parse_payload server type mem p = (BroadwayInputPayload.unparsed, server) := by
  simp only [known_event_tags, List.mem_cons, List.mem_singleton, not_or, List.not_mem_nil,
    or_false] at h
  obtain ⟨h1, h2, h3, h4, h5, h6, h7, h8, h9, h10, h11, h12, h13⟩ := h
  unfold parse_payload
  rw [if_neg (by rintro (h | h) <;> contradiction), if_neg h3,
    if_neg (by rintro (h | h) <;> contradiction), if_neg h6,
    if_neg (by rintro (h | h) <;> contradiction),
    if_neg (by rintro (h | h) <;> contradiction), if_neg h11, if_neg h12, if_neg h13]

/-- C20: unknown type tags do not abort the stream.  For a message whose first
byte is none of the known tags, `parse_input_message` changes the server in
three places only: the pending queue gets one more record, with that tag, the
parsed serial, the normalised time and no payload; `last_seen_time` becomes the
normalised time; and the input channel, still attached, has its time base
fixed if this was its first nonzero timestamp.  The future pointer state and
everything else are unchanged. -/
theorem unknown_tag_keeps_stream (server : GdkBroadwayServer) (input : BroadwayInput)
    (mem : List Nat) (hin : server.input = some input)
    (hunk : mem.getD 0 0 ∉ known_event_tags) :
    let nt := normalize_time (raw_time mem) server.last_seen_time input.seen_time input.time_base
    parse_input_message server mem =
      { server with
        input := some { input with seen_time := nt.2.1, time_base := nt.2.2 },
        last_seen_time := to_guint64 nt.1,
        input_messages := server.input_messages ++
          [{ type := mem.getD 0 0, serial := to_guint32 (strtol mem 1).1,
             time := to_guint64 nt.1, payload := BroadwayInputPayload.unparsed }] } ∧
    (input.seen_time = false → raw_time mem ≠ 0 →
      nt.2.1 = true ∧
      nt.2.2 = to_gint64 ((to_guint64 (raw_time mem) : Int) -
        (to_guint64 ((server.last_seen_time : Int) + 5000) : Int))) ∧
    (input.seen_time = true → nt.2.1 = true ∧ nt.2.2 = input.time_base) := by
  intro nt
  refine ⟨?_, ?_, ?_⟩
  · simp only [parse_input_message, hin, parse_payload_unknown _ _ _ _ hunk]
    rfl
  · intro hs hr
    simp [nt, normalize_time, hs, hr]
  · intro hs
    simp only [nt, normalize_time, hs, Bool.not_true, Bool.false_eq_true, if_false]
    split_ifs <;> exact ⟨hs ▸ rfl, rfl⟩

/-- Witness of `unknown_tag_keeps_stream`: the message `?7,10000` on the fresh
channel queues one record without payload and moves the time to 5001. -/
theorem unknown_tag_keeps_stream_witness :
    ex_server.input = some ex_input ∧ ex_msg_unknown.getD 0 0 ∉ known_event_tags ∧
    (parse_input_message ex_server ex_msg_unknown).input_messages =
      [{ type := 63, serial := 7, time := 5001, payload := BroadwayInputPayload.unparsed }] ∧
    (parse_input_message ex_server ex_msg_unknown).last_seen_time = 5001 := by
  have h := (unknown_tag_keeps_stream ex_server ex_input ex_msg_unknown rfl (by decide)).1
  refine ⟨rfl, by decide, ?_, ?_⟩
  · rw [h]; decide
  · rw [h]; decide

/-! ## The window registry: allocation of ids -/

theorem stores_id_counter (server server1 : GdkBroadwayServer) (h : StoresWindow server server1) :
    server1.id_counter = server.id_counter := by
  rcases h with h | ⟨id, a, w, w1, -, -, h⟩ <;>
    simp only [registry, Prod.mk.injEq] at h <;> exact h.2.2.2

theorem id_counter_apply (server : GdkBroadwayServer) (op : RegistryOp) :
    (op.apply server).id_counter =
      (server.id_counter + count_new_window [op]) % 4294967296 ∨
    ((op.apply server).id_counter = server.id_counter ∧ count_new_window [op] = 0) := by
  cases op with
  | new_window x y width height is_temp =>
    left
    obtain ⟨w, -, hr⟩ := registry_new_window server x y width height is_temp
    simp only [registry, Prod.mk.injEq] at hr
    simp only [RegistryOp.apply, hr.2.2.2]
    rfl
  | destroy_window id =>
    right
    have hr := registry_destroy_window server id
    refine ⟨?_, rfl⟩
    cases hl : g_hash_table_lookup server.id_ht id <;> rw [hl] at hr <;>
      simp only [registry, Prod.mk.injEq] at hr <;> exact hr.2.2.2
  | window_show id =>
    exact Or.inr ⟨stores_id_counter _ _ (stores_window_show server id), rfl⟩
  | window_hide id =>
    exact Or.inr ⟨stores_id_counter _ _ (stores_window_hide server id), rfl⟩
  | window_move_resize id x y width height =>
    exact Or.inr ⟨stores_id_counter _ _ (stores_window_move_resize server id x y width height), rfl⟩
  | window_set_transient_for id parent =>
    exact Or.inr ⟨stores_id_counter _ _ (stores_window_set_transient_for server id parent), rfl⟩
  | window_update id surface =>
    exact Or.inr ⟨stores_id_counter _ _ (stores_window_update server id surface), rfl⟩

theorem count_new_window_cons (op : RegistryOp) (ops : List RegistryOp) :
    count_new_window (op :: ops) = count_new_window [op] + count_new_window ops := by
  cases op <;> simp [count_new_window]
  omega

theorem count_new_window_append (ops1 ops2 : List RegistryOp) :
    count_new_window (ops1 ++ ops2) = count_new_window ops1 + count_new_window ops2 := by
  simp [count_new_window]

theorem id_counter_run (ops : List RegistryOp) (server : GdkBroadwayServer) :
    (run_registry_ops server ops).id_counter % 4294967296 =
      (server.id_counter + count_new_window ops) % 4294967296 := by
  induction ops generalizing server with
  | nil => simp [run_registry_ops, count_new_window]
  | cons op ops ih =>
    have h := ih (op.apply server)
    simp only [run_registry_ops, List.foldl_cons] at h ⊢
    rw [h, count_new_window_cons]
    rcases id_counter_apply server op with h1 | ⟨h1, h2⟩
    · rw [h1]; omega
    · rw [h1, h2]; omega

theorem id_counter_lt_apply (server : GdkBroadwayServer) (op : RegistryOp)
    (h : server.id_counter < 4294967296) : (op.apply server).id_counter < 4294967296 := by
  rcases id_counter_apply server op with h1 | ⟨h1, -⟩
  · rw [h1]; omega
  · rw [h1]; exact h

theorem id_counter_lt_run (ops : List RegistryOp) (server : GdkBroadwayServer)
    (h : server.id_counter < 4294967296) :
    (run_registry_ops server ops).id_counter < 4294967296 := by
  induction ops generalizing server with
  | nil => exact h
  | cons op ops ih => exact ih _ (id_counter_lt_apply server op h)

theorem id_counter_init_run (o : Option BroadwayOutput) (ops : List RegistryOp)
    (hk : count_new_window ops + 1 < 4294967296) :
    (run_registry_ops { gdk_broadway_server_init with output := o } ops).id_counter =
      count_new_window ops + 1 := by
  have h1 := id_counter_run ops { gdk_broadway_server_init with output := o }
  have h2 := id_counter_lt_run ops { gdk_broadway_server_init with output := o }
    (by simp [gdk_broadway_server_init])
  have h3 : ({ gdk_broadway_server_init with output := o } : GdkBroadwayServer).id_counter = 1 :=
    rfl
  rw [h3] at h1
  omega

theorem lookup_window_of (server : GdkBroadwayServer) (id : Int) (a : Nat) (w : BroadwayWindow)
    (h1 : g_hash_table_lookup server.id_ht id = some a)
    (h2 : server.windows.getD a none = some w) : lookup_window server id = some (a, w) := by
  unfold lookup_window
  rw [h1]
  simp only []
  rw [h2]

theorem new_window_fields (server : GdkBroadwayServer) (x y width height : Int)
    (is_temp : Bool) :
    (_gdk_broadway_server_new_window server x y width height is_temp).2.windows =
      server.windows ++ [some { BroadwayWindow.zero with
        id := to_gint32 server.id_counter, x := x, y := y, width := width, height := height,
        is_temp := is_temp }] ∧
    (_gdk_broadway_server_new_window server x y width height is_temp).2.id_ht =
      g_hash_table_insert server.id_ht (to_gint32 server.id_counter) server.windows.length ∧
    (_gdk_broadway_server_new_window server x y width height is_temp).2.toplevels =
      server.windows.length :: server.toplevels ∧
    (_gdk_broadway_server_new_window server x y width height is_temp).1 =
      to_guint32 (to_gint32 server.id_counter) := by
  refine ⟨?_, ?_, ?_, ?_⟩ <;> simp only [_gdk_broadway_server_new_window, output_write]

theorem new_window_result (server : GdkBroadwayServer) (x y width height : Int) (is_temp : Bool)
    (k : Nat) (hc : server.id_counter = k) (hk : k < 2147483648) :
    (_gdk_broadway_server_new_window server x y width height is_temp).1 = k ∧
    lookup_window (_gdk_broadway_server_new_window server x y width height is_temp).2 k =
      some (server.windows.length,
        { id := k, x := x, y := y, width := width, height := height, is_temp := is_temp,
          last_synced := false, visible := false, transient_for := 0, last_surface := none }) ∧
    (_gdk_broadway_server_new_window server x y width height is_temp).2.toplevels =
      server.windows.length :: server.toplevels := by
  have hid : to_gint32 (k : Int) = k := by unfold to_gint32; omega
  have hid2 : to_guint32 (k : Int) = k := by unfold to_guint32; omega
  obtain ⟨hw, hh, ht, hr⟩ := new_window_fields server x y width height is_temp
  rw [hc, hid] at hw hh hr
  rw [hid2] at hr
  refine ⟨hr, ?_, ht⟩
  apply lookup_window_of
  · rw [hh, lookup_insert, if_pos rfl]
  · rw [hw, List.getD_append_right _ _ _ _ (le_refl _), Nat.sub_self]
    rfl

theorem run_registry_ops_append (server : GdkBroadwayServer) (ops1 ops2 : List RegistryOp) :
    run_registry_ops server (ops1 ++ ops2) =
      run_registry_ops (run_registry_ops server ops1) ops2 := by
  simp [run_registry_ops, List.foldl_append]

/-- C12: window ids are allocated monotonically.  After any sequence of registry
operations on the initialised server, the `k`-th call of
`_gdk_broadway_server_new_window` (`k` below `2^31`) returns the id `k`, which
is not 0; the new window is entered under `k` in the id table and at the head
of the toplevel list, with the given geometry and `is_temp` flag, hidden, not
synced and without a cached surface; and any later call returns a greater id,
whatever was destroyed in between. -/
theorem new_window_ids (o : Option BroadwayOutput) (ops : List RegistryOp)
    (x y width height : Int) (is_temp : Bool)
    (hk : count_new_window ops + 1 < 2147483648) :
    let server := run_registry_ops { gdk_broadway_server_init with output := o } ops
    let k := count_new_window ops + 1
    let r := _gdk_broadway_server_new_window server x y width height is_temp
    r.1 = k ∧ r.1 ≠ 0 ∧
    lookup_window r.2 k =
      some (server.windows.length,
        { id := k, x := x, y := y, width := width, height := height, is_temp := is_temp,
          last_synced := false, visible := false, transient_for := 0, last_surface := none }) ∧
    r.2.toplevels = server.windows.length :: server.toplevels ∧
    ∀ (ops2 : List RegistryOp) (x2 y2 width2 height2 : Int) (is_temp2 : Bool),
      k + count_new_window ops2 + 1 < 2147483648 →
      (_gdk_broadway_server_new_window (run_registry_ops r.2 ops2) x2 y2 width2 height2
        is_temp2).1 = k + count_new_window ops2 + 1 ∧
      r.1 < (_gdk_broadway_server_new_window (run_registry_ops r.2 ops2) x2 y2 width2 height2
        is_temp2).1 := by
  intro server k r
  have hc := id_counter_init_run o ops (by omega)
  obtain ⟨h1, h2, h3⟩ := new_window_result server x y width height is_temp k hc hk
  refine ⟨h1, by rw [h1]; omega, h2, h3, ?_⟩
  intro ops2 x2 y2 width2 height2 is_temp2 hk2
  have hrun : run_registry_ops r.2 ops2 =
      run_registry_ops { gdk_broadway_server_init with output := o }
        (ops ++ RegistryOp.new_window x y width height is_temp :: ops2) := by
    rw [run_registry_ops_append]
    rfl
  have hcount : count_new_window (ops ++ RegistryOp.new_window x y width height is_temp :: ops2) =
      count_new_window ops + 1 + count_new_window ops2 := by
    rw [count_new_window_append, count_new_window_cons]
    simp [count_new_window]
    omega
  have hc2 := id_counter_init_run o
    (ops ++ RegistryOp.new_window x y width height is_temp :: ops2) (by omega)
  rw [← hrun, hcount] at hc2
  have h4 := (new_window_result (run_registry_ops r.2 ops2) x2 y2 width2 height2 is_temp2
    (k + count_new_window ops2 + 1) (by rw [hc2]) hk2).1
  refine ⟨h4, ?_⟩
  rw [h4, h1]
  omega

/-- Witness of `new_window_ids`: after the operations of `ex_registry_ops`, which
create two windows and destroy the first, the next window gets the id 3. -/
theorem new_window_ids_witness :
    count_new_window ex_registry_ops + 1 < 2147483648 ∧
    (_gdk_broadway_server_new_window
      (run_registry_ops gdk_broadway_server_init ex_registry_ops) 0 0 10 10 false).1 = 3 :=
  ⟨by decide, (new_window_ids none ex_registry_ops 0 0 10 10 false (by decide)).1⟩

/-! ## The window registry: destruction -/

theorem lookup_remove_self (ht : List (Int × Nat)) (k : Int) :
    g_hash_table_lookup (g_hash_table_remove ht k) k = none := by
  unfold g_hash_table_lookup g_hash_table_remove
  induction ht with
  | nil => rfl
  | cons e ht ih =>
    obtain ⟨k1, a1⟩ := e
    by_cases h1 : k1 = k
    · subst h1
      simpa [List.filter] using ih
    · have hne : (k1 != k) = true := by simpa using h1
      have hb : (k == k1) = false := by simpa using Ne.symm h1
      simp only [List.filter, hne, List.lookup, hb]
      exact ih

theorem destroy_window_pointer_fields (server : GdkBroadwayServer) (id : Int) :
    (_gdk_broadway_server_destroy_window server id).pointer_grab_window_id =
      (if server.pointer_grab_window_id = id then -1 else server.pointer_grab_window_id) ∧
    (_gdk_broadway_server_destroy_window server id).mouse_in_toplevel_id =
      (if server.mouse_in_toplevel_id = id then 0 else server.mouse_in_toplevel_id) ∧
    (_gdk_broadway_server_destroy_window server id).real_mouse_in_toplevel_id =
      server.real_mouse_in_toplevel_id ∧
    (_gdk_broadway_server_destroy_window server id).future_mouse_in_toplevel =
      server.future_mouse_in_toplevel ∧
    (_gdk_broadway_server_destroy_window server id).output =
      server.output.map (fun o => broadway_output_write o (BroadwayOp.destroy_surface id)) := by
  unfold _gdk_broadway_server_destroy_window
  by_cases h1 : server.mouse_in_toplevel_id = id <;>
  by_cases h2 : server.pointer_grab_window_id = id <;>
  simp only [h1, h2, if_true, if_false, output_write] <;>
  cases g_hash_table_lookup server.id_ht id <;> exact ⟨rfl, rfl, rfl, rfl, rfl⟩

/-- C11 (counterexample): a destroyed window is still reported by the pointer
query.  Window 1 was under the pointer when it was destroyed; afterwards it is
in neither index, but `real_mouse_in_toplevel_id` and
`future_mouse_in_toplevel` are still 1 and `_gdk_broadway_server_query_mouse`,
with a client connected, reports window 1. -/
theorem destroyed_window_still_reported :
    lookup_window ex_server_destroyed 1 = none ∧ ex_server_destroyed.toplevels = [] ∧
    ex_server_destroyed.real_mouse_in_toplevel_id = 1 ∧
    ex_server_destroyed.future_mouse_in_toplevel = 1 ∧
    (_gdk_broadway_server_query_mouse ex_server_destroyed ReadResult.would_block).1.toplevel
      = 1 := by
  decide

/-- C11 (amended): after `_gdk_broadway_server_destroy_window (id)` the id is not
in the id table, the struct that was registered under it is freed and taken off
the toplevel list (in which every struct occurs once), the grab holder is not
`id` (for `id` other than -1, the value for no grab) and the effective mouse
window is not `id` (for `id` other than 0, the root); the real and the future
mouse window are left as they were.  So the pointer query without a client
never reports the destroyed window, while the query with a client reports the
future mouse window whatever was destroyed. -/
theorem destroy_window_clears (server : GdkBroadwayServer) (id : Int) (res : ReadResult) :
    let server1 := _gdk_broadway_server_destroy_window server id
    g_hash_table_lookup server1.id_ht id = none ∧ lookup_window server1 id = none ∧
    (∀ a, g_hash_table_lookup server.id_ht id = some a →
      server1.windows.getD a none = none ∧ server1.toplevels = server.toplevels.erase a ∧
      (server.toplevels.Nodup → a ∉ server1.toplevels)) ∧
    (id ≠ -1 → server1.pointer_grab_window_id ≠ id) ∧
    (id ≠ 0 → server1.mouse_in_toplevel_id ≠ id) ∧
    server1.real_mouse_in_toplevel_id = server.real_mouse_in_toplevel_id ∧
    server1.future_mouse_in_toplevel = server.future_mouse_in_toplevel ∧
    (server.output = none → id ≠ 0 →
      (_gdk_broadway_server_query_mouse server1 res).1.toplevel ≠ id) := by
  intro server1
  have hr := registry_destroy_window server id
  obtain ⟨hg, hm, hrm, hfm, ho⟩ := destroy_window_pointer_fields server id
  have hgrab : id ≠ -1 → server1.pointer_grab_window_id ≠ id := by
    intro hid
    show (_gdk_broadway_server_destroy_window server id).pointer_grab_window_id ≠ id
    rw [hg]
    split_ifs with h
    · exact Ne.symm hid
    · exact h
  have hmouse : id ≠ 0 → server1.mouse_in_toplevel_id ≠ id := by
    intro hid
    show (_gdk_broadway_server_destroy_window server id).mouse_in_toplevel_id ≠ id
    rw [hm]
    split_ifs with h
    · exact Ne.symm hid
    · exact h
  have hlook : g_hash_table_lookup server1.id_ht id = none := by
    show g_hash_table_lookup (_gdk_broadway_server_destroy_window server id).id_ht id = none
    cases hl : g_hash_table_lookup server.id_ht id with
    | none =>
      rw [hl] at hr
      simp only [registry, Prod.mk.injEq] at hr
      rw [hr.2.1, hl]
    | some a =>
      rw [hl] at hr
      simp only [registry, Prod.mk.injEq] at hr
      rw [hr.2.1, lookup_remove_self]
  refine ⟨hlook, ?_, ?_, hgrab, hmouse, hrm, hfm, ?_⟩
  · unfold lookup_window
    rw [hlook]
  · intro a ha
    rw [ha] at hr
    simp only [registry, Prod.mk.injEq] at hr
    show (_gdk_broadway_server_destroy_window server id).windows.getD a none = none ∧
      (_gdk_broadway_server_destroy_window server id).toplevels = _ ∧
      (_ → a ∉ (_gdk_broadway_server_destroy_window server id).toplevels)
    rw [hr.1, hr.2.2.1]
    refine ⟨?_, rfl, fun hnd => List.Nodup.not_mem_erase hnd⟩
    by_cases hlt : a < server.windows.length
    · exact getD_set_eq _ _ _ hlt
    · rw [List.getD_eq_default _ _ (by simp; omega)]
  · intro hnone hid
    have ho1 : server1.output = none := by
      show (_gdk_broadway_server_destroy_window server id).output = none
      rw [ho, hnone]; rfl
    simp only [_gdk_broadway_server_query_mouse, ho1]
    exact hmouse hid

/-- Witness of `destroy_window_clears`: window 1 of `ex_server_pointed`, which
the pointer is over, is registered at address 1; after its destruction the
address is free, the toplevel list is empty and the effective mouse window is
the root. -/
theorem destroy_window_clears_witness :
    g_hash_table_lookup ex_server_pointed.id_ht 1 = some 1 ∧
    ex_server_pointed.toplevels.Nodup ∧ ex_server_pointed.mouse_in_toplevel_id = 0 ∧
    ex_server_destroyed.windows.getD 1 none = none ∧
    1 ∉ ex_server_destroyed.toplevels ∧
    ex_server_destroyed.mouse_in_toplevel_id ≠ 1 :=
  have h := destroy_window_clears ex_server_pointed 1 ReadResult.would_block
  ⟨by decide, by decide, by decide, (h.2.2.1 1 (by decide)).1,
    (h.2.2.1 1 (by decide)).2.2 (by decide), h.2.2.2.2.1 (by decide)⟩

/-! ## The pixel diff -/

theorem nat_getD_set_eq (l : List Nat) (a v : Nat) (h : a < l.length) :
    (l.set a v).getD a 0 = v := by
  simp [List.getD_eq_getElem?_getD, List.getElem?_set, h]

theorem nat_getD_set_ne (l : List Nat) (a b v : Nat) (h : a ≠ b) :
    (l.set a v).getD b 0 = l.getD b 0 := by
  simp [List.getD_eq_getElem?_getD, List.getElem?_set, h]

theorem diff_pixel_same_width (surface : Surface) (d : List Nat) (i : Nat) :
    diff_pixel surface d surface.width i =
      if surface.data.getD i 0 &&& 0xffffff = d.getD i 0 &&& 0xffffff then d.set i 0
      else d.set i (surface.data.getD i 0 ||| 0xff000000) := by
  simp only [diff_pixel, Nat.div_add_mod']

theorem diff_fold (surface : Surface) (old_data : List Nat) (n : Nat) :
    ((List.range n).foldl (fun d i => diff_pixel surface d surface.width i) old_data).length =
      old_data.length ∧
    ∀ i, ((List.range n).foldl (fun d i => diff_pixel surface d surface.width i)
        old_data).getD i 0 =
      if i < n ∧ i < old_data.length then
        (if surface.data.getD i 0 &&& 0xffffff = old_data.getD i 0 &&& 0xffffff then 0
         else surface.data.getD i 0 ||| 0xff000000)
      else old_data.getD i 0 := by
  induction n with
  | zero =>
    refine ⟨rfl, fun i => ?_⟩
    rw [if_neg (by omega)]
    rfl
  | succ n ih =>
    obtain ⟨ihl, ihg⟩ := ih
    rw [List.range_succ, List.foldl_append]
    simp only [List.foldl_cons, List.foldl_nil]
    generalize (List.range n).foldl (fun d i => diff_pixel surface d surface.width i) old_data
      = d at ihl ihg
    rw [diff_pixel_same_width]
    have hn : d.getD n 0 = old_data.getD n 0 := by
      rw [ihg n, if_neg (by omega)]
    refine ⟨?_, fun i => ?_⟩
    · split_ifs <;> simp [ihl]
    · rw [hn]
      by_cases hc : surface.data.getD n 0 &&& 0xffffff = old_data.getD n 0 &&& 0xffffff
      · simp only [hc, if_true]
        by_cases hin : i = n
        · subst hin
          by_cases hlt : i < old_data.length
          · have h3 : i < i + 1 ∧ i < old_data.length := ⟨by omega, hlt⟩
            simp only [h3, and_self, if_true, hc]
            exact nat_getD_set_eq _ _ _ (by omega)
          · have h3 : ¬ (i < i + 1 ∧ i < old_data.length) := fun h => hlt h.2
            simp only [h3, if_false]
            rw [List.getD_eq_default _ _ (by omega : old_data.length ≤ i)]
            exact List.getD_eq_default _ _ (by simp; omega)
        · rw [nat_getD_set_ne _ _ _ _ (Ne.symm hin), ihg i]
          by_cases hlt : i < n ∧ i < old_data.length
          · have h3 : i < n + 1 ∧ i < old_data.length := ⟨by omega, hlt.2⟩
            simp only [hlt, h3, and_self, if_true]
          · have h3 : ¬ (i < n + 1 ∧ i < old_data.length) := fun h => hlt ⟨by omega, h.2⟩
            simp only [hlt, h3, if_false]
      · simp only [hc, if_false]
        by_cases hin : i = n
        · subst hin
          by_cases hlt : i < old_data.length
          · have h3 : i < i + 1 ∧ i < old_data.length := ⟨by omega, hlt⟩
            simp only [h3, and_self, if_true, hc, if_false]
            exact nat_getD_set_eq _ _ _ (by omega)
          · have h3 : ¬ (i < i + 1 ∧ i < old_data.length) := fun h => hlt h.2
            simp only [h3, if_false]
            rw [List.getD_eq_default _ _ (by omega : old_data.length ≤ i)]
            exact List.getD_eq_default _ _ (by simp; omega)
        · rw [nat_getD_set_ne _ _ _ _ (Ne.symm hin), ihg i]
          by_cases hlt : i < n ∧ i < old_data.length
          · have h3 : i < n + 1 ∧ i < old_data.length := ⟨by omega, hlt.2⟩
            simp only [hlt, h3, and_self, if_true]
          · have h3 : ¬ (i < n + 1 ∧ i < old_data.length) := fun h => hlt ⟨by omega, h.2⟩
            simp only [hlt, h3, if_false]

theorem and_low24 (p : Nat) : p &&& 0xffffff = p % 16777216 :=
  Nat.and_pow_two_sub_one_eq_mod p 24

theorem or_opaque (p : Nat) (hp : p < 4294967296) :
    p ||| 0xff000000 = 4278190080 + p % 16777216 := by
  have hhi : ∀ h : Nat, h < 256 → h ||| 255 = 255 := by
    intro h hh
    interval_cases h <;> rfl
  have h1 : p = 2 ^ 24 * (p / 16777216) ||| p % 16777216 := by
    rw [← Nat.mul_add_lt_is_or (by omega : p % 16777216 < 2 ^ 24)]
    omega
  have h2 : 4278190080 + p % 16777216 = 2 ^ 24 * 255 ||| p % 16777216 := by
    rw [← Nat.mul_add_lt_is_or (by omega : p % 16777216 < 2 ^ 24)]
  have h3 : 2 ^ 24 * (p / 16777216) ||| 2 ^ 24 * 255 = 2 ^ 24 * 255 := by
    apply Nat.eq_of_testBit_eq
    intro i
    rw [Nat.testBit_or, Nat.testBit_mul_pow_two, Nat.testBit_mul_pow_two,
      ← hhi (p / 16777216) (by omega), Nat.testBit_or]
    by_cases h : 24 ≤ i <;> simp [h]
  rw [h2]
  nth_rewrite 1 [h1]
  rw [show (0xff000000 : Nat) = 2 ^ 24 * 255 from rfl, Nat.lor_assoc,
    Nat.lor_comm (p % 16777216), ← Nat.lor_assoc, h3]

theorem diff_pixel_spec (p q : Nat) (hp : p < 4294967296) :
    (if p &&& 0xffffff = q &&& 0xffffff then 0 else p ||| 0xff000000) = spec_diff_pixel p q := by
  unfold spec_diff_pixel
  rw [and_low24, and_low24, or_opaque p hp]

theorem pixel_index_lt (w h x y : Nat) (hx : x < w) (hy : y < h) : y * w + x < w * h := by
  have h1 : (y + 1) * w ≤ h * w := Nat.mul_le_mul_right w hy
  have h2 : (y + 1) * w = y * w + w := by ring
  have h3 : h * w = w * h := Nat.mul_comm h w
  omega

theorem diff_surfaces_pixel (new old : Surface) (hw : new.width = old.width)
    (hh : new.height = old.height) (ho : old.wf) (x y : Nat) (hx : x < old.width)
    (hy : y < old.height) :
    (diff_surfaces new old).pixel x y =
      if new.pixel x y &&& 0xffffff = old.pixel x y &&& 0xffffff then 0
      else new.pixel x y ||| 0xff000000 := by
  have hi : y * old.width + x < old.width * old.height := pixel_index_lt _ _ _ _ hx hy
  unfold Surface.wf at ho
  simp only [Surface.pixel, diff_surfaces]
  rw [← hw, (diff_fold new old.data (new.width * new.height) ).2, hw, hh,
    if_pos ⟨hi, by omega⟩]

/-- C17: diff correctness of `diff_surfaces`.  For two surfaces of the same
width and height whose old one holds all its pixels, the result is the old
surface with the same size and, at every position, the pixel 0 when the low 24
bits of the new and the old pixel are equal (the top 8 bits play no part) and
else the new pixel with `0xff000000` or-ed in, which for a 32-bit pixel is the
new pixel with its top 8 bits forced to `0xff`.  Hence when the two surfaces
agree outside a rectangle, the result is 0 everywhere outside it. -/
theorem diff_surfaces_correct (new old : Surface) (hw : new.width = old.width)
    (hh : new.height = old.height) (ho : old.wf) :
    (diff_surfaces new old).width = old.width ∧ (diff_surfaces new old).height = old.height ∧
    (diff_surfaces new old).wf ∧
    (∀ x y, x < old.width → y < old.height →
      (diff_surfaces new old).pixel x y =
        if new.pixel x y &&& 0xffffff = old.pixel x y &&& 0xffffff then 0
        else new.pixel x y ||| 0xff000000) ∧
    (∀ x y, x < old.width → y < old.height → new.pixel x y < 4294967296 →
      (diff_surfaces new old).pixel x y = spec_diff_pixel (new.pixel x y) (old.pixel x y)) ∧
    (∀ rx ry rw rh : Nat,
      (∀ x y, x < old.width → y < old.height → ¬ in_rect rx ry rw rh x y →
        new.pixel x y = old.pixel x y) →
      ∀ x y, x < old.width → y < old.height → ¬ in_rect rx ry rw rh x y →
        (diff_surfaces new old).pixel x y = 0) := by
  refine ⟨rfl, rfl, ?_, fun x y hx hy => diff_surfaces_pixel new old hw hh ho x y hx hy, ?_, ?_⟩
  · unfold Surface.wf at ho ⊢
    simp only [diff_surfaces]
    rw [← hw, (diff_fold new old.data (new.width * new.height)).1, hw]
    exact ho
  · intro x y hx hy hp
    rw [diff_surfaces_pixel new old hw hh ho x y hx hy]
    exact diff_pixel_spec _ _ hp
  · intro rx ry rw rh hout x y hx hy hnr
    rw [diff_surfaces_pixel new old hw hh ho x y hx hy, hout x y hx hy hnr, if_pos rfl]

/-- Witness of `diff_surfaces_correct` on `ex_surface_new` and `ex_surface_old`:
the first pixel, which differs in its top byte only, comes out transparent and
the last pixel, at the corner of the buffer, comes out as the new colour made
opaque. -/
theorem diff_surfaces_correct_witness :
    ex_surface_new.width = ex_surface_old.width ∧
    ex_surface_new.height = ex_surface_old.height ∧ ex_surface_old.wf ∧
    (diff_surfaces ex_surface_new ex_surface_old).pixel 0 0 = 0 ∧
    (diff_surfaces ex_surface_new ex_surface_old).pixel 1 1 = 0xff123456 ∧
    (diff_surfaces ex_surface_new ex_surface_old).data = [0, 0, 0, 0xff123456] :=
  have h := diff_surfaces_correct ex_surface_new ex_surface_old rfl rfl (by decide)
  ⟨rfl, rfl, by decide,
    (h.2.2.2.1 0 0 (by decide) (by decide)).trans (by decide),
    (h.2.2.2.1 1 1 (by decide) (by decide)).trans (by decide), by decide⟩

/-! ## The pixel update of a window -/

theorem window_update_eq (server : GdkBroadwayServer) (id : Int) (surface : Surface) (a : Nat)
    (window : BroadwayWindow) (hl : lookup_window server id = some (a, window)) :
    _gdk_broadway_server_window_update server id (some surface) =
      match server.output with
      | none =>
        store_window server a
          { window with last_surface := some (cairo_paint_source (cached_buffer window) surface) }
      | some _ =>
        if window.last_synced then
          store_window
            (output_write
              (output_write server
                (BroadwayOp.put_rgba window.id 0 0 (diff_surfaces surface (cached_buffer window)).width
                  (diff_surfaces surface (cached_buffer window)).height
                  (diff_surfaces surface (cached_buffer window)).data))
              (BroadwayOp.surface_flush window.id)) a
            { window with
              last_surface := some
                (cairo_paint_source (diff_surfaces surface (cached_buffer window)) surface) }
        else
          store_window
            (output_write
              (output_write server
                (BroadwayOp.put_rgb window.id 0 0 surface.width surface.height surface.data))
              (BroadwayOp.surface_flush window.id)) a
            { window with
              last_synced := true,
              last_surface := some (cairo_paint_source (cached_buffer window) surface) } := by
  unfold _gdk_broadway_server_window_update
  simp only [hl]
  rfl

theorem store_window_getD (server : GdkBroadwayServer) (a : Nat) (w : BroadwayWindow)
    (h : a < server.windows.length) : (store_window server a w).windows.getD a none = some w :=
  getD_set_eq _ _ _ h

theorem paint_source_pixel (dst src : Surface) (x y : Nat) (hx : x < dst.width)
    (hy : y < dst.height) :
    (cairo_paint_source dst src).pixel x y =
      if x < src.width ∧ y < src.height then src.pixel x y else 0 := by
  have hi : y * dst.width + x < dst.width * dst.height := pixel_index_lt _ _ _ _ hx hy
  have h1 : (y * dst.width + x) % dst.width = x := by
    rw [Nat.add_comm, Nat.add_mul_mod_self_right, Nat.mod_eq_of_lt hx]
  have h2 : (y * dst.width + x) / dst.width = y := by
    rw [Nat.add_comm, Nat.add_mul_div_right _ _ (by omega), Nat.div_eq_of_lt hx, Nat.zero_add]
  simp only [Surface.pixel, cairo_paint_source]
  rw [List.getD_eq_getElem _ _ (by simpa using hi)]
  simp only [List.getElem_map, List.getElem_range, h1, h2, Surface.pixel]

theorem paint_source_same_size (dst src : Surface) (hw : src.width = dst.width)
    (hh : src.height = dst.height) (hs : src.wf) : cairo_paint_source dst src = src := by
  unfold Surface.wf at hs
  obtain ⟨w, h, data⟩ := src
  obtain ⟨w1, h1, data1⟩ := dst
  simp only at hw hh hs
  subst hw hh
  simp only [cairo_paint_source, Surface.mk.injEq, true_and]
  apply List.ext_getElem
  · simp [hs]
  · intro i h1 h2
    simp only [List.length_map, List.length_range] at h1
    have hw0 : 0 < w := by
      rcases Nat.eq_zero_or_pos w with h0 | h0
      · subst h0; simp at h1
      · exact h0
    have hlt : i / w < h := by
      rw [Nat.div_lt_iff_lt_mul hw0, Nat.mul_comm]; exact h1
    simp only [List.getElem_map, List.getElem_range, Surface.pixel, Nat.mod_lt i hw0, hlt,
      and_self, if_true, Nat.div_add_mod']
    exact List.getD_eq_getElem _ _ h2

theorem store_window_lookup (server : GdkBroadwayServer) (id : Int) (a : Nat)
    (w w1 : BroadwayWindow) (hl : lookup_window server id = some (a, w)) :
    lookup_window (store_window server a w1) id = some (a, w1) := by
  obtain ⟨h1, h2⟩ := lookup_window_some server id a w hl
  exact lookup_window_of _ _ _ _ h1 (store_window_getD server a w1 (getD_some_lt _ _ _ h2))

/-- C18 (counterexample): the cached buffer does not hold the pixels of the
supplied surface.  A window of 1 by 1 pixel is updated from a surface of 2 by 2
pixels: the cached buffer is the 1 by 1 surface with the first pixel. -/
theorem cached_buffer_cropped :
    (lookup_window (_gdk_broadway_server_window_update ex_server_small 1 (some ex_surface_2x2))
      1).map (fun r => r.2.last_surface) =
      some (some { width := 1, height := 1, data := [1] }) ∧
    ex_surface_2x2.data = [1, 2, 3, 4] := by
  decide

/-- C18 (amended): `_gdk_broadway_server_window_update` on a registered window.
With an output channel attached and the window not yet synced it writes
`put_rgb` of the whole supplied surface and a surface flush and marks the
window synced; with a channel and the window synced it writes `put_rgba` of
`diff_surfaces` of the supplied surface and the cached buffer and a surface
flush; with no channel it writes nothing and leaves the synced flag.  In all
three cases the cached buffer keeps its size (the window's size when there was
none) and holds afterwards the pixel of the supplied surface at every position
inside the surface and 0 elsewhere; it is the supplied surface itself when that
has the size of the cached buffer. -/
theorem window_update_cases (server : GdkBroadwayServer) (id : Int) (surface : Surface)
    (a : Nat) (window : BroadwayWindow) (hl : lookup_window server id = some (a, window)) :
    (∀ o, server.output = some o → window.last_synced = false →
      (_gdk_broadway_server_window_update server id (some surface)).output =
        some (broadway_output_write
          (broadway_output_write o
            (BroadwayOp.put_rgb window.id 0 0 surface.width surface.height surface.data))
          (BroadwayOp.surface_flush window.id)) ∧
      ∃ w1, lookup_window (_gdk_broadway_server_window_update server id (some surface)) id =
        some (a, w1) ∧ w1.last_synced = true) ∧
    (∀ o, server.output = some o → window.last_synced = true →
      (_gdk_broadway_server_window_update server id (some surface)).output =
        some (broadway_output_write
          (broadway_output_write o
            (BroadwayOp.put_rgba window.id 0 0
              (diff_surfaces surface (cached_buffer window)).width
              (diff_surfaces surface (cached_buffer window)).height
              (diff_surfaces surface (cached_buffer window)).data))
          (BroadwayOp.surface_flush window.id)) ∧
      ∃ w1, lookup_window (_gdk_broadway_server_window_update server id (some surface)) id =
        some (a, w1) ∧ w1.last_synced = true) ∧
    (server.output = none →
      (_gdk_broadway_server_window_update server id (some surface)).output = none ∧
      ∃ w1, lookup_window (_gdk_broadway_server_window_update server id (some surface)) id =
        some (a, w1) ∧ w1.last_synced = window.last_synced) ∧
    (∃ w1 s1, lookup_window (_gdk_broadway_server_window_update server id (some surface)) id =
        some (a, w1) ∧ w1.last_surface = some s1 ∧
      s1.width = (cached_buffer window).width ∧ s1.height = (cached_buffer window).height ∧
      (∀ x y, x < s1.width → y < s1.height →
        s1.pixel x y = if x < surface.width ∧ y < surface.height then surface.pixel x y else 0) ∧
      (surface.wf → surface.width = (cached_buffer window).width →
        surface.height = (cached_buffer window).height → s1 = surface)) := by
  have he := window_update_eq server id surface a window hl
  refine ⟨?_, ?_, ?_, ?_⟩
  · intro o ho hs
    rw [he]
    simp only [ho, hs, Bool.false_eq_true, if_false]
    refine ⟨?_, _, store_window_lookup _ id a window _ ?_, rfl⟩
    · simp only [store_window, output_write, ho, Option.map_some']
    · exact hl
  · intro o ho hs
    rw [he]
    simp only [ho, hs, if_true]
    refine ⟨?_, _, store_window_lookup _ id a window _ ?_, rfl⟩
    · simp only [store_window, output_write, ho, Option.map_some']
    · exact hl
  · intro ho
    rw [he]
    simp only [ho]
    exact ⟨ho, _, store_window_lookup _ id a window _ hl, rfl⟩
  · rw [he]
    cases ho : server.output with
    | none =>
      simp only []
      refine ⟨_, _, store_window_lookup _ id a window _ hl, rfl, rfl, rfl, ?_, ?_⟩
      · intro x y hx hy
        exact paint_source_pixel _ _ x y hx hy
      · intro hwf hw hh
        exact paint_source_same_size _ _ hw hh hwf
    | some o =>
      simp only []
      by_cases hs : window.last_synced = true
      · rw [if_pos hs]
        refine ⟨_, _, store_window_lookup _ id a window _ hl, rfl, rfl, rfl, ?_, ?_⟩
        · intro x y hx hy
          exact paint_source_pixel _ _ x y hx hy
        · intro hwf hw hh
          exact paint_source_same_size _ _ hw hh hwf
      · rw [if_neg hs]
        refine ⟨_, _, store_window_lookup _ id a window _ hl, rfl, rfl, rfl, ?_, ?_⟩
        · intro x y hx hy
          exact paint_source_pixel _ _ x y hx hy
        · intro hwf hw hh
          exact paint_source_same_size _ _ hw hh hwf

/-- Witness of `window_update_cases`: the window of `ex_server_small`, updated
without a channel from a surface of its own size, caches that surface. -/
theorem window_update_cases_witness :
    lookup_window ex_server_small 1 =
      some (1, { id := 1, x := 0, y := 0, width := 1, height := 1, is_temp := false,
                 last_synced := false, visible := false, transient_for := 0,
                 last_surface := none }) ∧
    (_gdk_broadway_server_window_update ex_server_small 1
      (some { width := 1, height := 1, data := [7] })).output = none ∧
    (lookup_window (_gdk_broadway_server_window_update ex_server_small 1
      (some { width := 1, height := 1, data := [7] })) 1).map (fun r => r.2.last_surface) =
      some (some { width := 1, height := 1, data := [7] }) :=
  ⟨by decide,
    ((window_update_cases ex_server_small 1 { width := 1, height := 1, data := [7] } 1
      { id := 1, x := 0, y := 0, width := 1, height := 1, is_temp := false,
        last_synced := false, visible := false, transient_for := 0, last_surface := none }
      (by decide)).2.2.1 rfl).1,
    by decide⟩

/-! ## Resynchronisation -/

theorem set_getD_self (l : List (Option BroadwayWindow)) (a : Nat) (w : BroadwayWindow)
    (h : l.getD a none = some w) : l.set a (some w) = l := by
  have hlt := getD_some_lt l a w h
  apply List.ext_getElem
  · simp
  · intro i h1 h2
    by_cases hia : a = i
    · subst hia
      rw [List.getD_eq_getElem _ _ hlt] at h
      simp [h]
    · simp [List.getElem_set, hia]

theorem write_all_append (o : BroadwayOutput) (l1 l2 : List BroadwayOp) :
    write_all o (l1 ++ l2) = write_all (write_all o l1) l2 := by
  simp [write_all, List.foldl_append]

theorem write_all_sent (o : BroadwayOutput) (l : List BroadwayOp) :
    (write_all o l).sent = o.sent ++ l ∧
    (write_all o l).serial = (o.serial + l.length) % 4294967296 ∨
    (l = [] ∧ write_all o l = o) := by
  induction l generalizing o with
  | nil => exact Or.inr ⟨rfl, rfl⟩
  | cons op l ih =>
    left
    have h : write_all o (op :: l) = write_all (broadway_output_write o op) l := rfl
    rw [h]
    rcases ih (broadway_output_write o op) with ⟨h1, h2⟩ | ⟨h1, h2⟩
    · rw [h1, h2]
      simp only [broadway_output_write, List.append_assoc, List.singleton_append,
        List.length_cons, true_and]
      omega
    · rw [h2, h1]
      simp only [broadway_output_write, List.length_cons, List.length_nil, true_and]

theorem write_all_sent_eq (o : BroadwayOutput) (l : List BroadwayOp) :
    (write_all o l).sent = o.sent ++ l := by
  rcases write_all_sent o l with h | ⟨h1, h2⟩
  · exact h.1
  · rw [h2, h1, List.append_nil]

theorem cmds_of_cons (g : BroadwayWindow → List BroadwayOp)
    (windows : List (Option BroadwayWindow)) (a : Nat) (tl : List Nat) :
    cmds_of g windows (a :: tl) = cmds_of g windows [a] ++ cmds_of g windows tl := by
  simp [cmds_of]

theorem update_at_getD (f : BroadwayWindow → BroadwayWindow)
    (windows : List (Option BroadwayWindow)) (a b : Nat) :
    (update_at f windows a).getD b none =
      if b = a then (windows.getD a none).map f else windows.getD b none := by
  unfold update_at
  cases h : windows.getD a none with
  | none =>
    simp only []
    by_cases hb : b = a
    · rw [if_pos hb, hb, h]; rfl
    · rw [if_neg hb]
  | some w =>
    simp only []
    by_cases hb : b = a
    · rw [if_pos hb, hb, getD_set_eq _ _ _ (getD_some_lt _ _ _ h)]; rfl
    · rw [if_neg hb, getD_set_ne _ _ _ _ (Ne.symm hb)]

theorem cmds_of_congr (g : BroadwayWindow → List BroadwayOp) (f : BroadwayWindow → BroadwayWindow)
    (hg : ∀ w, g (f w) = g w) (ws ws1 : List (Option BroadwayWindow))
    (h : ∀ b, ws1.getD b none = ws.getD b none ∨ ws1.getD b none = (ws.getD b none).map f)
    (tl : List Nat) : cmds_of g ws1 tl = cmds_of g ws tl := by
  unfold cmds_of
  congr 1
  funext a
  rcases h a with h1 | h1
  · rw [h1]
  · rw [h1]
    cases ws.getD a none with
    | none => rfl
    | some w => exact hg w

theorem pass_fold (f : BroadwayWindow → BroadwayWindow) (g : BroadwayWindow → List BroadwayOp)
    (step : GdkBroadwayServer → Nat → GdkBroadwayServer) (hstep : IsPass f g step)
    (hg : ∀ w, g (f w) = g w) (hf : ∀ w, f (f w) = f w) (tl : List Nat)
    (server : GdkBroadwayServer) :
    resync_frame (tl.foldl step server) = resync_frame server ∧
    (tl.foldl step server).output =
      server.output.map (fun o => write_all o (cmds_of g server.windows tl)) ∧
    ∀ b, (tl.foldl step server).windows.getD b none =
      if b ∈ tl then (server.windows.getD b none).map f else server.windows.getD b none := by
  induction tl generalizing server with
  | nil =>
    refine ⟨rfl, ?_, fun b => by simp⟩
    show server.output = server.output.map _
    cases server.output <;> rfl
  | cons a tl ih =>
    obtain ⟨h1, h2, h3⟩ := hstep server a
    obtain ⟨i1, i2, i3⟩ := ih (step server a)
    have hw : ∀ b, (step server a).windows.getD b none =
        if b = a then (server.windows.getD a none).map f else server.windows.getD b none := by
      intro b
      rw [h3, update_at_getD]
    have hc : cmds_of g (step server a).windows tl = cmds_of g server.windows tl := by
      apply cmds_of_congr g f hg
      intro b
      rw [hw b]
      by_cases hb : b = a
      · right; rw [if_pos hb, hb]
      · left; rw [if_neg hb]
    rw [List.foldl_cons]
    refine ⟨i1.trans h1, ?_, fun b => ?_⟩
    · rw [i2, h2, hc]
      cases server.output with
      | none => rfl
      | some o =>
        simp only [Option.map_some']
        rw [cmds_of_cons g server.windows a tl, write_all_append]
    · rw [i3 b, hw b]
      by_cases hb : b = a
      · subst hb
        simp only [if_true, List.mem_cons, true_or]
        by_cases hbt : b ∈ tl
        · rw [if_pos hbt]
          cases server.windows.getD b none with
          | none => rfl
          | some w => simp only [Option.map_some', hf]
        · rw [if_neg hbt]
      · simp only [hb, if_false, List.mem_cons, false_or]

theorem cmds_of_single (g : BroadwayWindow → List BroadwayOp)
    (windows : List (Option BroadwayWindow)) (a : Nat) :
    cmds_of g windows [a] =
      match windows.getD a none with
      | some w => g w
      | none => [] := by
  simp [cmds_of]

theorem map_write_nil (output : Option BroadwayOutput) :
    output.map (fun o => write_all o []) = output := by
  cases output <;> rfl

theorem create_step_is_pass : IsPass resync_unsync resync_create_cmds resync_create_step := by
  intro server a
  rw [cmds_of_single]
  unfold resync_create_step update_at
  cases h : server.windows.getD a none with
  | none => exact ⟨rfl, (map_write_nil _).symm, rfl⟩
  | some w =>
    simp only []
    by_cases hid : w.id = 0
    · simp only [hid, if_true, resync_create_cmds, resync_unsync]
      exact ⟨trivial, (map_write_nil _).symm, (set_getD_self _ _ _ h).symm⟩
    · simp only [hid, if_false, resync_create_cmds, resync_unsync]
      refine ⟨rfl, ?_, rfl⟩
      simp only [output_write, store_window]
      cases server.output <;> rfl

theorem state_step_is_pass : IsPass resync_sync resync_state_cmds resync_state_step := by
  intro server a
  rw [cmds_of_single]
  unfold resync_state_step update_at
  cases h : server.windows.getD a none with
  | none => exact ⟨rfl, (map_write_nil _).symm, rfl⟩
  | some w =>
    simp only []
    by_cases hid : w.id = 0
    · simp only [hid, if_true, resync_state_cmds, resync_sync]
      exact ⟨trivial, (map_write_nil _).symm, (set_getD_self _ _ _ h).symm⟩
    · by_cases ht : w.transient_for = -1 <;> by_cases hv : w.visible = true <;>
        cases hs : w.last_surface <;>
        simp only [hid, ht, hv, hs, if_true, if_false, resync_state_cmds, resync_sync,
          ne_eq, not_true_eq_false, not_false_eq_true, Bool.false_eq_true,
          List.nil_append, List.append_nil, List.singleton_append] <;>
        refine ⟨?_, ?_, ?_⟩ <;>
        first
          | trivial
          | exact (set_getD_self _ _ _ h).symm
          | rfl
          | exact (map_write_nil _).symm
          | (simp only [output_write, store_window]; cases server.output <;> rfl)

theorem create_cmds_unsync (w : BroadwayWindow) :
    resync_create_cmds (resync_unsync w) = resync_create_cmds w := by
  unfold resync_create_cmds resync_unsync
  by_cases h : w.id = 0 <;> simp [h]

theorem state_cmds_unsync (w : BroadwayWindow) :
    resync_state_cmds (resync_unsync w) = resync_state_cmds w := by
  unfold resync_state_cmds resync_unsync
  by_cases h : w.id = 0 <;> simp [h]

theorem unsync_unsync (w : BroadwayWindow) : resync_unsync (resync_unsync w) = resync_unsync w := by
  unfold resync_unsync
  by_cases h : w.id = 0 <;> simp [h]

theorem state_cmds_sync (w : BroadwayWindow) :
    resync_state_cmds (resync_sync w) = resync_state_cmds w := by
  unfold resync_state_cmds resync_sync
  by_cases h : w.id = 0 <;> by_cases hv : w.visible = true <;> cases hs : w.last_surface <;>
    simp [h, hv, hs]

theorem sync_sync (w : BroadwayWindow) : resync_sync (resync_sync w) = resync_sync w := by
  unfold resync_sync
  by_cases h : w.id = 0 <;> by_cases hv : w.visible = true <;> cases hs : w.last_surface <;>
    simp [h, hv, hs]

theorem resync_passes_eq (server : GdkBroadwayServer) :
    resync_frame (resync_passes server) = resync_frame server ∧
    (resync_passes server).output =
      server.output.map (fun o => write_all o
        (cmds_of resync_create_cmds server.windows server.toplevels ++
          cmds_of resync_state_cmds server.windows server.toplevels)) ∧
    ∀ b, (resync_passes server).windows.getD b none =
      if b ∈ server.toplevels then
        (server.windows.getD b none).map (fun w => resync_sync (resync_unsync w))
      else server.windows.getD b none := by
  obtain ⟨c1, c2, c3⟩ := pass_fold _ _ _ create_step_is_pass create_cmds_unsync unsync_unsync
    server.toplevels server
  obtain ⟨s1, s2, s3⟩ := pass_fold _ _ _ state_step_is_pass state_cmds_sync sync_sync
    server.toplevels (server.toplevels.foldl resync_create_step server)
  have hc : cmds_of resync_state_cmds (server.toplevels.foldl resync_create_step server).windows
      server.toplevels = cmds_of resync_state_cmds server.windows server.toplevels := by
    apply cmds_of_congr _ resync_unsync state_cmds_unsync
    intro b
    rw [c3 b]
    by_cases hb : b ∈ server.toplevels
    · right; rw [if_pos hb]
    · left; rw [if_neg hb]
  unfold resync_passes
  refine ⟨s1.trans c1, ?_, fun b => ?_⟩
  · rw [s2, c2, hc]
    cases server.output with
    | none => rfl
    | some o => simp only [Option.map_some', write_all_append]
  · rw [s3 b, c3 b]
    by_cases hb : b ∈ server.toplevels
    · simp only [hb, if_true, Option.map_map]
      rfl
    · simp only [hb, if_false]


theorem mem_cmds_of (g : BroadwayWindow → List BroadwayOp)
    (windows : List (Option BroadwayWindow)) (tl : List Nat) (op : BroadwayOp) :
    op ∈ cmds_of g windows tl ↔
      ∃ a ∈ tl, ∃ w, windows.getD a none = some w ∧ op ∈ g w := by
  unfold cmds_of
  rw [List.mem_flatMap]
  constructor
  · rintro ⟨a, ha, hop⟩
    cases h : windows.getD a none with
    | none => rw [h] at hop; cases hop
    | some w => rw [h] at hop; exact ⟨a, ha, w, h, hop⟩
  · rintro ⟨a, ha, w, hw, hop⟩
    exact ⟨a, ha, by rw [hw]; exact hop⟩

theorem cmds_of_contains (g : BroadwayWindow → List BroadwayOp)
    (windows : List (Option BroadwayWindow)) (tl : List Nat) (a : Nat) (w : BroadwayWindow)
    (ha : a ∈ tl) (hw : windows.getD a none = some w) : g w <:+: cmds_of g windows tl := by
  obtain ⟨l1, l2, rfl⟩ := List.append_of_mem ha
  refine ⟨cmds_of g windows l1, cmds_of g windows l2, ?_⟩
  simp only [cmds_of, List.flatMap_append, List.flatMap_cons, hw, List.append_assoc]

theorem state_cmds_show_put (w : BroadwayWindow) (surface : Surface) (hid : w.id ≠ 0)
    (hv : w.visible = true) (hs : w.last_surface = some surface) :
    [BroadwayOp.show_surface w.id,
      BroadwayOp.put_rgb w.id 0 0 surface.width surface.height surface.data] <:+:
      resync_state_cmds w := by
  unfold resync_state_cmds
  simp only [hid, if_false, hv, if_true, hs]
  exact List.suffix_append _ _ |>.isInfix

theorem put_mem_state_cmds (w : BroadwayWindow) (id x y width height : Int) (data : List Nat)
    (h : BroadwayOp.put_rgb id x y width height data ∈ resync_state_cmds w) :
    w.id ≠ 0 ∧ w.visible = true ∧ id = w.id ∧
    ∃ surface, w.last_surface = some surface ∧
      BroadwayOp.put_rgb id x y width height data =
        BroadwayOp.put_rgb w.id 0 0 surface.width surface.height surface.data := by
  unfold resync_state_cmds at h
  by_cases hid : w.id = 0
  · simp [hid] at h
  · by_cases hv : w.visible = true
    · cases hs : w.last_surface with
      | none =>
        by_cases ht : w.transient_for = -1 <;> simp [hid, hv, hs, ht] at h
      | some surface =>
        have h2 : BroadwayOp.put_rgb id x y width height data =
            BroadwayOp.put_rgb w.id 0 0 surface.width surface.height surface.data := by
          by_cases ht : w.transient_for = -1 <;> simp [hid, hv, hs, ht] at h <;>
            simp [h]
        refine ⟨hid, hv, ?_, surface, rfl, h2⟩
        injection h2
    · by_cases ht : w.transient_for = -1 <;> simp [hid, hv, ht] at h

theorem state_cmds_subject (w : BroadwayWindow) (op : BroadwayOp) (h : op ∈ resync_state_cmds w) :
    w.id ≠ 0 ∧ op.subject = some w.id ∧ op.is_new_surface = false := by
  unfold resync_state_cmds at h
  by_cases hid : w.id = 0
  · simp [hid] at h
  · refine ⟨hid, ?_⟩
    rw [if_neg hid] at h
    rcases List.mem_append.mp h with h1 | h2
    · split_ifs at h1
      · rw [List.mem_singleton.mp h1]
        exact ⟨rfl, rfl⟩
      · cases h1
    · split_ifs at h2
      · rcases List.mem_cons.mp h2 with h3 | h3
        · rw [h3]
          exact ⟨rfl, rfl⟩
        · cases hs : w.last_surface with
          | none => rw [hs] at h3; cases h3
          | some surface =>
            rw [hs] at h3
            rw [List.mem_singleton.mp h3]
            exact ⟨rfl, rfl⟩
      · cases h2

theorem create_cmds_subject (w : BroadwayWindow) (op : BroadwayOp)
    (h : op ∈ resync_create_cmds w) :
    w.id ≠ 0 ∧ op = BroadwayOp.new_surface w.id w.x w.y w.width w.height w.is_temp := by
  unfold resync_create_cmds at h
  by_cases hid : w.id = 0
  · simp [hid] at h
  · simp [hid] at h
    exact ⟨hid, h⟩

theorem resync_windows_sent (server : GdkBroadwayServer) (o o1 : BroadwayOutput)
    (ho : server.output = some o)
    (h1 : (_gdk_broadway_server_resync_windows server).output = some o1) :
    o1.sent = o.sent ++ (cmds_of resync_create_cmds server.windows server.toplevels ++
      cmds_of resync_state_cmds server.windows server.toplevels) := by
  have h2 := (resync_passes_eq server).2.1
  rw [ho] at h2
  simp only [Option.map_some'] at h2
  unfold _gdk_broadway_server_resync_windows at h1
  simp only [ho] at h1
  unfold _gdk_broadway_server_flush at h1
  simp only [h2] at h1
  split_ifs at h1 with hf
  · simp only [Option.some.injEq] at h1
    rw [← h1]
    unfold broadway_output_flush
    cases hfo : (write_all o _).flush_outcomes with
    | nil => simp only []; exact write_all_sent_eq _ _
    | cons b rest => simp only []; exact write_all_sent_eq _ _

theorem write_all_flush_outcomes (o : BroadwayOutput) (l : List BroadwayOp) :
    (write_all o l).flush_outcomes = o.flush_outcomes := by
  induction l generalizing o with
  | nil => rfl
  | cons op l ih => exact (ih (broadway_output_write o op)).trans rfl

theorem resync_windows_attached (server : GdkBroadwayServer) (o : BroadwayOutput)
    (ho : server.output = some o) (hf : o.flush_outcomes.head? ≠ some false) :
    ∃ o1, (_gdk_broadway_server_resync_windows server).output = some o1 := by
  have h2 := (resync_passes_eq server).2.1
  rw [ho] at h2
  simp only [Option.map_some'] at h2
  unfold _gdk_broadway_server_resync_windows
  simp only [ho]
  unfold _gdk_broadway_server_flush
  simp only [h2]
  have h3 := write_all_flush_outcomes o
    (cmds_of resync_create_cmds server.windows server.toplevels ++
      cmds_of resync_state_cmds server.windows server.toplevels)
  unfold broadway_output_flush
  cases hfo : o.flush_outcomes with
  | nil =>
    rw [hfo] at h3
    simp only [h3, if_true]
    exact ⟨_, rfl⟩
  | cons b rest =>
    rw [hfo] at h3 hf
    have hb : b = true := by
      cases b
      · exact absurd rfl hf
      · rfl
    subst hb
    simp only [h3, if_true]
    exact ⟨_, rfl⟩

/-- C13: ordering of the resynchronisation.  With an output channel attached,
the two loops of `_gdk_broadway_server_resync_windows` append to the commands
already written the list `cs` followed by the list `ss`, and that is what the
channel holds after the final flush if it is still attached (it is unless the
flush fails).  `cs` holds create-surface commands only, one for the struct of
every toplevel that is not the root; `ss` holds no create-surface command, and
every command in it has as its subject a window whose create-surface is in
`cs`.  So each create-surface comes before every set-transient-for,
show-surface and put-rgb, whichever window those name.  For a visible window
with a cached surface the show-surface command stands directly before its
put-rgb, and every put-rgb in `ss` has the show-surface of its window directly
before it. -/
theorem resync_ordering (server : GdkBroadwayServer) (o : BroadwayOutput)
    (ho : server.output = some o) :
    (resync_passes server).output.map (fun o1 => o1.sent) =
      some (o.sent ++ (cmds_of resync_create_cmds server.windows server.toplevels ++
        cmds_of resync_state_cmds server.windows server.toplevels)) ∧
    (∀ o1, (_gdk_broadway_server_resync_windows server).output = some o1 →
      o1.sent = o.sent ++ (cmds_of resync_create_cmds server.windows server.toplevels ++
        cmds_of resync_state_cmds server.windows server.toplevels)) ∧
    (o.flush_outcomes.head? ≠ some false →
      ∃ o1, (_gdk_broadway_server_resync_windows server).output = some o1) ∧
    (∀ op ∈ cmds_of resync_create_cmds server.windows server.toplevels,
      op.is_new_surface = true) ∧
    (∀ op ∈ cmds_of resync_state_cmds server.windows server.toplevels,
      op.is_new_surface = false) ∧
    (∀ a ∈ server.toplevels, ∀ w, server.windows.getD a none = some w → w.id ≠ 0 →
      BroadwayOp.new_surface w.id w.x w.y w.width w.height w.is_temp ∈
        cmds_of resync_create_cmds server.windows server.toplevels) ∧
    (∀ op ∈ cmds_of resync_state_cmds server.windows server.toplevels,
      ∃ w : BroadwayWindow, w.id ≠ 0 ∧ op.subject = some w.id ∧
        BroadwayOp.new_surface w.id w.x w.y w.width w.height w.is_temp ∈
          cmds_of resync_create_cmds server.windows server.toplevels) ∧
    (∀ a ∈ server.toplevels, ∀ w surface, server.windows.getD a none = some w → w.id ≠ 0 →
      w.visible = true → w.last_surface = some surface →
      [BroadwayOp.show_surface w.id,
        BroadwayOp.put_rgb w.id 0 0 surface.width surface.height surface.data] <:+:
        cmds_of resync_state_cmds server.windows server.toplevels) ∧
    (∀ id x y width height data,
      BroadwayOp.put_rgb id x y width height data ∈
        cmds_of resync_state_cmds server.windows server.toplevels →
      [BroadwayOp.show_surface id, BroadwayOp.put_rgb id x y width height data] <:+:
        cmds_of resync_state_cmds server.windows server.toplevels) := by
  have hcreate : ∀ a ∈ server.toplevels, ∀ w, server.windows.getD a none = some w → w.id ≠ 0 →
      BroadwayOp.new_surface w.id w.x w.y w.width w.height w.is_temp ∈
        cmds_of resync_create_cmds server.windows server.toplevels := by
    intro a ha w hw hid
    rw [mem_cmds_of]
    refine ⟨a, ha, w, hw, ?_⟩
    unfold resync_create_cmds
    rw [if_neg hid]
    exact List.mem_singleton.mpr rfl
  refine ⟨?_, fun o1 h1 => resync_windows_sent server o o1 ho h1,
    fun hf => resync_windows_attached server o ho hf, ?_, ?_, hcreate, ?_, ?_, ?_⟩
  · rw [(resync_passes_eq server).2.1, ho]
    simp only [Option.map_some', write_all_sent_eq]
  · intro op hop
    obtain ⟨a, -, w, -, hmem⟩ := (mem_cmds_of _ _ _ _).mp hop
    rw [(create_cmds_subject w op hmem).2]
    rfl
  · intro op hop
    obtain ⟨a, -, w, -, hmem⟩ := (mem_cmds_of _ _ _ _).mp hop
    exact (state_cmds_subject w op hmem).2.2
  · intro op hop
    obtain ⟨a, ha, w, hw, hmem⟩ := (mem_cmds_of _ _ _ _).mp hop
    obtain ⟨hid, hsub, -⟩ := state_cmds_subject w op hmem
    exact ⟨w, hid, hsub, hcreate a ha w hw hid⟩
  · intro a ha w surface hw hid hv hs
    exact (state_cmds_show_put w surface hid hv hs).trans
      (cmds_of_contains resync_state_cmds _ _ a w ha hw)
  · intro id x y width height data hop
    obtain ⟨a, ha, w, hw, hmem⟩ := (mem_cmds_of _ _ _ _).mp hop
    obtain ⟨hid, hv, hidw, surface, hs, heq⟩ := put_mem_state_cmds w id x y width height data hmem
    rw [heq, hidw]
    exact (state_cmds_show_put w surface hid hv hs).trans
      (cmds_of_contains resync_state_cmds _ _ a w ha hw)

/-- Witness of `resync_ordering` on `ex_server_attached`, whose only window is
visible and has a cached surface: the channel gets the create-surface, then
set-transient-for, show-surface and put-rgb. -/
theorem resync_ordering_witness :
    ex_server_attached.output = some (broadway_output_new 1 true false []) ∧
    (_gdk_broadway_server_resync_windows ex_server_attached).output.map (fun o1 => o1.sent) =
      some [BroadwayOp.new_surface 1 0 0 1 1 false, BroadwayOp.set_transient_for 1 0,
        BroadwayOp.show_surface 1, BroadwayOp.put_rgb 1 0 0 1 1 [7]] ∧
    ∀ op ∈ cmds_of resync_state_cmds ex_server_attached.windows ex_server_attached.toplevels,
      op.is_new_surface = false :=
  ⟨by decide, by decide,
    (resync_ordering ex_server_attached (broadway_output_new 1 true false [])
      (by decide)).2.2.2.2.1⟩

/-! ## Consistency of the registry -/

theorem consistent_init (o : Option BroadwayOutput) :
    RegistryConsistent { gdk_broadway_server_init with output := o } := by
  refine ⟨List.nodup_nil, ?_, ?_, le_refl _⟩
  · intro a ha
    exact absurd ha (List.not_mem_nil a)
  · intro k a h
    have hmem := lookup_mem _ _ _ h
    simp only [registry, gdk_broadway_server_init, List.mem_singleton, Prod.mk.injEq] at hmem
    obtain ⟨hk, ha⟩ := hmem
    rw [hk, ha]
    exact ⟨⟨_, rfl, rfl⟩, fun h0 => absurd rfl h0, Int.one_pos⟩

theorem consistent_of_stores (server server1 : GdkBroadwayServer)
    (h : StoresWindow server server1) (hi : RegistryConsistent server) :
    RegistryConsistent server1 := by
  rcases h with h | ⟨id, a, w, w1, hl, hid, h⟩
  · unfold RegistryConsistent
    rw [h]
    exact hi
  · obtain ⟨hla, hlw⟩ := lookup_window_some server id a w hl
    have hlt := getD_some_lt _ _ _ hlw
    obtain ⟨i1, i2, i3, i4⟩ := hi
    unfold RegistryConsistent
    rw [h]
    refine ⟨i1, fun b hb => ?_, fun k b hk => ?_, i4⟩
    · obtain ⟨wb, hwb, h1, h2⟩ := i2 b hb
      by_cases hab : a = b
      · subst hab
        have hww : wb = w := by
          have h3 : server.windows.getD a none = some wb := hwb
          rw [hlw] at h3
          exact (Option.some.inj h3).symm
        subst hww
        refine ⟨w1, getD_set_eq _ _ _ hlt, by rw [hid]; exact h1, ?_⟩
        rw [hid]
        exact h2
      · exact ⟨wb, (getD_set_ne _ _ _ _ hab).trans hwb, h1, h2⟩
    · obtain ⟨⟨wb, hwb, h1⟩, h2, h3⟩ := i3 k b hk
      refine ⟨?_, h2, h3⟩
      by_cases hab : a = b
      · subst hab
        have hww : wb = w := by
          have h3 : server.windows.getD a none = some wb := hwb
          rw [hlw] at h3
          exact (Option.some.inj h3).symm
        subst hww
        exact ⟨w1, getD_set_eq _ _ _ hlt, hid.trans h1⟩
      · exact ⟨wb, (getD_set_ne _ _ _ _ hab).trans hwb, h1⟩

theorem consistent_new_window (server : GdkBroadwayServer) (x y width height : Int)
    (is_temp : Bool) (hc : server.id_counter < 2147483648) (hi : RegistryConsistent server) :
    RegistryConsistent (_gdk_broadway_server_new_window server x y width height is_temp).2 := by
  obtain ⟨w, hwid, hr⟩ := registry_new_window server x y width height is_temp
  obtain ⟨i1, i2, i3, i4⟩ := hi
  simp only [registry] at i1 i2 i3 i4
  have hid : to_gint32 (server.id_counter : Int) = server.id_counter := by
    unfold to_gint32; omega
  rw [hid] at hr hwid
  have hmod : (server.id_counter + 1) % 4294967296 = server.id_counter + 1 := by omega
  rw [hmod] at hr
  unfold RegistryConsistent
  rw [hr]
  have hfresh : server.windows.length ∉ server.toplevels := by
    intro hm
    obtain ⟨w0, hw0, -, -⟩ := i2 _ hm
    exact absurd (getD_some_lt _ _ _ hw0) (lt_irrefl _)
  refine ⟨List.nodup_cons.mpr ⟨hfresh, i1⟩, fun b hb => ?_, fun k b hk => ?_, by simp⟩
  · simp only at hb ⊢
    rcases List.mem_cons.mp hb with hb | hb
    · subst hb
      refine ⟨w, ?_, by rw [hwid]; omega, ?_⟩
      · rw [List.getD_append_right _ _ _ _ (le_refl _), Nat.sub_self]; rfl
      · rw [lookup_insert, hwid, if_pos rfl]
    · obtain ⟨wb, hwb, h1, h2⟩ := i2 b hb
      have h3 := (i3 _ _ h2).2.2
      refine ⟨wb, ?_, h1, ?_⟩
      · rw [List.getD_append _ _ _ _ (getD_some_lt _ _ _ hwb)]; exact hwb
      · rw [lookup_insert, if_neg (by omega)]
        exact h2
  · simp only at hk ⊢
    rw [lookup_insert] at hk
    by_cases hkc : k = (server.id_counter : Int)
    · rw [if_pos hkc] at hk
      have hb : b = server.windows.length := (Option.some.inj hk).symm
      subst hb
      refine ⟨⟨w, ?_, hwid.trans hkc.symm⟩, fun _ => List.mem_cons_self _ _, by omega⟩
      rw [List.getD_append_right _ _ _ _ (le_refl _), Nat.sub_self]; rfl
    · rw [if_neg hkc] at hk
      obtain ⟨⟨wb, hwb, h1⟩, h2, h3⟩ := i3 k b hk
      refine ⟨⟨wb, ?_, h1⟩, fun h0 => List.mem_cons_of_mem _ (h2 h0), by omega⟩
      rw [List.getD_append _ _ _ _ (getD_some_lt _ _ _ hwb)]; exact hwb

theorem consistent_destroy_window (server : GdkBroadwayServer) (id : Int)
    (hi : RegistryConsistent server) :
    RegistryConsistent (_gdk_broadway_server_destroy_window server id) := by
  have hr := registry_destroy_window server id
  cases hl : g_hash_table_lookup server.id_ht id with
  | none =>
    rw [hl] at hr
    unfold RegistryConsistent
    rw [hr]
    exact hi
  | some a =>
    rw [hl] at hr
    simp only [] at hr
    obtain ⟨i1, i2, i3, i4⟩ := hi
    simp only [registry] at i1 i2 i3 i4
    obtain ⟨⟨wa, hwa, hwaid⟩, -, -⟩ := i3 id a hl
    unfold RegistryConsistent
    rw [hr]
    refine ⟨i1.erase a, fun b hb => ?_, fun k b hk => ?_, i4⟩
    · simp only at hb ⊢
      have hbm : b ∈ server.toplevels := List.mem_of_mem_erase hb
      have hba : a ≠ b := by
        intro h
        subst h
        exact absurd hb (List.Nodup.not_mem_erase i1)
      obtain ⟨wb, hwb, h1, h2⟩ := i2 b hbm
      have hne : wb.id ≠ id := by
        intro h
        rw [h, hl] at h2
        exact hba (Option.some.inj h2)
      exact ⟨wb, (getD_set_ne _ _ _ _ hba).trans hwb, h1,
        (lookup_remove_ne _ _ _ hne).trans h2⟩
    · simp only at hk ⊢
      have hkid : k ≠ id := by
        intro h
        rw [h, lookup_remove_self] at hk
        cases hk
      rw [lookup_remove_ne _ _ _ hkid] at hk
      obtain ⟨⟨wb, hwb, h1⟩, h2, h3⟩ := i3 k b hk
      have hba : a ≠ b := by
        intro h
        subst h
        rw [hwa] at hwb
        exact hkid (h1.symm.trans (by rw [← Option.some.inj hwb]; exact hwaid))
      exact ⟨⟨wb, (getD_set_ne _ _ _ _ hba).trans hwb, h1⟩,
        fun h0 => (List.mem_erase_of_ne (Ne.symm hba)).mpr (h2 h0), h3⟩

theorem consistent_apply (server : GdkBroadwayServer) (op : RegistryOp)
    (hc : count_new_window [op] = 0 ∨ server.id_counter < 2147483648)
    (hi : RegistryConsistent server) : RegistryConsistent (op.apply server) := by
  cases op with
  | new_window x y width height is_temp =>
    rcases hc with hc | hc
    · simp [count_new_window] at hc
    · exact consistent_new_window server x y width height is_temp hc hi
  | destroy_window id => exact consistent_destroy_window server id hi
  | window_show id => exact consistent_of_stores _ _ (stores_window_show server id) hi
  | window_hide id => exact consistent_of_stores _ _ (stores_window_hide server id) hi
  | window_move_resize id x y width height =>
    exact consistent_of_stores _ _ (stores_window_move_resize server id x y width height) hi
  | window_set_transient_for id parent =>
    exact consistent_of_stores _ _ (stores_window_set_transient_for server id parent) hi
  | window_update id surface =>
    exact consistent_of_stores _ _ (stores_window_update server id surface) hi

theorem count_new_window_single (op : RegistryOp) :
    count_new_window [op] = 0 ∨ count_new_window [op] = 1 := by
  cases op <;> simp [count_new_window]

theorem consistent_run (ops : List RegistryOp) (server : GdkBroadwayServer)
    (hc : server.id_counter + count_new_window ops ≤ 2147483648)
    (hi : RegistryConsistent server) : RegistryConsistent (run_registry_ops server ops) := by
  induction ops generalizing server with
  | nil => exact hi
  | cons op ops ih =>
    rw [count_new_window_cons] at hc
    have h1 : run_registry_ops server (op :: ops) = run_registry_ops (op.apply server) ops := rfl
    rw [h1]
    have hi1 : 1 ≤ server.id_counter := hi.2.2.2
    apply ih
    · rcases id_counter_apply server op with h | ⟨h, h0⟩
      · rw [h]; omega
      · rw [h]; omega
    · apply consistent_apply server op _ hi
      rcases count_new_window_single op with h | h
      · exact Or.inl h
      · exact Or.inr (by omega)

theorem output_write_none (server : GdkBroadwayServer) (op : BroadwayOp)
    (h : server.output = none) : output_write server op = server := by
  unfold output_write
  rw [h]
  cases server
  simp only [Option.map_none'] at h ⊢
  rw [h]

theorem flush_none (server : GdkBroadwayServer) (h : server.output = none) :
    _gdk_broadway_server_flush server = server := by
  unfold _gdk_broadway_server_flush
  rw [h]

theorem apply_detached (server : GdkBroadwayServer) (op : RegistryOp)
    (h : server.output = none) :
    (op.apply server).output = none ∧ (op.apply server).saved_serial = server.saved_serial := by
  cases op with
  | new_window x y width height is_temp =>
    simp only [RegistryOp.apply, _gdk_broadway_server_new_window, output_write, h]
    refine ⟨?_, ?_⟩ <;> trivial
  | destroy_window id =>
    have ho := (destroy_window_pointer_fields server id).2.2.2.2
    refine ⟨by rw [RegistryOp.apply, ho, h]; rfl, ?_⟩
    simp only [RegistryOp.apply, _gdk_broadway_server_destroy_window, output_write]
    by_cases h1 : server.mouse_in_toplevel_id = id <;>
      by_cases h2 : server.pointer_grab_window_id = id <;>
      simp only [h1, h2, if_true, if_false] <;>
      cases g_hash_table_lookup server.id_ht id <;> rfl
  | window_show id =>
    simp only [RegistryOp.apply, _gdk_broadway_server_window_show]
    cases lookup_window server id with
    | none => exact ⟨h, rfl⟩
    | some r => simp only [output_write, store_window, h]; refine ⟨?_, ?_⟩ <;> trivial
  | window_hide id =>
    simp only [RegistryOp.apply, _gdk_broadway_server_window_hide]
    cases lookup_window server id with
    | none => exact ⟨h, rfl⟩
    | some r =>
      simp only [output_write, store_window]
      split_ifs <;> simp only [h] <;> refine ⟨?_, ?_⟩ <;> trivial
  | window_move_resize id x y width height =>
    simp only [RegistryOp.apply, _gdk_broadway_server_window_move_resize]
    cases lookup_window server id with
    | none => exact ⟨h, rfl⟩
    | some r => simp only [output_write, store_window, h]; refine ⟨?_, ?_⟩ <;> trivial
  | window_set_transient_for id parent =>
    simp only [RegistryOp.apply, _gdk_broadway_server_window_set_transient_for]
    cases lookup_window server id with
    | none => exact ⟨h, rfl⟩
    | some r => simp only [store_window, h]; refine ⟨?_, ?_⟩ <;> trivial
  | window_update id surface =>
    simp only [RegistryOp.apply, _gdk_broadway_server_window_update]
    cases surface with
    | none => exact ⟨h, rfl⟩
    | some surface =>
      simp only []
      cases lookup_window server id with
      | none => exact ⟨h, rfl⟩
      | some r => simp only [h, store_window]; refine ⟨?_, ?_⟩ <;> trivial

theorem run_detached (ops : List RegistryOp) (server : GdkBroadwayServer)
    (h : server.output = none) :
    (run_registry_ops server ops).output = none ∧
    (run_registry_ops server ops).saved_serial = server.saved_serial := by
  induction ops generalizing server with
  | nil => exact ⟨h, rfl⟩
  | cons op ops ih =>
    obtain ⟨h1, h2⟩ := apply_detached server op h
    obtain ⟨h3, h4⟩ := ih (op.apply server) h1
    exact ⟨h3, h4.trans h2⟩


/-! ## Resynchronisation replays the registry -/

theorem cmds_of_append (g : BroadwayWindow → List BroadwayOp)
    (windows : List (Option BroadwayWindow)) (l1 l2 : List Nat) :
    cmds_of g windows (l1 ++ l2) = cmds_of g windows l1 ++ cmds_of g windows l2 := by
  simp [cmds_of]

theorem filter_cmds_of_none (g : BroadwayWindow → List BroadwayOp)
    (windows : List (Option BroadwayWindow)) (tl : List Nat) (p : BroadwayOp → Bool)
    (h : ∀ b ∈ tl, ∀ wb, windows.getD b none = some wb → ∀ op ∈ g wb, p op = false) :
    (cmds_of g windows tl).filter p = [] := by
  rw [List.filter_eq_nil_iff]
  intro op hop
  obtain ⟨b, hb, wb, hwb, hmem⟩ := (mem_cmds_of _ _ _ _).mp hop
  rw [h b hb wb hwb op hmem]
  exact Bool.false_ne_true

theorem filter_cmds_of_one (g : BroadwayWindow → List BroadwayOp)
    (windows : List (Option BroadwayWindow)) (tl : List Nat) (p : BroadwayOp → Bool) (a : Nat)
    (w : BroadwayWindow) (hnd : tl.Nodup) (ha : a ∈ tl) (hw : windows.getD a none = some w)
    (h : ∀ b ∈ tl, b ≠ a → ∀ wb, windows.getD b none = some wb → ∀ op ∈ g wb, p op = false) :
    (cmds_of g windows tl).filter p = (g w).filter p := by
  obtain ⟨l1, l2, rfl⟩ := List.append_of_mem ha
  have hnd2 := List.nodup_append.mp hnd
  have ha1 : a ∉ l1 := fun hm => hnd2.2.2 hm (List.mem_cons_self _ _)
  have ha2 : a ∉ l2 := (List.nodup_cons.mp hnd2.2.1).1
  rw [cmds_of_append, cmds_of_cons, List.filter_append, List.filter_append, cmds_of_single, hw,
    filter_cmds_of_none g windows l1 p, filter_cmds_of_none g windows l2 p]
  · simp
  · intro b hb
    exact h b (List.mem_append_right _ (List.mem_cons_of_mem _ hb))
      (fun hba => ha2 (hba ▸ hb))
  · intro b hb
    exact h b (List.mem_append_left _ hb) (fun hba => ha1 (hba ▸ hb))

theorem state_cmds_filter_show (w : BroadwayWindow) (hid : w.id ≠ 0) :
    (resync_state_cmds w).filter (fun op => op == BroadwayOp.show_surface w.id) =
      if w.visible then [BroadwayOp.show_surface w.id] else [] := by
  unfold resync_state_cmds
  by_cases ht : w.transient_for = -1 <;> by_cases hv : w.visible = true <;>
    cases hs : w.last_surface <;>
    simp [hid, ht, hv, hs, List.filter_cons]

theorem create_cmds_filter (w : BroadwayWindow) (hid : w.id ≠ 0) :
    (resync_create_cmds w).filter
        (fun op => op.is_new_surface && op.subject == some w.id) =
      [BroadwayOp.new_surface w.id w.x w.y w.width w.height w.is_temp] := by
  unfold resync_create_cmds
  simp [hid, List.filter_cons, BroadwayOp.is_new_surface, BroadwayOp.subject]

theorem attach_output_fields (server : GdkBroadwayServer) (proto_v7_plus binary : Bool)
    (flush_outcomes : List Bool) :
    (attach_output server proto_v7_plus binary flush_outcomes).output =
      some (broadway_output_new (_gdk_broadway_server_get_next_serial server) proto_v7_plus
        binary flush_outcomes) ∧
    (attach_output server proto_v7_plus binary flush_outcomes).saved_serial =
      _gdk_broadway_server_get_next_serial server ∧
    (attach_output server proto_v7_plus binary flush_outcomes).windows = server.windows ∧
    (attach_output server proto_v7_plus binary flush_outcomes).toplevels = server.toplevels ∧
    (attach_output server proto_v7_plus binary flush_outcomes).id_ht = server.id_ht := by
  unfold attach_output _gdk_broadway_server_get_next_serial
  cases server.output <;> exact ⟨rfl, rfl, rfl, rfl, rfl⟩

theorem lookup_window_consistent (server : GdkBroadwayServer) (hi : RegistryConsistent server)
    (a : Nat) (ha : a ∈ server.toplevels) :
    ∃ w, server.windows.getD a none = some w ∧ w.id ≠ 0 ∧
      lookup_window server w.id = some (a, w) := by
  obtain ⟨w, hw, h1, h2⟩ := hi.2.1 a ha
  exact ⟨w, hw, by omega, lookup_window_of server w.id a w h2 hw⟩

theorem resync_ordering_aux (server : GdkBroadwayServer) (proto_v7_plus binary : Bool)
    (flush_outcomes : List Bool) :
    (resync_passes (attach_output server proto_v7_plus binary flush_outcomes)).output.map
        (fun o1 => o1.sent) =
      some (cmds_of resync_create_cmds server.windows server.toplevels ++
        cmds_of resync_state_cmds server.windows server.toplevels) ∧
    (∀ o1, (_gdk_broadway_server_resync_windows
        (attach_output server proto_v7_plus binary flush_outcomes)).output = some o1 →
      o1.sent = cmds_of resync_create_cmds server.windows server.toplevels ++
        cmds_of resync_state_cmds server.windows server.toplevels) := by
  obtain ⟨ao, -, aw, at_, -⟩ := attach_output_fields server proto_v7_plus binary flush_outcomes
  constructor
  · rw [(resync_passes_eq _).2.1, ao, aw, at_]
    simp only [Option.map_some', write_all_sent_eq, broadway_output_new, List.nil_append]
  · intro o1 h1
    have h2 := resync_windows_sent _ _ o1 ao h1
    rw [aw, at_] at h2
    simpa [broadway_output_new] using h2

/-- C14: the resynchronisation replays the registry in full.  After any
sequence of registry calls made on the initial server with no output channel
attached (fewer than 2^31 of them creations, so that the `gint32` ids do not
wrap), no channel is attached, and when one is attached the two loops of
`_gdk_broadway_server_resync_windows` write on the fresh channel a list of
commands in which, for every window `id` other than the root that the id table
still holds, the create-surface commands for `id` are exactly one, carrying the
window's current position, size and `is_temp`, the show-surface commands for
`id` are exactly one if the window is visible and none if it is hidden; and no
command has as its subject an id that the table does not hold. -/
theorem resync_replays_registry (ops : List RegistryOp)
    (hk : count_new_window ops < 2147483648) (proto_v7_plus binary : Bool)
    (flush_outcomes : List Bool) :
    (run_registry_ops gdk_broadway_server_init ops).output = none ∧
    (resync_passes (attach_output (run_registry_ops gdk_broadway_server_init ops)
        proto_v7_plus binary flush_outcomes)).output.map (fun o1 => o1.sent) =
      some (cmds_of resync_create_cmds (run_registry_ops gdk_broadway_server_init ops).windows
          (run_registry_ops gdk_broadway_server_init ops).toplevels ++
        cmds_of resync_state_cmds (run_registry_ops gdk_broadway_server_init ops).windows
          (run_registry_ops gdk_broadway_server_init ops).toplevels) ∧
    (∀ o1, (_gdk_broadway_server_resync_windows
        (attach_output (run_registry_ops gdk_broadway_server_init ops)
          proto_v7_plus binary flush_outcomes)).output = some o1 →
      o1.sent =
        cmds_of resync_create_cmds (run_registry_ops gdk_broadway_server_init ops).windows
          (run_registry_ops gdk_broadway_server_init ops).toplevels ++
        cmds_of resync_state_cmds (run_registry_ops gdk_broadway_server_init ops).windows
          (run_registry_ops gdk_broadway_server_init ops).toplevels) ∧
    (∀ id a w, id ≠ 0 →
      lookup_window (run_registry_ops gdk_broadway_server_init ops) id = some (a, w) →
      (cmds_of resync_create_cmds (run_registry_ops gdk_broadway_server_init ops).windows
          (run_registry_ops gdk_broadway_server_init ops).toplevels ++
        cmds_of resync_state_cmds (run_registry_ops gdk_broadway_server_init ops).windows
          (run_registry_ops gdk_broadway_server_init ops).toplevels).filter
        (fun op => op.is_new_surface && op.subject == some id) =
        [BroadwayOp.new_surface id w.x w.y w.width w.height w.is_temp] ∧
      (cmds_of resync_create_cmds (run_registry_ops gdk_broadway_server_init ops).windows
          (run_registry_ops gdk_broadway_server_init ops).toplevels ++
        cmds_of resync_state_cmds (run_registry_ops gdk_broadway_server_init ops).windows
          (run_registry_ops gdk_broadway_server_init ops).toplevels).filter
        (fun op => op == BroadwayOp.show_surface id) =
        if w.visible then [BroadwayOp.show_surface id] else []) ∧
    (∀ id, lookup_window (run_registry_ops gdk_broadway_server_init ops) id = none →
      ∀ op ∈
        cmds_of resync_create_cmds (run_registry_ops gdk_broadway_server_init ops).windows
          (run_registry_ops gdk_broadway_server_init ops).toplevels ++
        cmds_of resync_state_cmds (run_registry_ops gdk_broadway_server_init ops).windows
          (run_registry_ops gdk_broadway_server_init ops).toplevels,
      op.subject ≠ some id) := by
  have hinit : gdk_broadway_server_init.output = none := rfl
  have hnone := (run_detached ops gdk_broadway_server_init hinit).1
  have hcons : RegistryConsistent (run_registry_ops gdk_broadway_server_init ops) :=
    consistent_run ops gdk_broadway_server_init
      (by have h1 : gdk_broadway_server_init.id_counter = 1 := rfl
          rw [h1]; omega)
      (consistent_init none)
  generalize run_registry_ops gdk_broadway_server_init ops = server at hnone hcons ⊢
  obtain ⟨ao, -, aw, at_, -⟩ := attach_output_fields server proto_v7_plus binary flush_outcomes
  have hord := resync_ordering_aux server proto_v7_plus binary flush_outcomes
  refine ⟨hnone, hord.1, hord.2, ?_, ?_⟩
  · intro id a w hid hl
    obtain ⟨hla, hlw⟩ := lookup_window_some server id a w hl
    obtain ⟨⟨w0, hw0, hw0id⟩, hmem, -⟩ := hcons.2.2.1 id a hla
    have hww : w0 = w := by
      have h3 : server.windows.getD a none = some w0 := hw0
      rw [hlw] at h3
      exact (Option.some.inj h3).symm
    subst hww
    have hmem := hmem hid
    have hwid : w0.id ≠ 0 := by rw [hw0id]; exact hid
    have hother : ∀ b ∈ server.toplevels, b ≠ a → ∀ wb,
        server.windows.getD b none = some wb → wb.id ≠ id := by
      intro b hb hba wb hwb hwbid
      obtain ⟨wb1, hwb1, -, h2⟩ := hcons.2.1 b hb
      have h3 : server.windows.getD b none = some wb1 := hwb1
      rw [hwb] at h3
      rw [← Option.some.inj h3, hwbid] at h2
      have h4 : g_hash_table_lookup server.id_ht id = some b := h2
      rw [hla] at h4
      exact hba (Option.some.inj h4).symm
    rw [List.filter_append, List.filter_append]
    constructor
    · rw [filter_cmds_of_one resync_create_cmds server.windows server.toplevels _ a w0 hcons.1 hmem hlw,
        filter_cmds_of_none resync_state_cmds, List.append_nil, ← hw0id]
      · exact create_cmds_filter w0 hwid
      · intro b _ wb _ op hop
        rw [(state_cmds_subject wb op hop).2.2]
        rfl
      · intro b hb hba wb hwb op hop
        rw [(create_cmds_subject wb op hop).2]
        have hne := hother b hb hba wb hwb
        simp [BroadwayOp.is_new_surface, BroadwayOp.subject, hne]
    · rw [filter_cmds_of_none resync_create_cmds, List.nil_append,
        filter_cmds_of_one resync_state_cmds server.windows server.toplevels _ a w0 hcons.1 hmem hlw, ← hw0id]
      · exact state_cmds_filter_show w0 hwid
      · intro b hb hba wb hwb op hop
        have hne := hother b hb hba wb hwb
        have hs := (state_cmds_subject wb op hop).2.1
        by_contra hc
        simp only [Bool.not_eq_false, beq_iff_eq] at hc
        rw [hc] at hs
        exact hne (Option.some.inj hs).symm
      · intro b _ wb _ op hop
        rw [(create_cmds_subject wb op hop).2]
        rfl
  · intro id hl op hop
    have hsub : ∃ b ∈ server.toplevels, ∃ wb, server.windows.getD b none = some wb ∧
        op.subject = some wb.id := by
      rcases List.mem_append.mp hop with h | h
      · obtain ⟨b, hb, wb, hwb, hmem⟩ := (mem_cmds_of _ _ _ _).mp h
        refine ⟨b, hb, wb, hwb, ?_⟩
        rw [(create_cmds_subject wb op hmem).2]
        rfl
      · obtain ⟨b, hb, wb, hwb, hmem⟩ := (mem_cmds_of _ _ _ _).mp h
        exact ⟨b, hb, wb, hwb, (state_cmds_subject wb op hmem).2.1⟩
    obtain ⟨b, hb, wb, hwb, hs⟩ := hsub
    obtain ⟨wb1, hwb1, -, h2⟩ := lookup_window_consistent server hcons b hb
    have h3 : server.windows.getD b none = some wb1 := hwb1
    rw [hwb] at h3
    rw [← Option.some.inj h3] at h2
    intro hc
    rw [hs] at hc
    rw [Option.some.inj hc, hl] at h2
    cases h2

/-- Witness of `resync_replays_registry` on `ex_replay_ops`: window 2 (hidden)
and window 1 (moved, visible) are created with their current geometry, only
window 1 is shown, and nothing is written for the destroyed window 3. -/
theorem resync_replays_registry_witness :
    count_new_window ex_replay_ops < 2147483648 ∧
    (_gdk_broadway_server_resync_windows
      (attach_output (run_registry_ops gdk_broadway_server_init ex_replay_ops)
        true false [])).output.map (fun o1 => o1.sent) =
      some [BroadwayOp.new_surface 2 5 5 20 20 true, BroadwayOp.new_surface 1 3 4 30 40 false,
        BroadwayOp.set_transient_for 2 0, BroadwayOp.set_transient_for 1 0,
        BroadwayOp.show_surface 1] ∧
    (run_registry_ops gdk_broadway_server_init ex_replay_ops).output = none :=
  ⟨by decide, by decide, (resync_replays_registry ex_replay_ops (by decide) true false []).1⟩


/-! ## Resynchronisation: pixel buffers -/

theorem state_cmds_filter_put (w : BroadwayWindow) (hid : w.id ≠ 0) :
    (resync_state_cmds w).filter (fun op => op.is_put_rgb && op.subject == some w.id) =
      if w.visible then
        match w.last_surface with
        | none => []
        | some surface =>
          [BroadwayOp.put_rgb w.id 0 0 surface.width surface.height surface.data]
      else [] := by
  unfold resync_state_cmds
  by_cases ht : w.transient_for = -1 <;> by_cases hv : w.visible = true <;>
    cases hs : w.last_surface <;>
    simp [hid, ht, hv, hs, List.filter_cons, BroadwayOp.is_put_rgb, BroadwayOp.subject]

theorem resync_windows_registry (server : GdkBroadwayServer) (o : BroadwayOutput)
    (ho : server.output = some o) :
    (_gdk_broadway_server_resync_windows server).id_ht = server.id_ht ∧
    (_gdk_broadway_server_resync_windows server).toplevels = server.toplevels ∧
    ∀ b, (_gdk_broadway_server_resync_windows server).windows.getD b none =
      if b ∈ server.toplevels then
        (server.windows.getD b none).map (fun w => resync_sync (resync_unsync w))
      else server.windows.getD b none := by
  obtain ⟨h1, -, h3⟩ := resync_passes_eq server
  have hr : registry (_gdk_broadway_server_resync_windows server) =
      registry (resync_passes server) := by
    unfold _gdk_broadway_server_resync_windows
    simp only [ho]
    exact registry_flush _
  simp only [registry, Prod.mk.injEq] at hr
  have h4 : (resync_passes server).id_ht = server.id_ht := congrArg (fun s => s.id_ht) h1
  have h5 : (resync_passes server).toplevels = server.toplevels :=
    congrArg (fun s => s.toplevels) h1
  refine ⟨hr.2.1.trans h4, hr.2.2.1.trans h5, fun b => ?_⟩
  rw [hr.1]
  exact h3 b

/-- C15 (counterexample): a hidden window with a cached buffer gets no put-rgb
and is left not synced.  On `ex_server_hidden_cached` the resynchronisation
writes the create-surface and set-transient-for of window 1 only, and the
window, whose cached buffer holds the pixel 7, is not marked synced. -/
theorem hidden_window_not_transmitted :
    (_gdk_broadway_server_resync_windows ex_server_hidden_cached).output.map
        (fun o1 => o1.sent) =
      some [BroadwayOp.new_surface 1 0 0 1 1 false, BroadwayOp.set_transient_for 1 0] ∧
    (lookup_window (_gdk_broadway_server_resync_windows ex_server_hidden_cached) 1).map
        (fun r => (r.2.last_surface, r.2.last_synced, r.2.visible)) =
      some (some { width := 1, height := 1, data := [7] }, false, false) := by
  decide

/-- C15 (amended): pixel buffers in the resynchronisation.  In a consistent
registry with an output channel attached, for every window `id` other than the
root that the id table holds: if the window is visible and has a cached surface,
the commands written contain exactly one put-rgb for `id`, of the whole cached
surface, and the window is marked synced afterwards; if it is hidden or has no
cached surface, they contain no put-rgb for `id` and the window is marked not
synced afterwards. -/
theorem resync_pixels (server : GdkBroadwayServer) (o : BroadwayOutput)
    (ho : server.output = some o) (hi : RegistryConsistent server) (id : Int) (a : Nat)
    (w : BroadwayWindow) (hid : id ≠ 0) (hl : lookup_window server id = some (a, w)) :
    (∀ surface, w.visible = true → w.last_surface = some surface →
      (cmds_of resync_create_cmds server.windows server.toplevels ++
        cmds_of resync_state_cmds server.windows server.toplevels).filter
        (fun op => op.is_put_rgb && op.subject == some id) =
        [BroadwayOp.put_rgb id 0 0 surface.width surface.height surface.data] ∧
      lookup_window (_gdk_broadway_server_resync_windows server) id =
        some (a, { w with last_synced := true })) ∧
    (w.visible = false ∨ w.last_surface = none →
      (cmds_of resync_create_cmds server.windows server.toplevels ++
        cmds_of resync_state_cmds server.windows server.toplevels).filter
        (fun op => op.is_put_rgb && op.subject == some id) = [] ∧
      lookup_window (_gdk_broadway_server_resync_windows server) id =
        some (a, { w with last_synced := false })) := by
  obtain ⟨hla, hlw⟩ := lookup_window_some server id a w hl
  obtain ⟨⟨w0, hw0, hw0id⟩, hmem, -⟩ := hi.2.2.1 id a hla
  have hww : w0 = w := by
    have h3 : server.windows.getD a none = some w0 := hw0
    rw [hlw] at h3
    exact (Option.some.inj h3).symm
  subst hww
  have hmem : a ∈ server.toplevels := hmem hid
  have hwid : w0.id ≠ 0 := by rw [hw0id]; exact hid
  have hother : ∀ b ∈ server.toplevels, b ≠ a → ∀ wb,
      server.windows.getD b none = some wb → wb.id ≠ id := by
    intro b hb hba wb hwb hwbid
    obtain ⟨wb1, hwb1, -, h2⟩ := hi.2.1 b hb
    have h3 : server.windows.getD b none = some wb1 := hwb1
    rw [hwb] at h3
    rw [← Option.some.inj h3, hwbid] at h2
    have h4 : g_hash_table_lookup server.id_ht id = some b := h2
    rw [hla] at h4
    exact hba (Option.some.inj h4).symm
  have hfilter : (cmds_of resync_create_cmds server.windows server.toplevels ++
        cmds_of resync_state_cmds server.windows server.toplevels).filter
        (fun op => op.is_put_rgb && op.subject == some id) =
      if w0.visible then
        match w0.last_surface with
        | none => []
        | some surface =>
          [BroadwayOp.put_rgb id 0 0 surface.width surface.height surface.data]
      else [] := by
    rw [List.filter_append, filter_cmds_of_none resync_create_cmds, List.nil_append,
      filter_cmds_of_one resync_state_cmds server.windows server.toplevels _ a w0 hi.1 hmem hlw,
      ← hw0id]
    · exact state_cmds_filter_put w0 hwid
    · intro b hb hba wb hwb op hop
      have hne := hother b hb hba wb hwb
      have hs := (state_cmds_subject wb op hop).2.1
      rw [hs]
      simp [hne]
    · intro b _ wb _ op hop
      rw [(create_cmds_subject wb op hop).2]
      rfl
  obtain ⟨r1, -, r3⟩ := resync_windows_registry server o ho
  have hlook : lookup_window (_gdk_broadway_server_resync_windows server) id =
      some (a, resync_sync (resync_unsync w0)) := by
    apply lookup_window_of
    · rw [r1]; exact hla
    · rw [r3 a, if_pos hmem, hlw]; rfl
  constructor
  · intro surface hv hs
    refine ⟨by rw [hfilter, hv, if_pos rfl, hs], ?_⟩
    rw [hlook]
    simp [resync_sync, resync_unsync, hwid, hv, hs]
  · intro h
    constructor
    · rw [hfilter]
      rcases h with h | h
      · rw [h]; rfl
      · rw [h]; split_ifs <;> rfl
    · rw [hlook]
      rcases h with h | h
      · simp [resync_sync, resync_unsync, hwid, h]
      · by_cases hv : w0.visible = true <;> simp [resync_sync, resync_unsync, hwid, h, hv]

/-- Witness of `resync_pixels` on `ex_server_attached`, whose window 1 is
visible with the cached pixel 7: one put-rgb of that buffer. -/
theorem resync_pixels_witness :
    ex_server_attached.output = some (broadway_output_new 1 true false []) ∧
    lookup_window ex_server_attached 1 =
      some (1, { id := 1, x := 0, y := 0, width := 1, height := 1, is_temp := false,
                 last_synced := false, visible := true, transient_for := 0,
                 last_surface := some { width := 1, height := 1, data := [7] } }) ∧
    (cmds_of resync_create_cmds ex_server_attached.windows ex_server_attached.toplevels ++
      cmds_of resync_state_cmds ex_server_attached.windows ex_server_attached.toplevels).filter
      (fun op => op.is_put_rgb && op.subject == some 1) = [BroadwayOp.put_rgb 1 0 0 1 1 [7]] :=
  ⟨by decide, by decide,
    ((resync_pixels ex_server_attached (broadway_output_new 1 true false []) (by decide)
      (consistent_of_stores _ _ (Or.inl rfl)
        (consistent_run [RegistryOp.new_window 0 0 1 1 false,
          RegistryOp.window_update 1 (some { width := 1, height := 1, data := [7] }),
          RegistryOp.window_show 1] gdk_broadway_server_init (by decide) (consistent_init none)))
      1 1 { id := 1, x := 0, y := 0, width := 1, height := 1, is_temp := false,
            last_synced := false, visible := true, transient_for := 0,
            last_surface := some { width := 1, height := 1, data := [7] } }
      (by decide) (by decide)).1 { width := 1, height := 1, data := [7] } rfl rfl).1⟩


/-! ## Serial continuity -/

theorem parse_payload_serial (server : GdkBroadwayServer) (type : Nat) (mem : List Nat)
    (p : Nat) : serial_state (parse_payload server type mem p).2 = serial_state server := by
  rcases parse_payload_state server type mem p with h | ⟨d, h⟩ <;>
    simp [h, update_future_pointer_info, serial_state]

theorem parse_input_message_serial (server : GdkBroadwayServer) (mem : List Nat) :
    serial_state (parse_input_message server mem) = serial_state server := by
  cases hin : server.input with
  | none => simp only [parse_input_message, hin]
  | some input =>
    have h := parse_payload_serial
      { server with
        input := some { input with
          seen_time := (normalize_time (strtol mem ((strtol mem 1).2 + 1)).1
            server.last_seen_time input.seen_time input.time_base).2.1,
          time_base := (normalize_time (strtol mem ((strtol mem 1).2 + 1)).1
            server.last_seen_time input.seen_time input.time_base).2.2 },
        last_seen_time := to_guint64 (normalize_time (strtol mem ((strtol mem 1).2 + 1)).1
            server.last_seen_time input.seen_time input.time_base).1 }
      (mem.getD 0 0) mem ((strtol mem ((strtol mem 1).2 + 1)).2 + 1)
    simp only [parse_input_message, hin]
    exact h

theorem handle_frame_serial (server : GdkBroadwayServer) (fin : Bool) (code : Nat)
    (data : List Nat) (n : Nat) (h : server.output = none) :
    serial_state (handle_frame server fin code data n) = serial_state server := by
  unfold handle_frame
  split_ifs
  · rfl
  · rfl
  · exact parse_input_message_serial _ _
  · simp only [serial_state, h, Option.map_none']
  · rfl

theorem parse_frame_serial (server server1 : GdkBroadwayServer) (h : server.output = none)
    (hp : parse_frame server = some server1) : serial_state server1 = serial_state server := by
  obtain ⟨input, l, hin, hlen, hl⟩ := parse_frame_some server server1 hp
  rw [parse_frame_eq server input l hin hlen hl] at hp
  rw [← Option.some.inj hp]
  exact handle_frame_serial server _ _ _ _ h

theorem parse_input_v7_serial (n : Nat) (server : GdkBroadwayServer) (h : server.output = none) :
    serial_state (parse_input_v7 n server) = serial_state server := by
  induction n generalizing server with
  | zero => rfl
  | succ n ih =>
    cases hpf : parse_frame server with
    | none => simp only [parse_input_v7, hpf]
    | some server1 =>
      simp only [parse_input_v7, hpf]
      have h1 := parse_frame_serial server server1 h hpf
      have h2 : server1.output = none := by
        have := congrArg Prod.fst h1
        simp only [serial_state] at this
        rw [this, h]
      exact (ih server1 h2).trans h1

theorem parse_input_legacy_serial (n : Nat) (server : GdkBroadwayServer) (buf : List Nat)
    (off : Nat) : serial_state (parse_input_legacy n server buf off) = serial_state server := by
  induction n generalizing server buf off with
  | zero => rfl
  | succ n ih =>
    unfold parse_input_legacy
    cases memchr (buf.drop off) 0xff with
    | none => rfl
    | some k =>
      simp only []
      split_ifs
      · exact parse_input_message_serial _ _
      · exact (ih _ _ _).trans (parse_input_message_serial _ _)

theorem parse_input_serial (server : GdkBroadwayServer) (h : server.output = none) :
    serial_state (parse_input server) = serial_state server := by
  unfold parse_input
  cases hin : server.input with
  | none => rfl
  | some input =>
    simp only []
    split_ifs
    · rfl
    · exact parse_input_v7_serial _ _ h
    · rfl
    · exact parse_input_legacy_serial _ _ _ _

theorem read_input_serial (server : GdkBroadwayServer) (res : ReadResult)
    (h : server.output = none) :
    serial_state (_gdk_broadway_server_read_all_input_nonblocking server res) =
      serial_state server := by
  unfold _gdk_broadway_server_read_all_input_nonblocking
  cases hin : server.input with
  | none => rfl
  | some input =>
    cases res with
    | would_block => rfl
    | closed => rfl
    | data bytes =>
      cases bytes with
      | nil => rfl
      | cons b bs => exact parse_input_serial _ h

theorem update_last_pointer_serial (server : GdkBroadwayServer) (p : BroadwayInputPointerMsg) :
    serial_state (update_last_pointer server p) = serial_state server := by
  simp only [serial_state, update_last_pointer]

theorem set_mouse_serial (server : GdkBroadwayServer) (x : Int) :
    serial_state { server with mouse_in_toplevel_id := x } = serial_state server := by
  simp only [serial_state]

theorem update_event_state_serial (server : GdkBroadwayServer) (message : BroadwayInputMsg) :
    serial_state (update_event_state server message) = serial_state server := by
  unfold update_event_state
  by_cases h1 : message.type = BROADWAY_EVENT_ENTER
  · rw [if_pos h1]
    cases message.payload.pointer_data with
    | none => rfl
    | some p => exact (set_mouse_serial _ _).trans (update_last_pointer_serial server p)
  rw [if_neg h1]
  by_cases h2 : message.type = BROADWAY_EVENT_LEAVE
  · rw [if_pos h2]
    cases message.payload.pointer_data with
    | none => rfl
    | some p => exact (set_mouse_serial _ _).trans (update_last_pointer_serial server p)
  rw [if_neg h2]
  by_cases h3 : message.type = BROADWAY_EVENT_POINTER_MOVE ∨
      message.type = BROADWAY_EVENT_BUTTON_PRESS ∨
      message.type = BROADWAY_EVENT_BUTTON_RELEASE ∨
      message.type = BROADWAY_EVENT_SCROLL
  · rw [if_pos h3]
    cases message.payload.pointer_data with
    | none => rfl
    | some p => exact update_last_pointer_serial server p
  rw [if_neg h3]
  by_cases h4 : message.type = BROADWAY_EVENT_KEY_PRESS ∨
      message.type = BROADWAY_EVENT_KEY_RELEASE
  · rw [if_pos h4]
    cases message.payload <;> simp only [serial_state]
  rw [if_neg h4]

theorem process_input_fold_serial (msgs : List BroadwayInputMsg) (server : GdkBroadwayServer) :
    serial_state (msgs.foldl
      (fun s message =>
        let s1 := update_event_state { s with input_messages := s.input_messages.tail } message
        { s1 with delivered := s1.delivered ++ [message] })
      server) = serial_state server := by
  induction msgs generalizing server with
  | nil => rfl
  | cons m msgs ih =>
    rw [List.foldl_cons]
    exact (ih _).trans (update_event_state_serial _ m)

theorem process_input_serial (server : GdkBroadwayServer) :
    serial_state (process_input_messages server) = serial_state server :=
  process_input_fold_serial _ _

theorem call_detached (server : GdkBroadwayServer) (call : ServerCall)
    (h : server.output = none) : serial_state (call.apply server) = serial_state server := by
  cases call with
  | registry op =>
    obtain ⟨h1, h2⟩ := apply_detached server op h
    simp only [serial_state, ServerCall.apply, h1, h2, h]
  | grab_pointer id owner_events event_mask time_ =>
    simp only [ServerCall.apply, _gdk_broadway_server_grab_pointer, h]
    split_ifs <;> simp only [serial_state, h]
  | ungrab_pointer time_ =>
    simp only [ServerCall.apply, _gdk_broadway_server_ungrab_pointer, h]
    split_ifs <;> simp only [serial_state, h]
  | flush => simp only [ServerCall.apply, flush_none server h]
  | read_input res => exact read_input_serial server res h
  | process_input => exact process_input_serial server
  | query_mouse res => simp only [ServerCall.apply, _gdk_broadway_server_query_mouse, h]

theorem run_calls_detached (calls : List ServerCall) (server : GdkBroadwayServer)
    (h : server.output = none) : serial_state (run_calls server calls) = serial_state server := by
  induction calls generalizing server with
  | nil => rfl
  | cons call calls ih =>
    have h1 := call_detached server call h
    have h2 : (call.apply server).output = none := by
      have := congrArg Prod.fst h1
      simp only [serial_state] at this
      rw [this, h]
    exact (ih (call.apply server) h2).trans h1

theorem flush_failure (server : GdkBroadwayServer) (o : BroadwayOutput)
    (ho : server.output = some o) (hf : (broadway_output_flush o).1 = false) :
    serial_state (_gdk_broadway_server_flush server) =
      (none, broadway_output_get_next_serial o) := by
  unfold _gdk_broadway_server_flush
  simp only [ho, hf, Bool.false_eq_true, if_false, serial_state, Prod.mk.injEq, true_and]
  unfold broadway_output_flush
  cases o.flush_outcomes <;> rfl

theorem write_all_numbered (o : BroadwayOutput) (l : List BroadwayOp) (s : Nat)
    (h : o.serial % 4294967296 = (s + o.sent.length) % 4294967296) :
    (write_all o l).serial % 4294967296 = (s + (write_all o l).sent.length) % 4294967296 := by
  rcases write_all_sent o l with ⟨h1, h2⟩ | ⟨-, h2⟩
  · rw [h1, h2, List.length_append]
    omega
  · rw [h2]
    exact h

theorem flush_numbered (server : GdkBroadwayServer) (s : Nat)
    (h : ∀ o, server.output = some o →
      o.serial % 4294967296 = (s + o.sent.length) % 4294967296) :
    ∀ o, (_gdk_broadway_server_flush server).output = some o →
      o.serial % 4294967296 = (s + o.sent.length) % 4294967296 := by
  intro o1 h1
  cases ho : server.output with
  | none =>
    rw [flush_none server ho, ho] at h1
    cases h1
  | some o =>
    unfold _gdk_broadway_server_flush at h1
    simp only [ho] at h1
    have h2 := h o ho
    unfold broadway_output_flush at h1
    cases hfo : o.flush_outcomes with
    | nil =>
      simp only [hfo, if_true, Option.some.injEq] at h1
      rw [← h1]
      exact h2
    | cons b rest =>
      simp only [hfo] at h1
      cases b with
      | false => simp at h1
      | true =>
        simp only [if_true, Option.some.injEq] at h1
        rw [← h1]
        exact h2

theorem start_output_numbered (server : GdkBroadwayServer) (proto_v7_plus binary : Bool)
    (flush_outcomes : List Bool) (s : Nat) (o1 : BroadwayOutput)
    (ha : (attach_output server proto_v7_plus binary flush_outcomes).output =
      some (broadway_output_new s proto_v7_plus binary flush_outcomes))
    (h1 : (start_output server proto_v7_plus binary flush_outcomes).output = some o1) :
    o1.serial % 4294967296 = (s + o1.sent.length) % 4294967296 := by
  have hp : ∀ o, (resync_passes
      (attach_output server proto_v7_plus binary flush_outcomes)).output = some o →
      o.serial % 4294967296 = (s + o.sent.length) % 4294967296 := by
    intro o h
    rw [(resync_passes_eq _).2.1, ha] at h
    simp only [Option.map_some', Option.some.injEq] at h
    rw [← h]
    exact write_all_numbered _ _ s (by simp [broadway_output_new])
  have hr : ∀ o, (_gdk_broadway_server_resync_windows
      (attach_output server proto_v7_plus binary flush_outcomes)).output = some o →
      o.serial % 4294967296 = (s + o.sent.length) % 4294967296 := by
    unfold _gdk_broadway_server_resync_windows
    simp only [ha]
    exact flush_numbered _ s hp
  unfold start_output at h1
  simp only [] at h1
  split_ifs at h1
  · simp only [output_write] at h1
    cases hro : (_gdk_broadway_server_resync_windows
        (attach_output server proto_v7_plus binary flush_outcomes)).output with
    | none => rw [hro] at h1; cases h1
    | some o2 =>
      rw [hro] at h1
      simp only [Option.map_some', Option.some.injEq] at h1
      rw [← h1]
      have h2 := hr o2 hro
      simp only [broadway_output_write, List.length_append, List.length_singleton]
      omega
  · exact hr o1 h1

/-- C16: serial continuity.  Let an output channel be attached and let `s` be
its next serial.  If `_gdk_broadway_server_flush` fails on it, the channel is
gone and the saved serial is `s`; through any sequence of calls made while no
channel is attached, no channel appears and `_gdk_broadway_server_get_next_serial`
keeps returning `s`; and the channel that `start_output` creates next starts at
serial `s` with nothing written.  If instead `start_output` replaces the
channel directly, the saved serial becomes `s`, the new channel starts at `s`,
and when `start_output` returns the new channel has used up one serial from `s`
on for every command it has written.  The server holds at most one channel at
any time, its field `output`. -/
theorem serial_continuity (server : GdkBroadwayServer) (o : BroadwayOutput)
    (ho : server.output = some o) :
    _gdk_broadway_server_get_next_serial server = broadway_output_get_next_serial o ∧
    ((broadway_output_flush o).1 = false →
      (_gdk_broadway_server_flush server).output = none ∧
      (_gdk_broadway_server_flush server).saved_serial = broadway_output_get_next_serial o ∧
      ∀ calls : List ServerCall,
        (run_calls (_gdk_broadway_server_flush server) calls).output = none ∧
        _gdk_broadway_server_get_next_serial
            (run_calls (_gdk_broadway_server_flush server) calls) =
          broadway_output_get_next_serial o ∧
        ∀ proto_v7_plus binary flush_outcomes,
          (attach_output (run_calls (_gdk_broadway_server_flush server) calls)
              proto_v7_plus binary flush_outcomes).output =
            some (broadway_output_new (broadway_output_get_next_serial o) proto_v7_plus binary
              flush_outcomes)) ∧
    (∀ proto_v7_plus binary flush_outcomes,
      (attach_output server proto_v7_plus binary flush_outcomes).saved_serial =
        broadway_output_get_next_serial o ∧
      (attach_output server proto_v7_plus binary flush_outcomes).output =
        some (broadway_output_new (broadway_output_get_next_serial o) proto_v7_plus binary
          flush_outcomes) ∧
      ∀ o1, (start_output server proto_v7_plus binary flush_outcomes).output = some o1 →
        o1.serial % 4294967296 =
          (broadway_output_get_next_serial o + o1.sent.length) % 4294967296) := by
  have hs : _gdk_broadway_server_get_next_serial server = broadway_output_get_next_serial o := by
    unfold _gdk_broadway_server_get_next_serial
    rw [ho]
  refine ⟨hs, fun hf => ?_, fun p b f => ?_⟩
  · have h1 := flush_failure server o ho hf
    simp only [serial_state, Prod.mk.injEq] at h1
    refine ⟨h1.1, h1.2, fun calls => ?_⟩
    have h2 := run_calls_detached calls _ h1.1
    simp only [serial_state, Prod.mk.injEq] at h2
    rw [h1.1, h1.2] at h2
    have h3 : _gdk_broadway_server_get_next_serial
        (run_calls (_gdk_broadway_server_flush server) calls) =
        broadway_output_get_next_serial o := by
      unfold _gdk_broadway_server_get_next_serial
      rw [h2.1]
      exact h2.2
    refine ⟨h2.1, h3, fun p b f => ?_⟩
    rw [(attach_output_fields _ p b f).1, h3]
  · obtain ⟨a1, a2, -⟩ := attach_output_fields server p b f
    rw [hs] at a1 a2
    exact ⟨a2, a1, fun o1 h1 => start_output_numbered server p b f _ o1 a1 h1⟩

/-- Witness of `serial_continuity` on `ex_server_serial`: the channel reports
next serial 42 and its flush fails; after two windows were created and shown
with no channel attached, the next channel starts at serial 42. -/
theorem serial_continuity_witness :
    ex_server_serial.output = some (broadway_output_new 42 true false [false]) ∧
    _gdk_broadway_server_get_next_serial ex_server_serial = 42 ∧
    (attach_output
      (run_calls (_gdk_broadway_server_flush ex_server_serial)
        [ServerCall.registry (RegistryOp.new_window 0 0 10 10 false),
         ServerCall.registry (RegistryOp.window_show 1), ServerCall.ungrab_pointer 0])
      true true []).output = some (broadway_output_new 42 true true []) :=
  have h := serial_continuity ex_server_serial (broadway_output_new 42 true false [false]) rfl
  ⟨rfl, h.1, ((h.2.1 rfl).2.2 _).2.2 true true []⟩


/-! ## Field layout of the input messages -/

theorem digits_value_append (ds : List Nat) (d : Nat) :
    digits_value (ds ++ [d]) = digits_value ds * 10 + (d - 48) := by
  simp [digits_value, List.foldl_append]

theorem digits_value_eq_decimal (ds : List Nat) : digits_value ds = decimal_value ds := by
  induction ds using List.reverseRecOn with
  | nil => rfl
  | append_singleton ds d ih =>
    rw [digits_value_append, ih]
    simp only [decimal_value, List.reverse_append, List.reverse_singleton, List.singleton_append,
      List.map_cons, Nat.ofDigits_cons]
    ring

theorem takeWhile_digits (ds rest : List Nat) (hd : ∀ d ∈ ds, 48 ≤ d ∧ d ≤ 57)
    (hr : ∀ c, rest.head? = some c → c_isdigit c = false) :
    (ds ++ rest).takeWhile c_isdigit = ds := by
  induction ds with
  | nil =>
    cases rest with
    | nil => rfl
    | cons c rest =>
      simp only [List.nil_append, List.takeWhile_cons, hr c rfl]
      rfl
  | cons d ds ih =>
    have h1 : c_isdigit d = true := by
      have := hd d (List.mem_cons_self _ _)
      simp [c_isdigit, this.1, this.2]
    simp only [List.cons_append, List.takeWhile_cons, h1, if_true]
    rw [ih (fun x hx => hd x (List.mem_cons_of_mem _ hx))]

theorem strtol_numeral (pre rest : List Nat) (n : Numeral) (hwf : n.wf)
    (hr : ∀ c, rest.head? = some c → c_isdigit c = false)
    (hlo : LONG_MIN ≤ n.value) (hhi : n.value ≤ LONG_MAX) :
    strtol (pre ++ n.bytes ++ rest) pre.length = (n.value, pre.length + n.bytes.length) := by
  obtain ⟨hne, hd⟩ := hwf
  obtain ⟨neg, digits⟩ := n
  simp only at hne hd
  obtain ⟨d0, ds0, hds⟩ := List.exists_cons_of_ne_nil hne
  have hd0 := hd d0 (by rw [hds]; exact List.mem_cons_self _ _)
  have hdrop : (pre ++ Numeral.bytes ⟨neg, digits⟩ ++ rest).drop pre.length =
      Numeral.bytes ⟨neg, digits⟩ ++ rest := by
    rw [List.append_assoc, List.drop_left]
  unfold strtol
  simp only [hdrop]
  cases neg with
  | true =>
    have hb : Numeral.bytes ⟨true, digits⟩ ++ rest = 45 :: (digits ++ rest) := rfl
    have htw : (45 :: (digits ++ rest)).takeWhile c_isspace = [] := by
      simp [List.takeWhile_cons, c_isspace]
    simp only [hb, htw, List.length_nil, List.drop_zero, List.head?_cons, true_or, if_true,
      List.drop_succ_cons, takeWhile_digits digits rest hd hr, hne, if_false]
    simp only [Numeral.value, if_true, ← digits_value_eq_decimal] at hlo hhi ⊢
    simp only [Numeral.bytes, if_true, List.singleton_append, List.length_cons, Prod.mk.injEq]
    constructor
    · omega
    · omega
  | false =>
    have hb : Numeral.bytes ⟨false, digits⟩ ++ rest = d0 :: (ds0 ++ rest) := by
      simp [Numeral.bytes, hds]
    have htw : (d0 :: (ds0 ++ rest)).takeWhile c_isspace = [] := by
      have h1 : c_isspace d0 = false := by
        simp only [c_isspace, Bool.or_eq_false_iff, beq_eq_false_iff_ne, ne_eq,
          Bool.and_eq_false_imp, decide_eq_true_eq, decide_eq_false_iff_not]
        constructor <;> omega
      simp [List.takeWhile_cons, h1]
    have h43 : ¬ ((some d0 : Option Nat) = some 43) := by
      simp only [Option.some.injEq]
      omega
    have h45 : ¬ ((some d0 : Option Nat) = some 45) := by
      simp only [Option.some.injEq]
      omega
    have htd : (d0 :: (ds0 ++ rest)).takeWhile c_isdigit = digits := by
      have := takeWhile_digits digits rest hd hr
      rw [hds] at this ⊢
      exact this
    simp only [hb, htw, List.length_nil, List.drop_zero, List.head?_cons, h43, h45, or_self,
      if_false, htd, hne]
    simp only [Numeral.value, Bool.false_eq_true, if_false, ← digits_value_eq_decimal]
      at hlo hhi ⊢
    simp only [Numeral.bytes, Bool.false_eq_true, if_false, List.nil_append, Prod.mk.injEq]
    constructor
    · omega
    · omega

theorem read_fields_comma (fields : List Numeral) (pre : List Nat)
    (hwf : ∀ n ∈ fields, n.wf ∧ LONG_MIN ≤ n.value ∧ n.value ≤ LONG_MAX) :
    read_fields (pre ++ comma_separated (fields.map Numeral.bytes)) pre.length fields.length =
      fields.map Numeral.value := by
  induction fields generalizing pre with
  | nil => rfl
  | cons n rest ih =>
    obtain ⟨h1, h2, h3⟩ := hwf n (List.mem_cons_self _ _)
    cases rest with
    | nil =>
      have hs := strtol_numeral pre [] n h1 (fun c hc => by cases hc) h2 h3
      rw [List.append_nil] at hs
      simp only [List.map_cons, List.map_nil, comma_separated, List.length_cons, List.length_nil,
        read_fields, hs]
    | cons m rest =>
      have hs := strtol_numeral pre (44 :: comma_separated ((m :: rest).map Numeral.bytes)) n h1
        (fun c hc => by
          simp only [List.head?_cons, Option.some.injEq] at hc
          rw [← hc]; rfl) h2 h3
      have hmem : pre ++ comma_separated ((n :: m :: rest).map Numeral.bytes) =
          pre ++ n.bytes ++ 44 :: comma_separated ((m :: rest).map Numeral.bytes) := by
        simp only [List.map_cons, comma_separated, List.append_assoc]
      have hmem2 : pre ++ n.bytes ++ 44 :: comma_separated ((m :: rest).map Numeral.bytes) =
          (pre ++ n.bytes ++ [44]) ++ comma_separated ((m :: rest).map Numeral.bytes) := by
        simp only [List.append_assoc, List.singleton_append]
      have hlen : (pre ++ n.bytes ++ [44]).length = pre.length + n.bytes.length + 1 := by
        simp only [List.length_append, List.length_singleton]
      have hih := ih (pre ++ n.bytes ++ [44])
        (fun x hx => hwf x (List.mem_cons_of_mem _ hx))
      rw [hmem]
      have hstep : read_fields
          (pre ++ n.bytes ++ 44 :: comma_separated ((m :: rest).map Numeral.bytes)) pre.length
          (n :: m :: rest).length =
          (strtol (pre ++ n.bytes ++ 44 :: comma_separated ((m :: rest).map Numeral.bytes))
            pre.length).1 ::
          read_fields (pre ++ n.bytes ++ 44 :: comma_separated ((m :: rest).map Numeral.bytes))
            ((strtol (pre ++ n.bytes ++ 44 :: comma_separated ((m :: rest).map Numeral.bytes))
              pre.length).2 + 1) (m :: rest).length := rfl
      rw [hstep, hs, hmem2, ← hlen, hih]
      rfl

theorem parse_pointer_data_fields (mem : List Nat) (p : Nat) :
    (parse_pointer_data mem p).1 = spec_pointer (read_fields mem p 7) ∧
    read_fields mem p 8 =
      read_fields mem p 7 ++ [(strtol mem ((parse_pointer_data mem p).2 + 1)).1] :=
  ⟨rfl, rfl⟩

theorem spec_pointer_append (vals : List Int) (v : Int) (h : vals.length = 7) :
    spec_pointer (vals ++ [v]) = spec_pointer vals ∧ (vals ++ [v]).getD 7 0 = v := by
  match vals, h with
  | [a, b, c, d, e, f, g], _ => exact ⟨rfl, rfl⟩

theorem read_fields_length (mem : List Nat) (p n : Nat) : (read_fields mem p n).length = n := by
  induction n generalizing p with
  | zero => rfl
  | succ n ih => simp [read_fields, ih]

theorem parse_payload_fields (server : GdkBroadwayServer) (tag : Nat) (mem : List Nat) (p : Nat) :
    (parse_payload server tag mem p).1 =
      spec_payload tag (read_fields mem p (spec_field_count tag)) := by
  obtain ⟨hp1, hp2⟩ := parse_pointer_data_fields mem p
  obtain ⟨hs1, hs2⟩ := spec_pointer_append (read_fields mem p 7)
    (strtol mem ((parse_pointer_data mem p).2 + 1)).1 (read_fields_length mem p 7)
  unfold parse_payload spec_payload spec_field_count
  by_cases h1 : tag = BROADWAY_EVENT_ENTER ∨ tag = BROADWAY_EVENT_LEAVE
  · simp only [if_pos h1]
    rw [hp2, hs1, hs2, hp1]
  simp only [if_neg h1]
  by_cases h2 : tag = BROADWAY_EVENT_POINTER_MOVE
  · simp only [if_pos h2]
    rw [hp1]
  simp only [if_neg h2]
  by_cases h3 : tag = BROADWAY_EVENT_BUTTON_PRESS ∨ tag = BROADWAY_EVENT_BUTTON_RELEASE
  · simp only [if_pos h3]
    rw [hp2, hs1, hs2, hp1]
  simp only [if_neg h3]
  by_cases h4 : tag = BROADWAY_EVENT_SCROLL
  · simp only [if_pos h4]
    rw [hp2, hs1, hs2, hp1]
  simp only [if_neg h4]
  by_cases h5 : tag = BROADWAY_EVENT_KEY_PRESS ∨ tag = BROADWAY_EVENT_KEY_RELEASE
  · simp only [if_pos h5]
    rfl
  simp only [if_neg h5]
  by_cases h6 : tag = BROADWAY_EVENT_GRAB_NOTIFY ∨ tag = BROADWAY_EVENT_UNGRAB_NOTIFY
  · simp only [if_pos h6]
    rfl
  simp only [if_neg h6]
  by_cases h7 : tag = BROADWAY_EVENT_CONFIGURE_NOTIFY
  · simp only [if_pos h7]
    rfl
  simp only [if_neg h7]
  by_cases h8 : tag = BROADWAY_EVENT_DELETE_NOTIFY
  · simp only [if_pos h8]
    rfl
  simp only [if_neg h8]
  by_cases h9 : tag = BROADWAY_EVENT_SCREEN_SIZE_CHANGED
  · simp only [if_pos h9]
    rfl
  simp only [if_neg h9]

theorem spec_message_fields (tag : Nat) (fields : List Numeral) (k : Nat)
    (hwf : ∀ n ∈ fields, n.wf ∧ LONG_MIN ≤ n.value ∧ n.value ≤ LONG_MAX)
    (hlen : fields.length = k + 2) :
    (strtol (spec_message tag fields) 1).1 = (fields.map Numeral.value).getD 0 0 ∧
    raw_time (spec_message tag fields) = (fields.map Numeral.value).getD 1 0 ∧
    read_fields (spec_message tag fields)
      ((strtol (spec_message tag fields) ((strtol (spec_message tag fields) 1).2 + 1)).2 + 1) k =
      (fields.map Numeral.value).drop 2 := by
  have h := read_fields_comma fields [tag] hwf
  have hm : [tag] ++ comma_separated (fields.map Numeral.bytes) = spec_message tag fields := rfl
  rw [hm, hlen] at h
  have h1 : read_fields (spec_message tag fields) 1 (k + 2) =
      (strtol (spec_message tag fields) 1).1 ::
      (strtol (spec_message tag fields) ((strtol (spec_message tag fields) 1).2 + 1)).1 ::
      read_fields (spec_message tag fields)
        ((strtol (spec_message tag fields)
          ((strtol (spec_message tag fields) 1).2 + 1)).2 + 1) k := rfl
  have h2 : ([tag] : List Nat).length = 1 := rfl
  rw [h2, h1] at h
  rw [← h]
  exact ⟨rfl, rfl, rfl⟩

/-- C19: field layout of `parse_input_message`.  For a message made of a type
tag and comma-separated decimal numerals (serial, timestamp, and as many
payload fields as the tag has), each numeral a value of a `long`, the parser
appends one record with that type tag, the serial, the time normalised from the
timestamp, and the payload that the specification lays out for the tag from the
values of the payload fields in wire order (`spec_payload`).  A value is stored
as it is when it fits the field's 32 bits: a signed field keeps every value
from -2^31 up to 2^31 - 1, negative ones included, and an unsigned field every
value from 0 up to 2^32 - 1. -/
theorem field_layout (server : GdkBroadwayServer) (input : BroadwayInput) (tag : Nat)
    (fields : List Numeral) (hin : server.input = some input)
    (hwf : ∀ n ∈ fields, n.wf ∧ LONG_MIN ≤ n.value ∧ n.value ≤ LONG_MAX)
    (hlen : fields.length = spec_field_count tag + 2) :
    (parse_input_message server (spec_message tag fields)).input_messages =
      server.input_messages ++
        [{ type := tag,
           serial := to_guint32 ((fields.map Numeral.value).getD 0 0),
           time := to_guint64 (normalize_time ((fields.map Numeral.value).getD 1 0)
             server.last_seen_time input.seen_time input.time_base).1,
           payload := spec_payload tag ((fields.map Numeral.value).drop 2) }] ∧
    (∀ v : Int, -2147483648 ≤ v → v < 2147483648 → to_gint32 v = v) ∧
    (∀ v : Int, 0 ≤ v → v < 4294967296 → (to_guint32 v : Int) = v) := by
  obtain ⟨h1, h2, h3⟩ := spec_message_fields tag fields (spec_field_count tag) hwf hlen
  refine ⟨?_, fun v hlo hhi => by unfold to_gint32; omega,
    fun v hlo hhi => by unfold to_guint32; omega⟩
  unfold raw_time at h2
  have ht : (spec_message tag fields).getD 0 0 = tag := rfl
  simp only [parse_input_message, hin, parse_payload_input_messages, parse_payload_fields,
    ht, h1, h2, h3]

/-- Witness of `field_layout`: the key press `k7,10000,3,-65,4` on the fresh
channel of `ex_server` is queued with serial 7, time 5001, mouse window 3, key
-65 and state 4. -/
theorem field_layout_witness :
    ex_server.input = some ex_input ∧
    spec_message 107 ex_key_fields = [107, 55, 44, 49, 48, 48, 48, 48, 44, 51, 44, 45, 54, 53, 44, 52] ∧
    (parse_input_message ex_server (spec_message 107 ex_key_fields)).input_messages =
      [{ type := 107, serial := 7, time := 5001,
         payload := BroadwayInputPayload.key 3 (-65) 4 }] := by
  have h := (field_layout ex_server ex_input 107 ex_key_fields rfl (by decide) (by decide)).1
  refine ⟨rfl, by decide, ?_⟩
  rw [h]
  decide


/-! ## Pointer state at parse time -/

theorem parse_payload_pointer (server : GdkBroadwayServer) (type : Nat) (mem : List Nat)
    (p : Nat) :
    (type ∈ pointer_event_tags →
      (parse_payload server type mem p).1.pointer_data = some (parse_pointer_data mem p).1 ∧
      (parse_payload server type mem p).2 =
        update_future_pointer_info server (parse_pointer_data mem p).1) ∧
    (type ∉ pointer_event_tags → (parse_payload server type mem p).2 = server) := by
  simp only [pointer_event_tags, List.mem_cons, List.mem_singleton, List.not_mem_nil, or_false]
  unfold parse_payload
  by_cases h1 : type = BROADWAY_EVENT_ENTER ∨ type = BROADWAY_EVENT_LEAVE
  · simp only [if_pos h1]
    exact ⟨fun _ => by constructor <;> trivial, fun hn => absurd (by tauto) hn⟩
  simp only [if_neg h1]
  by_cases h2 : type = BROADWAY_EVENT_POINTER_MOVE
  · simp only [if_pos h2]
    exact ⟨fun _ => by constructor <;> trivial, fun hn => absurd (by tauto) hn⟩
  simp only [if_neg h2]
  by_cases h3 : type = BROADWAY_EVENT_BUTTON_PRESS ∨ type = BROADWAY_EVENT_BUTTON_RELEASE
  · simp only [if_pos h3]
    exact ⟨fun _ => by constructor <;> trivial, fun hn => absurd (by tauto) hn⟩
  simp only [if_neg h3]
  by_cases h4 : type = BROADWAY_EVENT_SCROLL
  · simp only [if_pos h4]
    exact ⟨fun _ => by constructor <;> trivial, fun hn => absurd (by tauto) hn⟩
  simp only [if_neg h4]
  have hnot : ¬ (type = BROADWAY_EVENT_ENTER ∨ type = BROADWAY_EVENT_LEAVE ∨
      type = BROADWAY_EVENT_POINTER_MOVE ∨ type = BROADWAY_EVENT_BUTTON_PRESS ∨
      type = BROADWAY_EVENT_BUTTON_RELEASE ∨ type = BROADWAY_EVENT_SCROLL) := by tauto
  refine ⟨fun h => absurd h hnot, fun _ => ?_⟩
  by_cases h5 : type = BROADWAY_EVENT_KEY_PRESS ∨ type = BROADWAY_EVENT_KEY_RELEASE
  · simp only [if_pos h5]
  simp only [if_neg h5]
  by_cases h6 : type = BROADWAY_EVENT_GRAB_NOTIFY ∨ type = BROADWAY_EVENT_UNGRAB_NOTIFY
  · simp only [if_pos h6]
  simp only [if_neg h6]
  by_cases h7 : type = BROADWAY_EVENT_CONFIGURE_NOTIFY
  · simp only [if_pos h7]
  simp only [if_neg h7]
  by_cases h8 : type = BROADWAY_EVENT_DELETE_NOTIFY
  · simp only [if_pos h8]
  simp only [if_neg h8]
  by_cases h9 : type = BROADWAY_EVENT_SCREEN_SIZE_CHANGED
  · simp only [if_pos h9]
  simp only [if_neg h9]

theorem parse_payload_last_pointer (server : GdkBroadwayServer) (type : Nat) (mem : List Nat)
    (p : Nat) : last_pointer_state (parse_payload server type mem p).2 =
      last_pointer_state server := by
  rcases parse_payload_state server type mem p with h | ⟨d, h⟩ <;>
    simp [h, update_future_pointer_info, last_pointer_state]

theorem parse_input_message_last_pointer (server : GdkBroadwayServer) (mem : List Nat) :
    last_pointer_state (parse_input_message server mem) = last_pointer_state server := by
  cases hin : server.input with
  | none => simp only [parse_input_message, hin]
  | some input =>
    have h := parse_payload_last_pointer
      { server with
        input := some { input with
          seen_time := (normalize_time (strtol mem ((strtol mem 1).2 + 1)).1
            server.last_seen_time input.seen_time input.time_base).2.1,
          time_base := (normalize_time (strtol mem ((strtol mem 1).2 + 1)).1
            server.last_seen_time input.seen_time input.time_base).2.2 },
        last_seen_time := to_guint64 (normalize_time (strtol mem ((strtol mem 1).2 + 1)).1
            server.last_seen_time input.seen_time input.time_base).1 }
      (mem.getD 0 0) mem ((strtol mem ((strtol mem 1).2 + 1)).2 + 1)
    simp only [parse_input_message, hin]
    exact h

theorem parse_input_message_future (server : GdkBroadwayServer) (input : BroadwayInput)
    (mem : List Nat) (hin : server.input = some input) :
    (mem.getD 0 0 ∈ pointer_event_tags →
      ∃ msg p, (parse_input_message server mem).input_messages =
          server.input_messages ++ [msg] ∧
        msg.type = mem.getD 0 0 ∧ msg.payload.pointer_data = some p ∧
        future_pointer_state (parse_input_message server mem) =
          (p.root_x, p.root_y, p.state, to_gint32 p.mouse_window_id)) ∧
    (mem.getD 0 0 ∉ pointer_event_tags →
      future_pointer_state (parse_input_message server mem) = future_pointer_state server) := by
  have hp := parse_payload_pointer
      { server with
        input := some { input with
          seen_time := (normalize_time (strtol mem ((strtol mem 1).2 + 1)).1
            server.last_seen_time input.seen_time input.time_base).2.1,
          time_base := (normalize_time (strtol mem ((strtol mem 1).2 + 1)).1
            server.last_seen_time input.seen_time input.time_base).2.2 },
        last_seen_time := to_guint64 (normalize_time (strtol mem ((strtol mem 1).2 + 1)).1
            server.last_seen_time input.seen_time input.time_base).1 }
      (mem.getD 0 0) mem ((strtol mem ((strtol mem 1).2 + 1)).2 + 1)
  constructor
  · intro ht
    obtain ⟨h1, h2⟩ := hp.1 ht
    refine ⟨{ type := mem.getD 0 0, serial := to_guint32 (strtol mem 1).1,
              time := to_guint64 (normalize_time (strtol mem ((strtol mem 1).2 + 1)).1
                server.last_seen_time input.seen_time input.time_base).1,
              payload := (parse_payload
                { server with
                  input := some { input with
                    seen_time := (normalize_time (strtol mem ((strtol mem 1).2 + 1)).1
                      server.last_seen_time input.seen_time input.time_base).2.1,
                    time_base := (normalize_time (strtol mem ((strtol mem 1).2 + 1)).1
                      server.last_seen_time input.seen_time input.time_base).2.2 },
                  last_seen_time := to_guint64
                    (normalize_time (strtol mem ((strtol mem 1).2 + 1)).1
                      server.last_seen_time input.seen_time input.time_base).1 }
                (mem.getD 0 0) mem ((strtol mem ((strtol mem 1).2 + 1)).2 + 1)).1 },
      (parse_pointer_data mem ((strtol mem ((strtol mem 1).2 + 1)).2 + 1)).1, ?_, rfl, h1, ?_⟩
    · simp only [parse_input_message, hin, parse_payload_input_messages]
    · simp only [parse_input_message, hin, h2]
      rfl
  · intro ht
    have h2 := hp.2 ht
    simp only [parse_input_message, hin, h2]
    rfl

/-- C21: pointer state is updated at parse time.  `parse_input_message` on a
live input channel never changes `last_x`, `last_y`, `last_state`,
`mouse_in_toplevel_id` and `real_mouse_in_toplevel_id`.  For an enter, leave,
motion, button or scroll tag it queues a record with the pointer fields `p` and
sets the four future fields to `p.root_x`, `p.root_y`, `p.state` and
`p.mouse_window_id` (stored in an `int`, so unchanged below 2^31); for any
other tag the four future fields are unchanged. -/
theorem pointer_state_at_parse (server : GdkBroadwayServer) (input : BroadwayInput)
    (mem : List Nat) (hin : server.input = some input) :
    last_pointer_state (parse_input_message server mem) = last_pointer_state server ∧
    (mem.getD 0 0 ∈ pointer_event_tags →
      ∃ msg p, (parse_input_message server mem).input_messages =
          server.input_messages ++ [msg] ∧
        msg.type = mem.getD 0 0 ∧ msg.payload.pointer_data = some p ∧
        future_pointer_state (parse_input_message server mem) =
          (p.root_x, p.root_y, p.state, to_gint32 p.mouse_window_id)) ∧
    (mem.getD 0 0 ∉ pointer_event_tags →
      future_pointer_state (parse_input_message server mem) = future_pointer_state server) ∧
    (∀ id : Nat, id < 2147483648 → to_gint32 (id : Int) = id) :=
  ⟨parse_input_message_last_pointer server mem,
    (parse_input_message_future server input mem hin).1,
    (parse_input_message_future server input mem hin).2,
    fun id h => by unfold to_gint32; omega⟩

/-- Witness of `pointer_state_at_parse`: parsing the motion `m0,0,1,1,5,5,5,5,0`
on `ex_server` sets the future state to (5, 5, 0, window 1) and leaves the last
state at its initial values; the dispatch then sets the last state. -/
theorem pointer_state_at_parse_witness :
    ex_server.input = some ex_input ∧
    last_pointer_state (parse_input_message ex_server ex_msg_motion) = (0, 0, 0, 0, 0) ∧
    future_pointer_state (parse_input_message ex_server ex_msg_motion) = (5, 5, 0, 1) ∧
    last_pointer_state (process_input_messages (parse_input_message ex_server ex_msg_motion)) =
      (5, 5, 0, 0, 1) :=
  ⟨rfl, (pointer_state_at_parse ex_server ex_input ex_msg_motion rfl).1.trans (by decide),
    by decide, by decide⟩


/-! ## The pointer query -/

theorem read_input_would_block (server : GdkBroadwayServer) :
    _gdk_broadway_server_read_all_input_nonblocking server ReadResult.would_block = server := by
  unfold _gdk_broadway_server_read_all_input_nonblocking
  cases server.input <;> rfl

theorem queue_idle_future (server : GdkBroadwayServer) :
    future_pointer_state (queue_process_input_at_idle server) = future_pointer_state server := by
  unfold queue_process_input_at_idle
  split_ifs <;> rfl

theorem query_mouse_attached (server : GdkBroadwayServer) (o : BroadwayOutput)
    (ho : server.output = some o) (res : ReadResult) :
    (_gdk_broadway_server_query_mouse server res).1 =
      { toplevel :=
          (_gdk_broadway_server_read_all_input_nonblocking server res).future_mouse_in_toplevel,
        root_x := (_gdk_broadway_server_read_all_input_nonblocking server res).future_root_x,
        root_y := (_gdk_broadway_server_read_all_input_nonblocking server res).future_root_y,
        mask := (_gdk_broadway_server_read_all_input_nonblocking server res).future_state } := by
  have h := queue_idle_future (_gdk_broadway_server_read_all_input_nonblocking server res)
  simp only [future_pointer_state, Prod.mk.injEq] at h
  simp only [_gdk_broadway_server_query_mouse, ho, _gdk_broadway_server_consume_all_input,
    h.1, h.2.1, h.2.2.1, h.2.2.2]

/-- C22 (counterexample): a query between parse and dispatch that reports the
last dispatched values.  In `ex_server_unflushed` the input channel is live and
the parsed motion (root position 5, 5 over window 1) is still in the queue, but
the output channel was dropped by a failed flush:
`_gdk_broadway_server_query_mouse` reports the position 0, 0 over window 0, the
last dispatched state, and not the future state. -/
theorem query_without_output_reports_last :
    ex_server_unflushed.input.isSome = true ∧ ex_server_unflushed.output = none ∧
    ex_server_unflushed.input_messages.map (fun m => m.payload.pointer_data) =
      [some { mouse_window_id := 1, event_window_id := 1, root_x := 5, root_y := 5,
              win_x := 5, win_y := 5, state := 0 }] ∧
    future_pointer_state ex_server_unflushed = (5, 5, 0, 1) ∧
    (_gdk_broadway_server_query_mouse ex_server_unflushed ReadResult.would_block).1 =
      { toplevel := 0, root_x := 0, root_y := 0, mask := 0 } := by
  decide

/-- C22 (amended): a synchronous position query made between parse and dispatch
observes the future value when an output channel is attached.  With a channel
attached, `_gdk_broadway_server_query_mouse` reports the four future fields of
the server after the input it reads has been parsed; so in the state right
after a pointer-bearing message with pointer fields `p` was parsed, and with
nothing more to read, it reports `p.root_x`, `p.root_y`, `p.state` and
`p.mouse_window_id`, whatever the last dispatched values are. -/
theorem query_mouse_future (server : GdkBroadwayServer) (o : BroadwayOutput)
    (input : BroadwayInput) (mem : List Nat) (ho : server.output = some o)
    (hin : server.input = some input) (ht : mem.getD 0 0 ∈ pointer_event_tags) :
    (∀ res, (_gdk_broadway_server_query_mouse server res).1 =
      { toplevel :=
          (_gdk_broadway_server_read_all_input_nonblocking server res).future_mouse_in_toplevel,
        root_x := (_gdk_broadway_server_read_all_input_nonblocking server res).future_root_x,
        root_y := (_gdk_broadway_server_read_all_input_nonblocking server res).future_root_y,
        mask := (_gdk_broadway_server_read_all_input_nonblocking server res).future_state }) ∧
    ∃ msg p, (parse_input_message server mem).input_messages = server.input_messages ++ [msg] ∧
      msg.payload.pointer_data = some p ∧
      (_gdk_broadway_server_query_mouse (parse_input_message server mem)
        ReadResult.would_block).1 =
        { toplevel := to_gint32 p.mouse_window_id, root_x := p.root_x, root_y := p.root_y,
          mask := p.state } := by
  refine ⟨fun res => query_mouse_attached server o ho res, ?_⟩
  obtain ⟨msg, p, h1, -, h3, h4⟩ := (parse_input_message_future server input mem hin).1 ht
  refine ⟨msg, p, h1, h3, ?_⟩
  have hs := parse_input_message_serial server mem
  simp only [serial_state, Prod.mk.injEq] at hs
  rw [query_mouse_attached _ o (hs.1.trans ho), read_input_would_block]
  simp only [future_pointer_state, Prod.mk.injEq] at h4
  rw [h4.1, h4.2.1, h4.2.2.1, h4.2.2.2]

/-- Witness of `query_mouse_future`: with the output channel attached, the
query right after the motion `m0,0,1,1,5,5,5,5,0` was parsed reports the
position 5, 5 over window 1 while the last dispatched position is 0, 0. -/
theorem query_mouse_future_witness :
    ex_server_attached_input.output = some (broadway_output_new 1 true false []) ∧
    ex_server_attached_input.input = some ex_input ∧
    ex_msg_motion.getD 0 0 ∈ pointer_event_tags ∧
    (_gdk_broadway_server_query_mouse (parse_input_message ex_server_attached_input ex_msg_motion)
      ReadResult.would_block).1 = { toplevel := 1, root_x := 5, root_y := 5, mask := 0 } ∧
    last_pointer_state (parse_input_message ex_server_attached_input ex_msg_motion) =
      (0, 0, 0, 0, 0) := by
  obtain ⟨msg, p, -, -, h⟩ := (query_mouse_future ex_server_attached_input
    (broadway_output_new 1 true false []) ex_input ex_msg_motion rfl rfl (by decide)).2
  exact ⟨rfl, rfl, by decide, by decide, by decide⟩


/-! ## Dispatch in arrival order -/

theorem update_last_pointer_queue (server : GdkBroadwayServer) (p : BroadwayInputPointerMsg) :
    queue_state (update_last_pointer server p) = queue_state server := by
  simp only [queue_state, update_last_pointer]

theorem set_mouse_queue (server : GdkBroadwayServer) (x : Int) :
    queue_state { server with mouse_in_toplevel_id := x } = queue_state server := by
  simp only [queue_state]

theorem update_event_state_queue (server : GdkBroadwayServer) (message : BroadwayInputMsg) :
    queue_state (update_event_state server message) = queue_state server := by
  unfold update_event_state
  by_cases h1 : message.type = BROADWAY_EVENT_ENTER
  · rw [if_pos h1]
    cases message.payload.pointer_data with
    | none => rfl
    | some p => exact (set_mouse_queue _ _).trans (update_last_pointer_queue server p)
  rw [if_neg h1]
  by_cases h2 : message.type = BROADWAY_EVENT_LEAVE
  · rw [if_pos h2]
    cases message.payload.pointer_data with
    | none => rfl
    | some p => exact (set_mouse_queue _ _).trans (update_last_pointer_queue server p)
  rw [if_neg h2]
  by_cases h3 : message.type = BROADWAY_EVENT_POINTER_MOVE ∨
      message.type = BROADWAY_EVENT_BUTTON_PRESS ∨
      message.type = BROADWAY_EVENT_BUTTON_RELEASE ∨
      message.type = BROADWAY_EVENT_SCROLL
  · rw [if_pos h3]
    cases message.payload.pointer_data with
    | none => rfl
    | some p => exact update_last_pointer_queue server p
  rw [if_neg h3]
  by_cases h4 : message.type = BROADWAY_EVENT_KEY_PRESS ∨
      message.type = BROADWAY_EVENT_KEY_RELEASE
  · rw [if_pos h4]
    cases message.payload <;> simp only [queue_state]
  rw [if_neg h4]

theorem dispatch_message_queue (server : GdkBroadwayServer) (message : BroadwayInputMsg) :
    queue_state (dispatch_message server message) =
      (server.input_messages.tail, server.delivered ++ [message]) := by
  have h := update_event_state_queue
    { server with input_messages := server.input_messages.tail } message
  simp only [queue_state, Prod.mk.injEq] at h
  simp only [dispatch_message, queue_state, h.1, h.2]

theorem process_input_messages_eq (server : GdkBroadwayServer) :
    process_input_messages server = server.input_messages.foldl dispatch_message server := rfl

theorem dispatch_fold (msgs rest : List BroadwayInputMsg) (server : GdkBroadwayServer)
    (h : server.input_messages = msgs ++ rest) :
    queue_state (msgs.foldl dispatch_message server) = (rest, server.delivered ++ msgs) := by
  induction msgs generalizing server with
  | nil =>
    rw [List.nil_append] at h
    simp only [List.foldl_nil, queue_state, List.append_nil, h]
  | cons m msgs ih =>
    have h1 := dispatch_message_queue server m
    simp only [queue_state, Prod.mk.injEq] at h1
    rw [h, List.cons_append, List.tail_cons] at h1
    rw [List.foldl_cons, ih (dispatch_message server m) h1.1, h1.2, List.append_assoc,
      List.singleton_append]

theorem foldl_parse_queue (mems : List (List Nat)) (server : GdkBroadwayServer)
    (input : BroadwayInput) (hin : server.input = some input) :
    ∃ msgs, (mems.foldl parse_input_message server).input_messages =
        server.input_messages ++ msgs ∧
      msgs.map (fun m => m.type) = mems.map (fun mem => mem.getD 0 0) ∧
      (mems.foldl parse_input_message server).delivered = server.delivered := by
  induction mems generalizing server input with
  | nil => exact ⟨[], (List.append_nil _).symm, rfl, rfl⟩
  | cons mem mems ih =>
    obtain ⟨hi, -, -⟩ := parse_input_message_time server input mem hin
    obtain ⟨msgs, h1, h2, h3⟩ := ih (parse_input_message server mem) _ hi
    have hq : ∃ msg, (parse_input_message server mem).input_messages =
        server.input_messages ++ [msg] ∧ msg.type = mem.getD 0 0 ∧
        (parse_input_message server mem).delivered = server.delivered := by
      have hd : ∀ s type p, (parse_payload s type mem p).2.delivered = s.delivered := by
        intro s type p
        rcases parse_payload_state s type mem p with h | ⟨d, h⟩ <;>
          simp [h, update_future_pointer_info]
      simp only [parse_input_message, hin, parse_payload_input_messages, hd]
      exact ⟨_, rfl, rfl, trivial⟩
    obtain ⟨msg, hq1, hq2, hq3⟩ := hq
    rw [List.foldl_cons]
    refine ⟨msg :: msgs, ?_, ?_, ?_⟩
    · rw [h1, hq1, List.append_assoc, List.singleton_append]
    · rw [List.map_cons, List.map_cons, h2, hq2]
    · rw [h3, hq3]

theorem update_event_state_last (server : GdkBroadwayServer) (q : List BroadwayInputMsg)
    (message : BroadwayInputMsg) :
    last_pointer_state (update_event_state { server with input_messages := q } message) =
      last_pointer_state (update_event_state server message) := by
  unfold update_event_state
  by_cases h1 : message.type = BROADWAY_EVENT_ENTER
  · rw [if_pos h1, if_pos h1]
    cases message.payload.pointer_data with
    | none => rfl
    | some p => simp only [last_pointer_state, update_last_pointer]
  rw [if_neg h1, if_neg h1]
  by_cases h2 : message.type = BROADWAY_EVENT_LEAVE
  · rw [if_pos h2, if_pos h2]
    cases message.payload.pointer_data with
    | none => rfl
    | some p => simp only [last_pointer_state, update_last_pointer]
  rw [if_neg h2, if_neg h2]
  by_cases h3 : message.type = BROADWAY_EVENT_POINTER_MOVE ∨
      message.type = BROADWAY_EVENT_BUTTON_PRESS ∨
      message.type = BROADWAY_EVENT_BUTTON_RELEASE ∨
      message.type = BROADWAY_EVENT_SCROLL
  · rw [if_pos h3, if_pos h3]
    cases message.payload.pointer_data with
    | none => rfl
    | some p => simp only [last_pointer_state, update_last_pointer]
  rw [if_neg h3, if_neg h3]
  by_cases h4 : message.type = BROADWAY_EVENT_KEY_PRESS ∨
      message.type = BROADWAY_EVENT_KEY_RELEASE
  · rw [if_pos h4, if_pos h4]
    cases message.payload <;> simp only [last_pointer_state]
  rw [if_neg h4, if_neg h4]
  rfl

/-- C23: input events are dispatched in strict arrival order.  Parsing a
sequence of messages on a live input channel appends one record per message,
in order, at the tail of the pending queue and hands nothing to the consumer.
`process_input_messages` returns with the queue empty and has handed to the
consumer exactly the queued records, each once, from the head on.  Each turn of
its loop takes the head `m` off the queue, applies `update_event_state` for `m`
and then hands `m` over, before the next record is looked at. -/
theorem dispatch_order (server : GdkBroadwayServer) (input : BroadwayInput)
    (mems : List (List Nat)) (hin : server.input = some input) :
    (∃ msgs, (mems.foldl parse_input_message server).input_messages =
        server.input_messages ++ msgs ∧
      msgs.map (fun m => m.type) = mems.map (fun mem => mem.getD 0 0) ∧
      (mems.foldl parse_input_message server).delivered = server.delivered ∧
      (process_input_messages (mems.foldl parse_input_message server)).delivered =
        server.delivered ++ (server.input_messages ++ msgs) ∧
      (process_input_messages (mems.foldl parse_input_message server)).input_messages = []) ∧
    (∀ s : GdkBroadwayServer,
      (process_input_messages s).delivered = s.delivered ++ s.input_messages ∧
      (process_input_messages s).input_messages = []) ∧
    (∀ (s : GdkBroadwayServer) m rest, s.input_messages = m :: rest →
      process_input_messages s = process_input_messages (dispatch_message s m) ∧
      (dispatch_message s m).input_messages = rest ∧
      (dispatch_message s m).delivered = s.delivered ++ [m] ∧
      last_pointer_state (dispatch_message s m) =
        last_pointer_state (update_event_state s m)) := by
  have hproc : ∀ s : GdkBroadwayServer,
      (process_input_messages s).delivered = s.delivered ++ s.input_messages ∧
      (process_input_messages s).input_messages = [] := by
    intro s
    have h := dispatch_fold s.input_messages [] s (List.append_nil _).symm
    rw [← process_input_messages_eq] at h
    simp only [queue_state, Prod.mk.injEq] at h
    exact ⟨h.2, h.1⟩
  refine ⟨?_, hproc, ?_⟩
  · obtain ⟨msgs, h1, h2, h3⟩ := foldl_parse_queue mems server input hin
    refine ⟨msgs, h1, h2, h3, ?_, (hproc _).2⟩
    rw [(hproc _).1, h1, h3]
  · intro s m rest hs
    have h1 := dispatch_message_queue s m
    simp only [queue_state, Prod.mk.injEq] at h1
    rw [hs, List.tail_cons] at h1
    refine ⟨?_, h1.1, h1.2, ?_⟩
    · rw [process_input_messages_eq, process_input_messages_eq, hs, List.foldl_cons, h1.1]
    · have h2 := update_event_state_last s s.input_messages.tail m
      rw [← h2]
      simp only [dispatch_message, last_pointer_state]

/-- Witness of `dispatch_order`: the messages `m0,10000`, `?7,10000` and
`m1,10250` parsed on `ex_server` are handed over in that order and the queue is
empty afterwards. -/
theorem dispatch_order_witness :
    ex_server.input = some ex_input ∧
    (process_input_messages
      ([ex_msg_10000, ex_msg_unknown, ex_msg_10250].foldl parse_input_message
        ex_server)).delivered.map (fun m => (m.type, m.serial)) = [(109, 0), (63, 7), (109, 1)] ∧
    (process_input_messages
      ([ex_msg_10000, ex_msg_unknown, ex_msg_10250].foldl parse_input_message
        ex_server)).input_messages = [] :=
  ⟨rfl, by decide,
    ((dispatch_order ex_server ex_input [ex_msg_10000, ex_msg_unknown, ex_msg_10250] rfl).2.1
      _).2⟩


/-! ## The old style protocol -/

/-- C25: legacy fatal path.  When `parse_input` runs on a legacy input channel
whose buffer is not empty and does not begin with the byte 0, the result is the
server with its input reference cleared and every other field as before: no
message is parsed or queued, and the output channel, the saved serial, the
time, the window registry and the pointer and grab state are untouched. -/
theorem legacy_fatal (server : GdkBroadwayServer) (input : BroadwayInput)
    (hin : server.input = some input) (hv : input.proto_v7_plus = false)
    (hne : input.buffer ≠ []) (h0 : input.buffer.getD 0 0 ≠ 0) :
    parse_input server = { server with input := none } ∧
    (parse_input server).input = none ∧
    (parse_input server).input_messages = server.input_messages ∧
    serial_state (parse_input server) = serial_state server ∧
    (parse_input server).last_seen_time = server.last_seen_time ∧
    registry (parse_input server) = registry server ∧
    last_pointer_state (parse_input server) = last_pointer_state server ∧
    future_pointer_state (parse_input server) = future_pointer_state server ∧
    (parse_input server).pointer_grab_window_id = server.pointer_grab_window_id := by
  have h : parse_input server = { server with input := none } := by
    unfold parse_input
    simp only [hin, hv, Bool.false_eq_true, if_false]
    rw [if_neg (by simpa using hne), if_pos h0]
  rw [h]
  exact ⟨rfl, rfl, rfl, rfl, rfl, rfl, rfl, rfl, rfl⟩

/-- Witness of `legacy_fatal`: the legacy channel of `ex_server_legacy` with the
bytes `m0` (no leading 0) in its buffer is torn down. -/
theorem legacy_fatal_witness :
    (set_buffer ex_server_legacy [109, 48]).input =
      some { ex_input_legacy with buffer := [109, 48] } ∧
    (parse_input (set_buffer ex_server_legacy [109, 48])).input = none ∧
    (parse_input (set_buffer ex_server_legacy [109, 48])).input_messages = [] :=
  ⟨rfl,
    (legacy_fatal (set_buffer ex_server_legacy [109, 48])
      { ex_input_legacy with buffer := [109, 48] } rfl rfl (by decide) (by decide)).2.1,
    by decide⟩


theorem memchr_body (b rest : List Nat) (hb : 255 ∉ b) :
    memchr (0 :: b ++ 255 :: rest) 0xff = some (b.length + 1) := by
  have htw : ∀ (l : List Nat), 255 ∉ l →
      (l ++ 255 :: rest).takeWhile (fun x => x != 255) = l := by
    intro l hl
    induction l with
    | nil => simp [List.takeWhile_cons]
    | cons x l ih =>
      have hx : x ≠ 255 := fun h => hl (h ▸ List.mem_cons_self _ _)
      have hl2 : 255 ∉ l := fun h => hl (List.mem_cons_of_mem _ h)
      simp only [List.cons_append, List.takeWhile_cons, bne_iff_ne, ne_eq, hx,
        not_false_eq_true, if_true, decide_True, ih hl2]
  unfold memchr
  have h0 : (0 :: b ++ 255 :: rest) = (0 :: b) ++ 255 :: rest := rfl
  rw [h0, htw (0 :: b) (by
    intro h
    rcases List.mem_cons.mp h with h | h
    · cases h
    · exact hb h)]
  simp only [List.length_cons, List.length_append]
  rw [if_pos (by omega)]

theorem memchr_none (l : List Nat) (h : 255 ∉ l) : memchr l 0xff = none := by
  unfold memchr
  have htw : l.takeWhile (fun x => x != 255) = l := by
    rw [List.takeWhile_eq_self_iff]
    intro x hx
    simp only [bne_iff_ne, ne_eq]
    exact fun hc => h (hc ▸ hx)
  rw [htw, if_neg (lt_irrefl _)]

theorem legacy_stream_head (bodies : List (List Nat)) (tail : List Nat)
    (ht : tail = [] ∨ tail.head? = some 0) :
    legacy_stream bodies tail = [] ∨ (legacy_stream bodies tail).head? = some 0 := by
  cases bodies with
  | nil => exact ht
  | cons b bs => exact Or.inr rfl

theorem legacy_loop (bodies : List (List Nat)) (tail : List Nat) (hwf : legacy_wf bodies tail)
    (pre : List Nat) (server : GdkBroadwayServer) (fuel : Nat) (hfuel : bodies.length ≤ fuel) :
    parse_input_legacy fuel server (pre ++ legacy_stream bodies tail) pre.length =
      set_buffer (parse_legacy_bodies server bodies tail) tail := by
  induction bodies generalizing pre server fuel with
  | nil =>
    have hd : (pre ++ tail).drop pre.length = tail := List.drop_left _ _
    cases fuel with
    | zero => simp only [legacy_stream, parse_input_legacy, hd, parse_legacy_bodies, set_buffer]
    | succ f =>
      simp only [legacy_stream, parse_input_legacy, hd, memchr_none tail hwf.2.1,
        parse_legacy_bodies, set_buffer]
  | cons b bs ih =>
    obtain ⟨hb, ht1, ht2⟩ := hwf
    have hwf2 : legacy_wf bs tail := ⟨fun x hx => hb x (List.mem_cons_of_mem _ hx), ht1, ht2⟩
    have hb0 : 255 ∉ b := hb b (List.mem_cons_self _ _)
    cases fuel with
    | zero => simp at hfuel
    | succ f =>
      have hf : bs.length ≤ f := by simpa using hfuel
      have hd : (pre ++ legacy_stream (b :: bs) tail).drop pre.length =
          0 :: b ++ 255 :: legacy_stream bs tail := List.drop_left _ _
      have hm := memchr_body b (legacy_stream bs tail) hb0
      have hset : (pre ++ legacy_stream (b :: bs) tail).set (pre.length + (b.length + 1)) 0 =
          (pre ++ 0 :: b ++ [0]) ++ legacy_stream bs tail := by
        have h1 : pre ++ legacy_stream (b :: bs) tail =
            (pre ++ 0 :: b) ++ 255 :: legacy_stream bs tail := by
          simp [legacy_stream]
        have h2 : pre.length + (b.length + 1) = (pre ++ 0 :: b).length := by simp
        rw [h1, h2, List.set_append_right _ _ (le_refl _), Nat.sub_self]
        simp
      have hlen : (pre ++ 0 :: b ++ [0]).length = pre.length + (b.length + 1) + 1 := by
        simp
        omega
      have hdrop : ((pre ++ 0 :: b ++ [0]) ++ legacy_stream bs tail).drop (pre.length + 1) =
          b ++ 0 :: legacy_stream bs tail := by
        have h1 : (pre ++ 0 :: b ++ [0]) ++ legacy_stream bs tail =
            (pre ++ [0]) ++ (b ++ 0 :: legacy_stream bs tail) := by simp
        have h2 : pre.length + 1 = (pre ++ [0]).length := by simp
        rw [h1, h2, List.drop_left]
      have hnext : ¬ (pre.length + (b.length + 1) + 1 <
            (pre ++ legacy_stream (b :: bs) tail).length ∧
          ((pre ++ 0 :: b ++ [0]) ++ legacy_stream bs tail).getD
            (pre.length + (b.length + 1) + 1) 0 ≠ 0) := by
        rintro ⟨-, h2⟩
        apply h2
        rw [← hlen, List.getD_append_right _ _ _ _ (le_refl _), Nat.sub_self]
        rcases legacy_stream_head bs tail ht2 with h | h
        · rw [h]; rfl
        · cases hs : legacy_stream bs tail with
          | nil => rfl
          | cons x xs =>
            rw [hs] at h
            simp only [List.head?_cons, Option.some.injEq] at h
            rw [h]; rfl
      unfold parse_input_legacy
      simp only [hd, hm, hset, hdrop, if_neg hnext]
      have := ih hwf2 (pre ++ 0 :: b ++ [0])
        (parse_input_message server (b ++ 0 :: legacy_stream bs tail)) f hf
      rw [hlen] at this
      rw [this]
      rfl

theorem set_buffer_self (server : GdkBroadwayServer) (input : BroadwayInput)
    (hin : server.input = some input) : set_buffer server input.buffer = server := by
  cases server
  simp only at hin
  simp only [set_buffer, hin, Option.map_some']

theorem legacy_stream_length (bodies : List (List Nat)) (tail : List Nat) :
    bodies.length ≤ (legacy_stream bodies tail).length := by
  induction bodies with
  | nil => exact Nat.zero_le _
  | cons b bs ih =>
    simp only [legacy_stream, List.length_cons, List.length_append]
    omega

theorem parse_legacy_bodies_queue (bodies : List (List Nat)) (tail : List Nat)
    (server : GdkBroadwayServer) (input : BroadwayInput) (hin : server.input = some input) :
    (∃ i, (parse_legacy_bodies server bodies tail).input = some i ∧
      i.proto_v7_plus = input.proto_v7_plus) ∧
    ∃ msgs, (parse_legacy_bodies server bodies tail).input_messages =
        server.input_messages ++ msgs ∧
      msgs.map (fun m => m.type) = bodies.map (fun b => b.getD 0 0) := by
  induction bodies generalizing server input with
  | nil => exact ⟨⟨input, hin, rfl⟩, [], (List.append_nil _).symm, rfl⟩
  | cons b bs ih =>
    obtain ⟨msgs1, h1, h2, -⟩ := foldl_parse_queue [b ++ 0 :: legacy_stream bs tail] server
      input hin
    simp only [List.foldl_cons, List.foldl_nil] at h1
    obtain ⟨hi, -, -⟩ := parse_input_message_time server input
      (b ++ 0 :: legacy_stream bs tail) hin
    obtain ⟨⟨i, hi1, hi2⟩, msgs, h3, h4⟩ := ih
      (parse_input_message server (b ++ 0 :: legacy_stream bs tail)) _ hi
    refine ⟨⟨i, hi1, hi2⟩, msgs1 ++ msgs, ?_, ?_⟩
    · simp only [parse_legacy_bodies]
      rw [h3, h1, List.append_assoc]
    · rw [List.map_append, h2, h4]
      have hty : (b ++ 0 :: legacy_stream bs tail).getD 0 0 = b.getD 0 0 := by
        cases b <;> rfl
      simp only [List.map_cons, List.map_nil, hty, List.singleton_append]

/-- C24: legacy framing.  Let the buffer of a legacy input channel consist of
complete messages (a 0x00 lead byte, a body without 0xFF, a 0xFF terminator)
followed by nothing or by an incomplete message (a 0x00 lead byte and no 0xFF
yet).  Then `parse_input` calls `parse_input_message` once per complete
message, in order, each time on the body with a NUL byte in place of its
terminator; afterwards the buffer holds exactly the incomplete tail, the
channel is still attached and still legacy, and the pending queue has one new
record per body, in order, with the body's first byte as type tag. -/
theorem legacy_framing (server : GdkBroadwayServer) (input : BroadwayInput)
    (bodies : List (List Nat)) (tail : List Nat) (hin : server.input = some input)
    (hv : input.proto_v7_plus = false) (hbuf : input.buffer = legacy_stream bodies tail)
    (hwf : legacy_wf bodies tail) :
    parse_input server = set_buffer (parse_legacy_bodies server bodies tail) tail ∧
    (∃ i, (parse_input server).input = some i ∧ i.buffer = tail ∧ i.proto_v7_plus = false) ∧
    ∃ msgs, (parse_input server).input_messages = server.input_messages ++ msgs ∧
      msgs.length = bodies.length ∧
      msgs.map (fun m => m.type) = bodies.map (fun b => b.getD 0 0) := by
  have hmain : parse_input server = set_buffer (parse_legacy_bodies server bodies tail) tail := by
    unfold parse_input
    simp only [hin, hv, Bool.false_eq_true, if_false]
    by_cases h0 : input.buffer.length = 0
    · rw [if_pos h0]
      have hnil : input.buffer = [] := List.length_eq_zero.mp h0
      have hb : bodies = [] := by
        cases bodies with
        | nil => rfl
        | cons b bs => rw [hbuf] at hnil; cases hnil
      subst hb
      have ht : tail = [] := by rw [hbuf] at hnil; exact hnil
      rw [ht, ← hnil]
      exact (set_buffer_self server input hin).symm
    · rw [if_neg h0]
      have hhead : ¬ input.buffer.getD 0 0 ≠ 0 := by
        intro h
        apply h
        rcases legacy_stream_head bodies tail hwf.2.2 with h1 | h1
        · rw [hbuf, h1] at h0; exact absurd rfl h0
        · rw [hbuf]
          cases hs : legacy_stream bodies tail with
          | nil => rfl
          | cons x xs =>
            rw [hs] at h1
            simp only [List.head?_cons, Option.some.injEq] at h1
            rw [h1]; rfl
      rw [if_neg hhead]
      have := legacy_loop bodies tail hwf [] server input.buffer.length
        (by rw [hbuf]; exact legacy_stream_length bodies tail)
      rw [List.nil_append, ← hbuf] at this
      exact this
  obtain ⟨⟨i, hi1, hi2⟩, msgs, h3, h4⟩ := parse_legacy_bodies_queue bodies tail server input hin
  refine ⟨hmain, ?_, msgs, ?_, ?_, h4⟩
  · rw [hmain]
    refine ⟨{ i with buffer := tail }, ?_, rfl, hi2.trans hv⟩
    simp only [set_buffer, hi1, Option.map_some']
  · rw [hmain]
    exact h3
  · have := congrArg List.length h4
    simpa using this

/-- Witness of `legacy_framing`: the legacy buffer `00 m0,10000 FF 00 m1,10250
FF 00 m` is parsed into two motion records and the incomplete `00 m` is
kept. -/
theorem legacy_framing_witness :
    (set_buffer ex_server_legacy (legacy_stream [ex_msg_10000, ex_msg_10250] [0, 109])).input =
      some { ex_input_legacy with
             buffer := legacy_stream [ex_msg_10000, ex_msg_10250] [0, 109] } ∧
    legacy_wf [ex_msg_10000, ex_msg_10250] [0, 109] ∧
    legacy_stream [ex_msg_10000, ex_msg_10250] [0, 109] =
      [0, 109, 48, 44, 49, 48, 48, 48, 48, 255, 0, 109, 49, 44, 49, 48, 50, 53, 48, 255, 0, 109] ∧
    ∃ i, (parse_input (set_buffer ex_server_legacy
        (legacy_stream [ex_msg_10000, ex_msg_10250] [0, 109]))).input = some i ∧
      i.buffer = [0, 109] ∧ i.proto_v7_plus = false :=
  have hwf : legacy_wf [ex_msg_10000, ex_msg_10250] [0, 109] :=
    ⟨by decide, by decide, Or.inr rfl⟩
  ⟨rfl, hwf, rfl,
    (legacy_framing (set_buffer ex_server_legacy
        (legacy_stream [ex_msg_10000, ex_msg_10250] [0, 109]))
      { ex_input_legacy with buffer := legacy_stream [ex_msg_10000, ex_msg_10250] [0, 109] }
      [ex_msg_10000, ex_msg_10250] [0, 109] rfl rfl rfl hwf).2.1⟩


/-! ## The v7+ handshake response -/

theorem takeWhile_no_nul (s : List Nat) (h : 0 ∉ s) : s.takeWhile (fun c => c != 0) = s := by
  rw [List.takeWhile_eq_self_iff]
  intro x hx
  simp only [bne_iff_ne, ne_eq]
  exact fun hc => h (hc ▸ hx)

set_option maxRecDepth 1000000 in
theorem handshake_vector :
    g_base64_encode (sha1 (ex_key_v7 ++ SEC_WEB_SOCKET_KEY_MAGIC)) =
      cstr "HSmrc0sMlYUkAGmm5OPpG2HaGWk=" := by
  decide

set_option maxRecDepth 1000000 in
theorem sha1_abc : sha1 (cstr "abc") =
    [0xa9, 0x99, 0x3e, 0x36, 0x47, 0x06, 0x81, 0x6a, 0xba, 0x3e, 0x25, 0x71, 0x78, 0x50, 0xc2,
     0x6c, 0x9c, 0xd0, 0xd8, 0x9d] := by
  decide

/-- C28: the v7+ handshake response.  For every key `K` (a C string, so without
a NUL byte), `generate_handshake_response_wsietf_v7 (K)` is the base64 encoding
of the SHA-1 digest of `K` followed by the magic string
`258EAFA5-E914-47DA-95CA-C5AB0DC85B11`; and the key `x3JJHMbDL1EzLkh9GBhXDw==`
yields `HSmrc0sMlYUkAGmm5OPpG2HaGWk=`. -/
theorem handshake_response_v7 (key : List Nat) (h0 : 0 ∉ key) :
    generate_handshake_response_wsietf_v7 key =
      g_base64_encode (sha1 (key ++ cstr "258EAFA5-E914-47DA-95CA-C5AB0DC85B11")) ∧
    generate_handshake_response_wsietf_v7 (cstr "x3JJHMbDL1EzLkh9GBhXDw==") =
      cstr "HSmrc0sMlYUkAGmm5OPpG2HaGWk=" := by
  have hm : SEC_WEB_SOCKET_KEY_MAGIC.takeWhile (fun c => c != 0) = SEC_WEB_SOCKET_KEY_MAGIC :=
    takeWhile_no_nul _ (by decide)
  have hgen : ∀ k : List Nat, 0 ∉ k → generate_handshake_response_wsietf_v7 k =
      g_base64_encode (sha1 (k ++ SEC_WEB_SOCKET_KEY_MAGIC)) := by
    intro k hk
    simp only [generate_handshake_response_wsietf_v7, g_checksum_update, g_checksum_new,
      g_checksum_get_digest, List.nil_append, takeWhile_no_nul k hk, hm]
  refine ⟨hgen key h0, ?_⟩
  have h1 := hgen ex_key_v7 (by decide)
  rw [handshake_vector] at h1
  exact h1

/-- Witness of `handshake_response_v7` at the key of the example. -/
theorem handshake_response_v7_witness :
    0 ∉ ex_key_v7 ∧
    generate_handshake_response_wsietf_v7 ex_key_v7 = cstr "HSmrc0sMlYUkAGmm5OPpG2HaGWk=" :=
  ⟨by decide, (handshake_response_v7 ex_key_v7 (by decide)).2⟩


/-! ## The legacy handshake keys -/

theorem digits_fold_ge (ds : List Nat) (acc : Nat) :
    acc ≤ ds.foldl (fun a d => a * 10 + (d - 48)) acc := by
  induction ds generalizing acc with
  | nil => exact le_refl _
  | cons d ds ih =>
    rw [List.foldl_cons]
    exact le_trans (by omega) (ih _)

theorem scan_key_fold (value : List Nat) (k : Nat) (n : Int) (hn : 0 ≤ n)
    (hk : (value.filter c_isdigit).foldl (fun a d => a * 10 + (d - 48)) k <
      18446744073709551616)
    (hs : n + value.count 32 < 2147483648) :
    value.foldl
      (fun (r : Nat × Int) c =>
        if c_isdigit c then ((r.1 * 10 + (c - 48)) % 18446744073709551616, r.2)
        else if c = 32 then (r.1, to_gint32 (r.2 + 1))
        else r)
      (k, n) =
      ((value.filter c_isdigit).foldl (fun a d => a * 10 + (d - 48)) k,
        n + value.count 32) := by
  induction value generalizing k n with
  | nil => simp
  | cons c cs ih =>
    rw [List.foldl_cons]
    by_cases hd : c_isdigit c = true
    · have hc32 : c ≠ 32 := by
        intro h
        rw [h] at hd
        exact absurd hd (by decide)
      have hcount : (c :: cs).count 32 = cs.count 32 := by
        rw [List.count_cons_of_ne (Ne.symm hc32)]
      simp only [hd, if_true, List.filter_cons, List.foldl_cons] at hk ⊢
      have hle := digits_fold_ge (cs.filter c_isdigit) (k * 10 + (c - 48))
      have hmod : (k * 10 + (c - 48)) % 18446744073709551616 = k * 10 + (c - 48) :=
        Nat.mod_eq_of_lt (lt_of_le_of_lt hle hk)
      rw [hmod, hcount]
      rw [hcount] at hs
      exact ih _ n hn hk hs
    · have hdf : c_isdigit c = false := by simpa using hd
      by_cases hc : c = 32
      · subst hc
        have hcount : ((32 : Nat) :: cs).count 32 = cs.count 32 + 1 := List.count_cons_self _ _
        rw [hcount] at hs
        simp only [hdf, Bool.false_eq_true, if_false, if_true, List.filter_cons] at hk ⊢
        have hg : to_gint32 (n + 1) = n + 1 := by
          unfold to_gint32
          omega
        rw [hg, ih k (n + 1) (by omega) hk (by omega), hcount]
        congr 1
        push_cast
        ring
      · have hcount : (c :: cs).count 32 = cs.count 32 := by
          rw [List.count_cons_of_ne (Ne.symm hc)]
        rw [hcount] at hs
        simp only [hdf, Bool.false_eq_true, if_false, hc, List.filter_cons] at hk ⊢
        rw [ih k n hn hk hs, hcount]

theorem scan_key_value_eq (value : List Nat) (hD : spec_key_digits value < 18446744073709551616)
    (hS : spec_key_spaces value < 2147483648) :
    scan_key_value 0 value = (spec_key_digits value, (spec_key_spaces value : Int)) := by
  have hd : (value.filter c_isdigit).foldl (fun a d => a * 10 + (d - 48)) 0 =
      spec_key_digits value := digits_value_eq_decimal _
  have h := scan_key_fold value 0 0 (le_refl _) (by rw [hd]; exact hD)
    (by unfold spec_key_spaces at hS; omega)
  unfold scan_key_value
  rw [h, hd]
  simp [spec_key_spaces]

theorem scan_key_no_space (value : List Nat) (k : Nat) (h0 : value.count 32 = 0) :
    (scan_key_value k value).2 = 0 := by
  have hgen : ∀ (v : List Nat) (r : Nat × Int), v.count 32 = 0 →
      (v.foldl
        (fun (r : Nat × Int) c =>
          if c_isdigit c then ((r.1 * 10 + (c - 48)) % 18446744073709551616, r.2)
          else if c = 32 then (r.1, to_gint32 (r.2 + 1))
          else r) r).2 = r.2 := by
    intro v
    induction v with
    | nil => intro r _; rfl
    | cons c cs ih =>
      intro r hc
      have hne : c ≠ 32 := by
        intro h
        rw [h, List.count_cons_self] at hc
        omega
      have hcs : cs.count 32 = 0 := by
        rw [List.count_cons_of_ne (Ne.symm hne)] at hc
        exact hc
      rw [List.foldl_cons, ih _ hcs]
      split_ifs <;> rfl
  exact hgen value (k, 0) h0

theorem parse_line_some (line key v : List Nat) (h : parse_line line key = some v) :
    ∃ rest, line = key ++ 58 :: rest ∧
      v = if rest.head? = some 32 then rest.drop 1 else rest := by
  unfold parse_line g_str_has_prefix at h
  by_cases hp : key.isPrefixOf line = true
  · rw [if_neg (by simpa using hp)] at h
    obtain ⟨t, ht⟩ := List.isPrefixOf_iff_prefix.mp hp
    have hd : line.drop key.length = t := by rw [← ht, List.drop_left]
    simp only [hd] at h
    cases t with
    | nil => simp at h
    | cons c rest =>
      by_cases hc : c = 58
      · subst hc
        simp only [List.head?_cons, ne_eq, not_true_eq_false, if_false, List.drop_succ_cons,
          List.drop_zero, Option.some.injEq] at h
        exact ⟨rest, ht.symm, h.symm⟩
      · simp [hc] at h
  · rw [if_pos (by simpa using hp)] at h
    cases h

theorem parse_line_of_eq (key rest : List Nat) :
    parse_line (key ++ 58 :: rest) key =
      some (if rest.head? = some 32 then rest.drop 1 else rest) := by
  unfold parse_line g_str_has_prefix
  have hp : key.isPrefixOf (key ++ 58 :: rest) = true :=
    List.isPrefixOf_iff_prefix.mpr (List.prefix_append _ _)
  rw [if_neg (by simp [hp]), List.drop_left]
  simp

theorem parse_line_none_of_not_prefix (line key : List Nat) (h : key.isPrefixOf line = false) :
    parse_line line key = none := by
  unfold parse_line g_str_has_prefix
  rw [if_pos (by simp [h])]

theorem key2_not_key1 (line v : List Nat)
    (h : parse_line line (cstr "Sec-WebSocket-Key2") = some v) :
    parse_line line (cstr "Sec-WebSocket-Key1") = none := by
  obtain ⟨rest, hl, -⟩ := parse_line_some _ _ _ h
  apply parse_line_none_of_not_prefix
  rw [hl]
  have h1 : cstr "Sec-WebSocket-Key1" =
      [83, 101, 99, 45, 87, 101, 98, 83, 111, 99, 107, 101, 116, 45, 75, 101, 121, 49] := by
    decide
  have h2 : cstr "Sec-WebSocket-Key2" =
      [83, 101, 99, 45, 87, 101, 98, 83, 111, 99, 107, 101, 116, 45, 75, 101, 121, 50] := by
    decide
  rw [h1, h2]
  simp [List.isPrefixOf]

/-- C26: legacy key derivation.  For a `Sec-WebSocket-Key1` line whose value
(the text after the colon and one optional space) has at least one space, the
turn of the loop of `start_input` for that line, starting from the key 0 (no
such header before), sets `key1` to the quotient of `D` by `S` and counts the
header, where `D` is the number written by the decimal digits of the value in
order and `S` the number of its spaces; all other characters play no part.
The same holds for `Sec-WebSocket-Key2` and `key2`.  (`D` is held in a
`guint64` and `S` in an `int`, whence the two bounds.) -/
theorem legacy_key_derivation (st : HandshakeScan) (line value : List Nat)
    (hS : 1 ≤ spec_key_spaces value) (hS2 : spec_key_spaces value < 2147483648)
    (hD : spec_key_digits value < 18446744073709551616) :
    (parse_line line (cstr "Sec-WebSocket-Key1") = some value → st.key1 = 0 →
      scan_line st line =
        Except.ok { st with
          key1 := spec_key_digits value / spec_key_spaces value,
          num_key1 := to_gint32 (st.num_key1 + 1) }) ∧
    (parse_line line (cstr "Sec-WebSocket-Key2") = some value → st.key2 = 0 →
      scan_line st line =
        Except.ok { st with
          key2 := spec_key_digits value / spec_key_spaces value,
          num_key2 := to_gint32 (st.num_key2 + 1) }) := by
  have hscan := scan_key_value_eq value hD hS2
  have hne : ((spec_key_spaces value : Nat) : Int) ≠ 0 := by omega
  have hconv : to_guint64 ((spec_key_spaces value : Nat) : Int) = spec_key_spaces value := by
    unfold to_guint64
    omega
  constructor
  · intro hp hk
    unfold scan_line
    simp only [hp, hk, hscan, if_neg hne, hconv]
  · intro hp hk
    have hp1 := key2_not_key1 line value hp
    unfold scan_line
    simp only [hp1, hp, hk, hscan, if_neg hne, hconv]

/-- Witness of `legacy_key_derivation` on the header line
`Sec-WebSocket-Key1: 4 @1  46546xW%0l 1 5`: the digits write 4146546015, there
are 5 spaces, and the key is 829309203. -/
theorem legacy_key_derivation_witness :
    parse_line ex_key1_line (cstr "Sec-WebSocket-Key1") =
      some (cstr "4 @1  46546xW%0l 1 5") ∧
    spec_key_digits (cstr "4 @1  46546xW%0l 1 5") = 4146546015 ∧
    spec_key_spaces (cstr "4 @1  46546xW%0l 1 5") = 5 ∧
    scan_line HandshakeScan.init ex_key1_line =
      Except.ok { HandshakeScan.init with key1 := 829309203, num_key1 := 1 } :=
  ⟨by decide, by decide, by decide,
    ((legacy_key_derivation HandshakeScan.init ex_key1_line (cstr "4 @1  46546xW%0l 1 5")
      (by decide) (by decide) (by decide)).1 (by decide) rfl).trans (by decide)⟩


/-! ## The unguarded division of the legacy keys -/

theorem scan_line_no_space (st : HandshakeScan) (line value : List Nat)
    (hp : parse_line line (cstr "Sec-WebSocket-Key1") = some value ∨
      parse_line line (cstr "Sec-WebSocket-Key2") = some value)
    (h0 : spec_key_spaces value = 0) :
    scan_line st line = Except.error Fault.division_by_zero := by
  rcases hp with hp | hp
  · unfold scan_line
    simp only [hp, scan_key_no_space value st.key1 h0, if_true]
  · have hp1 := key2_not_key1 line value hp
    unfold scan_line
    simp only [hp1, hp, scan_key_no_space value st.key2 h0, if_true]

theorem scan_lines_fault (lines : List (List Nat)) (st : HandshakeScan) (line : List Nat)
    (hl : line ∈ lines) (h : ∀ st1, scan_line st1 line = Except.error Fault.division_by_zero) :
    scan_lines st lines = Except.error Fault.division_by_zero := by
  induction lines generalizing st with
  | nil => cases hl
  | cons l ls ih =>
    unfold scan_lines
    rcases List.mem_cons.mp hl with heq | hmem
    · rw [← heq, h st]
    · cases hs : scan_line st l with
      | error e => cases e; rfl
      | ok st1 => exact ih st1 hmem

/-- C27: a `Sec-WebSocket-Key1` or `Sec-WebSocket-Key2` header without a space
makes `start_input` divide by zero.  If some line of the request is such a
header and its value has no space character, `start_input` ends in the fault of
the division, whatever the other lines are (with or without origin and host,
with or without a `Sec-WebSocket-Key` header): the division is made in the
loop over the lines, which itself ends in the fault, before any of the
checks. -/
theorem key_without_space_faults (server : GdkBroadwayServer) (request : HttpRequest)
    (binary : Bool) (line value : List Nat) (hl : line ∈ g_strsplit request.request)
    (hp : parse_line line (cstr "Sec-WebSocket-Key1") = some value ∨
      parse_line line (cstr "Sec-WebSocket-Key2") = some value)
    (h0 : spec_key_spaces value = 0) :
    scan_lines HandshakeScan.init (g_strsplit request.request) =
      Except.error Fault.division_by_zero ∧
    start_input server request binary = Except.error Fault.division_by_zero := by
  have h := scan_lines_fault (g_strsplit request.request) HandshakeScan.init line hl
    (fun st1 => scan_line_no_space st1 line value hp h0)
  refine ⟨h, ?_⟩
  unfold start_input
  rw [h]

/-- Witness of `key_without_space_faults` on `ex_request_no_space`, a request
that has origin, host and a v7+ key: the header `Sec-WebSocket-Key1: 12345`
makes `got_request` end in the fault. -/
theorem key_without_space_faults_witness :
    cstr "Sec-WebSocket-Key1: 12345" ∈ g_strsplit ex_request_no_space.request ∧
    parse_line (cstr "Sec-WebSocket-Key1: 12345") (cstr "Sec-WebSocket-Key1") =
      some (cstr "12345") ∧
    spec_key_spaces (cstr "12345") = 0 ∧
    got_request gdk_broadway_server_init ex_request_no_space =
      Except.error Fault.division_by_zero :=
  ⟨by decide, by decide, by decide,
    (show got_request gdk_broadway_server_init ex_request_no_space =
        start_input gdk_broadway_server_init ex_request_no_space false from by decide).trans
      (key_without_space_faults gdk_broadway_server_init ex_request_no_space false
        (cstr "Sec-WebSocket-Key1: 12345") (cstr "12345") (by decide) (Or.inl (by decide))
        (by decide)).2⟩


/-! ## The decision of the handshake -/

theorem scan_key_spaces (value : List Nat) (k : Nat) (h : value.count 32 < 2147483648) :
    (scan_key_value k value).2 = (value.count 32 : Int) := by
  have hgen : ∀ (v : List Nat) (r : Nat × Int), 0 ≤ r.2 → r.2 + v.count 32 < 2147483648 →
      (v.foldl
        (fun (r : Nat × Int) c =>
          if c_isdigit c then ((r.1 * 10 + (c - 48)) % 18446744073709551616, r.2)
          else if c = 32 then (r.1, to_gint32 (r.2 + 1))
          else r) r).2 = r.2 + v.count 32 := by
    intro v
    induction v with
    | nil => intro r _ _; simp
    | cons c cs ih =>
      intro r h0 hc
      rw [List.foldl_cons]
      by_cases h32 : c = 32
      · subst h32
        rw [List.count_cons_self] at hc ⊢
        have hd : c_isdigit 32 = false := by decide
        simp only [hd, Bool.false_eq_true, if_false, if_true]
        have hw : to_gint32 (r.2 + 1) = r.2 + 1 := by
          unfold to_gint32
          omega
        rw [ih _ (by simp only [hw]; omega) (by simp only [hw]; push_cast at hc ⊢; omega)]
        simp only [hw]
        push_cast
        omega
      · rw [List.count_cons_of_ne (Ne.symm h32)] at hc ⊢
        by_cases hd : c_isdigit c = true
        · simp only [hd, if_true]
          exact ih _ h0 hc
        · simp only [hd, h32, if_false]
          exact ih _ h0 hc
  have := hgen value (k, 0) (le_refl _) (by simp only; omega)
  unfold scan_key_value
  rw [this]
  simp

theorem header_name_unique (k1 k2 r1 r2 : List Nat) (h1 : 58 ∉ k1) (h2 : 58 ∉ k2)
    (h : k1 ++ 58 :: r1 = k2 ++ 58 :: r2) : k1 = k2 := by
  induction k1 generalizing k2 with
  | nil =>
    cases k2 with
    | nil => rfl
    | cons c t =>
      simp only [List.nil_append, List.cons_append, List.cons.injEq] at h
      exact absurd (by rw [← h.1]; exact List.mem_cons_self _ _) h2
  | cons a s ih =>
    cases k2 with
    | nil =>
      simp only [List.nil_append, List.cons_append, List.cons.injEq] at h
      exact absurd (by rw [h.1]; exact List.mem_cons_self _ _) h1
    | cons c t =>
      simp only [List.cons_append, List.cons.injEq] at h
      rw [h.1, ih t (fun hm => h1 (List.mem_cons_of_mem _ hm))
        (fun hm => h2 (List.mem_cons_of_mem _ hm)) h.2]

theorem parse_line_exclusive (line k1 k2 v : List Nat) (h : parse_line line k1 = some v)
    (hne : k1 ≠ k2) (h1 : 58 ∉ k1) (h2 : 58 ∉ k2) : parse_line line k2 = none := by
  cases h2p : parse_line line k2 with
  | none => rfl
  | some v2 =>
    obtain ⟨r1, hl1, -⟩ := parse_line_some _ _ _ h
    obtain ⟨r2, hl2, -⟩ := parse_line_some _ _ _ h2p
    exact absurd (header_name_unique k1 k2 r1 r2 h1 h2 (hl1.symm.trans hl2)) hne

theorem parse_line_spaces (line key v : List Nat) (h : parse_line line key = some v) :
    v.count 32 ≤ line.length := by
  obtain ⟨rest, hl, hv⟩ := parse_line_some _ _ _ h
  have h1 : v.length ≤ rest.length := by
    rw [hv]
    split_ifs
    · rw [List.length_drop]; omega
    · exact le_refl _
  have h2 : rest.length ≤ line.length := by
    rw [hl, List.length_append, List.length_cons]
    omega
  exact le_trans (List.count_le_length 32 v) (le_trans h1 h2)

theorem split_newline_bounds (s : List Nat) :
    (split_newline s).length ≤ s.length + 1 ∧ ∀ l ∈ split_newline s, l.length ≤ s.length := by
  induction s with
  | nil =>
    refine ⟨by simp [split_newline], ?_⟩
    intro l hl
    simp only [split_newline, List.mem_singleton] at hl
    rw [hl]
  | cons c cs ih =>
    unfold split_newline
    by_cases hc : c = 10
    · rw [if_pos hc]
      refine ⟨by simp only [List.length_cons]; omega, ?_⟩
      intro l hl
      rcases List.mem_cons.mp hl with h | h
      · rw [h]; simp
      · have := ih.2 l h
        simp only [List.length_cons]
        omega
    · rw [if_neg hc]
      cases hs : split_newline cs with
      | nil =>
        refine ⟨by simp, ?_⟩
        intro l hl
        simp only [List.mem_singleton] at hl
        rw [hl]
        simp
      | cons l0 ls =>
        rw [hs] at ih
        refine ⟨by simp only [List.length_cons] at ih ⊢; omega, ?_⟩
        intro l hl
        rcases List.mem_cons.mp hl with h | h
        · have := ih.2 l0 (List.mem_cons_self _ _)
          rw [h]
          simp only [List.length_cons]
          omega
        · have := ih.2 l (List.mem_cons_of_mem _ h)
          simp only [List.length_cons]
          omega

theorem g_strsplit_bounds (s : List Nat) :
    (g_strsplit s).length ≤ s.length + 1 ∧ ∀ l ∈ g_strsplit s, l.length ≤ s.length := by
  unfold g_strsplit
  by_cases h : s = []
  · rw [if_pos h]
    exact ⟨by simp, fun l hl => by cases hl⟩
  · rw [if_neg h]
    exact split_newline_bounds s

theorem scan_line_ok (st : HandshakeScan) (line : List Nat)
    (hsp : ∀ value, parse_line line (cstr "Sec-WebSocket-Key1") = some value ∨
        parse_line line (cstr "Sec-WebSocket-Key2") = some value →
      1 ≤ value.count 32 ∧ value.count 32 < 2147483648) :
    ∃ st1, scan_line st line = Except.ok st1 ∧
      st1.num_key1 = (if (parse_line line (cstr "Sec-WebSocket-Key1")).isSome
        then to_gint32 (st.num_key1 + 1) else st.num_key1) ∧
      st1.num_key2 = (if (parse_line line (cstr "Sec-WebSocket-Key2")).isSome
        then to_gint32 (st.num_key2 + 1) else st.num_key2) ∧
      st1.key_v7.isSome =
        (st.key_v7.isSome || (parse_line line (cstr "Sec-WebSocket-Key")).isSome) ∧
      st1.origin.isSome =
        (st.origin.isSome || ((parse_line line (cstr "Origin")).isSome ||
          (parse_line line (cstr "Sec-WebSocket-Origin")).isSome)) ∧
      st1.host.isSome = (st.host.isSome || (parse_line line (cstr "Host")).isSome) := by
  cases h1 : parse_line line (cstr "Sec-WebSocket-Key1") with
  | some v =>
    have e2 := parse_line_exclusive line _ (cstr "Sec-WebSocket-Key2") v h1
      (by decide) (by decide) (by decide)
    have e3 := parse_line_exclusive line _ (cstr "Sec-WebSocket-Key") v h1
      (by decide) (by decide) (by decide)
    have e4 := parse_line_exclusive line _ (cstr "Origin") v h1
      (by decide) (by decide) (by decide)
    have e5 := parse_line_exclusive line _ (cstr "Host") v h1
      (by decide) (by decide) (by decide)
    have e6 := parse_line_exclusive line _ (cstr "Sec-WebSocket-Origin") v h1
      (by decide) (by decide) (by decide)
    obtain ⟨hge, hlt⟩ := hsp v (Or.inl h1)
    have hne : ¬ (scan_key_value st.key1 v).2 = 0 := by
      rw [scan_key_spaces v st.key1 hlt]
      omega
    refine ⟨_, by unfold scan_line; simp only [h1, hne, if_false]; rfl, ?_⟩
    simp [e2, e3, e4, e5, e6]
  | none =>
    cases h2 : parse_line line (cstr "Sec-WebSocket-Key2") with
    | some v =>
      have e3 := parse_line_exclusive line _ (cstr "Sec-WebSocket-Key") v h2
        (by decide) (by decide) (by decide)
      have e4 := parse_line_exclusive line _ (cstr "Origin") v h2
        (by decide) (by decide) (by decide)
      have e5 := parse_line_exclusive line _ (cstr "Host") v h2
        (by decide) (by decide) (by decide)
      have e6 := parse_line_exclusive line _ (cstr "Sec-WebSocket-Origin") v h2
        (by decide) (by decide) (by decide)
      obtain ⟨hge, hlt⟩ := hsp v (Or.inr h2)
      have hne : ¬ (scan_key_value st.key2 v).2 = 0 := by
        rw [scan_key_spaces v st.key2 hlt]
        omega
      refine ⟨_, by unfold scan_line; simp only [h1, h2, hne, if_false]; rfl, ?_⟩
      simp [e3, e4, e5, e6]
    | none =>
      cases h3 : parse_line line (cstr "Sec-WebSocket-Key") with
      | some v =>
        have e4 := parse_line_exclusive line _ (cstr "Origin") v h3
          (by decide) (by decide) (by decide)
        have e5 := parse_line_exclusive line _ (cstr "Host") v h3
          (by decide) (by decide) (by decide)
        have e6 := parse_line_exclusive line _ (cstr "Sec-WebSocket-Origin") v h3
          (by decide) (by decide) (by decide)
        refine ⟨_, by unfold scan_line; simp only [h1, h2, h3]; rfl, ?_⟩
        simp [e4, e5, e6]
      | none =>
        cases h4 : parse_line line (cstr "Origin") with
        | some v =>
          have e5 := parse_line_exclusive line _ (cstr "Host") v h4
            (by decide) (by decide) (by decide)
          refine ⟨_, by unfold scan_line; simp only [h1, h2, h3, h4]; rfl, ?_⟩
          simp [e5]
        | none =>
          cases h5 : parse_line line (cstr "Host") with
          | some v =>
            have e6 := parse_line_exclusive line _ (cstr "Sec-WebSocket-Origin") v h5
              (by decide) (by decide) (by decide)
            refine ⟨_, by unfold scan_line; simp only [h1, h2, h3, h4, h5]; rfl, ?_⟩
            simp [e6]
          | none =>
            cases h6 : parse_line line (cstr "Sec-WebSocket-Origin") with
            | some v =>
              refine ⟨_, by unfold scan_line; simp only [h1, h2, h3, h4, h5, h6]; rfl, ?_⟩
              simp
            | none =>
              refine ⟨_, by unfold scan_line; simp only [h1, h2, h3, h4, h5, h6]; rfl, ?_⟩
              simp

theorem scan_lines_ok (lines : List (List Nat)) (st : HandshakeScan)
    (h1 : 0 ≤ st.num_key1) (h2 : 0 ≤ st.num_key2)
    (hn1 : st.num_key1 + lines.length < 2147483648)
    (hn2 : st.num_key2 + lines.length < 2147483648)
    (hsp : ∀ line ∈ lines, ∀ value,
      parse_line line (cstr "Sec-WebSocket-Key1") = some value ∨
        parse_line line (cstr "Sec-WebSocket-Key2") = some value →
      1 ≤ value.count 32 ∧ value.count 32 < 2147483648) :
    ∃ st1, scan_lines st lines = Except.ok st1 ∧
      st1.num_key1 = st.num_key1 + spec_header_count lines (cstr "Sec-WebSocket-Key1") ∧
      st1.num_key2 = st.num_key2 + spec_header_count lines (cstr "Sec-WebSocket-Key2") ∧
      st1.key_v7.isSome =
        (st.key_v7.isSome || spec_has_header lines (cstr "Sec-WebSocket-Key")) ∧
      st1.origin.isSome =
        (st.origin.isSome || (spec_has_header lines (cstr "Origin") ||
          spec_has_header lines (cstr "Sec-WebSocket-Origin"))) ∧
      st1.host.isSome = (st.host.isSome || spec_has_header lines (cstr "Host")) := by
  induction lines generalizing st with
  | nil =>
    refine ⟨st, rfl, ?_⟩
    simp [spec_header_count, spec_has_header]
  | cons l ls ih =>
    obtain ⟨sa, hsa, a1, a2, a3, a4, a5⟩ :=
      scan_line_ok st l (hsp l (List.mem_cons_self _ _))
    simp only [List.length_cons, Nat.cast_add, Nat.cast_one] at hn1 hn2
    have b1 : sa.num_key1 = st.num_key1 + (if (parse_line l (cstr "Sec-WebSocket-Key1")).isSome
        then 1 else 0) := by
      rw [a1]
      split_ifs
      · unfold to_gint32; omega
      · omega
    have b2 : sa.num_key2 = st.num_key2 + (if (parse_line l (cstr "Sec-WebSocket-Key2")).isSome
        then 1 else 0) := by
      rw [a2]
      split_ifs
      · unfold to_gint32; omega
      · omega
    obtain ⟨sb, hsb, c1, c2, c3, c4, c5⟩ := ih sa
      (by rw [b1]; split_ifs <;> omega) (by rw [b2]; split_ifs <;> omega)
      (by rw [b1]; split_ifs <;> omega) (by rw [b2]; split_ifs <;> omega)
      (fun line hl => hsp line (List.mem_cons_of_mem _ hl))
    refine ⟨sb, by unfold scan_lines; rw [hsa]; exact hsb, ?_, ?_, ?_, ?_, ?_⟩
    · rw [c1, b1]
      simp only [spec_header_count, List.countP_cons]
      split_ifs <;> push_cast <;> omega
    · rw [c2, b2]
      simp only [spec_header_count, List.countP_cons]
      split_ifs <;> push_cast <;> omega
    · rw [c3, a3]
      simp only [spec_has_header, List.any_cons, Bool.or_assoc]
    · rw [c4, a4]
      simp only [spec_has_header, List.any_cons]
      cases st.origin.isSome <;> cases (parse_line l (cstr "Origin")).isSome <;>
        cases (parse_line l (cstr "Sec-WebSocket-Origin")).isSome <;> simp
    · rw [c5, a5]
      simp only [spec_has_header, List.any_cons, Bool.or_assoc]

/-- The decision of `start_input` on a request none of whose
`Sec-WebSocket-Key1` and `Sec-WebSocket-Key2` headers is without a space (and
whose text is shorter than `INT_MAX` bytes).  Without a `Host` header, or
without both `Origin` and `Sec-WebSocket-Origin`, the answer is the error 400
and the server is as before.  Otherwise, with a `Sec-WebSocket-Key` header the
answer is the v7+ handshake and the channels are installed as v7+; without one,
the answer is the error 400 unless `Sec-WebSocket-Key1` and
`Sec-WebSocket-Key2` each occur exactly once, and when they do and the 8 bytes
of the nonce are read, the legacy handshake is answered and the channels are
installed as legacy. -/
theorem handshake_decision (server : GdkBroadwayServer) (request : HttpRequest) (binary : Bool)
    (hlen : request.request.length < 2147483647)
    (hsp : spec_keys_spaced (g_strsplit request.request) = true) :
    ((spec_has_header (g_strsplit request.request) (cstr "Host") = false ∨
        (spec_has_header (g_strsplit request.request) (cstr "Origin") = false ∧
          spec_has_header (g_strsplit request.request) (cstr "Sec-WebSocket-Origin") = false)) →
      start_input server request binary =
        Except.ok (HttpResponse.error 400 (cstr "Bad websocket request"), server)) ∧
    (spec_has_header (g_strsplit request.request) (cstr "Host") = true →
      (spec_has_header (g_strsplit request.request) (cstr "Origin") = true ∨
        spec_has_header (g_strsplit request.request) (cstr "Sec-WebSocket-Origin") = true) →
      (spec_has_header (g_strsplit request.request) (cstr "Sec-WebSocket-Key") = true →
        ∃ key origin host, start_input server request binary =
          Except.ok (HttpResponse.switching_protocols
            (generate_handshake_response_wsietf_v7 key) origin host,
            install_channels server request true binary)) ∧
      (spec_has_header (g_strsplit request.request) (cstr "Sec-WebSocket-Key") = false →
        ((spec_header_count (g_strsplit request.request) (cstr "Sec-WebSocket-Key1") ≠ 1 ∨
            spec_header_count (g_strsplit request.request) (cstr "Sec-WebSocket-Key2") ≠ 1) →
          start_input server request binary =
            Except.ok (HttpResponse.error 400 (cstr "Bad websocket request"), server)) ∧
        (spec_header_count (g_strsplit request.request) (cstr "Sec-WebSocket-Key1") = 1 →
          spec_header_count (g_strsplit request.request) (cstr "Sec-WebSocket-Key2") = 1 →
          (request.nonce = none →
            start_input server request binary =
              Except.ok (HttpResponse.error 400 (cstr "Bad websocket request"), server)) ∧
          (∀ nonce, request.nonce = some nonce →
            ∃ origin host challenge, start_input server request binary =
              Except.ok (HttpResponse.legacy_handshake origin host challenge,
                install_channels server request false binary))))) := by
  obtain ⟨hb1, hb2⟩ := g_strsplit_bounds request.request
  obtain ⟨st, hst, n1, n2, f3, f4, f5⟩ :=
    scan_lines_ok (g_strsplit request.request) HandshakeScan.init (le_refl _) (le_refl _)
      (by simp only [HandshakeScan.init]; omega) (by simp only [HandshakeScan.init]; omega)
      (fun line hl value hv => by
        refine ⟨?_, ?_⟩
        · have hall := List.all_eq_true.mp hsp line hl
          rw [Bool.and_eq_true] at hall
          rcases hv with hv | hv
          · have h1 := hall.1
            rw [hv] at h1
            exact of_decide_eq_true h1
          · have h2 := hall.2
            rw [hv] at h2
            exact of_decide_eq_true h2
        have h1 : value.count 32 ≤ line.length := by
          rcases hv with hv | hv
          · exact parse_line_spaces _ _ _ hv
          · exact parse_line_spaces _ _ _ hv
        have h2 := hb2 line hl
        omega)
  simp only [HandshakeScan.init, Option.isSome_none, Bool.false_or, zero_add] at n1 n2 f3 f4 f5
  unfold start_input
  rw [hst]
  refine ⟨?_, ?_⟩
  · intro h
    rcases h with h | ⟨ho, hso⟩
    · rw [h] at f5
      cases hh : st.host with
      | some x => rw [hh] at f5; cases f5
      | none => cases ho : st.origin <;> simp only [ho, hh]
    · rw [ho, hso] at f4
      cases ho2 : st.origin with
      | some x => rw [ho2] at f4; cases f4
      | none => simp only [ho2]
  · intro hH hO
    have hO2 : st.origin.isSome = true := by
      rw [f4]
      rcases hO with h | h <;> simp [h]
    rw [hH] at f5
    obtain ⟨origin, ho⟩ := Option.isSome_iff_exists.mp hO2
    obtain ⟨host, hh⟩ := Option.isSome_iff_exists.mp f5
    simp only [ho, hh]
    refine ⟨?_, ?_⟩
    · intro hK
      rw [hK] at f3
      obtain ⟨key, hk⟩ := Option.isSome_iff_exists.mp f3
      exact ⟨key, origin, host, by simp only [hk]⟩
    · intro hK
      rw [hK] at f3
      have hk : st.key_v7 = none := by
        cases h : st.key_v7 with
        | none => rfl
        | some x => rw [h] at f3; cases f3
      simp only [hk]
      refine ⟨?_, ?_⟩
      · intro hc
        rw [if_pos (by rw [n1, n2]; omega)]
      · intro c1 c2
        rw [if_neg (by rw [n1, n2, c1, c2]; omega)]
        refine ⟨?_, ?_⟩
        · intro hn
          simp only [hn]
        · intro nonce hn
          exact ⟨origin, host, challenge_keys st.key1 st.key2 ++ nonce.take 8, by simp only [hn]⟩

/-- Witness of `handshake_decision`: a request with origin, host and a v7+ key
is answered with the v7+ handshake. -/
theorem handshake_decision_witness :
    ∃ key origin host, start_input gdk_broadway_server_init
        { request := cstr ("GET /socket HTTP/1.1\nHost: localhost:8080\n" ++
            "Origin: http://localhost\nSec-WebSocket-Key: dGhlIHNhbXBsZSBub25jZQ==\n"),
          nonce := none, buffered := [], flush_outcomes := [] } false =
      Except.ok (HttpResponse.switching_protocols
        (generate_handshake_response_wsietf_v7 key) origin host,
        install_channels gdk_broadway_server_init
          { request := cstr ("GET /socket HTTP/1.1\nHost: localhost:8080\n" ++
              "Origin: http://localhost\nSec-WebSocket-Key: dGhlIHNhbXBsZSBub25jZQ==\n"),
            nonce := none, buffered := [], flush_outcomes := [] } true false) :=
  ((handshake_decision gdk_broadway_server_init
    { request := cstr ("GET /socket HTTP/1.1\nHost: localhost:8080\n" ++
        "Origin: http://localhost\nSec-WebSocket-Key: dGhlIHNhbXBsZSBub25jZQ==\n"),
      nonce := none, buffered := [], flush_outcomes := [] } false (by decide)
    (by decide)).2 (by decide) (Or.inl (by decide))).1 (by decide)

/-- C29: the decision of the handshake, at a request for which the code departs
from it.  The request `ex_request_no_host` has no `Host` header (and no
origin), so the claim has it answered with the error 400; its
`Sec-WebSocket-Key1` header has no space, and `start_input` ends in the fault
of the division, which is made before the check of origin and host. -/
theorem no_host_request_faults :
    spec_has_header (g_strsplit ex_request_no_host.request) (cstr "Host") = false ∧
    start_input gdk_broadway_server_init ex_request_no_host false =
      Except.error Fault.division_by_zero ∧
    start_input gdk_broadway_server_init ex_request_no_host false ≠
      Except.ok (HttpResponse.error 400 (cstr "Bad websocket request"),
        gdk_broadway_server_init) := by
  decide


/-! ## The routing of a request -/

theorem headD_splitOnP (p : Nat → Bool) (l : List Nat) :
    (l.splitOnP p).headD [] = l.takeWhile (fun c => !p c) := by
  induction l with
  | nil => rfl
  | cons x xs ih =>
    rw [List.splitOnP_cons]
    by_cases hp : p x = true
    · rw [if_pos hp]
      simp [List.takeWhile_cons, hp]
    · rw [if_neg hp]
      have hne := List.splitOnP_ne_nil p xs
      cases hs : xs.splitOnP p with
      | nil => exact absurd hs hne
      | cons a as =>
        rw [hs] at ih
        simp only [List.headD_cons] at ih
        simp only [List.modifyHead_cons, List.headD_cons, List.takeWhile_cons]
        simp only [Bool.not_eq_true] at hp
        simp only [hp, Bool.not_false, if_true, ih]

theorem takeWhile_token (l : List Nat) (h0 : 0 ∉ l) :
    l.takeWhile (fun c => decide (c ≠ 0 ∧ c ≠ 32 ∧ c ≠ 10)) =
      (l.splitOnP (fun c => c == 32 || c == 10)).headD [] := by
  rw [headD_splitOnP]
  induction l with
  | nil => rfl
  | cons x xs ih =>
    have hx : x ≠ 0 := fun h => h0 (by rw [h]; exact List.mem_cons_self _ _)
    have hxs : 0 ∉ xs := fun h => h0 (List.mem_cons_of_mem _ h)
    simp only [List.takeWhile_cons, ih hxs]
    by_cases h32 : x = 32
    · simp [h32]
    · by_cases h10 : x = 10
      · simp [h10]
      · simp [hx, h32, h10]

theorem got_request_path (server : GdkBroadwayServer) (request : HttpRequest)
    (h0 : 0 ∉ request.request) (hg : g_str_has_prefix request.request (cstr "GET ") = true) :
    got_request server request =
      if spec_request_path request.request = cstr "/client.html" ∨
          spec_request_path request.request = cstr "/" then
        Except.ok (HttpResponse.data (cstr "text/html") StaticAsset.client_html, server)
      else if spec_request_path request.request = cstr "/broadway.js" then
        Except.ok (HttpResponse.data (cstr "text/javascript") StaticAsset.broadway_js, server)
      else if spec_request_path request.request = cstr "/socket" then
        start_input server request false
      else if spec_request_path request.request = cstr "/socket-bin" then
        start_input server request true
      else Except.ok (HttpResponse.error 404 (cstr "File not found"), server) := by
  have hmem : 0 ∉ (request.request.drop 4).dropWhile (fun c => decide (c = 32)) := fun h =>
    h0 (List.mem_of_mem_drop ((List.dropWhile_suffix _).subset h))
  have hpath : spec_request_path request.request =
      (((request.request.drop 4).dropWhile (fun c => decide (c = 32))).takeWhile
        (fun c => decide (c ≠ 0 ∧ c ≠ 32 ∧ c ≠ 10))).takeWhile (fun c => decide (c ≠ 63)) := by
    rw [takeWhile_token _ hmem]
    unfold spec_request_path
    simp only [headD_splitOnP]
    congr 1
    funext c
    by_cases h : c = 63 <;> simp [h]
  rw [hpath]
  unfold got_request
  rw [if_neg (by simp [hg])]

/-- C30: request routing in `got_request`.  A request text that does not begin
with `GET ` is answered with the error 501.  Otherwise, with the path being
the first space- or newline-delimited token after `GET ` cut at its first `?`
(`spec_request_path`), the paths `/` and `/client.html` are served the static
HTML, `/broadway.js` the static script, `/socket` starts the upgrade in text
mode, `/socket-bin` in binary mode, and every other path is answered with the
error 404.  (The text is a C string: it holds no NUL byte.) -/
theorem request_routing (server : GdkBroadwayServer) (request : HttpRequest)
    (h0 : 0 ∉ request.request) :
    ( g_str_has_prefix request.request (cstr "GET ") = false →
      got_request server request =
        Except.ok (HttpResponse.error 501 (cstr "Only GET implemented"), server)) ∧
    ( g_str_has_prefix request.request (cstr "GET ") = true →
      ((spec_request_path request.request = cstr "/" ∨
          spec_request_path request.request = cstr "/client.html") →
        got_request server request =
          Except.ok (HttpResponse.data (cstr "text/html") StaticAsset.client_html, server)) ∧
      (spec_request_path request.request = cstr "/broadway.js" →
        got_request server request =
          Except.ok (HttpResponse.data (cstr "text/javascript") StaticAsset.broadway_js,
            server)) ∧
      (spec_request_path request.request = cstr "/socket" →
        got_request server request = start_input server request false) ∧
      (spec_request_path request.request = cstr "/socket-bin" →
        got_request server request = start_input server request true) ∧
      (spec_request_path request.request ≠ cstr "/" →
        spec_request_path request.request ≠ cstr "/client.html" →
        spec_request_path request.request ≠ cstr "/broadway.js" →
        spec_request_path request.request ≠ cstr "/socket" →
        spec_request_path request.request ≠ cstr "/socket-bin" →
        got_request server request =
          Except.ok (HttpResponse.error 404 (cstr "File not found"), server))) := by
  refine ⟨?_, ?_⟩
  · intro hg
    unfold got_request
    rw [if_pos (by simp [hg])]
  · intro hg
    rw [got_request_path server request h0 hg]
    refine ⟨?_, ?_, ?_, ?_, ?_⟩
    · intro h
      rw [if_pos (Or.symm h)]
    · intro h
      rw [h]
      rw [if_neg (by decide), if_pos rfl]
    · intro h
      rw [h]
      rw [if_neg (by decide), if_neg (by decide), if_pos rfl]
    · intro h
      rw [h]
      rw [if_neg (by decide), if_neg (by decide), if_neg (by decide), if_pos rfl]
    · intro h1 h2 h3 h4 h5
      rw [if_neg (by rintro (h | h); exact h2 h; exact h1 h), if_neg h3, if_neg h4, if_neg h5]

/-- Witness of `request_routing` on `ex_request_socket`, whose text is
`GET  /socket?x=1 HTTP/1.1` and header lines: the path is `/socket` and the
request starts the upgrade in text mode. -/
theorem request_routing_witness :
    0 ∉ ex_request_socket.request ∧
    g_str_has_prefix ex_request_socket.request (cstr "GET ") = true ∧
    spec_request_path ex_request_socket.request = cstr "/socket" ∧
    got_request gdk_broadway_server_init ex_request_socket =
      start_input gdk_broadway_server_init ex_request_socket false :=
  ⟨by decide, by decide, by decide,
    ((request_routing gdk_broadway_server_init ex_request_socket (by decide)).2
      (by decide)).2.2.1 (by decide)⟩


/-! ## The guard on the length of a request -/

theorem read_request_lines_append (pre post : List (Option (List Nat))) (request r : HttpRequest)
    (h : read_request_lines request pre = LineAction.read_line r) :
    read_request_lines request (pre ++ post) = read_request_lines r post := by
  induction pre generalizing request with
  | nil =>
    simp only [read_request_lines, LineAction.read_line.injEq] at h
    rw [h, List.nil_append]
  | cons l ls ih =>
    rw [List.cons_append]
    simp only [read_request_lines] at h ⊢
    cases hl : got_http_request_line request l with
    | free q => rw [hl] at h; cases h
    | got_request q => rw [hl] at h; cases h
    | send_error q c m => rw [hl] at h; cases h
    | read_line q =>
      rw [hl] at h
      exact ih q h

theorem read_one_line (request : HttpRequest) (line : List Nat) (h0 : 0 ∉ line)
    (hne : line ≠ []) (hlen : request.request.length ≤ 5120) :
    read_request_lines request [some line, some []] =
      LineAction.got_request { request with request := request.request ++ (line ++ [10]) } := by
  have ht : line.takeWhile (fun c => c != 0) = line := takeWhile_no_nul _ h0
  have hl : ¬ line.length = 0 := fun h => hne (List.length_eq_zero.mp h)
  have hg : ¬ request.request.length > 1024 * 5 := by omega
  simp only [read_request_lines, got_http_request_line, ht, hl, hg, if_false,
    List.takeWhile_nil, List.length_nil, if_true]

theorem read_request_lines_got (lines : List (Option (List Nat))) (request r : HttpRequest)
    (h : read_request_lines request lines = LineAction.got_request r) :
    ∃ ls e rest, lines = ls.map some ++ some e :: rest ∧ spec_empty_line e = true ∧
      (∀ l ∈ ls, spec_empty_line l = false) ∧
      r = { request with request := request.request ++ spec_request_text ls } ∧
      (ls ≠ [] → (request.request ++ spec_request_text ls.dropLast).length ≤ 5120) := by
  induction lines generalizing request with
  | nil => cases h
  | cons l lines ih =>
    unfold read_request_lines at h
    cases l with
    | none => cases h
    | some line =>
      by_cases he : (line.takeWhile (fun c => c != 0)).length = 0
      · simp only [got_http_request_line, he, if_true, LineAction.got_request.injEq] at h
        refine ⟨[], line, lines, rfl, by simp [spec_empty_line, he], by simp, ?_,
          fun hne => absurd rfl hne⟩
        rw [← h]
        simp [spec_request_text]
      · by_cases hlen : request.request.length > 1024 * 5
        · simp only [got_http_request_line, he, hlen, if_true, if_false] at h
          cases h
        · simp only [got_http_request_line, he, hlen, if_false] at h
          obtain ⟨ls, e, rest, hl, hem, hall, hr, hb⟩ := ih _ h
          refine ⟨line :: ls, e, rest, by rw [hl]; rfl, hem, ?_, ?_, ?_⟩
          · intro l hl2
            rcases List.mem_cons.mp hl2 with h1 | h1
            · rw [h1]
              simp [spec_empty_line, he]
            · exact hall l h1
          · rw [hr]
            simp only [spec_request_text, List.append_assoc]
          · intro _
            by_cases hls : ls = []
            · subst hls
              simp only [List.dropLast_single, spec_request_text, List.append_nil]
              omega
            · have := hb hls
              obtain ⟨a, as, rfl⟩ := List.exists_cons_of_ne_nil hls
              simp only [List.dropLast_cons₂, spec_request_text, List.append_assoc] at this ⊢
              exact this

/-- C31, counterexample: a request whose first line has 5121 bytes, followed by
the empty line.  The accumulated text exceeds 5120 bytes before the empty line
arrives, yet the request is handed to `got_request`, with a text of 5122 bytes:
the length is tested before a line is added, and only when a further non-empty
line arrives. -/
theorem long_line_reaches_got_request :
    read_request_lines ex_request_fresh [some (List.replicate 5121 97), some []] =
      LineAction.got_request
        { ex_request_fresh with request := List.replicate 5121 97 ++ [10] } ∧
    5120 < (List.replicate 5121 97 ++ [10]).length := by
  refine ⟨?_, ?_⟩
  · exact read_one_line ex_request_fresh (List.replicate 5121 97)
      (fun h => absurd (List.eq_of_mem_replicate h) (by decide))
      (fun h => absurd (congrArg List.length h) (by rw [List.length_replicate]; decide))
      (by decide)
  · rw [List.length_append, List.length_replicate]
    decide

/-- C31, amended: the guard on the length of a request.  For the chain of reads
of a fresh request: when the text accumulated so far is longer than 5120 bytes
and a further non-empty line arrives, the request is answered with the error
400 `Request too long` and is not handed to `got_request`; and a request that
is handed to `got_request` has as its text the non-empty lines read before the
first empty one, each with its newline, and without the last of them the text
is at most 5120 bytes long. -/
theorem request_length_guard (request : HttpRequest) (lines : List (Option (List Nat)))
    (h0 : request.request = []) :
    (∀ pre line rest r, lines = pre ++ some line :: rest →
      read_request_lines request pre = LineAction.read_line r →
      5120 < r.request.length → spec_empty_line line = false →
      read_request_lines request lines =
        LineAction.send_error r 400 (cstr "Request too long")) ∧
    (∀ r, read_request_lines request lines = LineAction.got_request r →
      ∃ ls e rest, lines = ls.map some ++ some e :: rest ∧ spec_empty_line e = true ∧
        (∀ l ∈ ls, spec_empty_line l = false) ∧
        r = { request with request := spec_request_text ls } ∧
        (spec_request_text ls.dropLast).length ≤ 5120) := by
  refine ⟨?_, ?_⟩
  · intro pre line rest r hl hpre hlen hne
    rw [hl, read_request_lines_append pre _ request r hpre]
    have he : ¬ (line.takeWhile (fun c => c != 0)).length = 0 := by
      intro h
      simp [spec_empty_line, h] at hne
    unfold read_request_lines
    simp only [got_http_request_line, he, if_false]
    rw [if_pos (by omega)]
  · intro r hr
    obtain ⟨ls, e, rest, hl, hem, hall, hreq, hb⟩ := read_request_lines_got lines request r hr
    refine ⟨ls, e, rest, hl, hem, hall, ?_, ?_⟩
    · rw [hreq, h0, List.nil_append]
    · by_cases hls : ls = []
      · rw [hls]
        simp [spec_request_text]
      · have := hb hls
        rw [h0, List.nil_append] at this
        exact this

/-- Witness of `request_length_guard`: the fresh request that reads the line
`GET / HTTP/1.1` and then the empty line is handed to `got_request` with the
text of that line. -/
theorem request_length_guard_witness :
    ex_request_fresh.request = [] ∧
    ∃ ls e rest, [some (cstr "GET / HTTP/1.1"), some []] = ls.map some ++ some e :: rest ∧
      spec_empty_line e = true ∧ (∀ l ∈ ls, spec_empty_line l = false) ∧
      LineAction.got_request { ex_request_fresh with request := cstr "GET / HTTP/1.1\n" } =
        LineAction.got_request { ex_request_fresh with request := spec_request_text ls } ∧
      (spec_request_text ls.dropLast).length ≤ 5120 :=
  ⟨rfl, by
    obtain ⟨ls, e, rest, h1, h2, h3, h4, h5⟩ :=
      (request_length_guard ex_request_fresh [some (cstr "GET / HTTP/1.1"), some []] rfl).2
        { ex_request_fresh with request := cstr "GET / HTTP/1.1\n" } (by decide)
    exact ⟨ls, e, rest, h1, h2, h3, congrArg LineAction.got_request h4, h5⟩⟩


/-! ## Operations on an unknown window id -/

theorem lookup_window_unknown (server : GdkBroadwayServer) (id : Int)
    (h : g_hash_table_lookup server.id_ht id = none) : lookup_window server id = none := by
  unfold lookup_window
  rw [h]

/-- C32: an unknown window id is rejected without effect.  For an id that is
not in the id table, `_gdk_broadway_server_window_show`, `_window_hide`,
`_window_move_resize` and `_window_translate` return FALSE, and they as well
as `_window_set_transient_for` and `_window_update` return the server as it
was: every field is unchanged, the output channel with the commands written on
it included. -/
theorem unknown_id_rejected (server : GdkBroadwayServer) (id : Int)
    (h : g_hash_table_lookup server.id_ht id = none) :
    _gdk_broadway_server_window_show server id = (false, server) ∧
    _gdk_broadway_server_window_hide server id = (false, server) ∧
    (∀ x y width height,
      _gdk_broadway_server_window_move_resize server id x y width height = (false, server)) ∧
    (∀ area dx dy,
      _gdk_broadway_server_window_translate server id area dx dy = (false, server)) ∧
    (∀ parent, _gdk_broadway_server_window_set_transient_for server id parent = server) ∧
    (∀ surface, _gdk_broadway_server_window_update server id surface = server) := by
  have hl := lookup_window_unknown server id h
  refine ⟨?_, ?_, ?_, ?_, ?_, ?_⟩
  · unfold _gdk_broadway_server_window_show
    rw [hl]
  · unfold _gdk_broadway_server_window_hide
    rw [hl]
  · intro x y width height
    unfold _gdk_broadway_server_window_move_resize
    rw [hl]
  · intro area dx dy
    unfold _gdk_broadway_server_window_translate
    rw [hl]
  · intro parent
    unfold _gdk_broadway_server_window_set_transient_for
    rw [hl]
  · intro surface
    unfold _gdk_broadway_server_window_update
    cases surface with
    | none => rfl
    | some s => simp only [hl]

/-- Witness of `unknown_id_rejected`: the id 7 on `ex_server_attached`, which
has an output channel and no window 7. -/
theorem unknown_id_rejected_witness :
    g_hash_table_lookup ex_server_attached.id_ht 7 = none ∧
    _gdk_broadway_server_window_show ex_server_attached 7 = (false, ex_server_attached) ∧
    _gdk_broadway_server_window_set_transient_for ex_server_attached 7 1 =
      ex_server_attached :=
  ⟨by decide, (unknown_id_rejected ex_server_attached 7 (by decide)).1,
    (unknown_id_rejected ex_server_attached 7 (by decide)).2.2.2.2.1 1⟩


/-! ## What `parse_input` leaves in the buffer -/

theorem parse_input_v7_done (n : Nat) (server : GdkBroadwayServer)
    (hn : buffer_length server ≤ n) : parse_frame (parse_input_v7 n server) = none := by
  induction n generalizing server with
  | zero => exact parse_frame_none_of_short server (by omega)
  | succ n ih =>
    cases hpf : parse_frame server with
    | none =>
      simp only [parse_input_v7, hpf]
    | some server1 =>
      simp only [parse_input_v7, hpf]
      exact ih server1 (by have := (parse_frame_progress server server1 hpf).1; omega)

/-- What `parse_input` leaves in the buffer of a v7+ channel: the loop has come
to its end (`parse_frame` has no turn left), and when the remaining buffer
begins with the bytes of a complete frame (base length at most 126), it is a
frame of two bytes, alone in the buffer. -/
theorem parse_input_leaves_no_frame (server : GdkBroadwayServer) (input : BroadwayInput)
    (hin : server.input = some input) (hv : input.proto_v7_plus = true) :
    parse_frame (parse_input server) = none ∧
    ∀ (i : BroadwayInput) (fr : WSFrame) (rest : List Nat),
      (parse_input server).input = some i → fr.wf → fr.form ≠ LengthForm.ext64 →
      i.buffer = fr.encode ++ rest → rest = [] ∧ fr.encode.length = 2 := by
  have hdone : parse_frame (parse_input server) = none := by
    rw [parse_input_eq_v7 server input (buffer_length server) hin hv (le_refl _)]
    exact parse_input_v7_done _ server (le_refl _)
  refine ⟨hdone, ?_⟩
  intro i fr rest hi hwf hform hbuf
  have h2 := encode_length_ge fr
  by_cases hlen : 2 < i.buffer.length
  · rw [parse_frame_complete (parse_input server) i fr rest hi hwf hform hbuf hlen] at hdone
    cases hdone
  · rw [hbuf, List.length_append] at hlen
    exact ⟨List.length_eq_zero.mp (by omega), by omega⟩

/-- Witness of `parse_input_leaves_no_frame` on `ex_server_ping`. -/
theorem parse_input_leaves_no_frame_witness :
    parse_frame (parse_input ex_server_ping) = none :=
  (parse_input_leaves_no_frame ex_server_ping { ex_input with buffer := [137, 0] } rfl rfl).1

theorem ex_frame_ping_wf : ex_frame_ping.wf := by
  simp [WSFrame.wf, ex_frame_ping]

/-- C33 (code_bug): a bare ping is not handled when its two bytes are in the
buffer.  The buffer of `ex_server_ping` holds the complete unmasked ping frame
`ex_frame_ping` and nothing else; `parse_input` returns the server as it was:
no pong is written and the buffer still begins with (and is) a complete frame,
where handling the frame would have written the pong and emptied the buffer. -/
theorem bare_ping_not_handled :
    ex_frame_ping.wf ∧ ex_frame_ping.encode = [137, 0] ∧
    ex_server_ping.input = some { ex_input with buffer := ex_frame_ping.encode } ∧
    parse_input ex_server_ping = ex_server_ping ∧
    (parse_input ex_server_ping).output.map (fun o => o.sent) = some [] ∧
    (set_buffer (frame_effect ex_server_ping ex_frame_ping) []).output.map (fun o => o.sent) =
      some [BroadwayOp.pong] := by
  refine ⟨ex_frame_ping_wf, by decide, by decide, by decide, by decide, by decide⟩


/-! ## Dispatched and future pointer position -/

theorem set_mouse_position (server : GdkBroadwayServer) (x : Int) :
    last_position { server with mouse_in_toplevel_id := x } = last_position server ∧
    future_position { server with mouse_in_toplevel_id := x } = future_position server := by
  refine ⟨?_, ?_⟩
  · simp only [last_position]
  · simp only [future_position]

theorem update_last_pointer_position (server : GdkBroadwayServer)
    (p : BroadwayInputPointerMsg) :
    last_position (update_last_pointer server p) =
      (p.root_x, p.root_y, to_gint32 p.mouse_window_id) ∧
    future_position (update_last_pointer server p) = future_position server := by
  refine ⟨?_, ?_⟩
  · simp only [last_position, update_last_pointer]
  · simp only [future_position, update_last_pointer]

theorem update_event_state_position (server : GdkBroadwayServer) (message : BroadwayInputMsg) :
    last_position (update_event_state server message) =
      position_after (last_position server) message ∧
    future_position (update_event_state server message) = future_position server := by
  unfold update_event_state position_after
  by_cases h1 : message.type = BROADWAY_EVENT_ENTER
  · have hm : message.type ∈ pointer_event_tags := by rw [h1]; decide
    rw [if_pos h1, if_pos hm]
    cases message.payload.pointer_data with
    | none => exact ⟨rfl, rfl⟩
    | some p =>
      exact ⟨(set_mouse_position _ _).1.trans (update_last_pointer_position server p).1,
        (set_mouse_position _ _).2.trans (update_last_pointer_position server p).2⟩
  rw [if_neg h1]
  by_cases h2 : message.type = BROADWAY_EVENT_LEAVE
  · have hm : message.type ∈ pointer_event_tags := by rw [h2]; decide
    rw [if_pos h2, if_pos hm]
    cases message.payload.pointer_data with
    | none => exact ⟨rfl, rfl⟩
    | some p =>
      exact ⟨(set_mouse_position _ _).1.trans (update_last_pointer_position server p).1,
        (set_mouse_position _ _).2.trans (update_last_pointer_position server p).2⟩
  rw [if_neg h2]
  by_cases h3 : message.type = BROADWAY_EVENT_POINTER_MOVE ∨
      message.type = BROADWAY_EVENT_BUTTON_PRESS ∨
      message.type = BROADWAY_EVENT_BUTTON_RELEASE ∨
      message.type = BROADWAY_EVENT_SCROLL
  · have hm : message.type ∈ pointer_event_tags := by
      rcases h3 with h | h | h | h <;> rw [h] <;> decide
    rw [if_pos h3, if_pos hm]
    cases message.payload.pointer_data with
    | none => exact ⟨rfl, rfl⟩
    | some p => exact update_last_pointer_position server p
  rw [if_neg h3]
  have hm : message.type ∉ pointer_event_tags := by
    intro hm
    simp only [pointer_event_tags, List.mem_cons, List.mem_singleton, List.not_mem_nil,
      or_false] at hm
    tauto
  rw [if_neg hm]
  by_cases h4 : message.type = BROADWAY_EVENT_KEY_PRESS ∨
      message.type = BROADWAY_EVENT_KEY_RELEASE
  · rw [if_pos h4]
    cases message.payload <;> exact ⟨rfl, rfl⟩
  rw [if_neg h4]
  exact ⟨rfl, rfl⟩

theorem dispatch_message_position (server : GdkBroadwayServer) (message : BroadwayInputMsg) :
    last_position (dispatch_message server message) =
      position_after (last_position server) message ∧
    future_position (dispatch_message server message) = future_position server := by
  have h := update_event_state_position
    { server with input_messages := server.input_messages.tail } message
  simp only [last_position, future_position] at h ⊢
  simp only [dispatch_message]
  exact h

theorem dispatch_fold_position (msgs : List BroadwayInputMsg) (server : GdkBroadwayServer) :
    last_position (msgs.foldl dispatch_message server) =
      msgs.foldl position_after (last_position server) ∧
    future_position (msgs.foldl dispatch_message server) = future_position server := by
  induction msgs generalizing server with
  | nil => exact ⟨rfl, rfl⟩
  | cons m msgs ih =>
    obtain ⟨h1, h2⟩ := dispatch_message_position server m
    obtain ⟨i1, i2⟩ := ih (dispatch_message server m)
    rw [List.foldl_cons, List.foldl_cons, i1, i2, h1, h2]
    exact ⟨rfl, rfl⟩

theorem position_fold_other (msgs : List BroadwayInputMsg) (t : Int × Int × Int)
    (h : ∀ m ∈ msgs, m.type ∉ pointer_event_tags) : msgs.foldl position_after t = t := by
  induction msgs generalizing t with
  | nil => rfl
  | cons m msgs ih =>
    have hm : position_after t m = t := by
      unfold position_after
      rw [if_neg (h m (List.mem_cons_self _ _))]
    rw [List.foldl_cons, hm]
    exact ih t (fun x hx => h x (List.mem_cons_of_mem _ hx))

theorem parse_step_position (server : GdkBroadwayServer) (input : BroadwayInput)
    (mem : List Nat) (hin : server.input = some input)
    (hinv : future_position server =
      server.input_messages.foldl position_after (last_position server)) :
    future_position (parse_input_message server mem) =
      (parse_input_message server mem).input_messages.foldl position_after
        (last_position (parse_input_message server mem)) := by
  have hlast : last_position (parse_input_message server mem) = last_position server := by
    have h := parse_input_message_last_pointer server mem
    simp only [last_pointer_state, Prod.mk.injEq] at h
    simp only [last_position, h.1, h.2.1, h.2.2.2.2]
  obtain ⟨hp, hn⟩ := parse_input_message_future server input mem hin
  by_cases hm : mem.getD 0 0 ∈ pointer_event_tags
  · obtain ⟨msg, p, hq, ht, hpd, hf⟩ := hp hm
    simp only [future_pointer_state, Prod.mk.injEq] at hf
    rw [hq, List.foldl_append, List.foldl_cons, List.foldl_nil]
    unfold position_after
    rw [if_pos (by rw [ht]; exact hm)]
    simp only [hpd, future_position, hf.1, hf.2.1, hf.2.2.2]
  · have hf := hn hm
    simp only [future_pointer_state, Prod.mk.injEq] at hf
    obtain ⟨msgs, hq, hty, -⟩ := foldl_parse_queue [mem] server input hin
    simp only [List.foldl_cons, List.foldl_nil, List.map_cons, List.map_nil] at hq hty
    obtain ⟨msg, rfl⟩ : ∃ msg, msgs = [msg] := by
      cases msgs with
      | nil => cases hty
      | cons a as =>
        cases as with
        | nil => exact ⟨a, rfl⟩
        | cons b bs => simp at hty
    simp only [List.map_cons, List.map_nil, List.cons.injEq, and_true] at hty
    rw [hq, List.foldl_append, List.foldl_cons, List.foldl_nil, hlast, ← hinv]
    unfold position_after
    rw [if_neg (by rw [hty]; exact hm)]
    simp only [future_position, hf.1, hf.2.1, hf.2.2.2]

theorem run_input_steps_position (steps : List InputStep) (server : GdkBroadwayServer)
    (hinv : future_position server =
      server.input_messages.foldl position_after (last_position server)) :
    future_position (run_input_steps server steps) =
      (run_input_steps server steps).input_messages.foldl position_after
        (last_position (run_input_steps server steps)) := by
  induction steps generalizing server with
  | nil => exact hinv
  | cons st steps ih =>
    unfold run_input_steps
    rw [List.foldl_cons]
    apply ih
    cases st with
    | parse input mem =>
      exact parse_step_position { server with input := some input } input mem rfl hinv
    | process =>
      have he : InputStep.apply server InputStep.process =
          server.input_messages.foldl dispatch_message server := rfl
      have hq := dispatch_fold server.input_messages [] server (List.append_nil _).symm
      simp only [queue_state, Prod.mk.injEq] at hq
      obtain ⟨h1, h2⟩ := dispatch_fold_position server.input_messages server
      rw [he, hq.1, List.foldl_nil, h1, h2]
      exact hinv

/-- C34: consistency of the dispatched and the future pointer state.  In every
state reached from the initial server by steps `parse_input_message (input,
message)`, for any input channel and any message, and
`process_input_messages`: when no message of the pending queue is
pointer-bearing (in particular when the queue is empty), `future_root_x` is
`last_x`, `future_root_y` is `last_y` and `future_mouse_in_toplevel` is
`real_mouse_in_toplevel_id`. -/
theorem pointer_state_consistent (steps : List InputStep)
    (h : ∀ m ∈ (run_input_steps gdk_broadway_server_init steps).input_messages,
      m.type ∉ pointer_event_tags) :
    (run_input_steps gdk_broadway_server_init steps).future_root_x =
      (run_input_steps gdk_broadway_server_init steps).last_x ∧
    (run_input_steps gdk_broadway_server_init steps).future_root_y =
      (run_input_steps gdk_broadway_server_init steps).last_y ∧
    (run_input_steps gdk_broadway_server_init steps).future_mouse_in_toplevel =
      (run_input_steps gdk_broadway_server_init steps).real_mouse_in_toplevel_id := by
  have hinv := run_input_steps_position steps gdk_broadway_server_init rfl
  rw [position_fold_other _ _ h] at hinv
  simp only [future_position, last_position, Prod.mk.injEq] at hinv
  exact hinv

/-- Witness of `pointer_state_consistent`: the motion `ex_msg_motion` is parsed
on the channel `ex_input` and dispatched; the queue is then empty and both
positions are (5, 5) over window 0. -/
theorem pointer_state_consistent_witness :
    (∀ m ∈ (run_input_steps gdk_broadway_server_init
        [InputStep.parse ex_input ex_msg_motion, InputStep.process]).input_messages,
      m.type ∉ pointer_event_tags) ∧
    (run_input_steps gdk_broadway_server_init
      [InputStep.parse ex_input ex_msg_motion, InputStep.process]).last_x = 5 ∧
    (run_input_steps gdk_broadway_server_init
      [InputStep.parse ex_input ex_msg_motion, InputStep.process]).future_root_x =
      (run_input_steps gdk_broadway_server_init
        [InputStep.parse ex_input ex_msg_motion, InputStep.process]).last_x :=
  ⟨by decide, by decide,
    (pointer_state_consistent [InputStep.parse ex_input ex_msg_motion, InputStep.process]
      (by decide)).1⟩


/-! ## The normalised time does not run backwards -/

theorem spec_time_step_ge (st : Int × Option Int) (ev : TimeEvent)
    (hord : spec_step_ordered st ev = true) : st.1 ≤ (spec_time_step st ev).1 := by
  cases ev with
  | connect b p bin => exact le_refl _
  | message mem =>
    simp only [spec_time_step]
    by_cases h0 : raw_time mem = 0
    · rw [if_pos h0]
    · rw [if_neg h0]
      cases h2 : st.2 with
      | none =>
        show st.1 ≤ st.1 + 5000
        omega
      | some rp =>
        simp only [spec_step_ordered, h2, decide_eq_true_eq] at hord
        show st.1 ≤ st.1 + (raw_time mem - rp)
        omega

theorem spec_time_run_ge (events : List TimeEvent) (st : Int × Option Int)
    (hord : spec_time_ordered st events = true) : st.1 ≤ (spec_time_run st events).1 := by
  induction events generalizing st with
  | nil => exact le_refl _
  | cons ev evs ih =>
    simp only [spec_time_ordered, Bool.and_eq_true] at hord
    exact le_trans (spec_time_step_ge st ev hord.1) (ih _ hord.2)

theorem spec_time_ordered_append (pre post : List TimeEvent) (st : Int × Option Int) :
    spec_time_ordered st (pre ++ post) =
      (spec_time_ordered st pre && spec_time_ordered (spec_time_run st pre) post) := by
  induction pre generalizing st with
  | nil => simp [spec_time_ordered, spec_time_run]
  | cons ev evs ih =>
    show (spec_step_ordered st ev && spec_time_ordered (spec_time_step st ev) (evs ++ post)) = _
    rw [ih]
    simp only [spec_time_ordered, spec_time_run, List.foldl_cons, Bool.and_assoc]

theorem time_step_rel (server : GdkBroadwayServer) (st : Int × Option Int) (ev : TimeEvent)
    (hR : TimeRel server st) (hord : spec_step_ordered st ev = true)
    (hb : (spec_time_step st ev).1 < 18446744073709551616) :
    TimeRel (TimeEvent.apply server ev) (spec_time_step st ev) := by
  obtain ⟨hL, input, hin, hnone, hsome⟩ := hR
  cases ev with
  | connect b p bin =>
    exact ⟨hL, _, rfl, fun _ => rfl, fun rp h => by cases h⟩
  | message mem =>
    obtain ⟨hi, hl, -⟩ := parse_input_message_time server input mem hin
    show TimeRel (parse_input_message server mem) _
    simp only [spec_time_step] at hb ⊢
    by_cases h0 : raw_time mem = 0
    · rw [if_pos h0] at hb ⊢
      have hn : normalize_time (raw_time mem) server.last_seen_time input.seen_time
          input.time_base = (to_gint64 server.last_seen_time, input.seen_time,
            input.time_base) := by
        simp only [normalize_time, h0, if_true]
      rw [hn] at hi hl
      refine ⟨?_, input, hi, hnone, hsome⟩
      rw [hl, to_guint64_of_lt _ (by omega)]
      exact hL
    · rw [if_neg h0] at hb ⊢
      cases h2 : st.2 with
      | none =>
        rw [h2] at hb
        have hb2 : st.1 + 5000 < 18446744073709551616 := hb
        have hs := hnone h2
        have hn : normalize_time (raw_time mem) server.last_seen_time input.seen_time
            input.time_base =
            (to_gint64 (raw_time mem - to_gint64 ((to_guint64 (raw_time mem) : Int) -
                (to_guint64 ((server.last_seen_time : Int) + 5000) : Int))), true,
              to_gint64 ((to_guint64 (raw_time mem) : Int) -
                (to_guint64 ((server.last_seen_time : Int) + 5000) : Int))) := by
          simp [normalize_time, h0, hs]
        rw [hn] at hi hl
        show TimeRel (parse_input_message server mem) (st.1 + 5000, some (raw_time mem))
        refine ⟨?_, _, hi, fun h => by simp at h, ?_⟩
        · show ((parse_input_message server mem).last_seen_time : Int) = st.1 + 5000
          rw [hl]
          unfold to_guint64 to_gint64
          omega
        · intro rp hrp
          have hrp2 : raw_time mem = rp := by simpa using hrp
          refine ⟨rfl, ?_⟩
          show (to_guint64 (rp - to_gint64 ((to_guint64 (raw_time mem) : Int) -
            (to_guint64 ((server.last_seen_time : Int) + 5000) : Int))) : Int) = st.1 + 5000
          rw [← hrp2]
          unfold to_guint64 to_gint64
          omega
      | some rp =>
        rw [h2] at hb
        have hb2 : st.1 + (raw_time mem - rp) < 18446744073709551616 := hb
        simp only [spec_step_ordered, h2, decide_eq_true_eq] at hord
        obtain ⟨hs, hbase⟩ := hsome rp h2
        have hn : normalize_time (raw_time mem) server.last_seen_time input.seen_time
            input.time_base =
            (to_gint64 (raw_time mem - input.time_base), true, input.time_base) := by
          simp [normalize_time, h0, hs]
        rw [hn] at hi hl
        have hle : rp ≤ raw_time mem := by
          rcases hord with h | h
          · exact absurd h h0
          · exact h
        have hi2 : (parse_input_message server mem).input = some input := by
          rw [hi]
          cases input
          simp only at hs
          simp only [hs]
        show TimeRel (parse_input_message server mem)
          (st.1 + (raw_time mem - rp), some (raw_time mem))
        unfold to_guint64 at hbase
        refine ⟨?_, input, hi2, fun h => by simp at h, ?_⟩
        · show ((parse_input_message server mem).last_seen_time : Int) =
            st.1 + (raw_time mem - rp)
          rw [hl]
          unfold to_guint64 to_gint64
          omega
        · intro rp2 hrp
          have hrp2 : raw_time mem = rp2 := by simpa using hrp
          refine ⟨hs, ?_⟩
          show (to_guint64 (rp2 - input.time_base) : Int) = st.1 + (raw_time mem - rp)
          rw [← hrp2]
          unfold to_guint64
          omega

theorem time_run_rel (events : List TimeEvent) (server : GdkBroadwayServer)
    (st : Int × Option Int) (hR : TimeRel server st)
    (hord : spec_time_ordered st events = true)
    (hb : (spec_time_run st events).1 < 18446744073709551616) :
    List.Chain (fun a b => a ≤ b) server.last_seen_time (time_tail server events) ∧
    TimeRel (run_time_events server events) (spec_time_run st events) := by
  induction events generalizing server st with
  | nil => exact ⟨List.Chain.nil, hR⟩
  | cons ev evs ih =>
    simp only [spec_time_ordered, Bool.and_eq_true] at hord
    have hge := spec_time_run_ge evs _ hord.2
    have hb1 : (spec_time_step st ev).1 < 18446744073709551616 :=
      lt_of_le_of_lt hge hb
    have hR1 := time_step_rel server st ev hR hord.1 hb1
    obtain ⟨hc, hR2⟩ := ih (TimeEvent.apply server ev) (spec_time_step st ev) hR1 hord.2 hb
    refine ⟨List.Chain.cons ?_ hc, hR2⟩
    have h1 := spec_time_step_ge st ev hord.1
    have h2 := hR.1
    have h3 := hR1.1
    omega

/-- C35: the normalised time never runs backwards.  From a server with a
channel that has not seen a time yet, over every sequence of events of the
input path (a message parsed on the current channel, or the replacement of the
channel by a new one): if on every channel the nonzero raw timestamps arrive
in non-decreasing order, the values of `last_seen_time` before and after each
event are in non-decreasing order; and the first nonzero raw timestamp of a
channel puts `last_seen_time` exactly 5000 after the value it had before,
whatever the raw clock of the channel.  (`last_seen_time` is a `guint64`: the
statement is for runs whose time stays below `2^64`.) -/
theorem time_never_backwards (server : GdkBroadwayServer) (input : BroadwayInput)
    (events : List TimeEvent) (hin : server.input = some input)
    (hseen : input.seen_time = false)
    (hord : spec_time_ordered (server.last_seen_time, none) events = true)
    (hb : (spec_time_run (server.last_seen_time, none) events).1 < 18446744073709551616) :
    List.Sorted (fun a b => a ≤ b) (time_trace server events) ∧
    (∀ pre mem post, events = pre ++ TimeEvent.message mem :: post →
      (spec_time_run (server.last_seen_time, none) pre).2 = none → raw_time mem ≠ 0 →
      (run_time_events server (pre ++ [TimeEvent.message mem])).last_seen_time =
        (run_time_events server pre).last_seen_time + 5000) := by
  have hR : TimeRel server (server.last_seen_time, none) :=
    ⟨rfl, input, hin, fun _ => hseen, fun rp h => by cases h⟩
  refine ⟨?_, ?_⟩
  · have hc := (time_run_rel events server _ hR hord hb).1
    exact List.chain_iff_pairwise.mp hc
  · intro pre mem post hev hfresh hr
    rw [hev, spec_time_ordered_append] at hord
    simp only [Bool.and_eq_true, spec_time_ordered] at hord
    obtain ⟨ho1, ho2, ho3⟩ := hord
    have hrun : spec_time_run (server.last_seen_time, none) events =
        spec_time_run (spec_time_step (spec_time_run (server.last_seen_time, none) pre)
          (TimeEvent.message mem)) post := by
      rw [hev]
      simp only [spec_time_run, List.foldl_append, List.foldl_cons]
    have hge := spec_time_run_ge post _ ho3
    rw [← hrun] at hge
    have hb1 := lt_of_le_of_lt hge hb
    have hge0 := spec_time_step_ge _ _ ho2
    have hRpre := (time_run_rel pre server _ hR ho1 (lt_of_le_of_lt hge0 hb1)).2
    have hR1 := time_step_rel _ _ (TimeEvent.message mem) hRpre ho2 hb1
    have h1 := hR1.1
    have h2 := hRpre.1
    have hst : (spec_time_step (spec_time_run (server.last_seen_time, none) pre)
        (TimeEvent.message mem)).1 =
        (spec_time_run (server.last_seen_time, none) pre).1 + 5000 := by
      simp only [spec_time_step, hr, if_false, hfresh]
    have hrun2 : run_time_events server (pre ++ [TimeEvent.message mem]) =
        TimeEvent.apply (run_time_events server pre) (TimeEvent.message mem) := by
      simp only [run_time_events, List.foldl_append, List.foldl_cons, List.foldl_nil]
    rw [hrun2]
    omega

/-- Witness of `time_never_backwards`: on `ex_server` (time 1, fresh channel)
the raw timestamps 10000 and 10250 arrive, then a new channel with the raw
timestamp 10000 again.  The times are 1, 5001, 5251, 5251, 10251. -/
theorem time_never_backwards_witness :
    time_trace ex_server
      [TimeEvent.message ex_msg_10000, TimeEvent.message ex_msg_10250,
       TimeEvent.connect [] true false, TimeEvent.message ex_msg_10000] =
      [1, 5001, 5251, 5251, 10251] ∧
    List.Sorted (fun a b => a ≤ b)
      (time_trace ex_server
        [TimeEvent.message ex_msg_10000, TimeEvent.message ex_msg_10250,
         TimeEvent.connect [] true false, TimeEvent.message ex_msg_10000]) :=
  ⟨by decide,
    (time_never_backwards ex_server ex_input
      [TimeEvent.message ex_msg_10000, TimeEvent.message ex_msg_10250,
       TimeEvent.connect [] true false, TimeEvent.message ex_msg_10000]
      rfl rfl (by decide) (by decide)).1⟩


/-! ## The diff laid over the old frame -/

theorem opaque_low24 (p : Nat) : (p ||| 0xff000000) &&& 0xffffff = p &&& 0xffffff := by
  apply Nat.eq_of_testBit_eq
  intro i
  simp only [Nat.testBit_and, Nat.testBit_or]
  have h1 : (0xff000000 : Nat) = 2 ^ 24 * 255 := rfl
  have h2 : (0xffffff : Nat) = 2 ^ 24 - 1 := rfl
  rw [h1, h2, Nat.testBit_mul_pow_two, Nat.testBit_two_pow_sub_one]
  by_cases h : i < 24
  · have h3 : ¬ 24 ≤ i := by omega
    simp [h, h3]
  · simp [h]

theorem opaque_ne_zero (p : Nat) : p ||| 0xff000000 ≠ 0 := by
  intro h
  have h1 := congrArg (fun v => v.testBit 24) h
  simp only [Nat.testBit_or, Nat.zero_testBit] at h1
  have h2 : Nat.testBit 0xff000000 24 = true := by decide
  rw [h2, Bool.or_true] at h1
  cases h1

theorem diff_surfaces_self (b : Surface) (hb : b.wf) :
    (diff_surfaces b b).data = List.replicate (b.width * b.height) 0 := by
  unfold Surface.wf at hb
  have hf := diff_fold b b.data (b.width * b.height)
  have hlen : (diff_surfaces b b).data.length = b.width * b.height := by
    simp only [diff_surfaces]
    rw [hf.1, hb]
  apply List.ext_getElem
  · rw [hlen, List.length_replicate]
  · intro i h1 h2
    have hg := hf.2 i
    rw [if_pos ⟨by omega, by omega⟩, if_pos rfl] at hg
    have hd : (diff_surfaces b b).data.getD i 0 = 0 := by
      simp only [diff_surfaces]
      exact hg
    rw [List.getD_eq_getElem _ _ h1] at hd
    rw [hd, List.getElem_replicate]

/-- C36: the diff laid over the old frame gives the new frame.  For two
buffers of the same width and height (the old one holding all its pixels), at
every position the pixel obtained by keeping the old pixel where the pixel of
`diff_surfaces (new, old)` is 0 and taking the diff pixel elsewhere has the low
24 bits of the new pixel; and `diff_surfaces (b, b)` is all zeros for every
buffer `b`. -/
theorem diff_overlay (new old : Surface) (hw : new.width = old.width)
    (hh : new.height = old.height) (ho : old.wf) :
    (∀ x y, x < old.width → y < old.height →
      spec_overlay ((diff_surfaces new old).pixel x y) (old.pixel x y) &&& 0xffffff =
        new.pixel x y &&& 0xffffff) ∧
    (∀ b : Surface, b.wf →
      (diff_surfaces b b).data = List.replicate (b.width * b.height) 0) := by
  refine ⟨?_, diff_surfaces_self⟩
  intro x y hx hy
  rw [diff_surfaces_pixel new old hw hh ho x y hx hy]
  unfold spec_overlay
  by_cases heq : new.pixel x y &&& 0xffffff = old.pixel x y &&& 0xffffff
  · rw [if_pos heq, if_pos rfl, heq]
  · rw [if_neg heq, if_neg (opaque_ne_zero _), opaque_low24]

/-- Witness of `diff_overlay` on `ex_surface_new` and `ex_surface_old`: at the
corner pixel the overlay is the new colour made opaque, `0xff123456`, whose low
24 bits are those of the new pixel. -/
theorem diff_overlay_witness :
    ex_surface_new.width = ex_surface_old.width ∧
    ex_surface_new.height = ex_surface_old.height ∧ ex_surface_old.wf ∧
    spec_overlay ((diff_surfaces ex_surface_new ex_surface_old).pixel 1 1)
      (ex_surface_old.pixel 1 1) = 0xff123456 ∧
    spec_overlay ((diff_surfaces ex_surface_new ex_surface_old).pixel 1 1)
      (ex_surface_old.pixel 1 1) &&& 0xffffff = ex_surface_new.pixel 1 1 &&& 0xffffff :=
  ⟨rfl, rfl, by decide, by decide,
    (diff_overlay ex_surface_new ex_surface_old rfl rfl (by decide)).1 1 1 (by decide)
      (by decide)⟩


/-! ## Resynchronisation: the transient-for relationships -/

theorem mem_state_cmds_transient (w : BroadwayWindow) (id p : Int) :
    BroadwayOp.set_transient_for id p ∈ resync_state_cmds w ↔
      w.id = id ∧ w.id ≠ 0 ∧ w.transient_for = p ∧ p ≠ -1 := by
  unfold resync_state_cmds
  by_cases hid : w.id = 0
  · rw [if_pos hid]
    constructor
    · intro h; cases h
    · intro h; exact absurd hid h.2.1
  · rw [if_neg hid, List.mem_append]
    constructor
    · rintro (h | h)
      · by_cases ht : w.transient_for ≠ -1
        · rw [if_pos ht] at h
          simp only [List.mem_singleton, BroadwayOp.set_transient_for.injEq] at h
          exact ⟨h.1.symm, hid, h.2.symm, by rw [h.2]; exact ht⟩
        · rw [if_neg ht] at h
          cases h
      · by_cases hv : w.visible = true <;> cases hs : w.last_surface <;> simp [hv, hs] at h
    · rintro ⟨h1, -, h3, h4⟩
      left
      rw [if_pos (by rw [h3]; exact h4), h1, h3]
      exact List.mem_singleton_self _

/-- The set-transient-for commands of a resynchronisation: the commands that
`_gdk_broadway_server_resync_windows` writes hold `set_transient_for (id, p)`
exactly when a window struct of the toplevel list other than the root has the
id `id` and the `transient_for` field `p`, and `p` is not -1. -/
theorem resync_transient_for (server : GdkBroadwayServer) (o o1 : BroadwayOutput)
    (ho : server.output = some o)
    (h1 : (_gdk_broadway_server_resync_windows server).output = some o1) :
    ∃ cmds, o1.sent = o.sent ++ cmds ∧
      ∀ id p, BroadwayOp.set_transient_for id p ∈ cmds ↔
        ∃ a ∈ server.toplevels, ∃ w : BroadwayWindow,
          server.windows.getD a none = some w ∧ w.id = id ∧ w.id ≠ 0 ∧
          w.transient_for = p ∧ p ≠ -1 := by
  refine ⟨_, resync_windows_sent server o o1 ho h1, ?_⟩
  intro id p
  rw [List.mem_append, mem_cmds_of, mem_cmds_of]
  constructor
  · rintro (⟨a, ha, w, hw, hop⟩ | ⟨a, ha, w, hw, hop⟩)
    · have := (create_cmds_subject w _ hop).2
      cases this
    · exact ⟨a, ha, w, hw, (mem_state_cmds_transient w id p).mp hop⟩
  · rintro ⟨a, ha, w, hw, h⟩
    exact Or.inr ⟨a, ha, w, hw, (mem_state_cmds_transient w id p).mpr h⟩

/-- Witness of `resync_transient_for` on `ex_server_fresh_window` with an
output channel attached: the two commands written are those of window 1. -/
theorem resync_transient_for_witness :
    ∃ cmds,
      ({ broadway_output_new 1 true false [] with
          sent := [BroadwayOp.new_surface 1 0 0 10 10 false, BroadwayOp.set_transient_for 1 0],
          serial := 3 } : BroadwayOutput).sent =
        (broadway_output_new 1 true false []).sent ++ cmds ∧
      ∀ id p, BroadwayOp.set_transient_for id p ∈ cmds ↔
        ∃ a ∈ (attach_output ex_server_fresh_window true false []).toplevels,
          ∃ w : BroadwayWindow,
            (attach_output ex_server_fresh_window true false []).windows.getD a none = some w ∧
            w.id = id ∧ w.id ≠ 0 ∧ w.transient_for = p ∧ p ≠ -1 :=
  resync_transient_for (attach_output ex_server_fresh_window true false [])
    (broadway_output_new 1 true false [])
    { broadway_output_new 1 true false [] with
      sent := [BroadwayOp.new_surface 1 0 0 10 10 false, BroadwayOp.set_transient_for 1 0],
      serial := 3 }
    (by decide) (by decide)

/-- C37 (code_bug): a window on which `set_transient_for` was never called gets
a set-transient-for command at the resynchronisation.  On
`ex_server_fresh_window` the only call made is `_gdk_broadway_server_new_window`,
which leaves the `transient_for` field of window 1 at the 0 of `g_new0`; the
resynchronisation tests the field against -1 and writes
`set_transient_for (1, 0)`. -/
theorem fresh_window_transient_sent :
    (lookup_window ex_server_fresh_window 1).map (fun r => r.2.transient_for) = some 0 ∧
    (_gdk_broadway_server_resync_windows
      (attach_output ex_server_fresh_window true false [])).output.map (fun o => o.sent) =
      some [BroadwayOp.new_surface 1 0 0 10 10 false, BroadwayOp.set_transient_for 1 0] := by
  decide

end Broadway
